import Mathlib

/-!
# rEFInd `refind/lib.c`: volume discovery and classification

A shallow embedding of the filesystem sniffer (`SetFilesystemData`) and the
boot-code scanner (`ScanVolumeBootcode`) of `refind/lib.c`, followed by the
properties proved about them.

Conventions of the embedding

* A `UINT8 *` is a `Mem`: the byte found at each offset from the pointer.
  Multi-byte loads are little-endian, as on every EFI platform.
* Pointers to firmware objects are addresses (`Nat`), `NULL` being `0`.
* Everything the firmware answers (block reads, root-directory opens, media
  data) is collected in a `Firmware` record that the functions receive.
* An `IN OUT REFIT_VOLUME *` becomes a record passed in and returned.
-/

namespace Refind

/-! ## Memory -/

/-- Memory behind a `UINT8 *`: offset from the pointer to the value stored there. -/
abbrev Mem := Nat → Nat

/-- The null pointer. -/
def NULL : Nat := 0

/-- Load of one `UINT8` at `Buffer + o`. -/
def rd8 (Buffer : Mem) (o : Nat) : Nat := Buffer o % 256

/-- Load `*((UINT16 *)(Buffer + o))`, little-endian. -/
def rd16 (Buffer : Mem) (o : Nat) : Nat := rd8 Buffer o + 256 * rd8 Buffer (o + 1)

/-- Load `*((UINT32 *)(Buffer + o))`, little-endian. -/
def rd32 (Buffer : Mem) (o : Nat) : Nat :=
  rd8 Buffer o + 256 * rd8 Buffer (o + 1) + 65536 * rd8 Buffer (o + 2)
    + 16777216 * rd8 Buffer (o + 3)

/-- Pointer arithmetic `Buffer + k`. -/
def ptrAdd (Buffer : Mem) (k : Nat) : Mem := fun i => Buffer (k + i)

/-- The `len` bytes stored at `Buffer + off`, in order. -/
def bytes (Buffer : Mem) (off len : Nat) : List Nat :=
  (List.range len).map (fun i => rd8 Buffer (off + i))

/-- The characters of a C string literal as byte values. -/
def strBytes (s : String) : List Nat := s.toList.map Char.toNat

/-- A C string literal in memory: its characters followed by NUL bytes. -/
def CStr (s : String) : Mem := fun i => (strBytes s).getD i 0

/-- Firmware library `CompareMem`: zero when the first `Length` bytes agree,
otherwise the difference of the first pair of bytes that differ. -/
def CompareMem (Dest Src : Mem) (Length : Nat) : Int :=
  match (List.range Length).find? (fun i => decide (rd8 Dest i ≠ rd8 Src i)) with
  | none => 0
  | some i => (rd8 Dest i : Int) - (rd8 Src i : Int)

/-- Firmware library `CopyMem` into an object held as a byte list: the first
`Length` bytes come from `Src`, the rest of the object is kept. -/
def CopyMem (Dest : List Nat) (Src : Mem) (Length : Nat) : List Nat :=
  bytes Src 0 Length ++ Dest.drop Length

/-- Firmware library `SetMem` over a whole object of `Size` bytes. -/
def SetMem (Size Value : Nat) : List Nat := List.replicate Size Value

/-! ## Constants of `lib.c` -/

def FAT_MAGIC : Nat := 0xAA55
def EXT2_SUPER_MAGIC : Nat := 0xEF53
def HFSPLUS_MAGIC1 : Nat := 0x2B48
def HFSPLUS_MAGIC2 : Nat := 0x5848
def REISERFS_SUPER_MAGIC_STRING : String := "ReIsErFs"
def REISER2FS_SUPER_MAGIC_STRING : String := "ReIsEr2Fs"
def REISER2FS_JR_SUPER_MAGIC_STRING : String := "ReIsEr3Fs"
def BTRFS_SIGNATURE : String := "_BHRfS_M"
def XFS_SIGNATURE : String := "XFSB"
def NTFS_SIGNATURE : String := "NTFS    "

/-- Maximum size for disk sectors. -/
def SECTOR_SIZE : Nat := 4096

/-- Number of bytes read from a partition to identify its filesystem and boot loader. -/
def SAMPLE_SIZE : Nat := 69632

/-- Size in bytes of an `EFI_GUID`. -/
def sizeof_EFI_GUID : Nat := 16

/-- Size in bytes of a `UINT64`. -/
def sizeof_UINT64 : Nat := 8

/-! ## Data model -/

/-- Modelled from the spec: the `FS_TYPE_*` codes are declared in `global.h`,
which is not part of the sources at hand; the spec lists the twelve
filesystem types a volume can carry. -/
inductive FSType where
  | FS_TYPE_UNKNOWN
  | FS_TYPE_WHOLEDISK
  | FS_TYPE_FAT
  | FS_TYPE_HFSPLUS
  | FS_TYPE_EXT2
  | FS_TYPE_EXT3
  | FS_TYPE_EXT4
  | FS_TYPE_REISERFS
  | FS_TYPE_BTRFS
  | FS_TYPE_XFS
  | FS_TYPE_ISO9660
  | FS_TYPE_NTFS
  deriving DecidableEq, Repr

open FSType

/-- The firmware status code `EFI_STATUS`, read as a signed machine word:
`EFI_SUCCESS` is zero, error codes have the top bit set (they are the negative
ones, which is what `EFI_ERROR` tests) and warnings are positive. -/
abbrev EFI_STATUS := Int

def EFI_SUCCESS : EFI_STATUS := 0

def EFI_ERROR (Status : EFI_STATUS) : Bool := decide (Status < 0)

/-- One node of a firmware device path: its type, its sub-type and, of the
payload, what `lib.c` reads: the signature type and the 16 signature bytes of
a hard-drive Media node (`HARDDRIVE_DEVICE_PATH`). A path is the list of its
nodes, the end node included. -/
structure EFI_DEVICE_PATH where
  Type_ : Nat
  SubType : Nat
  SignatureType : Nat
  Signature : List Nat
  deriving DecidableEq, Repr

/-- The entry of the partition-table cache (`GPT_ENTRY` of `gpt.h`), as far as
`lib.c` reads it. -/
structure GPT_ENTRY where
  name : String
  type_guid : List Nat
  attributes : Nat
  deriving DecidableEq, Repr

/-- The fields of `EFI_FILE_SYSTEM_INFO` that `lib.c` consults. -/
structure EFI_FILE_SYSTEM_INFO where
  VolumeSize : Nat
  VolumeLabel : String
  deriving DecidableEq, Repr

/-- The fields of `EFI_BLOCK_IO_MEDIA` that `lib.c` consults. -/
structure EFI_BLOCK_IO_MEDIA where
  MediaId : Nat
  LogicalPartition : Bool
  BlockSize : Nat
  LastBlock : Nat
  deriving DecidableEq, Repr

/-- Modelled from the spec: `REFIT_VOLUME` is declared in `global.h`, which is
not part of the sources at hand. The record has the fields `lib.c` reads and
writes in the volume scan; pointers are addresses, strings and the retained
MBR table are `none` when the pointer is `NULL`. -/
structure REFIT_VOLUME where
  DevicePath : Option (List EFI_DEVICE_PATH)
  DeviceHandle : Nat
  RootDir : Nat
  VolName : Option String
  PartName : Option String
  VolUuid : List Nat
  PartGuid : List Nat
  PartTypeGuid : List Nat
  IsMarkedReadOnly : Bool
  DiskKind : Nat
  HasBootCode : Bool
  OSIconName : Option String
  OSName : Option String
  IsAppleLegacy : Bool
  IsMbrPartition : Bool
  MbrPartitionIndex : Nat
  BlockIO : Nat
  BlockIOOffset : Nat
  WholeDiskBlockIO : Nat
  WholeDiskDevicePath : Option (List EFI_DEVICE_PATH)
  MbrPartitionTable : Option (List Nat)
  IsReadable : Bool
  FSType : FSType
  VolNumber : Nat
  deriving DecidableEq, Repr

/-- An all-zero volume record, as `AllocateZeroPool` hands it out. -/
def zeroVolume : REFIT_VOLUME :=
  { DevicePath := none, DeviceHandle := 0, RootDir := 0, VolName := none, PartName := none,
    VolUuid := List.replicate 16 0, PartGuid := List.replicate 16 0,
    PartTypeGuid := List.replicate 16 0, IsMarkedReadOnly := false, DiskKind := 0,
    HasBootCode := false, OSIconName := none, OSName := none, IsAppleLegacy := false,
    IsMbrPartition := false, MbrPartitionIndex := 0, BlockIO := 0, BlockIOOffset := 0,
    WholeDiskBlockIO := 0, WholeDiskDevicePath := none, MbrPartitionTable := none,
    IsReadable := false, FSType := FS_TYPE_UNKNOWN, VolNumber := 0 }

/-- What the firmware and the other collaborators of `lib.c` answer during a
scan. -/
structure Firmware where
  /-- The `LibOpenRoot (DeviceHandle)` call: the root directory, or `NULL`. -/
  LibOpenRoot : Nat → Nat
  /-- The media record behind `BlockIO->Media`. -/
  Media : Nat → EFI_BLOCK_IO_MEDIA
  /-- The `BlockIO->ReadBlocks (BlockIO, MediaId, LBA, BufferSize, Buffer)` call:
  the status and the contents of `Buffer` afterwards. -/
  ReadBlocks : Nat → Nat → Nat → Nat → EFI_STATUS × Mem
  /-- The `LibLocateHandle (ByProtocol, &BlockIoProtocol, ..)` call: the status
  and the handles. -/
  LocateHandle : EFI_STATUS × List Nat
  /-- The `DevicePathFromHandle (Handle)` call: the path, or `NULL`. -/
  DevicePathFromHandle : Nat → Option (List EFI_DEVICE_PATH)
  /-- The `HandleProtocol (Handle, &BlockIoProtocol, ..)` call: the status and
  the block I/O reference. -/
  BlockIoOfHandle : Nat → EFI_STATUS × Nat
  /-- The `HandleProtocol (Handle, &DevicePathProtocol, ..)` call: the status
  and the path. -/
  DevicePathOfHandle : Nat → EFI_STATUS × Option (List EFI_DEVICE_PATH)
  /-- The `LocateDevicePath (&BlockIoProtocol, &Path, &Handle)` call: the status
  and the handle found. -/
  LocateDevicePath : List EFI_DEVICE_PATH → EFI_STATUS × Nat
  /-- The `LibFileSystemInfo (RootDir)` call: the information, or `NULL`. -/
  LibFileSystemInfo : Nat → Option EFI_FILE_SYSTEM_INFO
  /-- The `BaseDir->Open (BaseDir, &File, RelativePath, EFI_FILE_MODE_READ, 0)`
  call: its status. -/
  FileOpen : Nat → String → EFI_STATUS
  /-- The `FindPartWithGuid (Guid)` call of the partition-table cache, as it
  answers while the volume of the given device handle is being scanned. -/
  FindPartWithGuid : Nat → List Nat → Option GPT_ENTRY
  /-- The `IsIn (SmallString, List)` helper of `mystrings.c`. -/
  IsIn : String → String → Bool
  /-- The device handle of the running image, `SelfLoadedImage->DeviceHandle`. -/
  SelfDeviceHandle : Nat
  /-- Whether the pool allocation of `UuidList` in `ScanVolumes` succeeds. -/
  UuidListAllocated : Bool

/-! ## `SetFilesystemData` (lib.c, lines 476-570) -/

/-- Identify the filesystem type and record the UUID or serial number.
The `Volume != NULL` half of the entry guard is carried by the type: the
record is always there. The media record is reached through
`Volume->BlockIO`, which the one caller, `ScanVolumeBootcode`, has tested
against `NULL` before (line 585), and which it passes with a sample of
`SAMPLE_SIZE` bytes; the function is embedded for such a volume. -/
def SetFilesystemData (fw : Firmware) (Buffer : Option Mem) (BufferSize : Nat)
    (Volume : REFIT_VOLUME) : REFIT_VOLUME :=
  match Buffer with
  | none => Volume
  | some Buffer =>
    let Volume := { Volume with VolUuid := SetMem sizeof_EFI_GUID 0, FSType := FS_TYPE_UNKNOWN }
    -- search for ext2/3/4 magic
    if BufferSize ≥ 1024 + 100 ∧ rd16 Buffer (1024 + 56) = EXT2_SUPER_MAGIC then
      let Ext2Compat := rd32 Buffer (1024 + 92)
      let Ext2Incompat := rd32 Buffer (1024 + 96)
      let Volume :=
        if Ext2Incompat &&& 0x0040 ≠ 0 ∨ Ext2Incompat &&& 0x0200 ≠ 0 then
          { Volume with FSType := FS_TYPE_EXT4 }
        else if Ext2Compat &&& 0x0004 ≠ 0 then
          { Volume with FSType := FS_TYPE_EXT3 }
        else
          { Volume with FSType := FS_TYPE_EXT2 }
      { Volume with VolUuid := CopyMem Volume.VolUuid (ptrAdd Buffer (1024 + 104)) sizeof_EFI_GUID }
    -- search for ReiserFS magic
    else if BufferSize ≥ 65536 + 100 ∧
        (CompareMem (ptrAdd Buffer (65536 + 52)) (CStr REISERFS_SUPER_MAGIC_STRING) 8 = 0 ∨
         CompareMem (ptrAdd Buffer (65536 + 52)) (CStr REISER2FS_SUPER_MAGIC_STRING) 9 = 0 ∨
         CompareMem (ptrAdd Buffer (65536 + 52)) (CStr REISER2FS_JR_SUPER_MAGIC_STRING) 9 = 0) then
      let Volume := { Volume with FSType := FS_TYPE_REISERFS }
      { Volume with VolUuid := CopyMem Volume.VolUuid (ptrAdd Buffer (65536 + 84)) sizeof_EFI_GUID }
    -- search for Btrfs magic
    else if BufferSize ≥ 65536 + 64 + 8 ∧
        CompareMem (ptrAdd Buffer (65536 + 64)) (CStr BTRFS_SIGNATURE) 8 = 0 then
      { Volume with FSType := FS_TYPE_BTRFS }
    -- search for XFS magic
    else if BufferSize ≥ 512 ∧ CompareMem Buffer (CStr XFS_SIGNATURE) 4 = 0 then
      { Volume with FSType := FS_TYPE_XFS }
    -- search for HFS+ magic
    else if BufferSize ≥ 1024 + 2 ∧
        (rd16 Buffer 1024 = HFSPLUS_MAGIC1 ∨ rd16 Buffer 1024 = HFSPLUS_MAGIC2) then
      { Volume with FSType := FS_TYPE_HFSPLUS }
    -- search for FAT and NTFS magic
    else if BufferSize ≥ 512 ∧ rd16 Buffer 510 = FAT_MAGIC then
      if CompareMem (ptrAdd Buffer 3) (CStr NTFS_SIGNATURE) 8 = 0 then
        let Volume := { Volume with FSType := FS_TYPE_NTFS }
        { Volume with VolUuid := CopyMem Volume.VolUuid (ptrAdd Buffer 0x48) sizeof_UINT64 }
      else
        let RootDir := fw.LibOpenRoot Volume.DeviceHandle
        if RootDir ≠ NULL then
          { Volume with FSType := FS_TYPE_FAT }
        else if ¬ (fw.Media Volume.BlockIO).LogicalPartition then
          { Volume with FSType := FS_TYPE_WHOLEDISK }
        else
          Volume
    -- no other filesystem identified and block size is right: assume ISO-9660
    else if (fw.Media Volume.BlockIO).BlockSize = 2048 then
      { Volume with FSType := FS_TYPE_ISO9660 }
    else
      Volume

/-! ## `FindMem` (lib.c, lines 1460-1473) -/

/-- The cast `(INTN) Offset` of a 64-bit unsigned value. -/
def toINTN (x : Nat) : Int :=
  if x % 2 ^ 64 < 2 ^ 63 then ((x % 2 ^ 64 : Nat) : Int) else ((x % 2 ^ 64 : Nat) : Int) - 2 ^ 64

/-- Memory string search. `BufferLength -= SearchStringLength` is an unsigned
64-bit subtraction; the loop then tries the offsets `0 .. BufferLength - 1` in
order and returns the first one at which the search bytes are found, or -1. -/
def FindMem (Buffer : Mem) (BufferLength : Nat) (SearchString : Mem)
    (SearchStringLength : Nat) : Int :=
  let BufferLength := (BufferLength + 2 ^ 64 - SearchStringLength % 2 ^ 64) % 2 ^ 64
  match (List.range BufferLength).find?
      (fun Offset => decide (CompareMem (ptrAdd Buffer Offset) SearchString SearchStringLength = 0)) with
  | some Offset => toINTN Offset
  | none => -1

/-! ## `ScanVolumeBootcode` (lib.c, lines 572-729) -/

/-- Modelled from the spec: `GlobalConfig` and the `LEGACY_TYPE_*` codes are
declared in `global.h`, which is not part of the sources at hand. Only the
`LegacyType` setting matters here: legacy/BIOS compatibility mode is enabled
when it is `LEGACY_TYPE_MAC`. -/
structure REFIT_CONFIG where
  LegacyType : Nat
  deriving DecidableEq, Repr

def LEGACY_TYPE_NONE : Nat := 0
def LEGACY_TYPE_MAC : Nat := 1
def LEGACY_TYPE_UEFI : Nat := 2

/-- Modelled from the spec: `MBR_PARTITION_INFO` is declared in a header that is
not part of the sources at hand. The spec has four entries in the raw 64-byte
table at offset 446, each with a flag byte, a type, a start LBA and a size;
this is the 16-byte entry of the on-disk MBR format: flag byte at offset 0,
type byte at offset 4, 32-bit start LBA at offset 8 and 32-bit size at offset
12. The field `Type` is spelled `Type_` here. -/
structure MBR_PARTITION_INFO where
  Flags : Nat
  Type_ : Nat
  StartLBA : Nat
  Size : Nat
  deriving DecidableEq, Repr

/-- The entry `MbrTable[i]` of a table in memory. -/
def MbrEntry (MbrTable : Mem) (i : Nat) : MBR_PARTITION_INFO :=
  { Flags := rd8 MbrTable (16 * i),
    Type_ := rd8 MbrTable (16 * i + 4),
    StartLBA := rd32 MbrTable (16 * i + 8),
    Size := rd32 MbrTable (16 * i + 12) }

/-- Lines 598-601: the baseline boot-sector test. -/
def ScanVolumeBootcode.signature (Buffer : Mem) (Volume : REFIT_VOLUME) (Bootable : Bool) :
    REFIT_VOLUME × Bool :=
  if (rd16 Buffer 510 = 0xaa55 ∧ rd8 Buffer 0 ≠ 0) ∧
      FindMem Buffer 512 (CStr "EXFAT") 5 = -1 then
    ({ Volume with HasBootCode := true }, true)
  else
    (Volume, Bootable)

/-- Lines 603-686: detect specific boot codes. -/
def ScanVolumeBootcode.bootcodes (Buffer : Mem) (Volume : REFIT_VOLUME) : REFIT_VOLUME :=
  if CompareMem (ptrAdd Buffer 2) (CStr "LILO") 4 = 0 ∨
      CompareMem (ptrAdd Buffer 6) (CStr "LILO") 4 = 0 ∨
      CompareMem (ptrAdd Buffer 3) (CStr "SYSLINUX") 8 = 0 ∨
      FindMem Buffer SECTOR_SIZE (CStr "ISOLINUX") 8 ≥ 0 then
    { Volume with
      HasBootCode := true, OSIconName := some "linux", OSName := some "Linux (Legacy)" }
  else if FindMem Buffer 512 (CStr "Geom\x00Hard Disk\x00Read\x00 Error") 26 ≥ 0 then
    { Volume with
      HasBootCode := true, OSIconName := some "grub,linux", OSName := some "Linux (Legacy)" }
  else if (rd32 Buffer 502 = 0 ∧ rd32 Buffer 506 = 50000 ∧ rd16 Buffer 510 = 0xaa55) ∨
      FindMem Buffer SECTOR_SIZE (CStr "Starting the BTX loader") 23 ≥ 0 then
    { Volume with
      HasBootCode := true, OSIconName := some "freebsd", OSName := some "FreeBSD (Legacy)" }
  else if rd16 Buffer 510 = 0xaa55 ∧
      FindMem Buffer SECTOR_SIZE (CStr "Boot loader too large") 21 ≥ 0 ∧
      FindMem Buffer SECTOR_SIZE (CStr "I/O error loading boot loader") 29 ≥ 0 then
    { Volume with
      HasBootCode := true, OSIconName := some "freebsd", OSName := some "FreeBSD (Legacy)" }
  else if FindMem Buffer 512 (CStr "!Loading") 8 ≥ 0 ∨
      FindMem Buffer SECTOR_SIZE (CStr "/cdboot\x00/CDBOOT\x00") 16 ≥ 0 then
    { Volume with
      HasBootCode := true, OSIconName := some "openbsd", OSName := some "OpenBSD (Legacy)" }
  else if FindMem Buffer 512 (CStr "Not a bootxx image") 18 ≥ 0 ∨
      rd32 Buffer 1028 = 0x7886b6d1 then
    { Volume with
      HasBootCode := true, OSIconName := some "netbsd", OSName := some "NetBSD (Legacy)" }
  else if FindMem Buffer SECTOR_SIZE (CStr "NTLDR") 5 ≥ 0 then
    { Volume with
      HasBootCode := true, OSIconName := some "win", OSName := some "Windows (Legacy)" }
  else if FindMem Buffer SECTOR_SIZE (CStr "BOOTMGR") 7 ≥ 0 then
    { Volume with
      HasBootCode := true, OSIconName := some "win8,win", OSName := some "Windows (Legacy)" }
  else if FindMem Buffer 512 (CStr "CPUBOOT SYS") 11 ≥ 0 ∨
      FindMem Buffer 512 (CStr "KERNEL  SYS") 11 ≥ 0 then
    { Volume with
      HasBootCode := true, OSIconName := some "freedos", OSName := some "FreeDOS (Legacy)" }
  else if FindMem Buffer 512 (CStr "OS2LDR") 6 ≥ 0 ∨
      FindMem Buffer 512 (CStr "OS2BOOT") 7 ≥ 0 then
    { Volume with
      HasBootCode := true, OSIconName := some "ecomstation",
      OSName := some "eComStation (Legacy)" }
  else if FindMem Buffer 512 (CStr "Be Boot Loader") 14 ≥ 0 then
    { Volume with
      HasBootCode := true, OSIconName := some "beos", OSName := some "BeOS (Legacy)" }
  else if FindMem Buffer 512 (CStr "yT Boot Loader") 14 ≥ 0 then
    { Volume with
      HasBootCode := true, OSIconName := some "zeta,beos", OSName := some "ZETA (Legacy)" }
  else if FindMem Buffer 512 (CStr "\x04beos\x06system\x05zbeos") 18 ≥ 0 ∨
      FindMem Buffer 512 (CStr "\x06system\x0chaiku_loader") 20 ≥ 0 then
    { Volume with
      HasBootCode := true, OSIconName := some "haiku,beos", OSName := some "Haiku (Legacy)" }
  else
    Volume

/-- Lines 697-707: the three dummy FAT boot sectors. -/
def ScanVolumeBootcode.dummies (Buffer : Mem) (Volume : REFIT_VOLUME) : REFIT_VOLUME :=
  -- dummy FAT boot sector (created by OS X newfs_msdos)
  let Volume :=
    if FindMem Buffer 512 (CStr "Non-system disk") 15 ≥ 0 then
      { Volume with HasBootCode := false }
    else Volume
  -- dummy FAT boot sector (created by Linux mkdosfs)
  let Volume :=
    if FindMem Buffer 512 (CStr "This is not a bootable disk") 27 ≥ 0 then
      { Volume with HasBootCode := false }
    else Volume
  -- dummy FAT boot sector (created by Windows)
  if FindMem Buffer 512 (CStr "Press any key to restart") 24 ≥ 0 then
    { Volume with HasBootCode := false }
  else Volume

/-- Lines 712-717: the two loops over the four entries that compute `MbrTableFound`. -/
def ScanVolumeBootcode.mbrTableFound (MbrTable : Mem) : Bool :=
  let MbrTableFound := false
  let MbrTableFound :=
    (List.range 4).foldl
      (fun Found i =>
        if (MbrEntry MbrTable i).StartLBA ≠ 0 ∧ (MbrEntry MbrTable i).Size ≠ 0 then true
        else Found)
      MbrTableFound
  (List.range 4).foldl
    (fun Found i =>
      if (MbrEntry MbrTable i).Flags ≠ 0x00 ∧ (MbrEntry MbrTable i).Flags ≠ 0x80 then false
      else Found)
    MbrTableFound

/-- Lines 709-722: check for an MBR partition table. The pool allocation is
taken to succeed. -/
def ScanVolumeBootcode.mbrTable (Buffer : Mem) (Volume : REFIT_VOLUME) : REFIT_VOLUME :=
  if rd16 Buffer 510 = 0xaa55 then
    let MbrTable := ptrAdd Buffer 446
    if ScanVolumeBootcode.mbrTableFound MbrTable then
      { Volume with MbrPartitionTable := some (CopyMem (List.replicate (4 * 16) 0) MbrTable (4 * 16)) }
    else Volume
  else Volume

/-- Scan a volume for a filesystem, legacy boot code and an MBR table. Returns
the volume and the value left in `*Bootable`. -/
def ScanVolumeBootcode (GlobalConfig : REFIT_CONFIG) (fw : Firmware) (Volume : REFIT_VOLUME) :
    REFIT_VOLUME × Bool :=
  let Volume := { Volume with HasBootCode := false, OSIconName := none, OSName := none }
  let Bootable := false
  if Volume.BlockIO = NULL then (Volume, Bootable)
  else if (fw.Media Volume.BlockIO).BlockSize > SAMPLE_SIZE then (Volume, Bootable)
  else
    -- look at the boot sector
    let Read := fw.ReadBlocks Volume.BlockIO (fw.Media Volume.BlockIO).MediaId
      Volume.BlockIOOffset SAMPLE_SIZE
    let Status := Read.1
    let Buffer := Read.2
    let Volume :=
      if ¬ EFI_ERROR Status then SetFilesystemData fw (some Buffer) SAMPLE_SIZE Volume
      else Volume
    if Status = EFI_SUCCESS ∧ GlobalConfig.LegacyType = LEGACY_TYPE_MAC then
      let Signed := ScanVolumeBootcode.signature Buffer Volume Bootable
      let Volume := Signed.1
      let Bootable := Signed.2
      let Volume := ScanVolumeBootcode.bootcodes Buffer Volume
      let Volume := ScanVolumeBootcode.dummies Buffer Volume
      let Volume := ScanVolumeBootcode.mbrTable Buffer Volume
      (Volume, Bootable)
    else
      (Volume, Bootable)

/-! ## Volume names (lib.c, lines 421-463 and 761-844) -/

/-- Return the name of a filesystem type, with a leading blank; empty when the
type is unknown. -/
def FSTypeName (TypeCode : FSType) : String :=
  match TypeCode with
  | FS_TYPE_WHOLEDISK => " whole disk"
  | FS_TYPE_FAT => " FAT"
  | FS_TYPE_HFSPLUS => " HFS+"
  | FS_TYPE_EXT2 => " ext2"
  | FS_TYPE_EXT3 => " ext3"
  | FS_TYPE_EXT4 => " ext4"
  | FS_TYPE_REISERFS => " ReiserFS"
  | FS_TYPE_BTRFS => " Btrfs"
  | FS_TYPE_XFS => " XFS"
  | FS_TYPE_ISO9660 => " ISO-9660"
  | FS_TYPE_NTFS => " NTFS"
  | FS_TYPE_UNKNOWN => ""

/-- The prefix letters of `SizeInIEEEUnits`. -/
def Prefixes : String := " KMGTPEZ"

/-- The `while` loop of `SizeInIEEEUnits` on `(SizeInIeee, Index)`. `Index`
grows by one per round and stays below `NumPrefixes`, so `NumPrefixes` rounds
of fuel are never used up. -/
def SizeInIEEEUnits.loop (NumPrefixes : Nat) : Nat → Nat → Nat → Nat × Nat
  | 0, SizeInIeee, Index => (SizeInIeee, Index)
  | fuel + 1, SizeInIeee, Index =>
    if SizeInIeee > 1024 ∧ Index < NumPrefixes - 1 then
      SizeInIEEEUnits.loop NumPrefixes fuel (SizeInIeee / 1024) (Index + 1)
    else (SizeInIeee, Index)

/-- Return a string representing the input size in IEEE-1541 units. The pool
allocation is taken to succeed. -/
def SizeInIEEEUnits (SizeInBytes : Nat) : String :=
  let NumPrefixes := Prefixes.length
  let r := SizeInIEEEUnits.loop NumPrefixes NumPrefixes SizeInBytes 0
  let SizeInIeee := r.1
  let Index := r.2
  let Units :=
    if Prefixes.toList.getD Index ' ' = ' ' then "-byte"
    else String.mk [' ', Prefixes.toList.getD Index ' ', 'i', 'B']
  toString SizeInIeee ++ Units

/-- Modelled from the spec: `IGNORE_PARTITION_NAMES` is a macro of `global.h`,
which is not part of the sources at hand: the comma-separated list of
partition names that are not used as volume names. -/
def IGNORE_PARTITION_NAMES : String := "Microsoft basic data,Linux filesystem,Apple HFS/HFS+"

/-- Return a name for the volume: the filesystem label, else the partition
name, else the size and type, else the type alone. Pool allocations are taken
to succeed. -/
def GetVolumeName (fw : Firmware) (Volume : REFIT_VOLUME) : String :=
  let FileSystemInfoPtr : Option EFI_FILE_SYSTEM_INFO :=
    if Volume.RootDir ≠ NULL then fw.LibFileSystemInfo Volume.RootDir else none
  let FoundName : Option String :=
    match FileSystemInfoPtr with
    | some Info => if Info.VolumeLabel.length > 0 then some Info.VolumeLabel else none
    | none => none
  -- if no filesystem name, try to use the partition name
  let FoundName : Option String :=
    match FoundName, Volume.PartName with
    | none, some PartName =>
      if PartName.length > 0 ∧ ¬ fw.IsIn PartName IGNORE_PARTITION_NAMES then some PartName
      else none
    | FoundName, _ => FoundName
  -- no filesystem or acceptable partition name, so use fs type and size
  let FoundName : Option String :=
    match FoundName, FileSystemInfoPtr with
    | none, some Info =>
      some (SizeInIEEEUnits Info.VolumeSize ++ FSTypeName Volume.FSType ++ " volume")
    | FoundName, _ => FoundName
  match FoundName with
  | some Name => Name
  | none =>
    let TypeName := FSTypeName Volume.FSType
    if TypeName.length > 0 then TypeName ++ " volume" else "unknown volume"

/-! ## `ScanVolume` (lib.c, lines 847-1015) -/

def END_DEVICE_PATH_TYPE : Nat := 0x7f
def END_ENTIRE_DEVICE_PATH_SUBTYPE : Nat := 0xff
def MESSAGING_DEVICE_PATH : Nat := 0x03
def MEDIA_DEVICE_PATH : Nat := 0x04
def MSG_FIBRECHANNEL_DP : Nat := 0x03
def MSG_1394_DP : Nat := 0x04
def MSG_USB_DP : Nat := 0x05
def MSG_USB_CLASS_DP : Nat := 0x0f
def MEDIA_HARDDRIVE_DP : Nat := 0x01
def MEDIA_CDROM_DP : Nat := 0x02
def MEDIA_VENDOR_DP : Nat := 0x03
def SIGNATURE_TYPE_GUID : Nat := 0x02
def GPT_READ_ONLY : Nat := 0x1000000000000000

/-- Modelled from the spec: the `DISK_KIND_*` codes are declared in `global.h`,
which is not part of the sources at hand; the spec has the four disk kinds
Internal, External, Optical and Network. -/
def DISK_KIND_INTERNAL : Nat := 0
def DISK_KIND_EXTERNAL : Nat := 1
def DISK_KIND_OPTICAL : Nat := 2
def DISK_KIND_NET : Nat := 3

def DevicePathType (Node : EFI_DEVICE_PATH) : Nat := Node.Type_
def DevicePathSubType (Node : EFI_DEVICE_PATH) : Nat := Node.SubType
def IsDevicePathEndType (Node : EFI_DEVICE_PATH) : Bool :=
  decide (DevicePathType Node = END_DEVICE_PATH_TYPE)

/-- The end-of-path node `EndDevicePath`. -/
def EndDevicePath : EFI_DEVICE_PATH :=
  { Type_ := END_DEVICE_PATH_TYPE, SubType := END_ENTIRE_DEVICE_PATH_SUBTYPE,
    SignatureType := 0, Signature := [] }

/-- Determine the unique GUID, type code GUID, and name of the volume and
store them. The assignment to `GlobalConfig.DiscoveredRoot`, which is no part
of the volume record, is left out. -/
def SetPartGuidAndName (fw : Firmware) (Volume : REFIT_VOLUME) (DevicePath : EFI_DEVICE_PATH) :
    REFIT_VOLUME :=
  if DevicePath.Type_ = MEDIA_DEVICE_PATH ∧ DevicePath.SubType = MEDIA_HARDDRIVE_DP then
    if DevicePath.SignatureType = SIGNATURE_TYPE_GUID then
      let Volume := { Volume with PartGuid := DevicePath.Signature }
      match fw.FindPartWithGuid Volume.DeviceHandle Volume.PartGuid with
      | some PartInfo =>
        { Volume with
          PartName := some PartInfo.name,
          PartTypeGuid := PartInfo.type_guid,
          IsMarkedReadOnly := decide (PartInfo.attributes &&& GPT_READ_ONLY > 0) }
      | none => Volume
    else Volume
  else Volume

/-- Lines 1229-1242: whether the file can be opened for reading. -/
def FileExists (fw : Firmware) (BaseDir : Nat) (RelativePath : String) : Bool :=
  if BaseDir ≠ NULL then
    if fw.FileOpen BaseDir RelativePath = EFI_SUCCESS then true else false
  else false

/-- Return TRUE if NTFS boot files are found or if Volume is unreadable. -/
def HasWindowsBiosBootFiles (fw : Firmware) (Volume : REFIT_VOLUME) : Bool :=
  if Volume.RootDir ≠ NULL then
    FileExists fw Volume.RootDir "NTLDR" || FileExists fw Volume.RootDir "bootmgr"
  else true

/-- Lines 907-917: default disk kind and block I/O of the volume. -/
def ScanVolume.blockIo (fw : Firmware) (Volume : REFIT_VOLUME) : REFIT_VOLUME :=
  let Volume := { Volume with DiskKind := DISK_KIND_INTERNAL }
  let Status := (fw.BlockIoOfHandle Volume.DeviceHandle).1
  if EFI_ERROR Status then
    { Volume with BlockIO := NULL }
  else
    let Volume := { Volume with BlockIO := (fw.BlockIoOfHandle Volume.DeviceHandle).2 }
    if (fw.Media Volume.BlockIO).BlockSize = 2048 then
      { Volume with DiskKind := DISK_KIND_OPTICAL }
    else Volume

/-- Lines 949-985: at a Messaging node, resolve the device path cut after this
node (`DiskDevicePath`, end node appended) to the whole-disk handle. -/
def ScanVolume.wholeDisk (fw : Firmware) (DiskDevicePath : List EFI_DEVICE_PATH)
    (Volume : REFIT_VOLUME) : REFIT_VOLUME :=
  let Located := fw.LocateDevicePath DiskDevicePath
  if ¬ EFI_ERROR Located.1 then
    let WholeDiskHandle := Located.2
    -- get the device path for later
    let Volume :=
      if ¬ EFI_ERROR (fw.DevicePathOfHandle WholeDiskHandle).1 then
        { Volume with WholeDiskDevicePath := (fw.DevicePathOfHandle WholeDiskHandle).2 }
      else Volume
    -- look at the BlockIO protocol
    if ¬ EFI_ERROR (fw.BlockIoOfHandle WholeDiskHandle).1 then
      let Volume := { Volume with WholeDiskBlockIO := (fw.BlockIoOfHandle WholeDiskHandle).2 }
      -- check the media block size
      if (fw.Media Volume.WholeDiskBlockIO).BlockSize = 2048 then
        { Volume with DiskKind := DISK_KIND_OPTICAL }
      else Volume
    else
      { Volume with WholeDiskBlockIO := NULL }
  else Volume

/-- Lines 926-987: the body of the device-path loop at one node. `Upto` is
the path from its start up to and including this node. -/
def ScanVolume.node (fw : Firmware) (Upto : List EFI_DEVICE_PATH)
    (DevicePath : EFI_DEVICE_PATH) (Volume : REFIT_VOLUME) (Bootable : Bool) :
    REFIT_VOLUME × Bool :=
  let Volume :=
    if DevicePathType DevicePath = MEDIA_DEVICE_PATH then SetPartGuidAndName fw Volume DevicePath
    else Volume
  let Volume :=
    if DevicePathType DevicePath = MESSAGING_DEVICE_PATH ∧
        (DevicePathSubType DevicePath = MSG_USB_DP ∨
         DevicePathSubType DevicePath = MSG_USB_CLASS_DP ∨
         DevicePathSubType DevicePath = MSG_1394_DP ∨
         DevicePathSubType DevicePath = MSG_FIBRECHANNEL_DP) then
      { Volume with DiskKind := DISK_KIND_EXTERNAL }
    else Volume
  let VB : REFIT_VOLUME × Bool :=
    if DevicePathType DevicePath = MEDIA_DEVICE_PATH ∧
        DevicePathSubType DevicePath = MEDIA_CDROM_DP then
      ({ Volume with DiskKind := DISK_KIND_OPTICAL }, true)
    else (Volume, Bootable)
  let VB : REFIT_VOLUME × Bool :=
    if DevicePathType DevicePath = MEDIA_DEVICE_PATH ∧
        DevicePathSubType DevicePath = MEDIA_VENDOR_DP then
      ({ VB.1 with IsAppleLegacy := true }, false)
    else VB
  if DevicePathType DevicePath = MESSAGING_DEVICE_PATH then
    (ScanVolume.wholeDisk fw (Upto ++ [EndDevicePath]) VB.1, VB.2)
  else VB

/-- Lines 924-988: the device-path loop. `Done` holds the nodes already
visited, the second list the nodes from `DevicePath` on; the loop ends at the
first end-type node. -/
def ScanVolume.walk (fw : Firmware) :
    List EFI_DEVICE_PATH → List EFI_DEVICE_PATH → REFIT_VOLUME → Bool → REFIT_VOLUME × Bool
  | _, [], Volume, Bootable => (Volume, Bootable)
  | Done, DevicePath :: NextDevicePath, Volume, Bootable =>
    if IsDevicePathEndType DevicePath then (Volume, Bootable)
    else
      let VB := ScanVolume.node fw (Done ++ [DevicePath]) DevicePath Volume Bootable
      ScanVolume.walk fw (Done ++ [DevicePath]) NextDevicePath VB.1 VB.2

/-- Lines 990-1014: what `ScanVolume` does after the device-path loop. -/
def ScanVolume.finish (GlobalConfig : REFIT_CONFIG) (fw : Firmware) (Volume : REFIT_VOLUME)
    (Bootable : Bool) : REFIT_VOLUME :=
  let Volume := if ¬ Bootable then { Volume with HasBootCode := false } else Volume
  -- open the root directory of the volume
  let Volume := { Volume with RootDir := fw.LibOpenRoot Volume.DeviceHandle }
  let Volume := { Volume with VolName := some (GetVolumeName fw Volume) }
  if Volume.RootDir = NULL then
    { Volume with IsReadable := false }
  else
    let Volume := { Volume with IsReadable := true }
    if GlobalConfig.LegacyType = LEGACY_TYPE_MAC ∧ Volume.FSType = FS_TYPE_NTFS ∧
        Volume.HasBootCode = true then
      -- VBR boot code found on NTFS: bootable only with the boot files
      { Volume with HasBootCode := HasWindowsBiosBootFiles fw Volume }
    else Volume

/-- Scan one volume: device path, block I/O, boot sector, device-path walk,
root directory and name. -/
def ScanVolume (GlobalConfig : REFIT_CONFIG) (fw : Firmware) (Volume : REFIT_VOLUME) :
    REFIT_VOLUME :=
  -- get device path
  let Volume := { Volume with DevicePath := fw.DevicePathFromHandle Volume.DeviceHandle }
  -- default disk kind, get block i/o
  let Volume := ScanVolume.blockIo fw Volume
  -- scan for bootcode and MBR table
  let Scanned := ScanVolumeBootcode GlobalConfig fw Volume
  -- detect device type
  let Walked :=
    match Scanned.1.DevicePath with
    | some DevicePath => ScanVolume.walk fw [] DevicePath Scanned.1 Scanned.2
    | none => Scanned
  ScanVolume.finish GlobalConfig fw Walked.1 Walked.2

/-! ## `ScanExtendedPartition` and `ScanVolumes` (lib.c, lines 1017-1206) -/

/-- Modelled from the spec: `IS_EXTENDED_PART_TYPE` is a macro of a header that
is not part of the sources at hand; it tells whether a type byte is that of an
extended-partition entry. The customary codes are 0x05, 0x0f and 0x85. -/
def IS_EXTENDED_PART_TYPE (t : Nat) : Bool := t = 0x05 || t = 0x0f || t = 0x85

/-- Modelled from the spec: `VOL_UNREADABLE` is a macro of `global.h`, which is
not part of the sources at hand: the volume number of a volume that gets none
(the "unnumbered" sentinel). -/
def VOL_UNREADABLE : Nat := 999

/-- The firmware status `EFI_NOT_FOUND`, error code 14. -/
def EFI_NOT_FOUND : EFI_STATUS := 14 - 2 ^ 63

/-- Modelled from the spec: `CheckError` is a helper of `screen.c`, which is not
part of the sources at hand; it reports the error on screen and tells whether
the status is one. -/
def CheckError (Status : EFI_STATUS) : Bool := EFI_ERROR Status

/-- The all-zero GUID `NULL_GUID_VALUE`. -/
def NullUuid : List Nat := List.replicate 16 0

/-- An object held as a byte list, seen through a pointer to it. -/
def memOfList (l : List Nat) : Mem := fun i => l.getD i 0

/-- Lines 1054-1067: the volume made for a logical partition with the given
slot index and sector offset. The badge icon is not part of the record. -/
def ScanExtendedPartition.volume (GlobalConfig : REFIT_CONFIG) (fw : Firmware)
    (WholeDiskVolume : REFIT_VOLUME) (LogicalPartitionIndex Offset : Nat) : REFIT_VOLUME :=
  let Volume := zeroVolume
  let Volume :=
    { Volume with
      DiskKind := WholeDiskVolume.DiskKind,
      IsMbrPartition := true,
      MbrPartitionIndex := LogicalPartitionIndex,
      VolName := some ("Partition " ++ toString (LogicalPartitionIndex + 1)),
      BlockIO := WholeDiskVolume.BlockIO,
      BlockIOOffset := Offset,
      WholeDiskBlockIO := WholeDiskVolume.BlockIO }
  let Scanned := ScanVolumeBootcode GlobalConfig fw Volume
  if ¬ Scanned.2 then { Scanned.1 with HasBootCode := false } else Scanned.1

/-- Lines 1043-1071: scan the entries `i, ..` of one EMBR. The result is
`NextExtCurrent`, the next free slot index and the collection. -/
def ScanExtendedPartition.entries (GlobalConfig : REFIT_CONFIG) (fw : Firmware)
    (WholeDiskVolume : REFIT_VOLUME) (ExtBase ExtCurrent : Nat) (EMbrTable : Mem) :
    List Nat → Nat → List REFIT_VOLUME → Nat × Nat × List REFIT_VOLUME
  | [], LogicalPartitionIndex, Volumes => (0, LogicalPartitionIndex, Volumes)
  | i :: rest, LogicalPartitionIndex, Volumes =>
    if ((MbrEntry EMbrTable i).Flags ≠ 0x00 ∧ (MbrEntry EMbrTable i).Flags ≠ 0x80) ∨
        (MbrEntry EMbrTable i).StartLBA = 0 ∨ (MbrEntry EMbrTable i).Size = 0 then
      (0, LogicalPartitionIndex, Volumes)
    else if IS_EXTENDED_PART_TYPE (MbrEntry EMbrTable i).Type_ then
      -- set next ExtCurrent
      ((ExtBase + (MbrEntry EMbrTable i).StartLBA) % 2 ^ 32, LogicalPartitionIndex, Volumes)
    else
      -- found a logical partition
      let Volume := ScanExtendedPartition.volume GlobalConfig fw WholeDiskVolume
        LogicalPartitionIndex ((ExtCurrent + (MbrEntry EMbrTable i).StartLBA) % 2 ^ 32)
      ScanExtendedPartition.entries GlobalConfig fw WholeDiskVolume ExtBase ExtCurrent EMbrTable
        rest (LogicalPartitionIndex + 1) (Volumes ++ [Volume])

/-- The collection `Volumes` when a scan has come to its end (`Finished`) or
when its fuel is used up (not `Finished`): the loops over the chain of an
extended partition and over the growing collection need not end, so they run
on fuel, one unit for each test of a loop condition. -/
structure Scan where
  Finished : Bool
  Volumes : List REFIT_VOLUME
  deriving DecidableEq, Repr

/-- Lines 1030-1072: the loop over the chain of EMBRs, from `ExtCurrent` on. -/
def ScanExtendedPartition.chain (GlobalConfig : REFIT_CONFIG) (fw : Firmware)
    (WholeDiskVolume : REFIT_VOLUME) (ExtBase : Nat) :
    Nat → Nat → Nat → List REFIT_VOLUME → Scan
  | 0, _, _, Volumes => { Finished := false, Volumes := Volumes }
  | fuel + 1, ExtCurrent, LogicalPartitionIndex, Volumes =>
    if ExtCurrent = 0 then { Finished := true, Volumes := Volumes }
    else
      -- read current EMBR
      let Read := fw.ReadBlocks WholeDiskVolume.BlockIO
        (fw.Media WholeDiskVolume.BlockIO).MediaId ExtCurrent 512
      if EFI_ERROR Read.1 then { Finished := true, Volumes := Volumes }
      else if rd16 Read.2 510 ≠ 0xaa55 then { Finished := true, Volumes := Volumes }
      else
        -- scan logical partitions in this EMBR
        let Scanned := ScanExtendedPartition.entries GlobalConfig fw WholeDiskVolume ExtBase
          ExtCurrent (ptrAdd Read.2 446) [0, 1, 2, 3] LogicalPartitionIndex Volumes
        ScanExtendedPartition.chain GlobalConfig fw WholeDiskVolume ExtBase fuel
          Scanned.1 Scanned.2.1 Scanned.2.2

/-- Follow the chain of an extended partition and append a volume for each
logical partition to the collection `Volumes`. -/
def ScanExtendedPartition (fuel : Nat) (GlobalConfig : REFIT_CONFIG) (fw : Firmware)
    (Volumes : List REFIT_VOLUME) (WholeDiskVolume : REFIT_VOLUME)
    (MbrEntry : MBR_PARTITION_INFO) : Scan :=
  let LogicalPartitionIndex := 4
  let ExtBase := MbrEntry.StartLBA
  ScanExtendedPartition.chain GlobalConfig fw WholeDiskVolume ExtBase fuel ExtBase
    LogicalPartitionIndex Volumes

/-- The state of the first pass of `ScanVolumes`. `SelfVolume` is the index in
`Volumes` of the volume the global of that name was pointed at. -/
structure FirstPass where
  Volumes : List REFIT_VOLUME
  UuidList : List (List Nat)
  VolNumber : Nat
  SelfVolume : Option Nat

/-- Lines 1106-1127: the first pass at one handle. -/
def ScanVolumes.handle (GlobalConfig : REFIT_CONFIG) (fw : Firmware) (st : FirstPass)
    (Handle : Nat) : FirstPass :=
  let Volume := { zeroVolume with DeviceHandle := Handle }
  let Volume := ScanVolume GlobalConfig fw Volume
  let Volume :=
    if fw.UuidListAllocated then
      st.UuidList.foldl
        (fun (V : REFIT_VOLUME) Uuid =>
          if CompareMem (memOfList Volume.VolUuid) (memOfList Uuid) sizeof_EFI_GUID = 0 ∧
              CompareMem (memOfList Volume.VolUuid) (memOfList NullUuid) sizeof_EFI_GUID ≠ 0 then
            -- duplicate filesystem UUID
            { V with IsReadable := false }
          else V)
        Volume
    else Volume
  let Volume :=
    if Volume.IsReadable then { Volume with VolNumber := st.VolNumber }
    else { Volume with VolNumber := VOL_UNREADABLE }
  { Volumes := st.Volumes ++ [Volume],
    UuidList := if fw.UuidListAllocated then st.UuidList ++ [Volume.VolUuid] else st.UuidList,
    VolNumber := if Volume.IsReadable then st.VolNumber + 1 else st.VolNumber,
    SelfVolume :=
      if Volume.DeviceHandle = fw.SelfDeviceHandle then some st.Volumes.length
      else st.SelfVolume }

/-- Lines 1142-1146: call `ScanExtendedPartition` for each extended-type entry
of the table, entries `PartitionIndex, ..`. -/
def ScanVolumes.extendedEntries (fuel : Nat) (GlobalConfig : REFIT_CONFIG) (fw : Firmware)
    (Volume : REFIT_VOLUME) (MbrTable : Mem) : List Nat → List REFIT_VOLUME → Scan
  | [], Volumes => { Finished := true, Volumes := Volumes }
  | PartitionIndex :: rest, Volumes =>
    if IS_EXTENDED_PART_TYPE (MbrEntry MbrTable PartitionIndex).Type_ then
      let Scanned := ScanExtendedPartition fuel GlobalConfig fw Volumes Volume
        (MbrEntry MbrTable PartitionIndex)
      if Scanned.Finished then
        ScanVolumes.extendedEntries fuel GlobalConfig fw Volume MbrTable rest Scanned.Volumes
      else Scanned
    else ScanVolumes.extendedEntries fuel GlobalConfig fw Volume MbrTable rest Volumes

/-- Lines 1137-1147: check the MBR partition table of a whole-disk volume for
extended partitions. -/
def ScanVolumes.extended (fuel : Nat) (GlobalConfig : REFIT_CONFIG) (fw : Firmware)
    (Volumes : List REFIT_VOLUME) (Volume : REFIT_VOLUME) : Scan :=
  match Volume.MbrPartitionTable with
  | some MbrTable =>
    if Volume.BlockIO ≠ NULL ∧ Volume.WholeDiskBlockIO ≠ NULL ∧
        Volume.BlockIO = Volume.WholeDiskBlockIO ∧ Volume.BlockIOOffset = 0 then
      ScanVolumes.extendedEntries fuel GlobalConfig fw Volume (memOfList MbrTable)
        [0, 1, 2, 3] Volumes
    else { Finished := true, Volumes := Volumes }
  | none => { Finished := true, Volumes := Volumes }

/-- Lines 1149-1159: search for the corresponding whole disk volume entry. -/
def ScanVolumes.wholeDiskVolume (Volumes : List REFIT_VOLUME) (Volume : REFIT_VOLUME) :
    Option REFIT_VOLUME :=
  if Volume.BlockIO ≠ NULL ∧ Volume.WholeDiskBlockIO ≠ NULL ∧
      Volume.BlockIO ≠ Volume.WholeDiskBlockIO then
    Volumes.foldl
      (fun (WholeDiskVolume : Option REFIT_VOLUME) (Volume2 : REFIT_VOLUME) =>
        if Volume2.BlockIO = Volume.WholeDiskBlockIO ∧ Volume2.BlockIOOffset = 0 then
          some Volume2
        else WholeDiskVolume)
      none
  else none

/-- Lines 1166-1200: check whether the volume is one of the partitions in the
table, entries `PartitionIndex, ..`. -/
def ScanVolumes.reconcileEntries (fw : Firmware) (MbrTable : Mem) (Volume : REFIT_VOLUME) :
    List Nat → REFIT_VOLUME
  | [] => Volume
  | PartitionIndex :: rest =>
    -- check size
    if (MbrEntry MbrTable PartitionIndex).Size
        ≠ ((fw.Media Volume.BlockIO).LastBlock + 1) % 2 ^ 64 then
      ScanVolumes.reconcileEntries fw MbrTable Volume rest
    else
      -- compare boot sector read through offset vs. directly
      let Read1 := fw.ReadBlocks Volume.BlockIO (fw.Media Volume.BlockIO).MediaId
        Volume.BlockIOOffset 512
      if EFI_ERROR Read1.1 then Volume
      else
        let Read2 := fw.ReadBlocks Volume.WholeDiskBlockIO
          (fw.Media Volume.WholeDiskBlockIO).MediaId (MbrEntry MbrTable PartitionIndex).StartLBA 512
        if EFI_ERROR Read2.1 then Volume
        else if CompareMem Read1.2 Read2.2 512 ≠ 0 then
          ScanVolumes.reconcileEntries fw MbrTable Volume rest
        else
          let SectorSum := (List.range 512).foldl (fun Sum i => Sum + rd8 Read1.2 i) 0
          if SectorSum < 1000 then
            ScanVolumes.reconcileEntries fw MbrTable Volume rest
          else
            -- now we are reasonably sure the association is correct
            { Volume with
              IsMbrPartition := true,
              MbrPartitionIndex := PartitionIndex,
              VolName :=
                match Volume.VolName with
                | none => some ("Partition " ++ toString (PartitionIndex + 1))
                | some Name => some Name }

/-- Lines 1161-1204: relate the volume to its whole-disk volume. -/
def ScanVolumes.reconcile (fw : Firmware) (Volume : REFIT_VOLUME)
    (WholeDiskVolume : Option REFIT_VOLUME) : REFIT_VOLUME :=
  match WholeDiskVolume with
  | some WholeDiskVolume =>
    match WholeDiskVolume.MbrPartitionTable with
    | some MbrTable => ScanVolumes.reconcileEntries fw (memOfList MbrTable) Volume [0, 1, 2, 3]
    | none => Volume
  | none => Volume

/-- Lines 1135-1205: the second pass, from `VolumeIndex` on, over a collection
that grows while it is scanned. -/
def ScanVolumes.second (GlobalConfig : REFIT_CONFIG) (fw : Firmware) :
    Nat → Nat → List REFIT_VOLUME → Scan
  | 0, _, Volumes => { Finished := false, Volumes := Volumes }
  | fuel + 1, VolumeIndex, Volumes =>
    match Volumes[VolumeIndex]? with
    | none => { Finished := true, Volumes := Volumes }
    | some Volume =>
      let Scanned := ScanVolumes.extended (fuel + 1) GlobalConfig fw Volumes Volume
      if Scanned.Finished then
        let Volumes := Scanned.Volumes
        let WholeDiskVolume := ScanVolumes.wholeDiskVolume Volumes Volume
        let Volume := ScanVolumes.reconcile fw Volume WholeDiskVolume
        ScanVolumes.second GlobalConfig fw fuel (VolumeIndex + 1)
          (Volumes.set VolumeIndex Volume)
      else Scanned

/-- The globals `Volumes` and `SelfVolume` after a scan, or when the fuel of
the scan is used up (not `Finished`); `VolumesCount` is the length of
`Volumes`. `SelfVolume` is the index of the volume the global was pointed at
by this scan, `none` when the scan left the global alone. -/
structure Globals where
  Finished : Bool
  Volumes : List REFIT_VOLUME
  SelfVolume : Option Nat
  deriving DecidableEq, Repr

/-- Scan all volumes: a first pass over the handles with block I/O, then a
second pass that relates partitions and whole-disk devices. -/
def ScanVolumes (fuel : Nat) (GlobalConfig : REFIT_CONFIG) (fw : Firmware) : Globals :=
  -- get all filesystem handles
  let Status := fw.LocateHandle.1
  let Handles := fw.LocateHandle.2
  if Status = EFI_NOT_FOUND then { Finished := true, Volumes := [], SelfVolume := none }
  else if CheckError Status then { Finished := true, Volumes := [], SelfVolume := none }
  else
    -- first pass: collect information about all handles
    let First := Handles.foldl (ScanVolumes.handle GlobalConfig fw)
      { Volumes := [], UuidList := [], VolNumber := 0, SelfVolume := none }
    -- second pass: relate partitions and whole disk devices
    let Second := ScanVolumes.second GlobalConfig fw fuel 0 First.Volumes
    { Finished := Second.Finished, Volumes := Second.Volumes, SelfVolume := First.SelfVolume }

/-! ## Pathname manipulations (lib.c, lines 113-154 and 1475-1648) -/

/-- The `CHAR16` at index `i` of a string. A string is held as the list of its
characters before the terminating NUL, which stands at index `StrLen`; a
pointer to a string that may be `NULL` is an `Option`. Pool allocations are
taken to succeed. -/
def charAt (s : List Char) (i : Nat) : Char := s.getD i (Char.ofNat 0)

/-- Lines 132-141: the loop of `CleanUpPathNameSlashes` over the characters
`PathName[i], ..`. `NewName` holds the characters written so far, so that
`FinalChar` is its length. -/
def CleanUpPathNameSlashes.loop : List Char → List Char → Bool → List Char
  | [], NewName, _ => NewName
  | c :: rest, NewName, LastWasSlash =>
    if c = '/' ∨ c = '\\' then
      if ¬ LastWasSlash ∧ NewName.length ≠ 0 then
        CleanUpPathNameSlashes.loop rest (NewName ++ ['\\']) true
      else CleanUpPathNameSlashes.loop rest NewName true
    else CleanUpPathNameSlashes.loop rest (NewName ++ [c]) false

/-- Converts forward slashes to backslashes, removes duplicate slashes, and
removes slashes from both the start and end of the pathname. The result is
the string copied back over `PathName`. -/
def CleanUpPathNameSlashes (PathName : List Char) : List Char :=
  let NewName := CleanUpPathNameSlashes.loop PathName [] false
  let NewName :=
    if NewName.length > 0 ∧ NewName.getLast? = some '\\' then NewName.dropLast else NewName
  let NewName := if NewName.length = 0 then ['\\'] else NewName
  -- copy the transformed name back
  NewName

/-- Modelled from the spec: `MergeStrings` is a function of the string library
of the program, which is not part of the sources at hand. It replaces the
first string by the first string followed by the second, with `AddChar`
between them when that is not NUL and the first string is neither `NULL`
nor empty. -/
def MergeStrings (First Second : Option (List Char)) (AddChar : Char) : Option (List Char) :=
  some (First.getD [] ++
    (if AddChar ≠ Char.ofNat 0 ∧ First.getD [] ≠ [] then [AddChar] else []) ++
    Second.getD [])

/-- Modelled from the spec: `ToLower` is a function of the string library of
the program, which is not part of the sources at hand. It converts the
letters A to Z of the string to lowercase. -/
def ToLower (MyString : Option (List Char)) : Option (List Char) :=
  MyString.map (fun l => l.map Char.toLower)

/-- Lines 1488-1495: the loop of `FindExtension`, backwards from index `i`. The
index goes down by one in each round but the last, so `StrLen + 2` rounds of
fuel are never used up. -/
def FindExtension.loop (Path : List Char) : Nat → Bool → Bool → Int → Bool × Int
  | 0, Found, _, i => (Found, i)
  | fuel + 1, Found, FoundSlash, i =>
    if ¬ Found ∧ ¬ FoundSlash ∧ i ≥ 0 then
      let c := charAt Path i.toNat
      let Found' := if c = '.' then true else Found
      let FoundSlash' :=
        if c = '.' then FoundSlash else if c = '/' ∨ c = '\\' then true else FoundSlash
      FindExtension.loop Path fuel Found' FoundSlash' (if ¬ Found' then i - 1 else i)
    else (Found, i)

/-- Takes an input pathname and returns the part of the filename from the
final dot onwards, converted to lowercase. If the filename includes no dots,
or if the input is `NULL`, returns an empty (but allocated) string. -/
def FindExtension (Path : Option (List Char)) : Option (List Char) :=
  let Extension : Option (List Char) := some []
  match Path with
  | some Path =>
    let r := FindExtension.loop Path (Path.length + 2) false false Path.length
    if r.1 then
      ToLower (MergeStrings Extension (some (Path.drop r.2.toNat)) (Char.ofNat 0))
    else Extension
  | none => Extension

/-- Lines 1516-1521: the loop of `FindLastDirName` over the characters
`Path[i], ..`, on the pair `(StartOfElement, EndOfElement)`. -/
def FindLastDirName.loop : List Char → Nat → Nat × Nat → Nat × Nat
  | [], _, SE => SE
  | c :: rest, i, SE => FindLastDirName.loop rest (i + 1) (if c = '\\' then (SE.2, i) else SE)

/-- Lines 1524-1526: skip the backslashes at `StartOfElement`. The index stays
below `PathLength + 1`, so the fuel `PathLength + 1` is never used up. -/
def FindLastDirName.skip (Path : List Char) : Nat → Nat → Nat
  | 0, StartOfElement => StartOfElement
  | fuel + 1, StartOfElement =>
    if StartOfElement < Path.length ∧ charAt Path StartOfElement = '\\' then
      FindLastDirName.skip Path fuel (StartOfElement + 1)
    else StartOfElement

/-- Takes an input pathname and locates the final directory component of that
name. Assumes the pathname is separated with backslashes. -/
def FindLastDirName (Path : Option (List Char)) : Option (List Char) :=
  match Path with
  | none => none
  | some Path =>
    let PathLength := Path.length
    -- find start and end of target element
    let SE := FindLastDirName.loop Path 0 (0, 0)
    -- extract the target element
    if SE.2 > 0 then
      let StartOfElement := FindLastDirName.skip Path (PathLength + 1) SE.1
      let EndOfElement := SE.2 - 1
      if EndOfElement ≥ StartOfElement then
        let CopyLength := EndOfElement - StartOfElement + 1
        some ((Path.drop StartOfElement).take CopyLength)
      else none
    else none

/-- Lines 1548-1551: the loop of `FindPath` over the characters `FullPath[i], ..`,
on `LastBackslash`. -/
def FindPath.loop : List Char → Nat → Nat → Nat
  | [], _, LastBackslash => LastBackslash
  | c :: rest, i, LastBackslash =>
    FindPath.loop rest (i + 1) (if c = '\\' then i else LastBackslash)

/-- Returns the directory portion of a pathname. -/
def FindPath (FullPath : Option (List Char)) : Option (List Char) :=
  match FullPath with
  | some FullPath =>
    let LastBackslash := FindPath.loop FullPath 0 0
    some (FullPath.take LastBackslash)
  | none => none

/-- Lines 1604-1606: the index of the first colon of the characters
`Path[i], ..`, or `Length`. -/
def SplitVolumeAndFilename.scan : List Char → Nat → Nat
  | [], i => i
  | c :: rest, i => if c ≠ ':' then SplitVolumeAndFilename.scan rest (i + 1) else i

/-- Splits a volume/filename string into separate volume and filename
components. The result is the return value, `*Path` and `*VolName`. -/
def SplitVolumeAndFilename (Path VolName : Option (List Char)) :
    Bool × Option (List Char) × Option (List Char) :=
  match Path with
  | none => (false, Path, VolName)
  | some P =>
    let VolName : Option (List Char) := none
    let Length := P.length
    let i := SplitVolumeAndFilename.scan P 0
    if i < Length then
      let Filename := P.drop (i + 1)
      (true, some Filename, some (P.take i))
    else (false, some P, VolName)

/-- The results `*VolName`, `*Path` and `*Filename` of `SplitPathName`. -/
structure PathParts where
  VolName : Option (List Char)
  Path : Option (List Char)
  Filename : Option (List Char)
  deriving DecidableEq, Repr

/-- Take an input path name, which may include a volume specification and/or
a path, and return separate volume, path, and file names. -/
def SplitPathName (InPath : List Char) : PathParts :=
  let Temp : Option (List Char) := some InPath
  -- VolName is NULL or has volume; Temp has rest of path
  let Split := SplitVolumeAndFilename Temp none
  let VolName := Split.2.2
  let Temp := Split.2.1.map CleanUpPathNameSlashes
  -- Path has path (may be 0-length); Temp unchanged
  let Path := FindPath Temp
  let Filename : Option (List Char) :=
    match Temp, Path with
    | some T, some P => some (CleanUpPathNameSlashes (T.drop P.length))
    | _, _ => none
  let Path : Option (List Char) :=
    match Path with
    | some P => if P.length = 0 then none else some P
    | none => none
  let Filename : Option (List Char) :=
    match Filename with
    | some F => if F.length = 0 then none else some F
    | none => none
  { VolName := VolName, Path := Path, Filename := Filename }

/-! ## Vocabulary of the statements -/

/-- Check 1: the sample is long enough and carries the ext2/3/4 magic. -/
def extMatch (Buffer : Mem) (N : Nat) : Prop :=
  N ≥ 1124 ∧ rd16 Buffer 1080 = 0xEF53

/-- Check 2: the sample is long enough and carries a ReiserFS magic string. -/
def reiserMatch (Buffer : Mem) (N : Nat) : Prop :=
  N ≥ 65636 ∧ (bytes Buffer 65588 8 = strBytes "ReIsErFs" ∨
    bytes Buffer 65588 9 = strBytes "ReIsEr2Fs" ∨ bytes Buffer 65588 9 = strBytes "ReIsEr3Fs")

/-- Check 3: the sample is long enough and carries the Btrfs signature. -/
def btrfsMatch (Buffer : Mem) (N : Nat) : Prop :=
  N ≥ 65608 ∧ bytes Buffer 65600 8 = strBytes "_BHRfS_M"

/-- Check 4: the sample is long enough and carries the XFS signature. -/
def xfsMatch (Buffer : Mem) (N : Nat) : Prop :=
  N ≥ 512 ∧ bytes Buffer 0 4 = strBytes "XFSB"

/-- Check 5: the sample is long enough and carries one of the HFS+ magic values. -/
def hfsMatch (Buffer : Mem) (N : Nat) : Prop :=
  N ≥ 1026 ∧ (rd16 Buffer 1024 = 0x2B48 ∨ rd16 Buffer 1024 = 0x5848)

/-- Check 6: the sample is long enough and ends its first sector with 0xAA55. -/
def bootSigMatch (Buffer : Mem) (N : Nat) : Prop :=
  N ≥ 512 ∧ rd16 Buffer 510 = 0xAA55

instance (Buffer : Mem) (N : Nat) : Decidable (extMatch Buffer N) := by
  unfold extMatch; infer_instance
instance (Buffer : Mem) (N : Nat) : Decidable (reiserMatch Buffer N) := by
  unfold reiserMatch; infer_instance
instance (Buffer : Mem) (N : Nat) : Decidable (btrfsMatch Buffer N) := by
  unfold btrfsMatch; infer_instance
instance (Buffer : Mem) (N : Nat) : Decidable (xfsMatch Buffer N) := by
  unfold xfsMatch; infer_instance
instance (Buffer : Mem) (N : Nat) : Decidable (hfsMatch Buffer N) := by
  unfold hfsMatch; infer_instance
instance (Buffer : Mem) (N : Nat) : Decidable (bootSigMatch Buffer N) := by
  unfold bootSigMatch; infer_instance

/-- The sample proper: the `N` bytes the caller vouches for. -/
def sample (Buffer : Mem) (N : Nat) : List Nat := bytes Buffer 0 N

/-- Bounds-checked view of the sample: the `len` bytes at `off`, when they all
lie inside the first `N` bytes. -/
def sampleBytes (Buffer : Mem) (N off len : Nat) : Option (List Nat) :=
  if off + len ≤ N then some (bytes Buffer off len) else none

/-- The volume after the two opening assignments of `SetFilesystemData`. -/
def resetVolume (Volume : REFIT_VOLUME) : REFIT_VOLUME :=
  { Volume with VolUuid := List.replicate 16 0, FSType := FS_TYPE_UNKNOWN }

/-- The record `W` is `V` except, possibly, for the filesystem type and UUID. -/
def sameExceptFs (V W : REFIT_VOLUME) : Prop :=
  W = { V with FSType := W.FSType, VolUuid := W.VolUuid }

/-- The record `W` is `V` except, possibly, for the boot-code flag, the OS
name and the OS icon name. -/
def sameExceptBoot (V W : REFIT_VOLUME) : Prop :=
  W = { V with HasBootCode := W.HasBootCode, OSIconName := W.OSIconName, OSName := W.OSName }

/-- Some entry of the table at offset 446 has a non-zero start LBA and a non-zero size. -/
def mbrHasPartition (Buffer : Mem) : Prop :=
  ∃ i, i < 4 ∧ rd32 Buffer (446 + 16 * i + 8) ≠ 0 ∧ rd32 Buffer (446 + 16 * i + 12) ≠ 0

/-- Every flag byte of the table at offset 446 is 0x00 or 0x80. -/
def mbrFlagsValid (Buffer : Mem) : Prop :=
  ∀ i, i < 4 → rd8 Buffer (446 + 16 * i) = 0x00 ∨ rd8 Buffer (446 + 16 * i) = 0x80

instance (Buffer : Mem) : Decidable (mbrHasPartition Buffer) := by
  unfold mbrHasPartition; infer_instance
instance (Buffer : Mem) : Decidable (mbrFlagsValid Buffer) := by
  unfold mbrFlagsValid; infer_instance

/-- The string `s` stands at offset `o` of the buffer. -/
def atOffset (Buffer : Mem) (o : Nat) (s : String) : Prop :=
  bytes Buffer o s.length = strBytes s

/-- The string `s` occurs in the first `L` bytes of the buffer: it starts at
some offset `o` and ends at or before offset `L`. -/
def occursIn (Buffer : Mem) (L : Nat) (s : String) : Prop :=
  ∃ o, o < L ∧ o + s.length ≤ L ∧ atOffset Buffer o s

/-- The string `s` occurs in the buffer at an offset below `L - s.length`: it
ends before offset `L`. -/
def foundBefore (Buffer : Mem) (L : Nat) (s : String) : Prop :=
  ∃ o, o < L - s.length ∧ atOffset Buffer o s

instance (Buffer : Mem) (o : Nat) (s : String) : Decidable (atOffset Buffer o s) := by
  unfold atOffset; infer_instance
instance (Buffer : Mem) (L : Nat) (s : String) : Decidable (occursIn Buffer L s) := by
  unfold occursIn; infer_instance
instance (Buffer : Mem) (L : Nat) (s : String) : Decidable (foundBefore Buffer L s) := by
  unfold foundBefore; infer_instance

/-- The record `W` is `V` except, possibly, for what `ScanVolumeBootcode`
writes: boot-code flag, OS name and icon name, filesystem type and UUID, and
the retained MBR table. -/
def sameExceptScan (V W : REFIT_VOLUME) : Prop :=
  W = { V with
        HasBootCode := W.HasBootCode, OSIconName := W.OSIconName, OSName := W.OSName,
        FSType := W.FSType, VolUuid := W.VolUuid, MbrPartitionTable := W.MbrPartitionTable }

/-- The volume after the three opening assignments of `ScanVolumeBootcode`. -/
def clearBoot (Volume : REFIT_VOLUME) : REFIT_VOLUME :=
  { Volume with HasBootCode := false, OSIconName := none, OSName := none }

/-- One of the three dummy-boot-sector strings is found by its search, which
covers the offsets below 512 minus the length of the string. -/
def dummyFound (Buffer : Mem) : Prop :=
  foundBefore Buffer 512 "Non-system disk" ∨
  foundBefore Buffer 512 "This is not a bootable disk" ∨
  foundBefore Buffer 512 "Press any key to restart"

instance (Buffer : Mem) : Decidable (dummyFound Buffer) := by
  unfold dummyFound; infer_instance

/-- One rule of the boot-code pattern table: its pattern, and the icon tag and
OS name it gives. -/
structure BootRule where
  Matches : Mem → Bool
  OSIconName : String
  OSName : String

/-- The pattern of the rule for Linux: LILO, SYSLINUX, ISOLINUX. -/
def patternLinux (Buffer : Mem) : Prop :=
  atOffset Buffer 2 "LILO" ∨ atOffset Buffer 6 "LILO" ∨ atOffset Buffer 3 "SYSLINUX" ∨
    foundBefore Buffer 4096 "ISOLINUX"

instance (Buffer : Mem) : Decidable (patternLinux Buffer) := by
  unfold patternLinux; infer_instance

/-- The pattern of the rule for GRUB. -/
def patternGrub (Buffer : Mem) : Prop :=
  foundBefore Buffer 512 "Geom\x00Hard Disk\x00Read\x00 Error"

instance (Buffer : Mem) : Decidable (patternGrub Buffer) := by
  unfold patternGrub; infer_instance

/-- The pattern of the rule for FreeBSD. -/
def patternFreeBsd (Buffer : Mem) : Prop :=
  (rd32 Buffer 502 = 0 ∧ rd32 Buffer 506 = 50000 ∧ rd16 Buffer 510 = 0xaa55) ∨
    foundBefore Buffer 4096 "Starting the BTX loader"

instance (Buffer : Mem) : Decidable (patternFreeBsd Buffer) := by
  unfold patternFreeBsd; infer_instance

/-- The pattern of the rule for FreeBSD (boot0). -/
def patternFreeBsdBoot0 (Buffer : Mem) : Prop :=
  rd16 Buffer 510 = 0xaa55 ∧ foundBefore Buffer 4096 "Boot loader too large" ∧
    foundBefore Buffer 4096 "I/O error loading boot loader"

instance (Buffer : Mem) : Decidable (patternFreeBsdBoot0 Buffer) := by
  unfold patternFreeBsdBoot0; infer_instance

/-- The pattern of the rule for OpenBSD. -/
def patternOpenBsd (Buffer : Mem) : Prop :=
  foundBefore Buffer 512 "!Loading" ∨ foundBefore Buffer 4096 "/cdboot\x00/CDBOOT\x00"

instance (Buffer : Mem) : Decidable (patternOpenBsd Buffer) := by
  unfold patternOpenBsd; infer_instance

/-- The pattern of the rule for NetBSD. -/
def patternNetBsd (Buffer : Mem) : Prop :=
  foundBefore Buffer 512 "Not a bootxx image" ∨ rd32 Buffer 1028 = 0x7886b6d1

instance (Buffer : Mem) : Decidable (patternNetBsd Buffer) := by
  unfold patternNetBsd; infer_instance

/-- The pattern of the rule for Windows NT/200x/XP (NTLDR). -/
def patternNtldr (Buffer : Mem) : Prop :=
  foundBefore Buffer 4096 "NTLDR"

instance (Buffer : Mem) : Decidable (patternNtldr Buffer) := by
  unfold patternNtldr; infer_instance

/-- The pattern of the rule for Windows Vista/7/8 (BOOTMGR). -/
def patternBootmgr (Buffer : Mem) : Prop :=
  foundBefore Buffer 4096 "BOOTMGR"

instance (Buffer : Mem) : Decidable (patternBootmgr Buffer) := by
  unfold patternBootmgr; infer_instance

/-- The pattern of the rule for FreeDOS. -/
def patternFreeDos (Buffer : Mem) : Prop :=
  foundBefore Buffer 512 "CPUBOOT SYS" ∨ foundBefore Buffer 512 "KERNEL  SYS"

instance (Buffer : Mem) : Decidable (patternFreeDos Buffer) := by
  unfold patternFreeDos; infer_instance

/-- The pattern of the rule for eComStation. -/
def patternEComStation (Buffer : Mem) : Prop :=
  foundBefore Buffer 512 "OS2LDR" ∨ foundBefore Buffer 512 "OS2BOOT"

instance (Buffer : Mem) : Decidable (patternEComStation Buffer) := by
  unfold patternEComStation; infer_instance

/-- The pattern of the rule for BeOS. -/
def patternBeOs (Buffer : Mem) : Prop :=
  foundBefore Buffer 512 "Be Boot Loader"

instance (Buffer : Mem) : Decidable (patternBeOs Buffer) := by
  unfold patternBeOs; infer_instance

/-- The pattern of the rule for ZETA. -/
def patternZeta (Buffer : Mem) : Prop :=
  foundBefore Buffer 512 "yT Boot Loader"

instance (Buffer : Mem) : Decidable (patternZeta Buffer) := by
  unfold patternZeta; infer_instance

/-- The pattern of the rule for Haiku. -/
def patternHaiku (Buffer : Mem) : Prop :=
  foundBefore Buffer 512 "\x04beos\x06system\x05zbeos" ∨ foundBefore Buffer 512 "\x06system\x0chaiku_loader"

instance (Buffer : Mem) : Decidable (patternHaiku Buffer) := by
  unfold patternHaiku; infer_instance

/-- The boot-code pattern table, in its fixed order. -/
def bootRules : List BootRule :=
  [{ Matches := fun Buffer => decide (patternLinux Buffer),
     OSIconName := "linux", OSName := "Linux (Legacy)" },
   { Matches := fun Buffer => decide (patternGrub Buffer),
     OSIconName := "grub,linux", OSName := "Linux (Legacy)" },
   { Matches := fun Buffer => decide (patternFreeBsd Buffer),
     OSIconName := "freebsd", OSName := "FreeBSD (Legacy)" },
   { Matches := fun Buffer => decide (patternFreeBsdBoot0 Buffer),
     OSIconName := "freebsd", OSName := "FreeBSD (Legacy)" },
   { Matches := fun Buffer => decide (patternOpenBsd Buffer),
     OSIconName := "openbsd", OSName := "OpenBSD (Legacy)" },
   { Matches := fun Buffer => decide (patternNetBsd Buffer),
     OSIconName := "netbsd", OSName := "NetBSD (Legacy)" },
   { Matches := fun Buffer => decide (patternNtldr Buffer),
     OSIconName := "win", OSName := "Windows (Legacy)" },
   { Matches := fun Buffer => decide (patternBootmgr Buffer),
     OSIconName := "win8,win", OSName := "Windows (Legacy)" },
   { Matches := fun Buffer => decide (patternFreeDos Buffer),
     OSIconName := "freedos", OSName := "FreeDOS (Legacy)" },
   { Matches := fun Buffer => decide (patternEComStation Buffer),
     OSIconName := "ecomstation", OSName := "eComStation (Legacy)" },
   { Matches := fun Buffer => decide (patternBeOs Buffer),
     OSIconName := "beos", OSName := "BeOS (Legacy)" },
   { Matches := fun Buffer => decide (patternZeta Buffer),
     OSIconName := "zeta,beos", OSName := "ZETA (Legacy)" },
   { Matches := fun Buffer => decide (patternHaiku Buffer),
     OSIconName := "haiku,beos", OSName := "Haiku (Legacy)" }]

/-- The first rule of the table whose pattern matches the sample. -/
def firstRule (Buffer : Mem) : Option BootRule :=
  bootRules.find? (fun Rule => Rule.Matches Buffer)

/-- What a rule of the table does to the volume when its pattern matches. -/
def setBoot (Volume : REFIT_VOLUME) (Icon Name : String) : REFIT_VOLUME :=
  { Volume with HasBootCode := true, OSIconName := some Icon, OSName := some Name }

/-- The volume after the pattern table, given the first matching rule. -/
def applyRule (Volume : REFIT_VOLUME) : Option BootRule → REFIT_VOLUME
  | some Rule => setBoot Volume Rule.OSIconName Rule.OSName
  | none => Volume

/-- The part of `ScanVolumeBootcode` that does not depend on legacy mode: the
opening assignments and, when a sample can be read, `SetFilesystemData`. -/
def fsStage (fw : Firmware) (Volume : REFIT_VOLUME) : REFIT_VOLUME :=
  if Volume.BlockIO = NULL then clearBoot Volume
  else if (fw.Media Volume.BlockIO).BlockSize > SAMPLE_SIZE then clearBoot Volume
  else if ¬ EFI_ERROR (fw.ReadBlocks Volume.BlockIO (fw.Media Volume.BlockIO).MediaId
      Volume.BlockIOOffset SAMPLE_SIZE).1 then
    SetFilesystemData fw
      (some (fw.ReadBlocks Volume.BlockIO (fw.Media Volume.BlockIO).MediaId
        Volume.BlockIOOffset SAMPLE_SIZE).2) SAMPLE_SIZE (clearBoot Volume)
  else clearBoot Volume

/-- The boot-code classifier is active on the volume: there is a block I/O
reference, the block size fits the sample buffer, the read of the sample
succeeds and legacy mode is on. -/
def classifierActive (GlobalConfig : REFIT_CONFIG) (fw : Firmware) (Volume : REFIT_VOLUME) :
    Prop :=
  Volume.BlockIO ≠ NULL ∧ (fw.Media Volume.BlockIO).BlockSize ≤ SAMPLE_SIZE ∧
  (fw.ReadBlocks Volume.BlockIO (fw.Media Volume.BlockIO).MediaId
    Volume.BlockIOOffset SAMPLE_SIZE).1 = EFI_SUCCESS ∧
  GlobalConfig.LegacyType = LEGACY_TYPE_MAC

instance (GlobalConfig : REFIT_CONFIG) (fw : Firmware) (Volume : REFIT_VOLUME) :
    Decidable (classifierActive GlobalConfig fw Volume) := by
  unfold classifierActive; infer_instance

/-- The sample `ScanVolumeBootcode` reads for the volume. -/
def sampleOf (fw : Firmware) (Volume : REFIT_VOLUME) : Mem :=
  (fw.ReadBlocks Volume.BlockIO (fw.Media Volume.BlockIO).MediaId
    Volume.BlockIOOffset SAMPLE_SIZE).2

/-- The volume and the baseline bootable flag at the start of the device-path
loop of `ScanVolume`: device path, block I/O and `ScanVolumeBootcode`. -/
def ScanVolume.scanned (GlobalConfig : REFIT_CONFIG) (fw : Firmware) (Volume : REFIT_VOLUME) :
    REFIT_VOLUME × Bool :=
  ScanVolumeBootcode GlobalConfig fw
    (ScanVolume.blockIo fw
      { Volume with DevicePath := fw.DevicePathFromHandle Volume.DeviceHandle })

/-- The volume and the bootable flag at the end of the device-path loop of
`ScanVolume`. -/
def ScanVolume.walked (GlobalConfig : REFIT_CONFIG) (fw : Firmware) (Volume : REFIT_VOLUME) :
    REFIT_VOLUME × Bool :=
  match (ScanVolume.scanned GlobalConfig fw Volume).1.DevicePath with
  | some DevicePath =>
    ScanVolume.walk fw [] DevicePath (ScanVolume.scanned GlobalConfig fw Volume).1
      (ScanVolume.scanned GlobalConfig fw Volume).2
  | none => ScanVolume.scanned GlobalConfig fw Volume

/-- The nodes the device-path loop visits: those before the first end-type
node of the path. -/
def visitedNodes : Option (List EFI_DEVICE_PATH) → List EFI_DEVICE_PATH
  | some DevicePath => DevicePath.takeWhile (fun Node => ! IsDevicePathEndType Node)
  | none => []

/-- A Media node of subtype CD-ROM (El Torito entry). -/
def isCdromNode (Node : EFI_DEVICE_PATH) : Prop :=
  DevicePathType Node = MEDIA_DEVICE_PATH ∧ DevicePathSubType Node = MEDIA_CDROM_DP

instance (Node : EFI_DEVICE_PATH) : Decidable (isCdromNode Node) := by
  unfold isCdromNode; infer_instance

/-- A Media node of vendor subtype. -/
def isVendorNode (Node : EFI_DEVICE_PATH) : Prop :=
  DevicePathType Node = MEDIA_DEVICE_PATH ∧ DevicePathSubType Node = MEDIA_VENDOR_DP

instance (Node : EFI_DEVICE_PATH) : Decidable (isVendorNode Node) := by
  unfold isVendorNode; infer_instance

/-- A Messaging node of subtype USB, USB-class, IEEE-1394 or Fibre-Channel. -/
def isExternalNode (Node : EFI_DEVICE_PATH) : Prop :=
  DevicePathType Node = MESSAGING_DEVICE_PATH ∧
    (DevicePathSubType Node = MSG_USB_DP ∨ DevicePathSubType Node = MSG_USB_CLASS_DP ∨
     DevicePathSubType Node = MSG_1394_DP ∨ DevicePathSubType Node = MSG_FIBRECHANNEL_DP)

instance (Node : EFI_DEVICE_PATH) : Decidable (isExternalNode Node) := by
  unfold isExternalNode; infer_instance

/-- The whole disk that `DiskDevicePath` resolves to, if it resolves to one
with block I/O, does not have 2048-byte blocks. -/
def wholeDiskNot2048 (fw : Firmware) (DiskDevicePath : List EFI_DEVICE_PATH) : Prop :=
  ¬ EFI_ERROR (fw.LocateDevicePath DiskDevicePath).1 →
  ¬ EFI_ERROR (fw.BlockIoOfHandle (fw.LocateDevicePath DiskDevicePath).2).1 →
  (fw.Media (fw.BlockIoOfHandle (fw.LocateDevicePath DiskDevicePath).2).2).BlockSize ≠ 2048

/-- The fields the device-path loop of `ScanVolume` may write. -/
def sameExceptWalk (V W : REFIT_VOLUME) : Prop :=
  W = { V with
        PartGuid := W.PartGuid, PartName := W.PartName, PartTypeGuid := W.PartTypeGuid,
        IsMarkedReadOnly := W.IsMarkedReadOnly, DiskKind := W.DiskKind,
        IsAppleLegacy := W.IsAppleLegacy, WholeDiskBlockIO := W.WholeDiskBlockIO,
        WholeDiskDevicePath := W.WholeDiskDevicePath }

/-- Lines 929-931 of the loop body of `ScanVolume`: the partition GUID and name. -/
def ScanVolume.nodeGuid (fw : Firmware) (Node : EFI_DEVICE_PATH) (Volume : REFIT_VOLUME) :
    REFIT_VOLUME :=
  if DevicePathType Node = MEDIA_DEVICE_PATH then SetPartGuidAndName fw Volume Node else Volume

/-- Lines 932-937 of the loop body: USB, FireWire and Fibre-Channel devices. -/
def ScanVolume.nodeExternal (Node : EFI_DEVICE_PATH) (Volume : REFIT_VOLUME) : REFIT_VOLUME :=
  if DevicePathType Node = MESSAGING_DEVICE_PATH ∧
      (DevicePathSubType Node = MSG_USB_DP ∨ DevicePathSubType Node = MSG_USB_CLASS_DP ∨
       DevicePathSubType Node = MSG_1394_DP ∨ DevicePathSubType Node = MSG_FIBRECHANNEL_DP) then
    { Volume with DiskKind := DISK_KIND_EXTERNAL }
  else Volume

/-- Lines 938-942 of the loop body: the El Torito entry. -/
def ScanVolume.nodeCdrom (Node : EFI_DEVICE_PATH) (Volume : REFIT_VOLUME) (Bootable : Bool) :
    REFIT_VOLUME × Bool :=
  if DevicePathType Node = MEDIA_DEVICE_PATH ∧ DevicePathSubType Node = MEDIA_CDROM_DP then
    ({ Volume with DiskKind := DISK_KIND_OPTICAL }, true)
  else (Volume, Bootable)

/-- Lines 944-948 of the loop body: the legacy BIOS device entry. -/
def ScanVolume.nodeVendor (Node : EFI_DEVICE_PATH) (VB : REFIT_VOLUME × Bool) :
    REFIT_VOLUME × Bool :=
  if DevicePathType Node = MEDIA_DEVICE_PATH ∧ DevicePathSubType Node = MEDIA_VENDOR_DP then
    ({ VB.1 with IsAppleLegacy := true }, false)
  else VB

/-- Lines 950-985 of the loop body: the whole disk of a Messaging node. -/
def ScanVolume.nodeDisk (fw : Firmware) (Upto : List EFI_DEVICE_PATH) (Node : EFI_DEVICE_PATH)
    (VB : REFIT_VOLUME × Bool) : REFIT_VOLUME × Bool :=
  if DevicePathType Node = MESSAGING_DEVICE_PATH then
    (ScanVolume.wholeDisk fw (Upto ++ [EndDevicePath]) VB.1, VB.2)
  else VB

/-- Lines 1054-1062: the zeroed record of a logical partition before its boot
sector is scanned. -/
def ScanExtendedPartition.fresh (WholeDiskVolume : REFIT_VOLUME)
    (LogicalPartitionIndex Offset : Nat) : REFIT_VOLUME :=
  { zeroVolume with
    DiskKind := WholeDiskVolume.DiskKind,
    IsMbrPartition := true,
    MbrPartitionIndex := LogicalPartitionIndex,
    VolName := some ("Partition " ++ toString (LogicalPartitionIndex + 1)),
    BlockIO := WholeDiskVolume.BlockIO,
    BlockIOOffset := Offset,
    WholeDiskBlockIO := WholeDiskVolume.BlockIO }

/-- The volumes of the list are MBR partitions with the slot indices `Index`,
`Index + 1`, .. in this order, each named "Partition" with its slot index
plus one. -/
def slotsFrom : Nat → List REFIT_VOLUME → Prop
  | _, [] => True
  | Index, Volume :: Rest =>
    (Volume.IsMbrPartition = true ∧ Volume.MbrPartitionIndex = Index ∧
      Volume.VolName = some ("Partition " ++ toString (Index + 1))) ∧
    slotsFrom (Index + 1) Rest

/-- The volume is a whole-disk volume: it has a block I/O reference, which is
also its whole-disk block I/O reference, and its sector offset is zero. -/
def isWholeDisk (Volume : REFIT_VOLUME) : Prop :=
  Volume.BlockIO ≠ NULL ∧ Volume.WholeDiskBlockIO ≠ NULL ∧
  Volume.BlockIO = Volume.WholeDiskBlockIO ∧ Volume.BlockIOOffset = 0

instance (Volume : REFIT_VOLUME) : Decidable (isWholeDisk Volume) := by
  unfold isWholeDisk; infer_instance

/-- The filesystem information `GetVolumeName` obtains: that of the root
directory, when the volume has one. -/
def fileSystemInfo (fw : Firmware) (Volume : REFIT_VOLUME) : Option EFI_FILE_SYSTEM_INFO :=
  if Volume.RootDir ≠ NULL then fw.LibFileSystemInfo Volume.RootDir else none

/-- The filesystem label, when filesystem information is available and the
label is not empty. -/
def volumeLabel (fw : Firmware) (Volume : REFIT_VOLUME) : Option String :=
  match fileSystemInfo fw Volume with
  | some Info => if Info.VolumeLabel.length > 0 then some Info.VolumeLabel else none
  | none => none

/-- The partition name, when it is not empty and not in the ignore list. -/
def usablePartName (fw : Firmware) (Volume : REFIT_VOLUME) : Option String :=
  match Volume.PartName with
  | some PartName =>
    if PartName.length > 0 ∧ ¬ fw.IsIn PartName IGNORE_PARTITION_NAMES then some PartName
    else none
  | none => none

/-- The fallback chain of the volume name, in words: the label, else the
usable partition name, else size and type when filesystem information is
available, else the type alone when the type is known, else "unknown volume". -/
def nameChain (fw : Firmware) (Volume : REFIT_VOLUME) : String :=
  match volumeLabel fw Volume with
  | some Label => Label
  | none =>
    match usablePartName fw Volume with
    | some PartName => PartName
    | none =>
      match fileSystemInfo fw Volume with
      | some Info => SizeInIEEEUnits Info.VolumeSize ++ FSTypeName Volume.FSType ++ " volume"
      | none =>
        if Volume.FSType = FS_TYPE_UNKNOWN then "unknown volume"
        else FSTypeName Volume.FSType ++ " volume"

/-- The entry `i` of the table does not stop the scan of a chain sector as
unusable: its flag byte is 0x00 or 0x80 and its start LBA and size are not
zero. -/
def entryUsable (EMbrTable : Mem) (i : Nat) : Prop :=
  ((MbrEntry EMbrTable i).Flags = 0x00 ∨ (MbrEntry EMbrTable i).Flags = 0x80) ∧
  (MbrEntry EMbrTable i).StartLBA ≠ 0 ∧ (MbrEntry EMbrTable i).Size ≠ 0

instance (EMbrTable : Mem) (i : Nat) : Decidable (entryUsable EMbrTable i) := by
  unfold entryUsable; infer_instance

/-- The entry `i` of the table is a logical partition: usable and not of an
extended type. -/
def entryLogical (EMbrTable : Mem) (i : Nat) : Prop :=
  entryUsable EMbrTable i ∧ IS_EXTENDED_PART_TYPE (MbrEntry EMbrTable i).Type_ = false

instance (EMbrTable : Mem) (i : Nat) : Decidable (entryLogical EMbrTable i) := by
  unfold entryLogical; infer_instance

/-- The entries of a chain sector that yield a volume: those before the first
entry that is unusable or of an extended type. -/
def logicalEntries (EMbrTable : Mem) (Entries : List Nat) : List Nat :=
  Entries.takeWhile (fun i => decide (entryLogical EMbrTable i))

/-- The next chain sector after a chain sector: when the first entry that is
not a logical partition is usable, hence of an extended type, the extended
base plus its start LBA, in 32 bits; otherwise none (zero). -/
def nextChainSector (ExtBase : Nat) (EMbrTable : Mem) (Entries : List Nat) : Nat :=
  match (Entries.dropWhile (fun i => decide (entryLogical EMbrTable i))).head? with
  | some i =>
    if entryUsable EMbrTable i then (ExtBase + (MbrEntry EMbrTable i).StartLBA) % 2 ^ 32 else 0
  | none => 0

/-- The volumes synthesized for the given entries of a chain sector, with slot
indices from `LogicalPartitionIndex` on. -/
def logicalVolumes (GlobalConfig : REFIT_CONFIG) (fw : Firmware) (WholeDiskVolume : REFIT_VOLUME)
    (ExtCurrent : Nat) (EMbrTable : Mem) : Nat → List Nat → List REFIT_VOLUME
  | _, [] => []
  | LogicalPartitionIndex, i :: rest =>
    ScanExtendedPartition.volume GlobalConfig fw WholeDiskVolume LogicalPartitionIndex
        ((ExtCurrent + (MbrEntry EMbrTable i).StartLBA) % 2 ^ 32)
      :: logicalVolumes GlobalConfig fw WholeDiskVolume ExtCurrent EMbrTable
        (LogicalPartitionIndex + 1) rest

/-- The read of the first sector of the volume through its own block I/O, at
its own offset. -/
def ownSector (fw : Firmware) (Volume : REFIT_VOLUME) : EFI_STATUS × Mem :=
  fw.ReadBlocks Volume.BlockIO (fw.Media Volume.BlockIO).MediaId Volume.BlockIOOffset 512

/-- The read of the sector at the start LBA of entry `p` of the table through
the whole-disk block I/O of the volume. -/
def diskSector (fw : Firmware) (MbrTable : Mem) (Volume : REFIT_VOLUME) (p : Nat) :
    EFI_STATUS × Mem :=
  fw.ReadBlocks Volume.WholeDiskBlockIO (fw.Media Volume.WholeDiskBlockIO).MediaId
    (MbrEntry MbrTable p).StartLBA 512

/-- The sum of the 512 bytes of a sector. -/
def sectorSum (Sector : Mem) : Nat := (bytes Sector 0 512).sum

/-- Entry `p` of the table qualifies for the volume: its size is the block
count of the volume, the first sector of the volume is byte for byte the
sector at its start LBA on the whole disk, and the bytes of that sector sum
up to at least 1000. -/
def qualifies (fw : Firmware) (MbrTable : Mem) (Volume : REFIT_VOLUME) (p : Nat) : Prop :=
  (MbrEntry MbrTable p).Size = (fw.Media Volume.BlockIO).LastBlock + 1 ∧
  bytes (ownSector fw Volume).2 0 512 = bytes (diskSector fw MbrTable Volume p).2 0 512 ∧
  sectorSum (ownSector fw Volume).2 ≥ 1000

instance (fw : Firmware) (MbrTable : Mem) (Volume : REFIT_VOLUME) (p : Nat) :
    Decidable (qualifies fw MbrTable Volume p) := by
  unfold qualifies; infer_instance

/-- The volume marked as the MBR partition of slot `p`; it gets the default
name of the slot when it has no name. -/
def associate (Volume : REFIT_VOLUME) (p : Nat) : REFIT_VOLUME :=
  { Volume with
    IsMbrPartition := true,
    MbrPartitionIndex := p,
    VolName :=
      match Volume.VolName with
      | none => some ("Partition " ++ toString (p + 1))
      | some Name => some Name }

/-- The volume `ScanVolume` makes of a handle in the first pass. -/
def handleVolume (GlobalConfig : REFIT_CONFIG) (fw : Firmware) (Handle : Nat) : REFIT_VOLUME :=
  ScanVolume GlobalConfig fw { zeroVolume with DeviceHandle := Handle }

/-- The two GUID objects hold the same 16 bytes. -/
def sameUuid (U V : List Nat) : Prop :=
  bytes (memOfList U) 0 sizeof_EFI_GUID = bytes (memOfList V) 0 sizeof_EFI_GUID

instance (U V : List Nat) : Decidable (sameUuid U V) := by
  unfold sameUuid; infer_instance

/-- The UUID is not all zero and is the UUID of an earlier volume. -/
def duplicateUuid (Earlier : List (List Nat)) (Uuid : List Nat) : Prop :=
  (∃ E ∈ Earlier, sameUuid Uuid E) ∧ ¬ sameUuid Uuid NullUuid

instance (Earlier : List (List Nat)) (Uuid : List Nat) :
    Decidable (duplicateUuid Earlier Uuid) := by
  unfold duplicateUuid; infer_instance

/-- The first pass of `ScanVolumes` over the given handles (lines 1106-1127). -/
def firstPass (GlobalConfig : REFIT_CONFIG) (fw : Firmware) (Handles : List Nat) : FirstPass :=
  Handles.foldl (ScanVolumes.handle GlobalConfig fw)
    { Volumes := [], UuidList := [], VolNumber := 0, SelfVolume := none }

/-- Lines 1111-1118 of the first pass: mark the volume unreadable when its
non-zero UUID is that of an earlier handle. -/
def ScanVolumes.dedupe (fw : Firmware) (UuidList : List (List Nat)) (Volume : REFIT_VOLUME) :
    REFIT_VOLUME :=
  if fw.UuidListAllocated then
    UuidList.foldl
      (fun (V : REFIT_VOLUME) Uuid =>
        if CompareMem (memOfList Volume.VolUuid) (memOfList Uuid) sizeof_EFI_GUID = 0 ∧
            CompareMem (memOfList Volume.VolUuid) (memOfList NullUuid) sizeof_EFI_GUID ≠ 0 then
          { V with IsReadable := false }
        else V)
      Volume
  else Volume

/-- Lines 1119-1122 of the first pass: the volume number. -/
def ScanVolumes.number (VolNumber : Nat) (Volume : REFIT_VOLUME) : REFIT_VOLUME :=
  if Volume.IsReadable then { Volume with VolNumber := VolNumber }
  else { Volume with VolNumber := VOL_UNREADABLE }

/-- The volume the first pass adds for a handle, in words: the volume of the
handle with the next volume number when `ScanVolume` left it readable and,
with a UUID list at hand, its UUID is no duplicate; otherwise that volume
marked unreadable, with the sentinel for a number. -/
def numbered (GlobalConfig : REFIT_CONFIG) (fw : Firmware) (st : FirstPass) (Handle : Nat) :
    REFIT_VOLUME :=
  if (handleVolume GlobalConfig fw Handle).IsReadable = true ∧
      ¬ (fw.UuidListAllocated = true ∧
        duplicateUuid st.UuidList (handleVolume GlobalConfig fw Handle).VolUuid) then
    { handleVolume GlobalConfig fw Handle with VolNumber := st.VolNumber }
  else
    { handleVolume GlobalConfig fw Handle with IsReadable := false, VolNumber := VOL_UNREADABLE }

/-- The number of readable volumes in the list. -/
def readableCount (Volumes : List REFIT_VOLUME) : Nat :=
  (Volumes.filter (fun Volume => Volume.IsReadable)).length

/-- A cleaned pathname, read backwards from its end: it has no forward slash,
and every backslash follows a character that is not a backslash. -/
def cleanRev : List Char → Prop
  | [] => True
  | c :: rest => c ≠ '/' ∧ (c = '\\' → ∃ q, rest.head? = some q ∧ q ≠ '\\') ∧ cleanRev rest

/-- The whole-disk test of the second pass: `Volume2` has the block I/O
reference that `Volume` has for its whole disk, at sector offset zero. -/
def wholeDiskOf (Volume Volume2 : REFIT_VOLUME) : Prop :=
  Volume2.BlockIO = Volume.WholeDiskBlockIO ∧ Volume2.BlockIOOffset = 0

instance (Volume Volume2 : REFIT_VOLUME) : Decidable (wholeDiskOf Volume Volume2) := by
  unfold wholeDiskOf
  exact inferInstance

/-- The components of a pathname: its maximal runs of characters that are not
slashes, in their order. `cur` is the run read so far. -/
def components.go : List Char → List Char → List (List Char)
  | [], cur => if cur = [] then [] else [cur]
  | c :: rest, cur =>
    if c = '/' ∨ c = '\\' then
      if cur = [] then components.go rest [] else cur :: components.go rest []
    else components.go rest (cur ++ [c])

/-- The components of a pathname: its maximal runs of characters that are not
slashes, in their order. -/
def components (PathName : List Char) : List (List Char) := components.go PathName []

/-- Bounds-checked view of a sample: the `len` bytes at offset `off`, or none
when they do not all lie inside the sample. -/
def viewAt (S : List Nat) (off len : Nat) : Option (List Nat) :=
  if off + len ≤ S.length then some ((S.drop off).take len) else none

/-- The little-endian value of a list of bytes. -/
def leValue : List Nat → Nat
  | [] => 0
  | b :: rest => b + 256 * leValue rest

/-- Check 1 of the sniffer as the spec has it, over the bounds-checked view of
a sample `S`: ext2/3/4. The check does not apply when one of its reads, the
UUID among them, does not lie inside the sample. -/
def sniffExt (S : List Nat) (Volume : REFIT_VOLUME) : Option REFIT_VOLUME :=
  if S.length ≥ 1124 then
    match viewAt S 1080 2, viewAt S 1116 4, viewAt S 1120 4, viewAt S 1128 16 with
    | some Magic, some Compat, some Incompat, some Uuid =>
      if leValue Magic = 0xEF53 then
        some { Volume with
          FSType :=
            if leValue Incompat &&& 0x0040 ≠ 0 ∨ leValue Incompat &&& 0x0200 ≠ 0 then
              FS_TYPE_EXT4
            else if leValue Compat &&& 0x0004 ≠ 0 then FS_TYPE_EXT3
            else FS_TYPE_EXT2,
          VolUuid := Uuid }
      else none
    | _, _, _, _ => none
  else none

/-- Check 2 of the sniffer as the spec has it: ReiserFS. -/
def sniffReiser (S : List Nat) (Volume : REFIT_VOLUME) : Option REFIT_VOLUME :=
  if S.length ≥ 65636 then
    match viewAt S 65588 8, viewAt S 65588 9, viewAt S 65620 16 with
    | some Magic8, some Magic9, some Uuid =>
      if Magic8 = strBytes "ReIsErFs" ∨ Magic9 = strBytes "ReIsEr2Fs" ∨
          Magic9 = strBytes "ReIsEr3Fs" then
        some { Volume with FSType := FS_TYPE_REISERFS, VolUuid := Uuid }
      else none
    | _, _, _ => none
  else none

/-- Check 3 of the sniffer as the spec has it: Btrfs. -/
def sniffBtrfs (S : List Nat) (Volume : REFIT_VOLUME) : Option REFIT_VOLUME :=
  if S.length ≥ 65608 then
    match viewAt S 65600 8 with
    | some Magic =>
      if Magic = strBytes "_BHRfS_M" then some { Volume with FSType := FS_TYPE_BTRFS }
      else none
    | none => none
  else none

/-- Check 4 of the sniffer as the spec has it: XFS. -/
def sniffXfs (S : List Nat) (Volume : REFIT_VOLUME) : Option REFIT_VOLUME :=
  if S.length ≥ 512 then
    match viewAt S 0 4 with
    | some Magic =>
      if Magic = strBytes "XFSB" then some { Volume with FSType := FS_TYPE_XFS } else none
    | none => none
  else none

/-- Check 5 of the sniffer as the spec has it: HFS+. -/
def sniffHfs (S : List Nat) (Volume : REFIT_VOLUME) : Option REFIT_VOLUME :=
  if S.length ≥ 1026 then
    match viewAt S 1024 2 with
    | some Magic =>
      if leValue Magic = 0x2B48 ∨ leValue Magic = 0x5848 then
        some { Volume with FSType := FS_TYPE_HFSPLUS }
      else none
    | none => none
  else none

/-- Check 6 of the sniffer as the spec has it: the boot-sector signature, with
its sub-cases NTFS, FAT, whole disk and none of these. -/
def sniffBootSig (fw : Firmware) (S : List Nat) (Volume : REFIT_VOLUME) :
    Option REFIT_VOLUME :=
  if S.length ≥ 512 then
    match viewAt S 510 2, viewAt S 3 8, viewAt S 0x48 8 with
    | some Signature, some Magic, some Serial =>
      if leValue Signature = 0xAA55 then
        if Magic = strBytes "NTFS    " then
          some { Volume with FSType := FS_TYPE_NTFS, VolUuid := Serial ++ List.replicate 8 0 }
        else if fw.LibOpenRoot Volume.DeviceHandle ≠ NULL then
          some { Volume with FSType := FS_TYPE_FAT }
        else if (fw.Media Volume.BlockIO).LogicalPartition = false then
          some { Volume with FSType := FS_TYPE_WHOLEDISK }
        else some Volume
      else none
    | _, _, _ => none
  else none

/-- The sniffer as the spec has it (section 4.1), over the bounds-checked view
of the sample `S`: the type and the UUID are reset, the checks run in their
order, the first that applies and matches decides, and a check that does not
apply is skipped. The sample is all this function sees of the buffer. -/
def sniffSample (fw : Firmware) (S : List Nat) (Volume : REFIT_VOLUME) : REFIT_VOLUME :=
  let Volume := resetVolume Volume
  match sniffExt S Volume with
  | some Found => Found
  | none =>
  match sniffReiser S Volume with
  | some Found => Found
  | none =>
  match sniffBtrfs S Volume with
  | some Found => Found
  | none =>
  match sniffXfs S Volume with
  | some Found => Found
  | none =>
  match sniffHfs S Volume with
  | some Found => Found
  | none =>
  match sniffBootSig fw S Volume with
  | some Found => Found
  | none =>
    if (fw.Media Volume.BlockIO).BlockSize = 2048 then { Volume with FSType := FS_TYPE_ISO9660 }
    else Volume

/-- The volume `V` lies on the disk of `W`: its block I/O reference and its
whole-disk block I/O reference are the block I/O reference of `W`, as
`ScanExtendedPartition` sets them in the volume of a logical partition. -/
def onDiskOf (W V : REFIT_VOLUME) : Prop :=
  V.BlockIO = W.BlockIO ∧ V.WholeDiskBlockIO = W.BlockIO

instance (W V : REFIT_VOLUME) : Decidable (onDiskOf W V) := by
  unfold onDiskOf; infer_instance

/-- The record `B` has the device handle, the block I/O references, the sector
offset and the retained table of `A`. -/
def sameDevice (A B : REFIT_VOLUME) : Prop :=
  B.DeviceHandle = A.DeviceHandle ∧ B.BlockIO = A.BlockIO ∧
  B.WholeDiskBlockIO = A.WholeDiskBlockIO ∧ B.BlockIOOffset = A.BlockIOOffset ∧
  B.MbrPartitionTable = A.MbrPartitionTable

instance (A B : REFIT_VOLUME) : Decidable (sameDevice A B) := by
  unfold sameDevice; infer_instance

/-- Every volume of the collection from index `n` on lies on the disk of a
whole-disk volume of the collection that has a retained table. -/
def fromWholeDisks (n : Nat) (Volumes : List REFIT_VOLUME) : Prop :=
  ∀ (i : Nat) (V : REFIT_VOLUME), n ≤ i → Volumes[i]? = some V →
    ∃ W ∈ Volumes, isWholeDisk W ∧ W.MbrPartitionTable ≠ none ∧ onDiskOf W V

/-! ## Concrete inputs -/

/-- A firmware with no handles, whose calls all fail, that opens no root
directory and reports 512-byte blocks on media that are not logical
partitions. -/
def plainFirmware : Firmware :=
  { LibOpenRoot := fun _ => 0,
    Media := fun _ => { MediaId := 0, LogicalPartition := false, BlockSize := 512, LastBlock := 0 },
    ReadBlocks := fun _ _ _ _ => (-1, fun _ => 0),
    LocateHandle := (0, []),
    DevicePathFromHandle := fun _ => none,
    BlockIoOfHandle := fun _ => (-1, 0),
    DevicePathOfHandle := fun _ => (-1, none),
    LocateDevicePath := fun _ => (-1, 0),
    LibFileSystemInfo := fun _ => none,
    FileOpen := fun _ _ => -1,
    FindPartWithGuid := fun _ _ => none,
    IsIn := fun _ _ => false,
    SelfDeviceHandle := 0,
    UuidListAllocated := true }

/-- Memory holding the bytes `l` at offset `off` on top of `Base`. -/
def poke (Base : Mem) (off : Nat) (l : List Nat) : Mem :=
  fun i => if off ≤ i ∧ i < off + l.length then l.getD (i - off) 0 else Base i

/-- All-zero memory. -/
def zeroMem : Mem := fun _ => 0

/-- A sample with the ext2/3/4 magic and the Btrfs signature. -/
def extBtrfsSample : Mem :=
  poke (poke zeroMem 1080 [0x53, 0xEF]) 65600 (strBytes "_BHRfS_M")

/-- A sample of 1124 bytes with the ext2/3/4 magic; the memory after it is zero. -/
def shortExtSample : Mem := poke zeroMem 1080 [0x53, 0xEF]

/-- A sample of 1124 bytes with the ext2/3/4 magic and the extents bit 0x0040. -/
def shortExt4Sample : Mem := poke (poke zeroMem 1080 [0x53, 0xEF]) 1120 [0x40, 0, 0, 0]

/-- A full-size sample with the ext2/3/4 magic, the extents bit and a UUID. -/
def ext4Sample : Mem :=
  poke shortExt4Sample 1128 [1, 2, 3, 4, 5, 6, 7, 8, 9, 10, 11, 12, 13, 14, 15, 16]

/-- A sample with the ext2/3/4 magic and the has-journal bit 0x0004. -/
def ext3Sample : Mem := poke (poke zeroMem 1080 [0x53, 0xEF]) 1116 [0x04, 0, 0, 0]

/-- A firmware like `plainFirmware` that opens a root directory on every handle. -/
def fatFirmware : Firmware :=
  { plainFirmware with LibOpenRoot := fun _ => 1 }

/-- A boot sector with the 0xAA55 signature, the NTFS string and a serial number. -/
def ntfsSample : Mem :=
  poke (poke (poke zeroMem 510 [0x55, 0xAA]) 3 (strBytes "NTFS    ")) 0x48
    [1, 2, 3, 4, 5, 6, 7, 8]

/-- A boot sector with the 0xAA55 signature and nothing else. -/
def bootSigSample : Mem := poke zeroMem 510 [0x55, 0xAA]

/-- A sample with the magic string "ReIsEr2Fs", a UUID, and the Btrfs, XFS and
0xAA55 signatures besides. -/
def reiserSample : Mem :=
  poke (poke (poke (poke (poke zeroMem 65588 (strBytes "ReIsEr2Fs")) 65620
    [1, 2, 3, 4, 5, 6, 7, 8, 9, 10, 11, 12, 13, 14, 15, 16]) 65600 (strBytes "_BHRfS_M")) 0
    (strBytes "XFSB")) 510 [0x55, 0xAA]

/-- A firmware that opens no root directory and reports 2048-byte blocks on
media that are logical partitions. -/
def opticalPartitionFirmware : Firmware :=
  { plainFirmware with
    Media := fun _ => { MediaId := 0, LogicalPartition := true, BlockSize := 2048, LastBlock := 0 } }

/-- A volume record left over from an earlier NTFS classification. -/
def staleVolume : REFIT_VOLUME :=
  { zeroVolume with FSType := FS_TYPE_NTFS, VolUuid := [9, 9, 9, 9, 9, 9, 9, 9, 0, 0, 0, 0, 0, 0, 0, 0] }

/-- The volume `staleVolume` with a block I/O reference. -/
def staleDiskVolume : REFIT_VOLUME := { staleVolume with BlockIO := 1 }

/-- A configuration with legacy (BIOS) boot support of the Mac kind. -/
def legacyConfig : REFIT_CONFIG := { LegacyType := LEGACY_TYPE_MAC }

/-- A firmware like `plainFirmware` whose block reads succeed and deliver `Buffer`. -/
def readFirmware (Buffer : Mem) : Firmware :=
  { plainFirmware with ReadBlocks := fun _ _ _ _ => (EFI_SUCCESS, Buffer) }

/-- A zeroed volume record with a block I/O reference. -/
def diskVolume : REFIT_VOLUME := { zeroVolume with BlockIO := 1 }

/-- A first sector whose table has all flag bytes zero and an entry 0 with
start LBA 1 and size 1, but whose bytes 510-511 are zero. -/
def mbrNoSigSample : Mem := poke (poke zeroMem 454 [1, 0, 0, 0]) 458 [1, 0, 0, 0]

/-- The same table in a sector that ends with 0xAA55. -/
def mbrSample : Mem := poke mbrNoSigSample 510 [0x55, 0xAA]

/-- The table of `mbrSample` with the flag byte of entry 1 set to 0x7F. -/
def badFlagSample : Mem := poke mbrSample 462 [0x7F]

/-- A boot sector with a jump opcode in byte 0 and the 0xAA55 signature. -/
def jumpSample : Mem := poke (poke zeroMem 0 [0xEB]) 510 [0x55, 0xAA]

/-- A boot sector with "LILO" at offset 2 and "NTLDR" at offset 100. -/
def liloNtldrSample : Mem := poke (poke zeroMem 2 (strBytes "LILO")) 100 (strBytes "NTLDR")

/-- A sector with "LILO" at offset 2 whose last fifteen bytes, at offsets
497..511, are "Non-system disk". -/
def lateDummySample : Mem :=
  poke (poke zeroMem 2 (strBytes "LILO")) 497 (strBytes "Non-system disk")

/-- A configuration without legacy boot support. -/
def plainConfig : REFIT_CONFIG := { LegacyType := LEGACY_TYPE_NONE }

/-- A Media node of vendor subtype. -/
def vendorNode : EFI_DEVICE_PATH :=
  { Type_ := MEDIA_DEVICE_PATH, SubType := MEDIA_VENDOR_DP, SignatureType := 0, Signature := [] }

/-- A Messaging node of subtype USB. -/
def usbNode : EFI_DEVICE_PATH :=
  { Type_ := MESSAGING_DEVICE_PATH, SubType := MSG_USB_DP, SignatureType := 0, Signature := [] }

/-- A Media node of subtype hard drive with an MBR signature. -/
def hardDriveNode : EFI_DEVICE_PATH :=
  { Type_ := MEDIA_DEVICE_PATH, SubType := MEDIA_HARDDRIVE_DP, SignatureType := 1,
    Signature := [] }

/-- A firmware whose handles have block I/O and the device path of a legacy
BIOS alias, and whose reads deliver the boot sector `jumpSample`. -/
def vendorFirmware : Firmware :=
  { readFirmware jumpSample with
    DevicePathFromHandle := fun _ => some [vendorNode, EndDevicePath],
    BlockIoOfHandle := fun _ => (EFI_SUCCESS, 1) }

/-- A firmware whose handles have block I/O and the device path of a
partition on a USB disk; the whole disk resolves to handle 2. -/
def usbFirmware : Firmware :=
  { plainFirmware with
    DevicePathFromHandle := fun _ => some [usbNode, hardDriveNode, EndDevicePath],
    BlockIoOfHandle := fun _ => (EFI_SUCCESS, 1),
    LocateDevicePath := fun _ => (EFI_SUCCESS, 2) }

/-- An EMBR sector with the 0xAA55 signature and one entry: a logical
partition of type 0x83 with start LBA 1 and size 5. -/
def embrSample : Mem :=
  poke (poke (poke (poke zeroMem 450 [0x83]) 454 [1, 0, 0, 0]) 458 [5, 0, 0, 0]) 510 [0x55, 0xAA]

/-- An MBR table with two entries of the extended type 0x05, at LBA 100 and
LBA 200, each of size 10. -/
def twoChainTable : List Nat :=
  [0, 0, 0, 0, 0x05, 0, 0, 0, 100, 0, 0, 0, 10, 0, 0, 0,
   0, 0, 0, 0, 0x05, 0, 0, 0, 200, 0, 0, 0, 10, 0, 0, 0] ++ List.replicate 32 0

/-- A whole-disk volume that has retained `twoChainTable`. -/
def twoChainDisk : REFIT_VOLUME :=
  { zeroVolume with BlockIO := 1, WholeDiskBlockIO := 1, MbrPartitionTable := some twoChainTable }

/-- A firmware whose reads of LBA 100 and LBA 200 deliver `embrSample` and whose
other reads fail. -/
def twoChainFirmware : Firmware :=
  { plainFirmware with
    ReadBlocks := fun _ _ Lba _ =>
      if Lba = 100 ∨ Lba = 200 then (EFI_SUCCESS, embrSample) else (-1, zeroMem) }

/-- The first sector of `mbrSample` with "LILO" at offset 2. -/
def liloMbrSample : Mem := poke mbrSample 2 (strBytes "LILO")

/-- A firmware with one handle, 7, of a partition on a USB disk: the handle
has block I/O 1, the whole disk resolves to handle 2 with block I/O 2, and
reads deliver `liloMbrSample`. -/
def nestedMbrFirmware : Firmware :=
  { plainFirmware with
    LocateHandle := (EFI_SUCCESS, [7]),
    DevicePathFromHandle := fun _ => some [usbNode, hardDriveNode, EndDevicePath],
    BlockIoOfHandle := fun Handle => if Handle = 2 then (EFI_SUCCESS, 2) else (EFI_SUCCESS, 1),
    LocateDevicePath := fun _ => (EFI_SUCCESS, 2),
    ReadBlocks := fun _ _ _ _ => (EFI_SUCCESS, liloMbrSample) }

/-- A partition volume, with block I/O 1 on the whole disk with block I/O 2,
that has retained a table. -/
def nestedMbrVolume : REFIT_VOLUME :=
  { zeroVolume with BlockIO := 1, WholeDiskBlockIO := 2, MbrPartitionTable := some twoChainTable }

/-- A firmware like `plainFirmware` whose root directories report a 200 MiB
filesystem without a label. -/
def sizeFirmware : Firmware :=
  { plainFirmware with
    LibFileSystemInfo := fun _ => some { VolumeSize := 209715200, VolumeLabel := "" } }

/-- An ext4 volume with an open root directory and no partition name. -/
def ext4RootVolume : REFIT_VOLUME := { zeroVolume with RootDir := 1, FSType := FS_TYPE_EXT4 }

/-- An ext4 volume without root directory and without partition name. -/
def ext4BareVolume : REFIT_VOLUME := { zeroVolume with FSType := FS_TYPE_EXT4 }

/-- A whole-disk volume with block I/O 1 and no table. -/
def plainDisk : REFIT_VOLUME := { zeroVolume with BlockIO := 1, WholeDiskBlockIO := 1 }

/-- An EMBR sector with the 0xAA55 signature and one entry: a logical
partition of type 0x83 with start LBA 63 and size 5. -/
def wrapEmbrSample : Mem :=
  poke (poke (poke (poke zeroMem 450 [0x83]) 454 [63, 0, 0, 0]) 458 [5, 0, 0, 0]) 510 [0x55, 0xAA]

/-- A firmware whose read of LBA 4294967233, that is 2^32 - 63, delivers
`wrapEmbrSample` and whose other reads fail. -/
def wrapFirmware : Firmware :=
  { plainFirmware with
    ReadBlocks := fun _ _ Lba _ =>
      if Lba = 4294967233 then (EFI_SUCCESS, wrapEmbrSample) else (-1, zeroMem) }

/-- The entry of an extended partition that starts at LBA 4294967233. -/
def wrapEntry : MBR_PARTITION_INFO :=
  { Flags := 0, Type_ := 0x05, StartLBA := 4294967233, Size := 100 }

/-- An EMBR sector with the 0xAA55 signature whose entry 0 is empty and whose
entry 1 is a partition of type 0x83 with start LBA 1 and size 5. -/
def gapEmbrSample : Mem :=
  poke (poke (poke (poke zeroMem 466 [0x83]) 470 [1, 0, 0, 0]) 474 [5, 0, 0, 0]) 510 [0x55, 0xAA]

/-- An EMBR sector with the 0xAA55 signature, a logical partition of type 0x83
(start LBA 1, size 5) in entry 0 and a link of type 0x05 (start LBA 50,
size 10) in entry 1. -/
def loopSample : Mem :=
  poke (poke (poke (poke embrSample 462 [0]) 466 [0x05]) 470 [50, 0, 0, 0]) 474 [10, 0, 0, 0]

/-- The entry of an extended partition that starts at LBA 100. -/
def loopEntry : MBR_PARTITION_INFO :=
  { Flags := 0, Type_ := 0x05, StartLBA := 100, Size := 1000 }

/-- A firmware whose reads of LBA 100 and LBA 150 deliver `loopSample` and
whose other reads fail. -/
def loopFirmware : Firmware :=
  { plainFirmware with
    ReadBlocks := fun _ _ Lba _ =>
      if Lba = 100 ∨ Lba = 150 then (EFI_SUCCESS, loopSample) else (-1, zeroMem) }

/-- A sector whose first four bytes are 0xFF, so that its bytes sum up to 1020. -/
def busySample : Mem := poke zeroMem 0 [255, 255, 255, 255]

/-- An MBR table whose entry 0 has start LBA 50 and size 20 and whose entry 1
has start LBA 100 and size 10, both of type 0x83. -/
def reconcileTable : List Nat :=
  [0, 0, 0, 0, 0x83, 0, 0, 0, 50, 0, 0, 0, 20, 0, 0, 0,
   0, 0, 0, 0, 0x83, 0, 0, 0, 100, 0, 0, 0, 10, 0, 0, 0] ++ List.replicate 32 0

/-- A firmware whose reads all deliver `busySample`; the medium behind block
I/O 8 has 10 blocks, every other one 1001. -/
def reconcileFirmware : Firmware :=
  { plainFirmware with
    ReadBlocks := fun _ _ _ _ => (EFI_SUCCESS, busySample),
    Media := fun b =>
      { MediaId := 0, LogicalPartition := false, BlockSize := 512,
        LastBlock := if b = 8 then 9 else 1000 } }

/-- The same sectors and media as `reconcileFirmware` behind a firmware that
differs in its other answers. -/
def otherFirmware : Firmware :=
  { reconcileFirmware with
    LibOpenRoot := fun _ => 1,
    LibFileSystemInfo := fun _ => some { VolumeSize := 5, VolumeLabel := "x" },
    IsIn := fun _ _ => true,
    BlockIoOfHandle := fun _ => (EFI_SUCCESS, 3),
    FileOpen := fun _ _ => EFI_SUCCESS }

/-- A whole-disk volume with block I/O 7 that has retained `reconcileTable`. -/
def reconcileDisk : REFIT_VOLUME :=
  { zeroVolume with
    BlockIO := 7, WholeDiskBlockIO := 7, MbrPartitionTable := some reconcileTable }

/-- A partition volume with block I/O 8 on the whole disk with block I/O 7. -/
def reconcilePartition : REFIT_VOLUME := { zeroVolume with BlockIO := 8, WholeDiskBlockIO := 7 }

/-- An MBR table whose entry 0 is empty, with start LBA 0 and size 0, and whose
entry 1 has start LBA 100 and size 10 and type 0x83. -/
def emptySlotTable : List Nat :=
  List.replicate 16 0 ++ [0, 0, 0, 0, 0x83, 0, 0, 0, 100, 0, 0, 0, 10, 0, 0, 0]
    ++ List.replicate 32 0

/-- A whole-disk volume with block I/O 7 that has retained `emptySlotTable`. -/
def emptySlotDisk : REFIT_VOLUME :=
  { zeroVolume with
    BlockIO := 7, WholeDiskBlockIO := 7, MbrPartitionTable := some emptySlotTable }

/-- A firmware whose reads all deliver `busySample`; the medium behind block
I/O 8 reports the last block 2^64 - 1, every other one 1000. -/
def lastBlockFirmware : Firmware :=
  { plainFirmware with
    ReadBlocks := fun _ _ _ _ => (EFI_SUCCESS, busySample),
    Media := fun b =>
      { MediaId := 0, LogicalPartition := false, BlockSize := 512,
        LastBlock := if b = 8 then 2 ^ 64 - 1 else 1000 } }

/-- A firmware with the handles 7 and 8, each with block I/O and an open root
directory, whose reads all deliver `ext4Sample`: two ext4 volumes with the
same UUID. -/
def dupFirmware : Firmware :=
  { readFirmware ext4Sample with
    LocateHandle := (EFI_SUCCESS, [7, 8]),
    LibOpenRoot := fun _ => 1,
    BlockIoOfHandle := fun Handle => (EFI_SUCCESS, Handle) }

/-- The firmware `dupFirmware` without a filesystem driver: no root directory
can be opened. -/
def noDriverFirmware : Firmware :=
  { dupFirmware with LibOpenRoot := fun _ => 0 }

/-- The first sector of a disk with "LILO" at offset 2, the 0xAA55 signature
and a table whose entry 0 is an extended partition of type 0x05 with start
LBA 100 and size 10. -/
def extMbrSample : Mem :=
  poke (poke (poke (poke (poke zeroMem 2 (strBytes "LILO")) 450 [0x05]) 454 [100, 0, 0, 0]) 458
    [10, 0, 0, 0]) 510 [0x55, 0xAA]

/-- A firmware with the handle 7 of a whole disk and the handle 8 of a partition
on it. The disk has `extMbrSample` in sector 0 and `embrSample` in sector 100;
all other reads fail. Only the partition has a root directory. -/
def numberFirmware : Firmware :=
  { plainFirmware with
    LocateHandle := (EFI_SUCCESS, [7, 8]),
    DevicePathFromHandle := fun Handle =>
      if Handle = 7 then some [usbNode, EndDevicePath]
      else some [usbNode, hardDriveNode, EndDevicePath],
    BlockIoOfHandle := fun Handle => (EFI_SUCCESS, Handle),
    LocateDevicePath := fun _ => (EFI_SUCCESS, 7),
    LibOpenRoot := fun Handle => if Handle = 8 then 1 else 0,
    ReadBlocks := fun b _ Lba _ =>
      if b = 7 ∧ Lba = 0 then (EFI_SUCCESS, extMbrSample)
      else if b = 7 ∧ Lba = 100 then (EFI_SUCCESS, embrSample)
      else (-1, zeroMem) }

/-! ## Lemmas -/

theorem bytes_length (Buffer : Mem) (off len : Nat) : (bytes Buffer off len).length = len := by
  simp [bytes]

theorem bytes_ptrAdd (Buffer : Mem) (k off len : Nat) :
    bytes (ptrAdd Buffer k) off len = bytes Buffer (k + off) len := by
  simp [bytes, ptrAdd, rd8, Nat.add_assoc]

theorem bytes_eq_iff (A B : Mem) (a b len : Nat) :
    bytes A a len = bytes B b len ↔ ∀ i, i < len → rd8 A (a + i) = rd8 B (b + i) := by
  unfold bytes
  constructor
  · intro h i hi
    have := congrArg (fun l => l[i]?) h
    simpa [List.getElem?_map, List.getElem?_range hi] using this
  · intro h
    apply List.map_congr_left
    intro i hi
    exact h i (List.mem_range.mp hi)

theorem CompareMem_eq_zero_iff (Dest Src : Mem) (Length : Nat) :
    CompareMem Dest Src Length = 0 ↔ bytes Dest 0 Length = bytes Src 0 Length := by
  rw [bytes_eq_iff]
  unfold CompareMem
  split
  · rename_i h
    simp only [List.find?_eq_none, List.mem_range, decide_eq_true_eq, ne_eq, not_not] at h
    simpa using h
  · rename_i i h
    have h1 := List.find?_some h
    have h2 := List.mem_of_find?_eq_some h
    simp only [decide_eq_true_eq, ne_eq] at h1
    simp only [List.mem_range] at h2
    constructor
    · intro h0
      exact absurd (by omega) h1
    · intro hall
      exact absurd (by simpa using hall i h2) h1

/-- Comparison of `Length` bytes at `Buffer + off` with a string literal of
that many characters. -/
theorem CompareMem_CStr (Buffer : Mem) (off : Nat) (s : String) (Length : Nat)
    (hs : bytes (CStr s) 0 Length = strBytes s) :
    CompareMem (ptrAdd Buffer off) (CStr s) Length = 0 ↔ bytes Buffer off Length = strBytes s := by
  rw [CompareMem_eq_zero_iff, bytes_ptrAdd, hs, Nat.add_zero]

theorem extCond_iff (Buffer : Mem) (N : Nat) :
    (N ≥ 1024 + 100 ∧ rd16 Buffer (1024 + 56) = EXT2_SUPER_MAGIC) ↔ extMatch Buffer N := by
  simp [extMatch, EXT2_SUPER_MAGIC]

theorem reiserCond_iff (Buffer : Mem) (N : Nat) :
    (N ≥ 65536 + 100 ∧
      (CompareMem (ptrAdd Buffer (65536 + 52)) (CStr REISERFS_SUPER_MAGIC_STRING) 8 = 0 ∨
       CompareMem (ptrAdd Buffer (65536 + 52)) (CStr REISER2FS_SUPER_MAGIC_STRING) 9 = 0 ∨
       CompareMem (ptrAdd Buffer (65536 + 52)) (CStr REISER2FS_JR_SUPER_MAGIC_STRING) 9 = 0))
      ↔ reiserMatch Buffer N := by
  rw [CompareMem_CStr _ _ _ _ (by decide), CompareMem_CStr _ _ _ _ (by decide),
    CompareMem_CStr _ _ _ _ (by decide)]
  simp [reiserMatch, REISERFS_SUPER_MAGIC_STRING, REISER2FS_SUPER_MAGIC_STRING,
    REISER2FS_JR_SUPER_MAGIC_STRING]

theorem btrfsCond_iff (Buffer : Mem) (N : Nat) :
    (N ≥ 65536 + 64 + 8 ∧ CompareMem (ptrAdd Buffer (65536 + 64)) (CStr BTRFS_SIGNATURE) 8 = 0)
      ↔ btrfsMatch Buffer N := by
  rw [CompareMem_CStr _ _ _ _ (by decide)]
  simp [btrfsMatch, BTRFS_SIGNATURE]

theorem xfsCond_iff (Buffer : Mem) (N : Nat) :
    (N ≥ 512 ∧ CompareMem Buffer (CStr XFS_SIGNATURE) 4 = 0) ↔ xfsMatch Buffer N := by
  rw [CompareMem_eq_zero_iff, show bytes (CStr XFS_SIGNATURE) 0 4 = strBytes XFS_SIGNATURE by decide]
  simp [xfsMatch, XFS_SIGNATURE]

theorem hfsCond_iff (Buffer : Mem) (N : Nat) :
    (N ≥ 1024 + 2 ∧ (rd16 Buffer 1024 = HFSPLUS_MAGIC1 ∨ rd16 Buffer 1024 = HFSPLUS_MAGIC2))
      ↔ hfsMatch Buffer N := by
  simp [hfsMatch, HFSPLUS_MAGIC1, HFSPLUS_MAGIC2]

theorem bootSigCond_iff (Buffer : Mem) (N : Nat) :
    (N ≥ 512 ∧ rd16 Buffer 510 = FAT_MAGIC) ↔ bootSigMatch Buffer N := by
  simp [bootSigMatch, FAT_MAGIC]

theorem ntfsCond_iff (Buffer : Mem) :
    CompareMem (ptrAdd Buffer 3) (CStr NTFS_SIGNATURE) 8 = 0
      ↔ bytes Buffer 3 8 = strBytes "NTFS    " := by
  rw [CompareMem_CStr _ _ _ _ (by decide)]
  simp [NTFS_SIGNATURE]

theorem SetFilesystemData_of_ext (fw : Firmware) (Buffer : Mem) (N : Nat)
    (Volume : REFIT_VOLUME) (h1 : extMatch Buffer N) :
    ((SetFilesystemData fw (some Buffer) N Volume).FSType = FS_TYPE_EXT2 ∨
      (SetFilesystemData fw (some Buffer) N Volume).FSType = FS_TYPE_EXT3 ∨
      (SetFilesystemData fw (some Buffer) N Volume).FSType = FS_TYPE_EXT4) ∧
    (SetFilesystemData fw (some Buffer) N Volume).VolUuid = bytes Buffer 1128 16 := by
  simp only [SetFilesystemData, extCond_iff, h1, if_true]
  constructor
  · split_ifs <;> simp
  · split_ifs <;> simp [CopyMem, SetMem, sizeof_EFI_GUID, bytes_ptrAdd]

theorem SetFilesystemData_of_reiser (fw : Firmware) (Buffer : Mem) (N : Nat)
    (Volume : REFIT_VOLUME) (h1 : ¬ extMatch Buffer N) (h2 : reiserMatch Buffer N) :
    SetFilesystemData fw (some Buffer) N Volume =
      { resetVolume Volume with FSType := FS_TYPE_REISERFS, VolUuid := bytes Buffer 65620 16 } := by
  simp only [SetFilesystemData, extCond_iff, reiserCond_iff, h1, h2, if_true, if_false]
  simp [resetVolume, CopyMem, SetMem, sizeof_EFI_GUID, bytes_ptrAdd]

theorem SetFilesystemData_of_btrfs (fw : Firmware) (Buffer : Mem) (N : Nat)
    (Volume : REFIT_VOLUME) (h1 : ¬ extMatch Buffer N) (h2 : ¬ reiserMatch Buffer N)
    (h3 : btrfsMatch Buffer N) :
    SetFilesystemData fw (some Buffer) N Volume =
      { resetVolume Volume with FSType := FS_TYPE_BTRFS } := by
  simp only [SetFilesystemData, extCond_iff, reiserCond_iff, btrfsCond_iff, h1, h2, h3,
    if_true, if_false]
  simp [resetVolume, SetMem, sizeof_EFI_GUID]

theorem SetFilesystemData_of_xfs (fw : Firmware) (Buffer : Mem) (N : Nat)
    (Volume : REFIT_VOLUME) (h1 : ¬ extMatch Buffer N) (h2 : ¬ reiserMatch Buffer N)
    (h3 : ¬ btrfsMatch Buffer N) (h4 : xfsMatch Buffer N) :
    SetFilesystemData fw (some Buffer) N Volume =
      { resetVolume Volume with FSType := FS_TYPE_XFS } := by
  simp only [SetFilesystemData, extCond_iff, reiserCond_iff, btrfsCond_iff, xfsCond_iff,
    h1, h2, h3, h4, if_true, if_false]
  simp [resetVolume, SetMem, sizeof_EFI_GUID]

theorem SetFilesystemData_of_hfs (fw : Firmware) (Buffer : Mem) (N : Nat)
    (Volume : REFIT_VOLUME) (h1 : ¬ extMatch Buffer N) (h2 : ¬ reiserMatch Buffer N)
    (h3 : ¬ btrfsMatch Buffer N) (h4 : ¬ xfsMatch Buffer N) (h5 : hfsMatch Buffer N) :
    SetFilesystemData fw (some Buffer) N Volume =
      { resetVolume Volume with FSType := FS_TYPE_HFSPLUS } := by
  simp only [SetFilesystemData, extCond_iff, reiserCond_iff, btrfsCond_iff, xfsCond_iff,
    hfsCond_iff, h1, h2, h3, h4, h5, if_true, if_false]
  simp [resetVolume, SetMem, sizeof_EFI_GUID]

theorem SetFilesystemData_of_bootSig (fw : Firmware) (Buffer : Mem) (N : Nat)
    (Volume : REFIT_VOLUME) (h1 : ¬ extMatch Buffer N) (h2 : ¬ reiserMatch Buffer N)
    (h3 : ¬ btrfsMatch Buffer N) (h4 : ¬ xfsMatch Buffer N) (h5 : ¬ hfsMatch Buffer N)
    (h6 : bootSigMatch Buffer N) :
    SetFilesystemData fw (some Buffer) N Volume =
      if bytes Buffer 3 8 = strBytes "NTFS    " then
        { resetVolume Volume with
          FSType := FS_TYPE_NTFS, VolUuid := bytes Buffer 0x48 8 ++ List.replicate 8 0 }
      else if fw.LibOpenRoot Volume.DeviceHandle ≠ NULL then
        { resetVolume Volume with FSType := FS_TYPE_FAT }
      else if (fw.Media Volume.BlockIO).LogicalPartition = false then
        { resetVolume Volume with FSType := FS_TYPE_WHOLEDISK }
      else resetVolume Volume := by
  simp only [SetFilesystemData, extCond_iff, reiserCond_iff, btrfsCond_iff, xfsCond_iff,
    hfsCond_iff, bootSigCond_iff, ntfsCond_iff, h1, h2, h3, h4, h5, h6, if_true, if_false]
  split_ifs <;>
    simp_all [resetVolume, CopyMem, SetMem, sizeof_EFI_GUID, sizeof_UINT64, bytes_ptrAdd]

theorem SetFilesystemData_of_none (fw : Firmware) (Buffer : Mem) (N : Nat)
    (Volume : REFIT_VOLUME) (h1 : ¬ extMatch Buffer N) (h2 : ¬ reiserMatch Buffer N)
    (h3 : ¬ btrfsMatch Buffer N) (h4 : ¬ xfsMatch Buffer N) (h5 : ¬ hfsMatch Buffer N)
    (h6 : ¬ bootSigMatch Buffer N) :
    SetFilesystemData fw (some Buffer) N Volume =
      if (fw.Media Volume.BlockIO).BlockSize = 2048 then
        { resetVolume Volume with FSType := FS_TYPE_ISO9660 }
      else resetVolume Volume := by
  simp only [SetFilesystemData, extCond_iff, reiserCond_iff, btrfsCond_iff, xfsCond_iff,
    hfsCond_iff, bootSigCond_iff, h1, h2, h3, h4, h5, h6, if_false]
  split_ifs <;> simp [resetVolume, SetMem, sizeof_EFI_GUID]

theorem sameExceptBoot_ite {c : Prop} [Decidable c] {V a b : REFIT_VOLUME}
    (ha : sameExceptBoot V a) (hb : sameExceptBoot V b) :
    sameExceptBoot V (if c then a else b) := by
  split <;> assumption

theorem sameExceptBoot_refl (V : REFIT_VOLUME) : sameExceptBoot V V := rfl

theorem sameExceptBoot_set (V : REFIT_VOLUME) (b : Bool) (i n : Option String) :
    sameExceptBoot V { V with HasBootCode := b, OSIconName := i, OSName := n } := rfl

theorem sameExceptBoot_flag (V : REFIT_VOLUME) (b : Bool) :
    sameExceptBoot V { V with HasBootCode := b } := rfl

theorem sameExceptBoot_trans {U V W : REFIT_VOLUME} (h1 : sameExceptBoot U V)
    (h2 : sameExceptBoot V W) : sameExceptBoot U W := by
  unfold sameExceptBoot at *
  rw [h2, h1]

/-- `SetFilesystemData` changes nothing but the filesystem type and the UUID. -/
theorem SetFilesystemData_frame (fw : Firmware) (Buffer : Option Mem) (N : Nat)
    (Volume : REFIT_VOLUME) : sameExceptFs Volume (SetFilesystemData fw Buffer N Volume) := by
  cases Buffer with
  | none => rfl
  | some Buffer =>
    by_cases h1 : extMatch Buffer N
    · simp only [SetFilesystemData, extCond_iff, h1, if_true, sameExceptFs]
      split_ifs <;> rfl
    by_cases h2 : reiserMatch Buffer N
    · rw [SetFilesystemData_of_reiser fw Buffer N Volume h1 h2]
      rfl
    by_cases h3 : btrfsMatch Buffer N
    · rw [SetFilesystemData_of_btrfs fw Buffer N Volume h1 h2 h3]
      rfl
    by_cases h4 : xfsMatch Buffer N
    · rw [SetFilesystemData_of_xfs fw Buffer N Volume h1 h2 h3 h4]
      rfl
    by_cases h5 : hfsMatch Buffer N
    · rw [SetFilesystemData_of_hfs fw Buffer N Volume h1 h2 h3 h4 h5]
      rfl
    by_cases h6 : bootSigMatch Buffer N
    · rw [SetFilesystemData_of_bootSig fw Buffer N Volume h1 h2 h3 h4 h5 h6]
      split_ifs <;> rfl
    · rw [SetFilesystemData_of_none fw Buffer N Volume h1 h2 h3 h4 h5 h6]
      split_ifs <;> rfl

theorem SetFilesystemData_MbrPartitionTable (fw : Firmware) (Buffer : Option Mem) (N : Nat)
    (Volume : REFIT_VOLUME) :
    (SetFilesystemData fw Buffer N Volume).MbrPartitionTable = Volume.MbrPartitionTable := by
  have h := SetFilesystemData_frame fw Buffer N Volume
  unfold sameExceptFs at h
  rw [h]

theorem signature_frame (Buffer : Mem) (Volume : REFIT_VOLUME) (Bootable : Bool) :
    sameExceptBoot Volume (ScanVolumeBootcode.signature Buffer Volume Bootable).1 := by
  unfold ScanVolumeBootcode.signature
  split
  · exact sameExceptBoot_flag Volume true
  · exact sameExceptBoot_refl Volume

theorem bootcodes_frame (Buffer : Mem) (Volume : REFIT_VOLUME) :
    sameExceptBoot Volume (ScanVolumeBootcode.bootcodes Buffer Volume) := by
  unfold ScanVolumeBootcode.bootcodes
  repeat (first
    | apply sameExceptBoot_ite
    | exact sameExceptBoot_set Volume _ _ _
    | exact sameExceptBoot_refl Volume)

theorem dummies_frame (Buffer : Mem) (Volume : REFIT_VOLUME) :
    sameExceptBoot Volume (ScanVolumeBootcode.dummies Buffer Volume) := by
  have step : ∀ (c : Prop) [Decidable c] (W : REFIT_VOLUME), sameExceptBoot Volume W →
      sameExceptBoot Volume (if c then { W with HasBootCode := false } else W) := by
    intro c _ W hW
    apply sameExceptBoot_ite
    · exact sameExceptBoot_trans hW (sameExceptBoot_flag W false)
    · exact hW
  unfold ScanVolumeBootcode.dummies
  exact step _ _ (step _ _ (step _ _ (sameExceptBoot_refl Volume)))

theorem signature_MbrPartitionTable (Buffer : Mem) (Volume : REFIT_VOLUME) (Bootable : Bool) :
    (ScanVolumeBootcode.signature Buffer Volume Bootable).1.MbrPartitionTable
      = Volume.MbrPartitionTable := by
  have h := signature_frame Buffer Volume Bootable
  unfold sameExceptBoot at h
  rw [h]

theorem bootcodes_MbrPartitionTable (Buffer : Mem) (Volume : REFIT_VOLUME) :
    (ScanVolumeBootcode.bootcodes Buffer Volume).MbrPartitionTable
      = Volume.MbrPartitionTable := by
  have h := bootcodes_frame Buffer Volume
  unfold sameExceptBoot at h
  rw [h]

theorem dummies_MbrPartitionTable (Buffer : Mem) (Volume : REFIT_VOLUME) :
    (ScanVolumeBootcode.dummies Buffer Volume).MbrPartitionTable
      = Volume.MbrPartitionTable := by
  have h := dummies_frame Buffer Volume
  unfold sameExceptBoot at h
  rw [h]

theorem MbrEntry_ptrAdd (Buffer : Mem) (i : Nat) :
    MbrEntry (ptrAdd Buffer 446) i =
      { Flags := rd8 Buffer (446 + 16 * i), Type_ := rd8 Buffer (446 + 16 * i + 4),
        StartLBA := rd32 Buffer (446 + 16 * i + 8), Size := rd32 Buffer (446 + 16 * i + 12) } := by
  simp [MbrEntry, ptrAdd, rd8, rd32, Nat.add_assoc]

theorem foldl_set_true {α : Type} (P : α → Prop) [DecidablePred P] (l : List α) (b : Bool) :
    l.foldl (fun Found i => if P i then true else Found) b = (b || l.any (fun i => decide (P i))) := by
  induction l generalizing b with
  | nil => simp
  | cons x xs ih =>
    simp only [List.foldl_cons, List.any_cons]
    rw [ih]
    by_cases hx : P x <;> simp [hx]

theorem foldl_set_false {α : Type} (Q : α → Prop) [DecidablePred Q] (l : List α) (b : Bool) :
    l.foldl (fun Found i => if Q i then false else Found) b
      = (b && l.all (fun i => decide (¬ Q i))) := by
  induction l generalizing b with
  | nil => simp
  | cons x xs ih =>
    simp only [List.foldl_cons, List.all_cons]
    rw [ih]
    by_cases hx : Q x <;> simp [hx]

theorem mbrTableFound_iff (Buffer : Mem) :
    ScanVolumeBootcode.mbrTableFound (ptrAdd Buffer 446) = true
      ↔ mbrHasPartition Buffer ∧ mbrFlagsValid Buffer := by
  unfold ScanVolumeBootcode.mbrTableFound
  simp only [MbrEntry_ptrAdd]
  rw [foldl_set_true (fun i => rd32 Buffer (446 + 16 * i + 8) ≠ 0 ∧
      rd32 Buffer (446 + 16 * i + 12) ≠ 0)]
  rw [foldl_set_false (fun i => rd8 Buffer (446 + 16 * i) ≠ 0x00 ∧
      rd8 Buffer (446 + 16 * i) ≠ 0x80)]
  simp only [Bool.false_or, Bool.and_eq_true, List.any_eq_true, List.all_eq_true,
    List.mem_range, decide_eq_true_eq]
  unfold mbrHasPartition mbrFlagsValid
  constructor
  · rintro ⟨⟨i, hi, h⟩, hall⟩
    refine ⟨⟨i, hi, h⟩, ?_⟩
    intro j hj
    have := hall j hj
    by_cases h0 : rd8 Buffer (446 + 16 * j) = 0x00
    · exact Or.inl h0
    · by_cases h8 : rd8 Buffer (446 + 16 * j) = 0x80
      · exact Or.inr h8
      · exact absurd ⟨h0, h8⟩ this
  · rintro ⟨⟨i, hi, h⟩, hall⟩
    refine ⟨⟨i, hi, h⟩, ?_⟩
    intro j hj hbad
    rcases hall j hj with h0 | h8
    · exact hbad.1 h0
    · exact hbad.2 h8

theorem mbrTable_MbrPartitionTable (Buffer : Mem) (Volume : REFIT_VOLUME) :
    (ScanVolumeBootcode.mbrTable Buffer Volume).MbrPartitionTable =
      if rd16 Buffer 510 = 0xAA55 ∧ mbrHasPartition Buffer ∧ mbrFlagsValid Buffer then
        some (bytes Buffer 446 64)
      else Volume.MbrPartitionTable := by
  unfold ScanVolumeBootcode.mbrTable
  by_cases hsig : rd16 Buffer 510 = 0xaa55
  · by_cases hf : ScanVolumeBootcode.mbrTableFound (ptrAdd Buffer 446) = true
    · have hc : rd16 Buffer 510 = 0xAA55 ∧ mbrHasPartition Buffer ∧ mbrFlagsValid Buffer :=
        ⟨hsig, (mbrTableFound_iff Buffer).mp hf⟩
      rw [if_pos hsig, if_pos hc]
      simp only [hf, if_true]
      have hlen : List.drop (4 * 16) (List.replicate (4 * 16) 0) = ([] : List Nat) := by decide
      simp only [CopyMem, bytes_ptrAdd, hlen, List.append_nil, Nat.add_zero]
    · have hc : ¬ (rd16 Buffer 510 = 0xAA55 ∧ mbrHasPartition Buffer ∧ mbrFlagsValid Buffer) :=
        fun h => hf ((mbrTableFound_iff Buffer).mpr h.2)
      rw [if_pos hsig, if_neg hc]
      simp only [hf]
      rfl
  · have hc : ¬ (rd16 Buffer 510 = 0xAA55 ∧ mbrHasPartition Buffer ∧ mbrFlagsValid Buffer) :=
      fun h => hsig h.1
    rw [if_neg hsig, if_neg hc]

/-- The retained MBR table after `ScanVolumeBootcode`, in one formula. -/
theorem ScanVolumeBootcode_MbrPartitionTable (GlobalConfig : REFIT_CONFIG) (fw : Firmware)
    (Volume : REFIT_VOLUME) :
    (ScanVolumeBootcode GlobalConfig fw Volume).1.MbrPartitionTable =
      if Volume.BlockIO ≠ NULL ∧ (fw.Media Volume.BlockIO).BlockSize ≤ SAMPLE_SIZE ∧
          (fw.ReadBlocks Volume.BlockIO (fw.Media Volume.BlockIO).MediaId
            Volume.BlockIOOffset SAMPLE_SIZE).1 = EFI_SUCCESS ∧
          GlobalConfig.LegacyType = LEGACY_TYPE_MAC ∧
          rd16 (fw.ReadBlocks Volume.BlockIO (fw.Media Volume.BlockIO).MediaId
            Volume.BlockIOOffset SAMPLE_SIZE).2 510 = 0xAA55 ∧
          mbrHasPartition (fw.ReadBlocks Volume.BlockIO (fw.Media Volume.BlockIO).MediaId
            Volume.BlockIOOffset SAMPLE_SIZE).2 ∧
          mbrFlagsValid (fw.ReadBlocks Volume.BlockIO (fw.Media Volume.BlockIO).MediaId
            Volume.BlockIOOffset SAMPLE_SIZE).2 then
        some (bytes (fw.ReadBlocks Volume.BlockIO (fw.Media Volume.BlockIO).MediaId
            Volume.BlockIOOffset SAMPLE_SIZE).2 446 64)
      else Volume.MbrPartitionTable := by
  simp only [ScanVolumeBootcode]
  by_cases h1 : Volume.BlockIO = NULL
  · simp [h1]
  by_cases h2 : (fw.Media Volume.BlockIO).BlockSize > SAMPLE_SIZE
  · have h2b : ¬ (fw.Media Volume.BlockIO).BlockSize ≤ SAMPLE_SIZE := by omega
    simp [h1, h2, h2b]
  have h2b : (fw.Media Volume.BlockIO).BlockSize ≤ SAMPLE_SIZE := by omega
  simp only [h1, h2, if_false, ne_eq, not_false_eq_true, true_and, h2b]
  by_cases h3 : (fw.ReadBlocks Volume.BlockIO (fw.Media Volume.BlockIO).MediaId
      Volume.BlockIOOffset SAMPLE_SIZE).1 = EFI_SUCCESS ∧
      GlobalConfig.LegacyType = LEGACY_TYPE_MAC
  · simp only [h3, and_self, if_true, true_and]
    rw [mbrTable_MbrPartitionTable, dummies_MbrPartitionTable, bootcodes_MbrPartitionTable,
      signature_MbrPartitionTable]
    split_ifs <;> simp [SetFilesystemData_MbrPartitionTable]
  · rw [if_neg h3]
    have h3b : ¬ ((fw.ReadBlocks Volume.BlockIO (fw.Media Volume.BlockIO).MediaId
        Volume.BlockIOOffset SAMPLE_SIZE).1 = EFI_SUCCESS ∧
        GlobalConfig.LegacyType = LEGACY_TYPE_MAC ∧
        rd16 (fw.ReadBlocks Volume.BlockIO (fw.Media Volume.BlockIO).MediaId
          Volume.BlockIOOffset SAMPLE_SIZE).2 510 = 0xAA55 ∧
        mbrHasPartition (fw.ReadBlocks Volume.BlockIO (fw.Media Volume.BlockIO).MediaId
          Volume.BlockIOOffset SAMPLE_SIZE).2 ∧
        mbrFlagsValid (fw.ReadBlocks Volume.BlockIO (fw.Media Volume.BlockIO).MediaId
          Volume.BlockIOOffset SAMPLE_SIZE).2) := fun h => h3 ⟨h.1, h.2.1⟩
    rw [if_neg h3b]
    split_ifs <;> simp [SetFilesystemData_MbrPartitionTable]

/-! ### `FindMem` -/

theorem toINTN_of_lt (x : Nat) (h : x < 2 ^ 63) : toINTN x = (x : Int) := by
  unfold toINTN
  have h1 : x % 2 ^ 64 = x := Nat.mod_eq_of_lt (by omega)
  rw [h1, if_pos h]

/-- What `FindMem` finds: an offset below `L - m`. -/
theorem FindMem_nonneg_iff (Buffer : Mem) (L : Nat) (S : Mem) (m : Nat) (hm : m ≤ L)
    (hL : L < 2 ^ 63) :
    FindMem Buffer L S m ≥ 0 ↔ ∃ o, o < L - m ∧ bytes Buffer o m = bytes S 0 m := by
  unfold FindMem
  have hlen : (L + 2 ^ 64 - m % 2 ^ 64) % 2 ^ 64 = L - m := by omega
  simp only [hlen]
  split
  · rename_i o h
    have h1 := List.find?_some h
    have h2 := List.mem_of_find?_eq_some h
    simp only [decide_eq_true_eq] at h1
    simp only [List.mem_range] at h2
    rw [CompareMem_eq_zero_iff, bytes_ptrAdd, Nat.add_zero] at h1
    rw [toINTN_of_lt o (by omega)]
    constructor
    · intro _
      exact ⟨o, h2, h1⟩
    · intro _
      exact Int.ofNat_nonneg o
  · rename_i h
    simp only [List.find?_eq_none, List.mem_range, decide_eq_true_eq] at h
    constructor
    · intro hneg
      exact absurd hneg (by decide)
    · rintro ⟨o, ho, hb⟩
      exact absurd (by rw [CompareMem_eq_zero_iff, bytes_ptrAdd, Nat.add_zero]; exact hb) (h o ho)

theorem FindMem_eq_neg_one_iff (Buffer : Mem) (L : Nat) (S : Mem) (m : Nat) (hm : m ≤ L)
    (hL : L < 2 ^ 63) :
    FindMem Buffer L S m = -1 ↔ ¬ ∃ o, o < L - m ∧ bytes Buffer o m = bytes S 0 m := by
  rw [← FindMem_nonneg_iff Buffer L S m hm hL]
  unfold FindMem
  have hlen : (L + 2 ^ 64 - m % 2 ^ 64) % 2 ^ 64 = L - m := by omega
  simp only [hlen]
  split
  · rename_i o h
    have h2 := List.mem_of_find?_eq_some h
    simp only [List.mem_range] at h2
    rw [toINTN_of_lt o (by omega)]
    constructor
    · intro h1
      omega
    · intro h1
      exact absurd (Int.ofNat_nonneg o) h1
  · constructor
    · intro _
      decide
    · intro _
      rfl

/-- A search for a string literal of `m` characters. -/
theorem FindMem_CStr (Buffer : Mem) (L : Nat) (s : String) (m : Nat)
    (hs : bytes (CStr s) 0 m = strBytes s) (hlen : s.length = m) (hm : m ≤ L)
    (hL : L < 2 ^ 63) :
    FindMem Buffer L (CStr s) m ≥ 0 ↔ foundBefore Buffer L s := by
  rw [FindMem_nonneg_iff Buffer L (CStr s) m hm hL, hs]
  unfold foundBefore atOffset
  rw [hlen]

theorem FindMem_CStr_neg (Buffer : Mem) (L : Nat) (s : String) (m : Nat)
    (hs : bytes (CStr s) 0 m = strBytes s) (hlen : s.length = m) (hm : m ≤ L)
    (hL : L < 2 ^ 63) :
    FindMem Buffer L (CStr s) m = -1 ↔ ¬ foundBefore Buffer L s := by
  rw [FindMem_eq_neg_one_iff Buffer L (CStr s) m hm hL, hs]
  unfold foundBefore atOffset
  rw [hlen]

theorem CompareMem_atOffset (Buffer : Mem) (off : Nat) (s : String) (m : Nat)
    (hs : bytes (CStr s) 0 m = strBytes s) (hlen : s.length = m) :
    CompareMem (ptrAdd Buffer off) (CStr s) m = 0 ↔ atOffset Buffer off s := by
  rw [CompareMem_CStr Buffer off s m hs]
  unfold atOffset
  rw [hlen]

/-! ### The phases of `ScanVolumeBootcode` -/

theorem sameExceptBoot_fields {V W : REFIT_VOLUME} (h : sameExceptBoot V W) :
    W.FSType = V.FSType ∧ W.VolUuid = V.VolUuid ∧ W.MbrPartitionTable = V.MbrPartitionTable := by
  unfold sameExceptBoot at h
  rw [h]
  exact ⟨rfl, rfl, rfl⟩

theorem sameExceptScan_of_boot {V W : REFIT_VOLUME} (h : sameExceptBoot V W) :
    sameExceptScan V W := by
  unfold sameExceptBoot at h
  unfold sameExceptScan
  rw [h]

theorem sameExceptScan_of_fs {V W : REFIT_VOLUME} (h : sameExceptFs V W) :
    sameExceptScan V W := by
  unfold sameExceptFs at h
  unfold sameExceptScan
  rw [h]

theorem sameExceptScan_trans {U V W : REFIT_VOLUME} (h1 : sameExceptScan U V)
    (h2 : sameExceptScan V W) : sameExceptScan U W := by
  unfold sameExceptScan at *
  rw [h2, h1]

theorem signature_eq (Buffer : Mem) (Volume : REFIT_VOLUME) (Bootable : Bool) :
    ScanVolumeBootcode.signature Buffer Volume Bootable =
      if rd16 Buffer 510 = 0xAA55 ∧ rd8 Buffer 0 ≠ 0 ∧ ¬ foundBefore Buffer 512 "EXFAT" then
        ({ Volume with HasBootCode := true }, true)
      else (Volume, Bootable) := by
  unfold ScanVolumeBootcode.signature
  simp only [FindMem_CStr_neg Buffer 512 "EXFAT" 5 (by decide) (by decide) (by decide)
    (by decide)]
  by_cases h : rd16 Buffer 510 = 0xAA55 ∧ rd8 Buffer 0 ≠ 0 ∧ ¬ foundBefore Buffer 512 "EXFAT"
  · rw [if_pos h, if_pos ⟨⟨h.1, h.2.1⟩, h.2.2⟩]
  · rw [if_neg h, if_neg (fun h2 => h ⟨h2.1.1, h2.1.2, h2.2⟩)]

theorem dummies_eq (Buffer : Mem) (Volume : REFIT_VOLUME) :
    ScanVolumeBootcode.dummies Buffer Volume =
      { Volume with HasBootCode := if dummyFound Buffer then false else Volume.HasBootCode } := by
  have e1 := FindMem_CStr Buffer 512 "Non-system disk" 15 (by decide) (by decide) (by decide)
    (by decide)
  have e2 := FindMem_CStr Buffer 512 "This is not a bootable disk" 27 (by decide) (by decide)
    (by decide) (by decide)
  have e3 := FindMem_CStr Buffer 512 "Press any key to restart" 24 (by decide) (by decide)
    (by decide) (by decide)
  simp only [ScanVolumeBootcode.dummies, dummyFound, e1, e2, e3]
  by_cases h1 : foundBefore Buffer 512 "Non-system disk" <;>
  by_cases h2 : foundBefore Buffer 512 "This is not a bootable disk" <;>
  by_cases h3 : foundBefore Buffer 512 "Press any key to restart" <;>
  simp only [h1, h2, h3, if_true, if_false, or_true, true_or, or_self]

theorem mbrTable_eq (Buffer : Mem) (Volume : REFIT_VOLUME) :
    ScanVolumeBootcode.mbrTable Buffer Volume =
      { Volume with
        MbrPartitionTable := (ScanVolumeBootcode.mbrTable Buffer Volume).MbrPartitionTable } := by
  unfold ScanVolumeBootcode.mbrTable
  split
  · simp only []
    split <;> rfl
  · rfl

/-- `ScanVolumeBootcode` when the sample is read and legacy mode is on. -/
theorem ScanVolumeBootcode_active (GlobalConfig : REFIT_CONFIG) (fw : Firmware)
    (Volume : REFIT_VOLUME) (Buffer : Mem)
    (hbio : Volume.BlockIO ≠ NULL)
    (hbs : (fw.Media Volume.BlockIO).BlockSize ≤ SAMPLE_SIZE)
    (hread : fw.ReadBlocks Volume.BlockIO (fw.Media Volume.BlockIO).MediaId
      Volume.BlockIOOffset SAMPLE_SIZE = (EFI_SUCCESS, Buffer))
    (hlegacy : GlobalConfig.LegacyType = LEGACY_TYPE_MAC) :
    ScanVolumeBootcode GlobalConfig fw Volume =
      (ScanVolumeBootcode.mbrTable Buffer (ScanVolumeBootcode.dummies Buffer
        (ScanVolumeBootcode.bootcodes Buffer (ScanVolumeBootcode.signature Buffer
          (SetFilesystemData fw (some Buffer) SAMPLE_SIZE (clearBoot Volume)) false).1)),
       (ScanVolumeBootcode.signature Buffer
          (SetFilesystemData fw (some Buffer) SAMPLE_SIZE (clearBoot Volume)) false).2) := by
  have hbs2 : ¬ (fw.Media Volume.BlockIO).BlockSize > SAMPLE_SIZE := by omega
  have herr : EFI_ERROR EFI_SUCCESS = false := by decide
  simp only [ScanVolumeBootcode, hbio, hbs2, hread, hlegacy, herr, if_false, and_self, if_true,
    Bool.false_eq_true, not_false_eq_true, clearBoot]

/-- `ScanVolumeBootcode` when legacy mode is off. -/
theorem ScanVolumeBootcode_inactive (GlobalConfig : REFIT_CONFIG) (fw : Firmware)
    (Volume : REFIT_VOLUME) (hlegacy : GlobalConfig.LegacyType ≠ LEGACY_TYPE_MAC) :
    ScanVolumeBootcode GlobalConfig fw Volume =
      (if Volume.BlockIO = NULL then clearBoot Volume
       else if (fw.Media Volume.BlockIO).BlockSize > SAMPLE_SIZE then clearBoot Volume
       else if ¬ EFI_ERROR (fw.ReadBlocks Volume.BlockIO (fw.Media Volume.BlockIO).MediaId
          Volume.BlockIOOffset SAMPLE_SIZE).1 then
         SetFilesystemData fw
           (some (fw.ReadBlocks Volume.BlockIO (fw.Media Volume.BlockIO).MediaId
             Volume.BlockIOOffset SAMPLE_SIZE).2) SAMPLE_SIZE (clearBoot Volume)
       else clearBoot Volume, false) := by
  simp only [ScanVolumeBootcode, hlegacy, and_false, if_false, clearBoot]
  split_ifs <;> rfl

/-! ### The boot-code pattern table -/

theorem patternLinux_iff (Buffer : Mem) :
    (CompareMem (ptrAdd Buffer 2) (CStr "LILO") 4 = 0 ∨
      CompareMem (ptrAdd Buffer 6) (CStr "LILO") 4 = 0 ∨
      CompareMem (ptrAdd Buffer 3) (CStr "SYSLINUX") 8 = 0 ∨
      FindMem Buffer SECTOR_SIZE (CStr "ISOLINUX") 8 ≥ 0) ↔ patternLinux Buffer := by
  have e0 := CompareMem_atOffset Buffer 2 "LILO" 4 (by decide) (by decide)
  have e1 := CompareMem_atOffset Buffer 6 "LILO" 4 (by decide) (by decide)
  have e2 := CompareMem_atOffset Buffer 3 "SYSLINUX" 8 (by decide) (by decide)
  have e3 := FindMem_CStr Buffer 4096 "ISOLINUX" 8 (by decide) (by decide) (by decide)
    (by decide)
  simp only [SECTOR_SIZE, patternLinux, e0, e1, e2, e3]

theorem patternGrub_iff (Buffer : Mem) :
    (FindMem Buffer 512 (CStr "Geom\x00Hard Disk\x00Read\x00 Error") 26 ≥ 0) ↔ patternGrub Buffer := by
  have e0 := FindMem_CStr Buffer 512 "Geom\x00Hard Disk\x00Read\x00 Error" 26 (by decide) (by decide) (by decide)
    (by decide)
  simp only [SECTOR_SIZE, patternGrub, e0]

theorem patternFreeBsd_iff (Buffer : Mem) :
    ((rd32 Buffer 502 = 0 ∧ rd32 Buffer 506 = 50000 ∧ rd16 Buffer 510 = 0xaa55) ∨
      FindMem Buffer SECTOR_SIZE (CStr "Starting the BTX loader") 23 ≥ 0) ↔ patternFreeBsd Buffer := by
  have e0 := FindMem_CStr Buffer 4096 "Starting the BTX loader" 23 (by decide) (by decide) (by decide)
    (by decide)
  simp only [SECTOR_SIZE, patternFreeBsd, e0]

theorem patternFreeBsdBoot0_iff (Buffer : Mem) :
    (rd16 Buffer 510 = 0xaa55 ∧
      FindMem Buffer SECTOR_SIZE (CStr "Boot loader too large") 21 ≥ 0 ∧
      FindMem Buffer SECTOR_SIZE (CStr "I/O error loading boot loader") 29 ≥ 0) ↔ patternFreeBsdBoot0 Buffer := by
  have e0 := FindMem_CStr Buffer 4096 "Boot loader too large" 21 (by decide) (by decide) (by decide)
    (by decide)
  have e1 := FindMem_CStr Buffer 4096 "I/O error loading boot loader" 29 (by decide) (by decide) (by decide)
    (by decide)
  simp only [SECTOR_SIZE, patternFreeBsdBoot0, e0, e1]

theorem patternOpenBsd_iff (Buffer : Mem) :
    (FindMem Buffer 512 (CStr "!Loading") 8 ≥ 0 ∨
      FindMem Buffer SECTOR_SIZE (CStr "/cdboot\x00/CDBOOT\x00") 16 ≥ 0) ↔ patternOpenBsd Buffer := by
  have e0 := FindMem_CStr Buffer 512 "!Loading" 8 (by decide) (by decide) (by decide)
    (by decide)
  have e1 := FindMem_CStr Buffer 4096 "/cdboot\x00/CDBOOT\x00" 16 (by decide) (by decide) (by decide)
    (by decide)
  simp only [SECTOR_SIZE, patternOpenBsd, e0, e1]

theorem patternNetBsd_iff (Buffer : Mem) :
    (FindMem Buffer 512 (CStr "Not a bootxx image") 18 ≥ 0 ∨
      rd32 Buffer 1028 = 0x7886b6d1) ↔ patternNetBsd Buffer := by
  have e0 := FindMem_CStr Buffer 512 "Not a bootxx image" 18 (by decide) (by decide) (by decide)
    (by decide)
  simp only [SECTOR_SIZE, patternNetBsd, e0]

theorem patternNtldr_iff (Buffer : Mem) :
    (FindMem Buffer SECTOR_SIZE (CStr "NTLDR") 5 ≥ 0) ↔ patternNtldr Buffer := by
  have e0 := FindMem_CStr Buffer 4096 "NTLDR" 5 (by decide) (by decide) (by decide)
    (by decide)
  simp only [SECTOR_SIZE, patternNtldr, e0]

theorem patternBootmgr_iff (Buffer : Mem) :
    (FindMem Buffer SECTOR_SIZE (CStr "BOOTMGR") 7 ≥ 0) ↔ patternBootmgr Buffer := by
  have e0 := FindMem_CStr Buffer 4096 "BOOTMGR" 7 (by decide) (by decide) (by decide)
    (by decide)
  simp only [SECTOR_SIZE, patternBootmgr, e0]

theorem patternFreeDos_iff (Buffer : Mem) :
    (FindMem Buffer 512 (CStr "CPUBOOT SYS") 11 ≥ 0 ∨
      FindMem Buffer 512 (CStr "KERNEL  SYS") 11 ≥ 0) ↔ patternFreeDos Buffer := by
  have e0 := FindMem_CStr Buffer 512 "CPUBOOT SYS" 11 (by decide) (by decide) (by decide)
    (by decide)
  have e1 := FindMem_CStr Buffer 512 "KERNEL  SYS" 11 (by decide) (by decide) (by decide)
    (by decide)
  simp only [SECTOR_SIZE, patternFreeDos, e0, e1]

theorem patternEComStation_iff (Buffer : Mem) :
    (FindMem Buffer 512 (CStr "OS2LDR") 6 ≥ 0 ∨
      FindMem Buffer 512 (CStr "OS2BOOT") 7 ≥ 0) ↔ patternEComStation Buffer := by
  have e0 := FindMem_CStr Buffer 512 "OS2LDR" 6 (by decide) (by decide) (by decide)
    (by decide)
  have e1 := FindMem_CStr Buffer 512 "OS2BOOT" 7 (by decide) (by decide) (by decide)
    (by decide)
  simp only [SECTOR_SIZE, patternEComStation, e0, e1]

theorem patternBeOs_iff (Buffer : Mem) :
    (FindMem Buffer 512 (CStr "Be Boot Loader") 14 ≥ 0) ↔ patternBeOs Buffer := by
  have e0 := FindMem_CStr Buffer 512 "Be Boot Loader" 14 (by decide) (by decide) (by decide)
    (by decide)
  simp only [SECTOR_SIZE, patternBeOs, e0]

theorem patternZeta_iff (Buffer : Mem) :
    (FindMem Buffer 512 (CStr "yT Boot Loader") 14 ≥ 0) ↔ patternZeta Buffer := by
  have e0 := FindMem_CStr Buffer 512 "yT Boot Loader" 14 (by decide) (by decide) (by decide)
    (by decide)
  simp only [SECTOR_SIZE, patternZeta, e0]

theorem patternHaiku_iff (Buffer : Mem) :
    (FindMem Buffer 512 (CStr "\x04beos\x06system\x05zbeos") 18 ≥ 0 ∨
      FindMem Buffer 512 (CStr "\x06system\x0chaiku_loader") 20 ≥ 0) ↔ patternHaiku Buffer := by
  have e0 := FindMem_CStr Buffer 512 "\x04beos\x06system\x05zbeos" 18 (by decide) (by decide) (by decide)
    (by decide)
  have e1 := FindMem_CStr Buffer 512 "\x06system\x0chaiku_loader" 20 (by decide) (by decide) (by decide)
    (by decide)
  simp only [SECTOR_SIZE, patternHaiku, e0, e1]

/-- The pattern table as a chain of rules. -/
theorem bootcodes_chain (Buffer : Mem) (Volume : REFIT_VOLUME) :
    ScanVolumeBootcode.bootcodes Buffer Volume =
      if patternLinux Buffer then setBoot Volume "linux" "Linux (Legacy)"
      else if patternGrub Buffer then setBoot Volume "grub,linux" "Linux (Legacy)"
      else if patternFreeBsd Buffer then setBoot Volume "freebsd" "FreeBSD (Legacy)"
      else if patternFreeBsdBoot0 Buffer then setBoot Volume "freebsd" "FreeBSD (Legacy)"
      else if patternOpenBsd Buffer then setBoot Volume "openbsd" "OpenBSD (Legacy)"
      else if patternNetBsd Buffer then setBoot Volume "netbsd" "NetBSD (Legacy)"
      else if patternNtldr Buffer then setBoot Volume "win" "Windows (Legacy)"
      else if patternBootmgr Buffer then setBoot Volume "win8,win" "Windows (Legacy)"
      else if patternFreeDos Buffer then setBoot Volume "freedos" "FreeDOS (Legacy)"
      else if patternEComStation Buffer then setBoot Volume "ecomstation" "eComStation (Legacy)"
      else if patternBeOs Buffer then setBoot Volume "beos" "BeOS (Legacy)"
      else if patternZeta Buffer then setBoot Volume "zeta,beos" "ZETA (Legacy)"
      else if patternHaiku Buffer then setBoot Volume "haiku,beos" "Haiku (Legacy)"
      else Volume := by
  unfold ScanVolumeBootcode.bootcodes
  simp only [patternLinux_iff, patternGrub_iff, patternFreeBsd_iff, patternFreeBsdBoot0_iff, patternOpenBsd_iff, patternNetBsd_iff, patternNtldr_iff, patternBootmgr_iff, patternFreeDos_iff, patternEComStation_iff, patternBeOs_iff, patternZeta_iff, patternHaiku_iff]
  rfl

theorem applyRule_find_cons (Buffer : Mem) (Volume : REFIT_VOLUME) (pat : Mem → Prop)
    [DecidablePred pat] (Icon Name : String) (Rules : List BootRule) :
    applyRule Volume
        (({ Matches := fun B => decide (pat B), OSIconName := Icon, OSName := Name } :: Rules).find?
          (fun Rule => Rule.Matches Buffer)) =
      if pat Buffer then setBoot Volume Icon Name
      else applyRule Volume (Rules.find? (fun Rule => Rule.Matches Buffer)) := by
  by_cases h : pat Buffer
  · simp only [List.find?_cons, h, decide_True, if_true]
    rfl
  · simp only [List.find?_cons, h, decide_False, if_false]

/-- The pattern table as a search for the first matching rule. -/
theorem bootcodes_eq (Buffer : Mem) (Volume : REFIT_VOLUME) :
    ScanVolumeBootcode.bootcodes Buffer Volume = applyRule Volume (firstRule Buffer) := by
  rw [bootcodes_chain]
  unfold firstRule bootRules
  rw [applyRule_find_cons Buffer Volume patternLinux,
    applyRule_find_cons Buffer Volume patternGrub,
    applyRule_find_cons Buffer Volume patternFreeBsd,
    applyRule_find_cons Buffer Volume patternFreeBsdBoot0,
    applyRule_find_cons Buffer Volume patternOpenBsd,
    applyRule_find_cons Buffer Volume patternNetBsd,
    applyRule_find_cons Buffer Volume patternNtldr,
    applyRule_find_cons Buffer Volume patternBootmgr,
    applyRule_find_cons Buffer Volume patternFreeDos,
    applyRule_find_cons Buffer Volume patternEComStation,
    applyRule_find_cons Buffer Volume patternBeOs,
    applyRule_find_cons Buffer Volume patternZeta,
    applyRule_find_cons Buffer Volume patternHaiku]
  rfl

/-! ### `ScanVolumeBootcode`, case by case -/

theorem fsStage_of_active (GlobalConfig : REFIT_CONFIG) (fw : Firmware) (Volume : REFIT_VOLUME)
    (h : classifierActive GlobalConfig fw Volume) :
    fsStage fw Volume
      = SetFilesystemData fw (some (sampleOf fw Volume)) SAMPLE_SIZE (clearBoot Volume) := by
  obtain ⟨h1, h2, h3, _⟩ := h
  have h2b : ¬ (fw.Media Volume.BlockIO).BlockSize > SAMPLE_SIZE := by omega
  have herr : EFI_ERROR EFI_SUCCESS = false := by decide
  unfold fsStage sampleOf
  rw [if_neg h1, if_neg h2b, h3, herr]
  simp only [Bool.false_eq_true, not_false_eq_true, if_true]

theorem ScanVolumeBootcode_of_active (GlobalConfig : REFIT_CONFIG) (fw : Firmware)
    (Volume : REFIT_VOLUME) (h : classifierActive GlobalConfig fw Volume) :
    ScanVolumeBootcode GlobalConfig fw Volume =
      (ScanVolumeBootcode.mbrTable (sampleOf fw Volume)
        (ScanVolumeBootcode.dummies (sampleOf fw Volume)
          (ScanVolumeBootcode.bootcodes (sampleOf fw Volume)
            (ScanVolumeBootcode.signature (sampleOf fw Volume) (fsStage fw Volume) false).1)),
       (ScanVolumeBootcode.signature (sampleOf fw Volume) (fsStage fw Volume) false).2) := by
  rw [fsStage_of_active GlobalConfig fw Volume h]
  obtain ⟨h1, h2, h3, h4⟩ := h
  exact ScanVolumeBootcode_active GlobalConfig fw Volume (sampleOf fw Volume) h1 h2
    (Prod.ext h3 rfl) h4

theorem ScanVolumeBootcode_of_inactive (GlobalConfig : REFIT_CONFIG) (fw : Firmware)
    (Volume : REFIT_VOLUME) (h : ¬ classifierActive GlobalConfig fw Volume) :
    ScanVolumeBootcode GlobalConfig fw Volume = (fsStage fw Volume, false) := by
  unfold classifierActive at h
  simp only [ScanVolumeBootcode, fsStage, clearBoot]
  by_cases h1 : Volume.BlockIO = NULL
  · simp only [h1, if_true]
  by_cases h2 : (fw.Media Volume.BlockIO).BlockSize > SAMPLE_SIZE
  · simp only [h1, h2, if_true, if_false]
  have h2b : (fw.Media Volume.BlockIO).BlockSize ≤ SAMPLE_SIZE := by omega
  have h3 : ¬ ((fw.ReadBlocks Volume.BlockIO (fw.Media Volume.BlockIO).MediaId
      Volume.BlockIOOffset SAMPLE_SIZE).1 = EFI_SUCCESS ∧
      GlobalConfig.LegacyType = LEGACY_TYPE_MAC) := fun h3 => h ⟨h1, h2b, h3.1, h3.2⟩
  simp only [h1, h2, h3, if_false]

theorem fsStage_frame (fw : Firmware) (Volume : REFIT_VOLUME) :
    sameExceptScan Volume (fsStage fw Volume) := by
  have hc : sameExceptScan Volume (clearBoot Volume) := rfl
  unfold fsStage
  split
  · exact hc
  · split
    · exact hc
    · split
      · exact sameExceptScan_trans hc (sameExceptScan_of_fs (SetFilesystemData_frame _ _ _ _))
      · exact hc

theorem fsStage_boot (fw : Firmware) (Volume : REFIT_VOLUME) :
    (fsStage fw Volume).HasBootCode = false ∧ (fsStage fw Volume).OSName = none ∧
    (fsStage fw Volume).OSIconName = none ∧
    (fsStage fw Volume).MbrPartitionTable = Volume.MbrPartitionTable := by
  have hc : (clearBoot Volume).HasBootCode = false ∧ (clearBoot Volume).OSName = none ∧
      (clearBoot Volume).OSIconName = none ∧
      (clearBoot Volume).MbrPartitionTable = Volume.MbrPartitionTable := ⟨rfl, rfl, rfl, rfl⟩
  have hs : ∀ B, (SetFilesystemData fw B SAMPLE_SIZE (clearBoot Volume)).HasBootCode = false ∧
      (SetFilesystemData fw B SAMPLE_SIZE (clearBoot Volume)).OSName = none ∧
      (SetFilesystemData fw B SAMPLE_SIZE (clearBoot Volume)).OSIconName = none ∧
      (SetFilesystemData fw B SAMPLE_SIZE (clearBoot Volume)).MbrPartitionTable
        = Volume.MbrPartitionTable := by
    intro B
    have h := SetFilesystemData_frame fw B SAMPLE_SIZE (clearBoot Volume)
    unfold sameExceptFs at h
    rw [h]
    exact hc
  unfold fsStage
  split
  · exact hc
  · split
    · exact hc
    · split
      · exact hs _
      · exact hc

/-- The legacy phases of `ScanVolumeBootcode` on a volume `V`, field by field. -/
theorem legacy_phases (Buffer : Mem) (V : REFIT_VOLUME) (b : Bool) :
    let W := ScanVolumeBootcode.mbrTable Buffer (ScanVolumeBootcode.dummies Buffer
      (ScanVolumeBootcode.bootcodes Buffer (ScanVolumeBootcode.signature Buffer V b).1))
    sameExceptScan V W ∧ W.FSType = V.FSType ∧ W.VolUuid = V.VolUuid ∧
    W.OSName = (applyRule (ScanVolumeBootcode.signature Buffer V b).1 (firstRule Buffer)).OSName ∧
    W.OSIconName
      = (applyRule (ScanVolumeBootcode.signature Buffer V b).1 (firstRule Buffer)).OSIconName ∧
    W.HasBootCode = (if dummyFound Buffer then false
      else (applyRule (ScanVolumeBootcode.signature Buffer V b).1 (firstRule Buffer)).HasBootCode) := by
  intro W
  have hsig := signature_frame Buffer V b
  have hboot := bootcodes_frame Buffer (ScanVolumeBootcode.signature Buffer V b).1
  have h3 := sameExceptBoot_trans hsig hboot
  have hW : W = ScanVolumeBootcode.mbrTable Buffer (ScanVolumeBootcode.dummies Buffer
      (ScanVolumeBootcode.bootcodes Buffer (ScanVolumeBootcode.signature Buffer V b).1)) := rfl
  rw [mbrTable_eq, dummies_eq, bootcodes_eq] at hW
  have hf := sameExceptBoot_fields h3
  rw [bootcodes_eq] at hf h3
  refine ⟨?_, ?_, ?_, ?_, ?_, ?_⟩
  · have h4 := sameExceptScan_of_boot h3
    unfold sameExceptScan at h4 ⊢
    rw [hW, h4]
  · rw [hW]
    exact hf.1
  · rw [hW]
    exact hf.2.1
  · rw [hW]
  · rw [hW]
  · rw [hW]

/-- `ScanVolumeBootcode` changes nothing but the boot-code flag, the OS name and
icon name, the filesystem type and UUID, and the retained MBR table. -/
theorem ScanVolumeBootcode_frame (GlobalConfig : REFIT_CONFIG) (fw : Firmware)
    (Volume : REFIT_VOLUME) :
    sameExceptScan Volume (ScanVolumeBootcode GlobalConfig fw Volume).1 := by
  by_cases h : classifierActive GlobalConfig fw Volume
  · rw [ScanVolumeBootcode_of_active GlobalConfig fw Volume h]
    exact sameExceptScan_trans (fsStage_frame fw Volume)
      (legacy_phases (sampleOf fw Volume) (fsStage fw Volume) false).1
  · rw [ScanVolumeBootcode_of_inactive GlobalConfig fw Volume h]
    exact fsStage_frame fw Volume

/-- The filesystem type and UUID after `ScanVolumeBootcode` are those of the
part that does not depend on legacy mode. -/
theorem ScanVolumeBootcode_fs (GlobalConfig : REFIT_CONFIG) (fw : Firmware)
    (Volume : REFIT_VOLUME) :
    (ScanVolumeBootcode GlobalConfig fw Volume).1.FSType = (fsStage fw Volume).FSType ∧
    (ScanVolumeBootcode GlobalConfig fw Volume).1.VolUuid = (fsStage fw Volume).VolUuid := by
  by_cases h : classifierActive GlobalConfig fw Volume
  · rw [ScanVolumeBootcode_of_active GlobalConfig fw Volume h]
    have hp := legacy_phases (sampleOf fw Volume) (fsStage fw Volume) false
    exact ⟨hp.2.1, hp.2.2.1⟩
  · rw [ScanVolumeBootcode_of_inactive GlobalConfig fw Volume h]
    exact ⟨rfl, rfl⟩

theorem ScanVolumeBootcode_legacy (GlobalConfig : REFIT_CONFIG) (fw : Firmware)
    (Volume : REFIT_VOLUME) (Buffer : Mem)
    (hbio : Volume.BlockIO ≠ NULL)
    (hbs : (fw.Media Volume.BlockIO).BlockSize ≤ SAMPLE_SIZE)
    (hread : fw.ReadBlocks Volume.BlockIO (fw.Media Volume.BlockIO).MediaId
      Volume.BlockIOOffset SAMPLE_SIZE = (EFI_SUCCESS, Buffer))
    (hlegacy : GlobalConfig.LegacyType = LEGACY_TYPE_MAC) :
    ScanVolumeBootcode GlobalConfig fw Volume =
      (ScanVolumeBootcode.mbrTable Buffer (ScanVolumeBootcode.dummies Buffer
        (ScanVolumeBootcode.bootcodes Buffer
          (ScanVolumeBootcode.signature Buffer (fsStage fw Volume) false).1)),
       (ScanVolumeBootcode.signature Buffer (fsStage fw Volume) false).2) := by
  have h : classifierActive GlobalConfig fw Volume := ⟨hbio, hbs, by rw [hread], hlegacy⟩
  have hs : sampleOf fw Volume = Buffer := by
    unfold sampleOf
    rw [hread]
  rw [ScanVolumeBootcode_of_active GlobalConfig fw Volume h, hs]

theorem signature_names (Buffer : Mem) (Volume : REFIT_VOLUME) (Bootable : Bool) :
    (ScanVolumeBootcode.signature Buffer Volume Bootable).1.OSName = Volume.OSName ∧
    (ScanVolumeBootcode.signature Buffer Volume Bootable).1.OSIconName = Volume.OSIconName := by
  rw [signature_eq]
  split <;> exact ⟨rfl, rfl⟩

theorem rd8_lt (Buffer : Mem) (o : Nat) : rd8 Buffer o < 256 := Nat.mod_lt _ (by decide)

/-- With 0xAA55 in bytes 510-511 the string "EXFAT" cannot end at byte 511, so
the window of `FindMem` covers every occurrence in the first 512 bytes. -/
theorem exfat_window (Buffer : Mem) (hsig : rd16 Buffer 510 = 0xAA55) :
    occursIn Buffer 512 "EXFAT" ↔ foundBefore Buffer 512 "EXFAT" := by
  have hlen : "EXFAT".length = 5 := by decide
  constructor
  · rintro ⟨o, _, hle, hat⟩
    rw [hlen] at hle
    by_cases ho : o < 507
    · exact ⟨o, by rw [hlen]; omega, hat⟩
    · have ho2 : o = 507 := by omega
      subst ho2
      unfold atOffset at hat
      rw [hlen] at hat
      have h3 := congrArg (fun l => l.getD 3 0) hat
      have h3b : rd8 Buffer 510 = 65 := by
        simpa [bytes, strBytes, List.range_succ] using h3
      have h0 := rd8_lt Buffer 510
      have h1 := rd8_lt Buffer 511
      unfold rd16 at hsig
      omega
  · rintro ⟨o, ho, hat⟩
    rw [hlen] at ho
    exact ⟨o, by omega, by rw [hlen]; omega, hat⟩

theorem firstRule_of_lilo (Buffer : Mem) (h : atOffset Buffer 2 "LILO") :
    firstRule Buffer = some { Matches := fun Buffer => decide (patternLinux Buffer),
                              OSIconName := "linux", OSName := "Linux (Legacy)" } := by
  have hp : patternLinux Buffer := Or.inl h
  unfold firstRule bootRules
  simp only [List.find?_cons, hp, decide_True]

set_option maxRecDepth 100000 in
/-- None of the three searches for a dummy boot sector finds its string in
`lateDummySample`. -/
theorem lateDummySample_not_found : ¬ dummyFound lateDummySample := by
  decide

/-! ### `ScanVolume` -/

theorem ScanVolume_eq (GlobalConfig : REFIT_CONFIG) (fw : Firmware) (Volume : REFIT_VOLUME) :
    ScanVolume GlobalConfig fw Volume =
      ScanVolume.finish GlobalConfig fw (ScanVolume.walked GlobalConfig fw Volume).1
        (ScanVolume.walked GlobalConfig fw Volume).2 := by
  unfold ScanVolume ScanVolume.walked ScanVolume.scanned
  simp only []

theorem sameExceptScan_fields {V W : REFIT_VOLUME} (h : sameExceptScan V W) :
    W.DevicePath = V.DevicePath ∧ W.DeviceHandle = V.DeviceHandle ∧ W.DiskKind = V.DiskKind ∧
    W.IsAppleLegacy = V.IsAppleLegacy ∧ W.BlockIO = V.BlockIO ∧
    W.BlockIOOffset = V.BlockIOOffset ∧ W.WholeDiskBlockIO = V.WholeDiskBlockIO ∧
    W.IsMbrPartition = V.IsMbrPartition ∧ W.MbrPartitionIndex = V.MbrPartitionIndex ∧
    W.VolName = V.VolName := by
  unfold sameExceptScan at h
  rw [h]
  exact ⟨rfl, rfl, rfl, rfl, rfl, rfl, rfl, rfl, rfl, rfl⟩

theorem sameExceptWalk_refl (V : REFIT_VOLUME) : sameExceptWalk V V := rfl

theorem sameExceptWalk_trans {U V W : REFIT_VOLUME} (h1 : sameExceptWalk U V)
    (h2 : sameExceptWalk V W) : sameExceptWalk U W := by
  unfold sameExceptWalk at *
  rw [h2, h1]

theorem sameExceptWalk_fields {V W : REFIT_VOLUME} (h : sameExceptWalk V W) :
    W.DevicePath = V.DevicePath ∧ W.DeviceHandle = V.DeviceHandle ∧
    W.HasBootCode = V.HasBootCode ∧ W.BlockIO = V.BlockIO ∧
    W.BlockIOOffset = V.BlockIOOffset ∧ W.MbrPartitionTable = V.MbrPartitionTable ∧
    W.FSType = V.FSType := by
  unfold sameExceptWalk at h
  rw [h]
  exact ⟨rfl, rfl, rfl, rfl, rfl, rfl, rfl⟩

theorem SetPartGuidAndName_frame (fw : Firmware) (Volume : REFIT_VOLUME)
    (DevicePath : EFI_DEVICE_PATH) :
    sameExceptWalk Volume (SetPartGuidAndName fw Volume DevicePath) ∧
    (SetPartGuidAndName fw Volume DevicePath).DiskKind = Volume.DiskKind ∧
    (SetPartGuidAndName fw Volume DevicePath).IsAppleLegacy = Volume.IsAppleLegacy ∧
    REFIT_VOLUME.WholeDiskBlockIO (SetPartGuidAndName fw Volume DevicePath)
      = Volume.WholeDiskBlockIO := by
  unfold SetPartGuidAndName
  split
  · split
    · simp only []
      split <;> exact ⟨rfl, rfl, rfl, rfl⟩
    · exact ⟨rfl, rfl, rfl, rfl⟩
  · exact ⟨rfl, rfl, rfl, rfl⟩

theorem wholeDisk_frame (fw : Firmware) (DiskDevicePath : List EFI_DEVICE_PATH)
    (Volume : REFIT_VOLUME) :
    sameExceptWalk Volume (ScanVolume.wholeDisk fw DiskDevicePath Volume) ∧
    (ScanVolume.wholeDisk fw DiskDevicePath Volume).IsAppleLegacy = Volume.IsAppleLegacy := by
  unfold ScanVolume.wholeDisk
  simp only []
  split_ifs <;> exact ⟨rfl, rfl⟩

theorem wholeDisk_DiskKind (fw : Firmware) (DiskDevicePath : List EFI_DEVICE_PATH)
    (Volume : REFIT_VOLUME) (hok : wholeDiskNot2048 fw DiskDevicePath) :
    (ScanVolume.wholeDisk fw DiskDevicePath Volume).DiskKind = Volume.DiskKind := by
  unfold wholeDiskNot2048 at hok
  unfold ScanVolume.wholeDisk
  simp only []
  split_ifs with h1
  all_goals first
    | rfl
    | exact absurd (by assumption) (hok h1 (by assumption))

/-- The loop body of `ScanVolume`, as the sequence of its five steps. -/
theorem node_eq (fw : Firmware) (Upto : List EFI_DEVICE_PATH) (Node : EFI_DEVICE_PATH)
    (Volume : REFIT_VOLUME) (Bootable : Bool) :
    ScanVolume.node fw Upto Node Volume Bootable =
      ScanVolume.nodeDisk fw Upto Node (ScanVolume.nodeVendor Node
        (ScanVolume.nodeCdrom Node (ScanVolume.nodeExternal Node
          (ScanVolume.nodeGuid fw Node Volume)) Bootable)) := rfl

theorem nodeGuid_frame (fw : Firmware) (Node : EFI_DEVICE_PATH) (Volume : REFIT_VOLUME) :
    sameExceptWalk Volume (ScanVolume.nodeGuid fw Node Volume) ∧
    (ScanVolume.nodeGuid fw Node Volume).DiskKind = Volume.DiskKind ∧
    (ScanVolume.nodeGuid fw Node Volume).IsAppleLegacy = Volume.IsAppleLegacy := by
  have hs := SetPartGuidAndName_frame fw Volume Node
  unfold ScanVolume.nodeGuid
  split
  · exact ⟨hs.1, hs.2.1, hs.2.2.1⟩
  · exact ⟨rfl, rfl, rfl⟩

theorem nodeExternal_frame (Node : EFI_DEVICE_PATH) (Volume : REFIT_VOLUME) :
    sameExceptWalk Volume (ScanVolume.nodeExternal Node Volume) ∧
    (ScanVolume.nodeExternal Node Volume).DiskKind
      = (if isExternalNode Node then DISK_KIND_EXTERNAL else Volume.DiskKind) ∧
    (ScanVolume.nodeExternal Node Volume).IsAppleLegacy = Volume.IsAppleLegacy := by
  unfold ScanVolume.nodeExternal isExternalNode
  split <;> exact ⟨rfl, rfl, rfl⟩

theorem nodeCdrom_frame (Node : EFI_DEVICE_PATH) (Volume : REFIT_VOLUME) (Bootable : Bool) :
    sameExceptWalk Volume (ScanVolume.nodeCdrom Node Volume Bootable).1 ∧
    (ScanVolume.nodeCdrom Node Volume Bootable).1.DiskKind
      = (if isCdromNode Node then DISK_KIND_OPTICAL else Volume.DiskKind) ∧
    (ScanVolume.nodeCdrom Node Volume Bootable).1.IsAppleLegacy = Volume.IsAppleLegacy ∧
    (ScanVolume.nodeCdrom Node Volume Bootable).2
      = (if isCdromNode Node then true else Bootable) := by
  unfold ScanVolume.nodeCdrom isCdromNode
  split <;> exact ⟨rfl, rfl, rfl, rfl⟩

theorem nodeVendor_frame (Node : EFI_DEVICE_PATH) (VB : REFIT_VOLUME × Bool) :
    sameExceptWalk VB.1 (ScanVolume.nodeVendor Node VB).1 ∧
    (ScanVolume.nodeVendor Node VB).1.DiskKind = VB.1.DiskKind ∧
    (ScanVolume.nodeVendor Node VB).1.IsAppleLegacy
      = (if isVendorNode Node then true else VB.1.IsAppleLegacy) ∧
    (ScanVolume.nodeVendor Node VB).2 = (if isVendorNode Node then false else VB.2) := by
  unfold ScanVolume.nodeVendor isVendorNode
  split <;> exact ⟨rfl, rfl, rfl, rfl⟩

theorem nodeDisk_frame (fw : Firmware) (Upto : List EFI_DEVICE_PATH) (Node : EFI_DEVICE_PATH)
    (VB : REFIT_VOLUME × Bool) :
    sameExceptWalk VB.1 (ScanVolume.nodeDisk fw Upto Node VB).1 ∧
    (ScanVolume.nodeDisk fw Upto Node VB).1.IsAppleLegacy = VB.1.IsAppleLegacy ∧
    (ScanVolume.nodeDisk fw Upto Node VB).2 = VB.2 ∧
    ((DevicePathType Node = MESSAGING_DEVICE_PATH →
        wholeDiskNot2048 fw (Upto ++ [EndDevicePath])) →
      (ScanVolume.nodeDisk fw Upto Node VB).1.DiskKind = VB.1.DiskKind) := by
  have hw := wholeDisk_frame fw (Upto ++ [EndDevicePath]) VB.1
  unfold ScanVolume.nodeDisk
  split
  · rename_i hm
    exact ⟨hw.1, hw.2, rfl, fun hok => wholeDisk_DiskKind fw _ VB.1 (hok hm)⟩
  · exact ⟨rfl, rfl, rfl, fun _ => rfl⟩

theorem node_frame (fw : Firmware) (Upto : List EFI_DEVICE_PATH) (Node : EFI_DEVICE_PATH)
    (Volume : REFIT_VOLUME) (Bootable : Bool) :
    sameExceptWalk Volume (ScanVolume.node fw Upto Node Volume Bootable).1 := by
  rw [node_eq]
  exact sameExceptWalk_trans (sameExceptWalk_trans (sameExceptWalk_trans (sameExceptWalk_trans
    (nodeGuid_frame fw Node Volume).1 (nodeExternal_frame Node _).1)
    (nodeCdrom_frame Node _ Bootable).1) (nodeVendor_frame Node _).1)
    (nodeDisk_frame fw Upto Node _).1

theorem node_bootable (fw : Firmware) (Upto : List EFI_DEVICE_PATH) (Node : EFI_DEVICE_PATH)
    (Volume : REFIT_VOLUME) (Bootable : Bool) :
    (ScanVolume.node fw Upto Node Volume Bootable).2 =
      if isVendorNode Node then false else if isCdromNode Node then true else Bootable := by
  rw [node_eq, (nodeDisk_frame fw Upto Node _).2.2.1, (nodeVendor_frame Node _).2.2.2,
    (nodeCdrom_frame Node _ Bootable).2.2.2]

theorem node_apple (fw : Firmware) (Upto : List EFI_DEVICE_PATH) (Node : EFI_DEVICE_PATH)
    (Volume : REFIT_VOLUME) (Bootable : Bool) :
    (ScanVolume.node fw Upto Node Volume Bootable).1.IsAppleLegacy =
      if isVendorNode Node then true else Volume.IsAppleLegacy := by
  rw [node_eq, (nodeDisk_frame fw Upto Node _).2.1, (nodeVendor_frame Node _).2.2.1,
    (nodeCdrom_frame Node _ Bootable).2.2.1, (nodeExternal_frame Node _).2.2,
    (nodeGuid_frame fw Node Volume).2.2]

theorem node_DiskKind (fw : Firmware) (Upto : List EFI_DEVICE_PATH) (Node : EFI_DEVICE_PATH)
    (Volume : REFIT_VOLUME) (Bootable : Bool)
    (hok : DevicePathType Node = MESSAGING_DEVICE_PATH →
      wholeDiskNot2048 fw (Upto ++ [EndDevicePath])) :
    (ScanVolume.node fw Upto Node Volume Bootable).1.DiskKind =
      if isCdromNode Node then DISK_KIND_OPTICAL
      else if isExternalNode Node then DISK_KIND_EXTERNAL else Volume.DiskKind := by
  rw [node_eq, (nodeDisk_frame fw Upto Node _).2.2.2 hok, (nodeVendor_frame Node _).2.1,
    (nodeCdrom_frame Node _ Bootable).2.1, (nodeExternal_frame Node _).2.1,
    (nodeGuid_frame fw Node Volume).2.1]

/-- A CD-ROM Media node is neither a Messaging node nor of vendor subtype, so
the loop body leaves it with disk kind Optical and the bootable flag true. -/
theorem node_cdrom (fw : Firmware) (Upto : List EFI_DEVICE_PATH) (Node : EFI_DEVICE_PATH)
    (Volume : REFIT_VOLUME) (Bootable : Bool) (hcd : isCdromNode Node) :
    (ScanVolume.node fw Upto Node Volume Bootable).1.DiskKind = DISK_KIND_OPTICAL ∧
    (ScanVolume.node fw Upto Node Volume Bootable).2 = true := by
  have hnm : ¬ DevicePathType Node = MESSAGING_DEVICE_PATH := by
    rw [hcd.1]
    decide
  have hnv : ¬ isVendorNode Node := by
    rintro ⟨_, hv⟩
    rw [hcd.2] at hv
    exact absurd hv (by decide)
  constructor
  · rw [node_DiskKind fw Upto Node Volume Bootable (fun hm => absurd hm hnm), if_pos hcd]
  · rw [node_bootable, if_neg hnv, if_pos hcd]

/-! ### The device-path loop -/

theorem walk_takeWhile (fw : Firmware) (DevicePath : List EFI_DEVICE_PATH) :
    ∀ (Done : List EFI_DEVICE_PATH) (Volume : REFIT_VOLUME) (Bootable : Bool),
      ScanVolume.walk fw Done DevicePath Volume Bootable =
        ScanVolume.walk fw Done (visitedNodes (some DevicePath)) Volume Bootable := by
  induction DevicePath with
  | nil => intro Done Volume Bootable; rfl
  | cons Node Rest ih =>
    intro Done Volume Bootable
    unfold visitedNodes at ih ⊢
    by_cases hend : IsDevicePathEndType Node = true
    · simp only [ScanVolume.walk, hend, if_true, List.takeWhile_cons, Bool.not_true,
        Bool.false_eq_true, if_false]
    · simp only [ScanVolume.walk, hend, if_false, List.takeWhile_cons, Bool.not_eq_true,
        Bool.not_false, if_true]
      simp only [Bool.not_eq_true] at hend
      simp only [hend, Bool.not_false, if_true, ScanVolume.walk, Bool.false_eq_true, if_false]
      exact ih _ _ _

theorem visitedNodes_not_end (DevicePath : Option (List EFI_DEVICE_PATH))
    (Node : EFI_DEVICE_PATH) (h : Node ∈ visitedNodes DevicePath) :
    IsDevicePathEndType Node = false := by
  cases DevicePath with
  | none => simp [visitedNodes] at h
  | some P =>
    unfold visitedNodes at h
    have := List.mem_takeWhile_imp h
    simpa using this

theorem walk_cons (fw : Firmware) (Done : List EFI_DEVICE_PATH) (Node : EFI_DEVICE_PATH)
    (Rest : List EFI_DEVICE_PATH) (Volume : REFIT_VOLUME) (Bootable : Bool)
    (h : IsDevicePathEndType Node = false) :
    ScanVolume.walk fw Done (Node :: Rest) Volume Bootable =
      ScanVolume.walk fw (Done ++ [Node]) Rest
        (ScanVolume.node fw (Done ++ [Node]) Node Volume Bootable).1
        (ScanVolume.node fw (Done ++ [Node]) Node Volume Bootable).2 := by
  simp only [ScanVolume.walk, h, Bool.false_eq_true, if_false]

theorem walk_frame (fw : Firmware) (Rest : List EFI_DEVICE_PATH) :
    ∀ (Done : List EFI_DEVICE_PATH) (Volume : REFIT_VOLUME) (Bootable : Bool),
      sameExceptWalk Volume (ScanVolume.walk fw Done Rest Volume Bootable).1 := by
  induction Rest with
  | nil => intro Done Volume Bootable; exact sameExceptWalk_refl _
  | cons Node Rest ih =>
    intro Done Volume Bootable
    cases hend : IsDevicePathEndType Node with
    | true =>
      simp only [ScanVolume.walk, hend, if_true]
      exact sameExceptWalk_refl _
    | false =>
      rw [walk_cons fw Done Node Rest Volume Bootable hend]
      exact sameExceptWalk_trans (node_frame fw _ Node Volume Bootable) (ih _ _ _)

/-- Without a CD-ROM node the loop cannot turn a false bootable flag into true. -/
theorem walk_bootable_false (fw : Firmware) (Rest : List EFI_DEVICE_PATH) :
    ∀ (Done : List EFI_DEVICE_PATH) (Volume : REFIT_VOLUME),
      (∀ Node ∈ Rest, ¬ isCdromNode Node) →
      (ScanVolume.walk fw Done Rest Volume false).2 = false := by
  induction Rest with
  | nil => intro Done Volume _; rfl
  | cons Node Rest ih =>
    intro Done Volume hcd
    cases hend : IsDevicePathEndType Node with
    | true => simp only [ScanVolume.walk, hend, if_true]
    | false =>
      rw [walk_cons fw Done Node Rest Volume false hend]
      have hb : (ScanVolume.node fw (Done ++ [Node]) Node Volume false).2 = false := by
        rw [node_bootable, if_neg (hcd Node (List.mem_cons_self _ _))]
        split <;> rfl
      rw [hb]
      exact ih _ _ (fun n hn => hcd n (List.mem_cons_of_mem _ hn))

/-- The loop never clears the Apple-legacy flag. -/
theorem walk_apple_mono (fw : Firmware) (Rest : List EFI_DEVICE_PATH) :
    ∀ (Done : List EFI_DEVICE_PATH) (Volume : REFIT_VOLUME) (Bootable : Bool),
      Volume.IsAppleLegacy = true →
      (ScanVolume.walk fw Done Rest Volume Bootable).1.IsAppleLegacy = true := by
  induction Rest with
  | nil => intro Done Volume Bootable h; exact h
  | cons Node Rest ih =>
    intro Done Volume Bootable h
    cases hend : IsDevicePathEndType Node with
    | true =>
      simp only [ScanVolume.walk, hend, if_true]
      exact h
    | false =>
      rw [walk_cons fw Done Node Rest Volume Bootable hend]
      apply ih
      rw [node_apple, h]
      split <;> rfl

/-- The loop over a path with a vendor-subtype Media node that no CD-ROM node
follows ends with the bootable flag false and the Apple-legacy flag set. -/
theorem walk_vendor (fw : Firmware) (Pre : List EFI_DEVICE_PATH) :
    ∀ (Done : List EFI_DEVICE_PATH) (Vendor : EFI_DEVICE_PATH) (Post : List EFI_DEVICE_PATH)
      (Volume : REFIT_VOLUME) (Bootable : Bool),
      (∀ Node ∈ Pre ++ [Vendor], IsDevicePathEndType Node = false) →
      isVendorNode Vendor →
      ((∀ Node ∈ Post, ¬ isCdromNode Node) →
        (ScanVolume.walk fw Done (Pre ++ Vendor :: Post) Volume Bootable).2 = false) ∧
      (ScanVolume.walk fw Done (Pre ++ Vendor :: Post) Volume Bootable).1.IsAppleLegacy
        = true := by
  induction Pre with
  | nil =>
    intro Done Vendor Post Volume Bootable hne hv
    have hend : IsDevicePathEndType Vendor = false := hne Vendor (by simp)
    rw [List.nil_append, walk_cons fw Done Vendor Post Volume Bootable hend]
    have hb : (ScanVolume.node fw (Done ++ [Vendor]) Vendor Volume Bootable).2 = false := by
      rw [node_bootable, if_pos hv]
    have ha : (ScanVolume.node fw (Done ++ [Vendor]) Vendor Volume Bootable).1.IsAppleLegacy
        = true := by
      rw [node_apple, if_pos hv]
    constructor
    · intro hcd
      rw [hb]
      exact walk_bootable_false fw Post _ _ hcd
    · exact walk_apple_mono fw Post _ _ _ ha
  | cons Node Pre ih =>
    intro Done Vendor Post Volume Bootable hne hv
    have hend : IsDevicePathEndType Node = false := hne Node (by simp)
    rw [List.cons_append, walk_cons fw Done Node _ Volume Bootable hend]
    exact ih _ Vendor Post _ _ (fun n hn => hne n (by
      rw [List.cons_append]
      exact List.mem_cons_of_mem _ hn)) hv

/-- The disk kind after the loop over a path without end-type and CD-ROM
nodes, when no whole disk resolved at a Messaging node has 2048-byte blocks. -/
theorem walk_DiskKind (fw : Firmware) (Rest : List EFI_DEVICE_PATH) :
    ∀ (Done : List EFI_DEVICE_PATH) (Volume : REFIT_VOLUME) (Bootable : Bool),
      (∀ Node ∈ Rest, IsDevicePathEndType Node = false) →
      (∀ Node ∈ Rest, ¬ isCdromNode Node) →
      (∀ A Node B, Rest = A ++ Node :: B → DevicePathType Node = MESSAGING_DEVICE_PATH →
        wholeDiskNot2048 fw (Done ++ A ++ [Node] ++ [EndDevicePath])) →
      (ScanVolume.walk fw Done Rest Volume Bootable).1.DiskKind =
        if ∃ Node ∈ Rest, isExternalNode Node then DISK_KIND_EXTERNAL
        else Volume.DiskKind := by
  induction Rest with
  | nil =>
    intro Done Volume Bootable _ _ _
    simp [ScanVolume.walk]
  | cons Node Rest ih =>
    intro Done Volume Bootable hne hcd hok
    have hend : IsDevicePathEndType Node = false := hne Node (List.mem_cons_self _ _)
    rw [walk_cons fw Done Node Rest Volume Bootable hend]
    rw [ih (Done ++ [Node]) _ _ (fun n hn => hne n (List.mem_cons_of_mem _ hn))
      (fun n hn => hcd n (List.mem_cons_of_mem _ hn))
      (fun A n B hR hm => by
        have := hok (Node :: A) n B (by rw [hR]; rfl) hm
        simpa [List.append_assoc] using this)]
    rw [node_DiskKind fw _ Node Volume Bootable (fun hm => by
        have := hok [] Node Rest rfl hm
        simpa [List.append_assoc] using this),
      if_neg (hcd Node (List.mem_cons_self _ _))]
    by_cases hx : isExternalNode Node
    · have h1 : ∃ n ∈ Node :: Rest, isExternalNode n := ⟨Node, List.mem_cons_self _ _, hx⟩
      rw [if_pos hx, if_pos h1]
      split <;> rfl
    · rw [if_neg hx]
      by_cases h2 : ∃ n ∈ Rest, isExternalNode n
      · obtain ⟨n, hn, hnx⟩ := h2
        rw [if_pos ⟨n, hn, hnx⟩, if_pos ⟨n, List.mem_cons_of_mem _ hn, hnx⟩]
      · have h3 : ¬ ∃ n ∈ Node :: Rest, isExternalNode n := by
          rintro ⟨n, hn, hnx⟩
          rcases List.mem_cons.1 hn with he | hr
          · exact hx (he ▸ hnx)
          · exact h2 ⟨n, hr, hnx⟩
        rw [if_neg h2, if_neg h3]

/-! ### The end of `ScanVolume` -/

theorem finish_fields (GlobalConfig : REFIT_CONFIG) (fw : Firmware) (Volume : REFIT_VOLUME)
    (Bootable : Bool) :
    (ScanVolume.finish GlobalConfig fw Volume Bootable).DiskKind = Volume.DiskKind ∧
    (ScanVolume.finish GlobalConfig fw Volume Bootable).IsAppleLegacy = Volume.IsAppleLegacy ∧
    REFIT_VOLUME.BlockIO (ScanVolume.finish GlobalConfig fw Volume Bootable) = Volume.BlockIO ∧
    (ScanVolume.finish GlobalConfig fw Volume Bootable).BlockIOOffset = Volume.BlockIOOffset ∧
    REFIT_VOLUME.WholeDiskBlockIO (ScanVolume.finish GlobalConfig fw Volume Bootable)
      = Volume.WholeDiskBlockIO ∧
    (ScanVolume.finish GlobalConfig fw Volume Bootable).MbrPartitionTable
      = Volume.MbrPartitionTable := by
  unfold ScanVolume.finish
  simp only []
  split_ifs <;> exact ⟨rfl, rfl, rfl, rfl, rfl, rfl⟩

theorem finish_unbootable (GlobalConfig : REFIT_CONFIG) (fw : Firmware) (Volume : REFIT_VOLUME) :
    (ScanVolume.finish GlobalConfig fw Volume false).HasBootCode = false := by
  unfold ScanVolume.finish
  simp only [Bool.false_eq_true, not_false_eq_true, if_true, and_false, if_false]
  split <;> rfl

theorem blockIo_fields (fw : Firmware) (Volume : REFIT_VOLUME) :
    (ScanVolume.blockIo fw Volume).DevicePath = Volume.DevicePath ∧
    (ScanVolume.blockIo fw Volume).DeviceHandle = Volume.DeviceHandle ∧
    (ScanVolume.blockIo fw Volume).BlockIOOffset = Volume.BlockIOOffset ∧
    REFIT_VOLUME.WholeDiskBlockIO (ScanVolume.blockIo fw Volume) = Volume.WholeDiskBlockIO ∧
    (ScanVolume.blockIo fw Volume).MbrPartitionTable = Volume.MbrPartitionTable ∧
    REFIT_VOLUME.BlockIO (ScanVolume.blockIo fw Volume)
      = (if EFI_ERROR (fw.BlockIoOfHandle Volume.DeviceHandle).1 then NULL
         else (fw.BlockIoOfHandle Volume.DeviceHandle).2) ∧
    ((¬ EFI_ERROR (fw.BlockIoOfHandle Volume.DeviceHandle).1 →
        (fw.Media (fw.BlockIoOfHandle Volume.DeviceHandle).2).BlockSize ≠ 2048) →
      (ScanVolume.blockIo fw Volume).DiskKind = DISK_KIND_INTERNAL) := by
  unfold ScanVolume.blockIo
  simp only []
  split
  · exact ⟨rfl, rfl, rfl, rfl, rfl, rfl, fun _ => rfl⟩
  · rename_i herr
    split
    · rename_i h2048
      exact ⟨rfl, rfl, rfl, rfl, rfl, rfl, fun hown => absurd h2048 (hown herr)⟩
    · exact ⟨rfl, rfl, rfl, rfl, rfl, rfl, fun _ => rfl⟩

theorem scanned_fields (GlobalConfig : REFIT_CONFIG) (fw : Firmware) (Volume : REFIT_VOLUME) :
    (ScanVolume.scanned GlobalConfig fw Volume).1.DevicePath
      = fw.DevicePathFromHandle Volume.DeviceHandle ∧
    ((¬ EFI_ERROR (fw.BlockIoOfHandle Volume.DeviceHandle).1 →
        (fw.Media (fw.BlockIoOfHandle Volume.DeviceHandle).2).BlockSize ≠ 2048) →
      (ScanVolume.scanned GlobalConfig fw Volume).1.DiskKind = DISK_KIND_INTERNAL) := by
  have hf := sameExceptScan_fields (ScanVolumeBootcode_frame GlobalConfig fw
    (ScanVolume.blockIo fw
      { Volume with DevicePath := fw.DevicePathFromHandle Volume.DeviceHandle }))
  have hb := blockIo_fields fw
    { Volume with DevicePath := fw.DevicePathFromHandle Volume.DeviceHandle }
  unfold ScanVolume.scanned
  refine ⟨?_, fun hown => ?_⟩
  · rw [hf.1, hb.1]
  · rw [hf.2.2.1]
    exact hb.2.2.2.2.2.2 hown

/-- The device-path loop of `ScanVolume` runs over the nodes before the first
end-type node of the path of the handle. -/
theorem walked_eq (GlobalConfig : REFIT_CONFIG) (fw : Firmware) (Volume : REFIT_VOLUME) :
    ScanVolume.walked GlobalConfig fw Volume =
      ScanVolume.walk fw [] (visitedNodes (fw.DevicePathFromHandle Volume.DeviceHandle))
        (ScanVolume.scanned GlobalConfig fw Volume).1
        (ScanVolume.scanned GlobalConfig fw Volume).2 := by
  have hdp := (scanned_fields GlobalConfig fw Volume).1
  unfold ScanVolume.walked
  rw [hdp]
  cases fw.DevicePathFromHandle Volume.DeviceHandle with
  | none => rfl
  | some DevicePath => exact walk_takeWhile fw DevicePath _ _ _

/-! ### `ScanExtendedPartition` -/

theorem volume_eq (GlobalConfig : REFIT_CONFIG) (fw : Firmware) (WholeDiskVolume : REFIT_VOLUME)
    (LogicalPartitionIndex Offset : Nat) :
    ScanExtendedPartition.volume GlobalConfig fw WholeDiskVolume LogicalPartitionIndex Offset =
      if ¬ (ScanVolumeBootcode GlobalConfig fw
          (ScanExtendedPartition.fresh WholeDiskVolume LogicalPartitionIndex Offset)).2 then
        { (ScanVolumeBootcode GlobalConfig fw
            (ScanExtendedPartition.fresh WholeDiskVolume LogicalPartitionIndex Offset)).1 with
          HasBootCode := false }
      else (ScanVolumeBootcode GlobalConfig fw
        (ScanExtendedPartition.fresh WholeDiskVolume LogicalPartitionIndex Offset)).1 := rfl

theorem volume_fields (GlobalConfig : REFIT_CONFIG) (fw : Firmware)
    (WholeDiskVolume : REFIT_VOLUME) (LogicalPartitionIndex Offset : Nat) :
    (ScanExtendedPartition.volume GlobalConfig fw WholeDiskVolume LogicalPartitionIndex
      Offset).IsMbrPartition = true ∧
    (ScanExtendedPartition.volume GlobalConfig fw WholeDiskVolume LogicalPartitionIndex
      Offset).MbrPartitionIndex = LogicalPartitionIndex ∧
    (ScanExtendedPartition.volume GlobalConfig fw WholeDiskVolume LogicalPartitionIndex
      Offset).VolName = some ("Partition " ++ toString (LogicalPartitionIndex + 1)) := by
  have hf := sameExceptScan_fields (ScanVolumeBootcode_frame GlobalConfig fw
    (ScanExtendedPartition.fresh WholeDiskVolume LogicalPartitionIndex Offset))
  rw [volume_eq]
  split
  · exact ⟨hf.2.2.2.2.2.2.2.1, hf.2.2.2.2.2.2.2.2.1, hf.2.2.2.2.2.2.2.2.2⟩
  · exact ⟨hf.2.2.2.2.2.2.2.1, hf.2.2.2.2.2.2.2.2.1, hf.2.2.2.2.2.2.2.2.2⟩

theorem slotsFrom_append (A : List REFIT_VOLUME) :
    ∀ (Index : Nat) (B : List REFIT_VOLUME), slotsFrom Index A →
      slotsFrom (Index + A.length) B → slotsFrom Index (A ++ B) := by
  induction A with
  | nil => intro Index B _ hB; simpa using hB
  | cons V A ih =>
    intro Index B hA hB
    refine ⟨hA.1, ih (Index + 1) B hA.2 ?_⟩
    have e : Index + 1 + A.length = Index + (V :: A).length := by
      simp only [List.length_cons]
      omega
    rw [e]
    exact hB

theorem slotsFrom_get (New : List REFIT_VOLUME) :
    ∀ (Index k : Nat) (V : REFIT_VOLUME), slotsFrom Index New → New[k]? = some V →
      V.IsMbrPartition = true ∧ V.MbrPartitionIndex = Index + k ∧
      V.VolName = some ("Partition " ++ toString (Index + k + 1)) := by
  induction New with
  | nil => intro Index k V _ h; simp at h
  | cons W New ih =>
    intro Index k V hs h
    cases k with
    | zero =>
      simp only [List.getElem?_cons_zero, Option.some.injEq] at h
      rw [← h]
      exact hs.1
    | succ k =>
      simp only [List.getElem?_cons_succ] at h
      have := ih (Index + 1) k V hs.2 h
      have e : Index + 1 + k = Index + (k + 1) := by omega
      rw [e] at this
      exact this

theorem entries_spec (GlobalConfig : REFIT_CONFIG) (fw : Firmware)
    (WholeDiskVolume : REFIT_VOLUME) (ExtBase ExtCurrent : Nat) (EMbrTable : Mem)
    (Indices : List Nat) :
    ∀ (LogicalPartitionIndex : Nat) (Volumes : List REFIT_VOLUME),
      ∃ New,
        (ScanExtendedPartition.entries GlobalConfig fw WholeDiskVolume ExtBase ExtCurrent
          EMbrTable Indices LogicalPartitionIndex Volumes).2.2 = Volumes ++ New ∧
        (ScanExtendedPartition.entries GlobalConfig fw WholeDiskVolume ExtBase ExtCurrent
          EMbrTable Indices LogicalPartitionIndex Volumes).2.1
          = LogicalPartitionIndex + New.length ∧
        slotsFrom LogicalPartitionIndex New := by
  induction Indices with
  | nil =>
    intro LogicalPartitionIndex Volumes
    exact ⟨[], by simp [ScanExtendedPartition.entries], rfl, trivial⟩
  | cons i rest ih =>
    intro LogicalPartitionIndex Volumes
    simp only [ScanExtendedPartition.entries]
    split
    · exact ⟨[], by simp, rfl, trivial⟩
    · split
      · exact ⟨[], by simp, rfl, trivial⟩
      · obtain ⟨New, h1, h2, h3⟩ := ih (LogicalPartitionIndex + 1)
          (Volumes ++ [ScanExtendedPartition.volume GlobalConfig fw WholeDiskVolume
            LogicalPartitionIndex ((ExtCurrent + (MbrEntry EMbrTable i).StartLBA) % 2 ^ 32)])
        refine ⟨ScanExtendedPartition.volume GlobalConfig fw WholeDiskVolume
            LogicalPartitionIndex ((ExtCurrent + (MbrEntry EMbrTable i).StartLBA) % 2 ^ 32)
          :: New, ?_, ?_, ?_, h3⟩
        · rw [h1]
          simp
        · rw [h2]
          simp only [List.length_cons]
          omega
        · exact volume_fields GlobalConfig fw WholeDiskVolume LogicalPartitionIndex _

theorem chain_spec (GlobalConfig : REFIT_CONFIG) (fw : Firmware)
    (WholeDiskVolume : REFIT_VOLUME) (ExtBase : Nat) (fuel : Nat) :
    ∀ (ExtCurrent LogicalPartitionIndex : Nat) (Volumes : List REFIT_VOLUME),
      ∃ New,
        (ScanExtendedPartition.chain GlobalConfig fw WholeDiskVolume ExtBase fuel ExtCurrent
          LogicalPartitionIndex Volumes).Volumes = Volumes ++ New ∧
        slotsFrom LogicalPartitionIndex New := by
  induction fuel with
  | zero =>
    intro ExtCurrent LogicalPartitionIndex Volumes
    exact ⟨[], by simp [ScanExtendedPartition.chain], trivial⟩
  | succ fuel ih =>
    intro ExtCurrent LogicalPartitionIndex Volumes
    simp only [ScanExtendedPartition.chain]
    split
    · exact ⟨[], by simp, trivial⟩
    · split
      · exact ⟨[], by simp, trivial⟩
      · split
        · exact ⟨[], by simp, trivial⟩
        · obtain ⟨New1, h1, h2, h3⟩ := entries_spec GlobalConfig fw WholeDiskVolume ExtBase
            ExtCurrent (ptrAdd (fw.ReadBlocks WholeDiskVolume.BlockIO
              (fw.Media WholeDiskVolume.BlockIO).MediaId ExtCurrent 512).2 446) [0, 1, 2, 3]
            LogicalPartitionIndex Volumes
          obtain ⟨New2, h4, h5⟩ := ih
            (ScanExtendedPartition.entries GlobalConfig fw WholeDiskVolume ExtBase
              ExtCurrent (ptrAdd (fw.ReadBlocks WholeDiskVolume.BlockIO
                (fw.Media WholeDiskVolume.BlockIO).MediaId ExtCurrent 512).2 446) [0, 1, 2, 3]
              LogicalPartitionIndex Volumes).1
            (ScanExtendedPartition.entries GlobalConfig fw WholeDiskVolume ExtBase
              ExtCurrent (ptrAdd (fw.ReadBlocks WholeDiskVolume.BlockIO
                (fw.Media WholeDiskVolume.BlockIO).MediaId ExtCurrent 512).2 446) [0, 1, 2, 3]
              LogicalPartitionIndex Volumes).2.1
            (ScanExtendedPartition.entries GlobalConfig fw WholeDiskVolume ExtBase
              ExtCurrent (ptrAdd (fw.ReadBlocks WholeDiskVolume.BlockIO
                (fw.Media WholeDiskVolume.BlockIO).MediaId ExtCurrent 512).2 446) [0, 1, 2, 3]
              LogicalPartitionIndex Volumes).2.2
          refine ⟨New1 ++ New2, ?_, ?_⟩
          · rw [h4, h1, List.append_assoc]
          · rw [h2] at h5
            exact slotsFrom_append New1 LogicalPartitionIndex New2 h3 h5

set_option maxRecDepth 100000 in
/-- The scan of the handle of `nestedMbrFirmware` in legacy mode. -/
theorem nestedMbrFirmware_scan :
    (ScanVolumes 2 legacyConfig nestedMbrFirmware).Finished = true ∧
    (ScanVolumes 2 legacyConfig nestedMbrFirmware).Volumes.map
        (fun Volume => (Volume.MbrPartitionTable.isSome, Volume.BlockIO,
          Volume.WholeDiskBlockIO, Volume.BlockIOOffset))
      = [(true, 1, 2, 0)] := by
  decide

/-! ### Volume names -/

theorem FSTypeName_length (TypeCode : FSType) :
    (FSTypeName TypeCode).length > 0 ↔ TypeCode ≠ FS_TYPE_UNKNOWN := by
  cases TypeCode <;> decide

theorem GetVolumeName_eq (fw : Firmware) (Volume : REFIT_VOLUME) :
    GetVolumeName fw Volume = nameChain fw Volume := by
  unfold GetVolumeName nameChain volumeLabel usablePartName fileSystemInfo
  simp only []
  cases hinfo : (if Volume.RootDir ≠ NULL then fw.LibFileSystemInfo Volume.RootDir else none) with
  | none =>
    cases hpart : Volume.PartName with
    | none =>
      simp only [FSTypeName_length]
      by_cases hu : Volume.FSType = FS_TYPE_UNKNOWN
      · simp only [hu, ne_eq, not_true_eq_false, if_false, if_true]
      · simp only [hu, ne_eq, not_false_eq_true, if_true, if_false]
    | some PartName =>
      simp only []
      by_cases hc : PartName.length > 0 ∧ ¬ fw.IsIn PartName IGNORE_PARTITION_NAMES = true
      · rw [if_pos hc]
      · rw [if_neg hc]
        simp only [FSTypeName_length]
        by_cases hu : Volume.FSType = FS_TYPE_UNKNOWN
        · simp only [hu, ne_eq, not_true_eq_false, if_false, if_true]
        · simp only [hu, ne_eq, not_false_eq_true, if_true, if_false]
  | some Info =>
    simp only []
    by_cases hl : Info.VolumeLabel.length > 0
    · simp only [hl, if_true]
    · simp only [hl, if_false]
      cases hpart : Volume.PartName with
      | none => rfl
      | some PartName =>
        simp only []
        by_cases hc : PartName.length > 0 ∧ ¬ fw.IsIn PartName IGNORE_PARTITION_NAMES = true
        · rw [if_pos hc]
        · rw [if_neg hc]

/-! ### The scan of one chain sector -/

theorem logicalVolumes_length (GlobalConfig : REFIT_CONFIG) (fw : Firmware)
    (WholeDiskVolume : REFIT_VOLUME) (ExtCurrent : Nat) (EMbrTable : Mem) (Entries : List Nat) :
    ∀ LogicalPartitionIndex,
      (logicalVolumes GlobalConfig fw WholeDiskVolume ExtCurrent EMbrTable LogicalPartitionIndex
        Entries).length = Entries.length := by
  induction Entries with
  | nil => intro _; rfl
  | cons i rest ih =>
    intro LogicalPartitionIndex
    simp only [logicalVolumes, List.length_cons, ih]

theorem entries_eq (GlobalConfig : REFIT_CONFIG) (fw : Firmware)
    (WholeDiskVolume : REFIT_VOLUME) (ExtBase ExtCurrent : Nat) (EMbrTable : Mem)
    (Entries : List Nat) :
    ∀ (LogicalPartitionIndex : Nat) (Volumes : List REFIT_VOLUME),
      ScanExtendedPartition.entries GlobalConfig fw WholeDiskVolume ExtBase ExtCurrent EMbrTable
          Entries LogicalPartitionIndex Volumes =
        (nextChainSector ExtBase EMbrTable Entries,
         LogicalPartitionIndex + (logicalEntries EMbrTable Entries).length,
         Volumes ++ logicalVolumes GlobalConfig fw WholeDiskVolume ExtCurrent EMbrTable
           LogicalPartitionIndex (logicalEntries EMbrTable Entries)) := by
  induction Entries with
  | nil =>
    intro LogicalPartitionIndex Volumes
    simp [ScanExtendedPartition.entries, nextChainSector, logicalEntries, logicalVolumes]
  | cons i rest ih =>
    intro LogicalPartitionIndex Volumes
    by_cases hu : entryUsable EMbrTable i
    · have hcode : ¬ (((MbrEntry EMbrTable i).Flags ≠ 0x00 ∧ (MbrEntry EMbrTable i).Flags ≠ 0x80) ∨
          (MbrEntry EMbrTable i).StartLBA = 0 ∨ (MbrEntry EMbrTable i).Size = 0) := by
        obtain ⟨hf, hs, hz⟩ := hu
        rintro (⟨h0, h80⟩ | h | h)
        · rcases hf with hf | hf
          · exact h0 hf
          · exact h80 hf
        · exact hs h
        · exact hz h
      cases hx : IS_EXTENDED_PART_TYPE (MbrEntry EMbrTable i).Type_ with
      | true =>
        have hl : ¬ entryLogical EMbrTable i := by
          rintro ⟨_, h⟩
          rw [hx] at h
          exact absurd h (by decide)
        simp only [ScanExtendedPartition.entries, if_neg hcode, hx, if_true, nextChainSector,
          logicalEntries, List.takeWhile_cons, List.dropWhile_cons, hl, decide_False,
          Bool.false_eq_true, if_false, List.head?_cons, hu, List.length_nil, Nat.add_zero,
          logicalVolumes, List.append_nil]
      | false =>
        have hl : entryLogical EMbrTable i := ⟨hu, hx⟩
        simp only [ScanExtendedPartition.entries, if_neg hcode, hx, Bool.false_eq_true, if_false,
          ih, nextChainSector, logicalEntries, List.takeWhile_cons, List.dropWhile_cons, hl,
          decide_True, if_true, List.length_cons, logicalVolumes, List.append_assoc,
          List.singleton_append]
        refine Prod.ext rfl (Prod.ext ?_ rfl)
        simp only []
        omega
    · have hcode : ((MbrEntry EMbrTable i).Flags ≠ 0x00 ∧ (MbrEntry EMbrTable i).Flags ≠ 0x80) ∨
          (MbrEntry EMbrTable i).StartLBA = 0 ∨ (MbrEntry EMbrTable i).Size = 0 := by
        unfold entryUsable at hu
        by_cases h1 : (MbrEntry EMbrTable i).StartLBA = 0
        · exact Or.inr (Or.inl h1)
        by_cases h2 : (MbrEntry EMbrTable i).Size = 0
        · exact Or.inr (Or.inr h2)
        refine Or.inl ⟨fun h0 => hu ⟨Or.inl h0, h1, h2⟩, fun h80 => hu ⟨Or.inr h80, h1, h2⟩⟩
      have hl : ¬ entryLogical EMbrTable i := fun h => hu h.1
      simp only [ScanExtendedPartition.entries, if_pos hcode, nextChainSector,
        logicalEntries, List.takeWhile_cons, List.dropWhile_cons, hl, decide_False,
        Bool.false_eq_true, if_false, List.head?_cons, hu, List.length_nil, Nat.add_zero,
        logicalVolumes, List.append_nil]

/-- One round of the loop over the chain at a sector that can be read and has
the signature. -/
theorem chain_step (GlobalConfig : REFIT_CONFIG) (fw : Firmware)
    (WholeDiskVolume : REFIT_VOLUME) (ExtBase fuel ExtCurrent LogicalPartitionIndex : Nat)
    (Volumes : List REFIT_VOLUME) (Sector : Mem)
    (hcur : ExtCurrent ≠ 0)
    (hread : fw.ReadBlocks WholeDiskVolume.BlockIO (fw.Media WholeDiskVolume.BlockIO).MediaId
      ExtCurrent 512 = (EFI_SUCCESS, Sector))
    (hsig : rd16 Sector 510 = 0xaa55) :
    ScanExtendedPartition.chain GlobalConfig fw WholeDiskVolume ExtBase (fuel + 1) ExtCurrent
        LogicalPartitionIndex Volumes =
      ScanExtendedPartition.chain GlobalConfig fw WholeDiskVolume ExtBase fuel
        (nextChainSector ExtBase (ptrAdd Sector 446) [0, 1, 2, 3])
        (LogicalPartitionIndex + (logicalEntries (ptrAdd Sector 446) [0, 1, 2, 3]).length)
        (Volumes ++ logicalVolumes GlobalConfig fw WholeDiskVolume ExtCurrent
          (ptrAdd Sector 446) LogicalPartitionIndex
          (logicalEntries (ptrAdd Sector 446) [0, 1, 2, 3])) := by
  have herr : EFI_ERROR EFI_SUCCESS = false := by decide
  simp only [ScanExtendedPartition.chain, if_neg hcur, hread, herr, Bool.false_eq_true, if_false,
    hsig, ne_eq, not_true_eq_false, entries_eq]

theorem chain_zero (GlobalConfig : REFIT_CONFIG) (fw : Firmware)
    (WholeDiskVolume : REFIT_VOLUME) (ExtBase fuel LogicalPartitionIndex : Nat)
    (Volumes : List REFIT_VOLUME) :
    ScanExtendedPartition.chain GlobalConfig fw WholeDiskVolume ExtBase (fuel + 1) 0
        LogicalPartitionIndex Volumes = { Finished := true, Volumes := Volumes } := by
  simp only [ScanExtendedPartition.chain, if_true]

/-- The chain of `loopFirmware` from sector 150 on: the link of sector 150
leads to sector 150 again, and every round appends one volume. -/
theorem loop_chain (fuel : Nat) :
    ∀ (LogicalPartitionIndex : Nat) (Volumes : List REFIT_VOLUME),
      (ScanExtendedPartition.chain plainConfig loopFirmware plainDisk 100 fuel 150
        LogicalPartitionIndex Volumes).Finished = false ∧
      (ScanExtendedPartition.chain plainConfig loopFirmware plainDisk 100 fuel 150
        LogicalPartitionIndex Volumes).Volumes.length = Volumes.length + fuel := by
  induction fuel with
  | zero =>
    intro LogicalPartitionIndex Volumes
    exact ⟨rfl, rfl⟩
  | succ fuel ih =>
    intro LogicalPartitionIndex Volumes
    have hnext : nextChainSector 100 (ptrAdd loopSample 446) [0, 1, 2, 3] = 150 := by decide
    have hlog : logicalEntries (ptrAdd loopSample 446) [0, 1, 2, 3] = [0] := by decide
    rw [chain_step plainConfig loopFirmware plainDisk 100 fuel 150 LogicalPartitionIndex Volumes
      loopSample (by decide) rfl (by decide), hnext, hlog]
    refine ⟨(ih _ _).1, ?_⟩
    rw [(ih _ _).2]
    simp only [logicalVolumes, List.length_append, List.length_cons, List.length_nil]
    omega

/-! ### Reconciliation -/

theorem foldl_add_sum (f : Nat → Nat) (l : List Nat) :
    ∀ a : Nat, l.foldl (fun Sum i => Sum + f i) a = a + (l.map f).sum := by
  induction l with
  | nil => intro a; simp
  | cons x l ih =>
    intro a
    simp only [List.foldl_cons, ih, List.map_cons, List.sum_cons]
    omega

theorem sectorSum_eq (Sector : Mem) :
    (List.range 512).foldl (fun Sum i => Sum + rd8 Sector i) 0 = sectorSum Sector := by
  rw [foldl_add_sum (fun i => rd8 Sector i) (List.range 512) 0]
  unfold sectorSum bytes
  simp only [Nat.zero_add]

theorem reconcileEntries_eq (fw : Firmware) (MbrTable : Mem) (Volume : REFIT_VOLUME)
    (hlast : (fw.Media Volume.BlockIO).LastBlock + 1 < 2 ^ 64)
    (hown : ¬ EFI_ERROR (ownSector fw Volume).1)
    (Entries : List Nat)
    (hdisk : ∀ p ∈ Entries, ¬ EFI_ERROR (diskSector fw MbrTable Volume p).1) :
    ScanVolumes.reconcileEntries fw MbrTable Volume Entries =
      match Entries.find? (fun p => decide (qualifies fw MbrTable Volume p)) with
      | some p => associate Volume p
      | none => Volume := by
  induction Entries with
  | nil => rfl
  | cons p rest ih =>
    have ih2 := ih (fun q hq => hdisk q (List.mem_cons_of_mem _ hq))
    have hd := hdisk p (List.mem_cons_self _ _)
    unfold ownSector at hown
    unfold diskSector at hd
    have hmod : ((fw.Media Volume.BlockIO).LastBlock + 1) % 2 ^ 64
        = (fw.Media Volume.BlockIO).LastBlock + 1 := Nat.mod_eq_of_lt hlast
    by_cases hq : qualifies fw MbrTable Volume p
    · have hq2 := hq
      unfold qualifies ownSector diskSector at hq2
      obtain ⟨h1, h2, h3⟩ := hq2
      have hcmp : CompareMem
          (fw.ReadBlocks Volume.BlockIO (fw.Media Volume.BlockIO).MediaId
            Volume.BlockIOOffset 512).2
          (fw.ReadBlocks Volume.WholeDiskBlockIO (fw.Media Volume.WholeDiskBlockIO).MediaId
            (MbrEntry MbrTable p).StartLBA 512).2 512 = 0 :=
        (CompareMem_eq_zero_iff _ _ _).2 h2
      have hsum : ¬ sectorSum (fw.ReadBlocks Volume.BlockIO (fw.Media Volume.BlockIO).MediaId
            Volume.BlockIOOffset 512).2 < 1000 := by omega
      simp only [ScanVolumes.reconcileEntries, hmod, h1, ne_eq, not_true_eq_false, if_false,
        hown, hd, hcmp, sectorSum_eq, hsum, List.find?_cons, hq, decide_True]
      rfl
    · have hrest : ScanVolumes.reconcileEntries fw MbrTable Volume (p :: rest)
          = ScanVolumes.reconcileEntries fw MbrTable Volume rest := by
        unfold qualifies ownSector diskSector at hq
        by_cases h1 : (MbrEntry MbrTable p).Size = (fw.Media Volume.BlockIO).LastBlock + 1
        · by_cases h2 : CompareMem
              (fw.ReadBlocks Volume.BlockIO (fw.Media Volume.BlockIO).MediaId
                Volume.BlockIOOffset 512).2
              (fw.ReadBlocks Volume.WholeDiskBlockIO (fw.Media Volume.WholeDiskBlockIO).MediaId
                (MbrEntry MbrTable p).StartLBA 512).2 512 = 0
          · have hsum : sectorSum (fw.ReadBlocks Volume.BlockIO
                (fw.Media Volume.BlockIO).MediaId Volume.BlockIOOffset 512).2 < 1000 := by
              have h2b := (CompareMem_eq_zero_iff _ _ _).1 h2
              by_contra hge
              exact hq ⟨h1, h2b, by omega⟩
            simp only [ScanVolumes.reconcileEntries, hmod, h1, ne_eq, not_true_eq_false,
              if_false, hown, hd, h2, sectorSum_eq, hsum, if_true, Bool.false_eq_true]
          · simp only [ScanVolumes.reconcileEntries, hmod, h1, ne_eq, not_true_eq_false,
              if_false, hown, hd, h2, not_false_eq_true, if_true, Bool.false_eq_true]
        · simp only [ScanVolumes.reconcileEntries, hmod, h1, ne_eq, not_false_eq_true, if_true]
      rw [hrest, ih2]
      simp only [List.find?_cons, hq, decide_False]

/-- The first entry of 0..3 that satisfies `P` is the smallest one. -/
theorem find_first_of_four (P : Nat → Prop) [DecidablePred P] :
    (∀ p, p < 4 → P p → (∀ q, q < p → ¬ P q) →
      [0, 1, 2, 3].find? (fun p => decide (P p)) = some p) ∧
    ((∀ p, p < 4 → ¬ P p) → [0, 1, 2, 3].find? (fun p => decide (P p)) = none) ∧
    (∀ p, [0, 1, 2, 3].find? (fun p => decide (P p)) = some p →
      p < 4 ∧ P p ∧ ∀ q, q < p → ¬ P q) := by
  refine ⟨?_, ?_, ?_⟩
  · intro p hp hP hmin
    interval_cases p
    · simp [List.find?_cons, hP]
    · have h0 := hmin 0 (by omega)
      simp [List.find?_cons, hP, h0]
    · have h0 := hmin 0 (by omega)
      have h1 := hmin 1 (by omega)
      simp [List.find?_cons, hP, h0, h1]
    · have h0 := hmin 0 (by omega)
      have h1 := hmin 1 (by omega)
      have h2 := hmin 2 (by omega)
      simp [List.find?_cons, hP, h0, h1, h2]
  · intro hnone
    have h0 := hnone 0 (by omega)
    have h1 := hnone 1 (by omega)
    have h2 := hnone 2 (by omega)
    have h3 := hnone 3 (by omega)
    simp [List.find?_cons, h0, h1, h2, h3]
  · intro p hfind
    by_cases h0 : P 0
    · simp [List.find?_cons, h0] at hfind
      subst hfind
      exact ⟨by omega, h0, fun q hq => absurd hq (by omega)⟩
    by_cases h1 : P 1
    · simp [List.find?_cons, h0, h1] at hfind
      subst hfind
      refine ⟨by omega, h1, fun q hq => ?_⟩
      interval_cases q
      exact h0
    by_cases h2 : P 2
    · simp [List.find?_cons, h0, h1, h2] at hfind
      subst hfind
      refine ⟨by omega, h2, fun q hq => ?_⟩
      interval_cases q
      · exact h0
      · exact h1
    by_cases h3 : P 3
    · simp [List.find?_cons, h0, h1, h2, h3] at hfind
      subst hfind
      refine ⟨by omega, h3, fun q hq => ?_⟩
      interval_cases q
      · exact h0
      · exact h1
      · exact h2
    · simp [List.find?_cons, h0, h1, h2, h3] at hfind

theorem reconcileEntries_congr (fw1 fw2 : Firmware) (MbrTable : Mem) (Volume : REFIT_VOLUME)
    (hread : ∀ b m l, fw1.ReadBlocks b m l 512 = fw2.ReadBlocks b m l 512)
    (hmedia : ∀ b, fw1.Media b = fw2.Media b) (Entries : List Nat) :
    ScanVolumes.reconcileEntries fw1 MbrTable Volume Entries
      = ScanVolumes.reconcileEntries fw2 MbrTable Volume Entries := by
  induction Entries with
  | nil => rfl
  | cons p rest ih =>
    simp only [ScanVolumes.reconcileEntries, hread, hmedia, ih]

theorem reconcile_congr (fw1 fw2 : Firmware) (Volume : REFIT_VOLUME)
    (WholeDiskVolume : Option REFIT_VOLUME)
    (hread : ∀ b m l, fw1.ReadBlocks b m l 512 = fw2.ReadBlocks b m l 512)
    (hmedia : ∀ b, fw1.Media b = fw2.Media b) :
    ScanVolumes.reconcile fw1 Volume WholeDiskVolume
      = ScanVolumes.reconcile fw2 Volume WholeDiskVolume := by
  unfold ScanVolumes.reconcile
  cases WholeDiskVolume with
  | none => rfl
  | some W =>
    simp only []
    cases W.MbrPartitionTable with
    | none => rfl
    | some T => exact reconcileEntries_congr fw1 fw2 _ Volume hread hmedia _

theorem sectorSum_zero (Sector : Mem) (hzero : ∀ i, i < 512 → rd8 Sector i = 0) :
    sectorSum Sector = 0 := by
  unfold sectorSum bytes
  apply List.sum_eq_zero
  intro x hx
  simp only [List.mem_map, List.mem_range] at hx
  obtain ⟨i, hi, hxi⟩ := hx
  rw [← hxi, Nat.zero_add]
  exact hzero i hi

/-! ### The first pass of `ScanVolumes` -/

theorem finish_DeviceHandle (GlobalConfig : REFIT_CONFIG) (fw : Firmware) (Volume : REFIT_VOLUME)
    (Bootable : Bool) :
    (ScanVolume.finish GlobalConfig fw Volume Bootable).DeviceHandle = Volume.DeviceHandle ∧
    (ScanVolume.finish GlobalConfig fw Volume Bootable).VolUuid = Volume.VolUuid := by
  unfold ScanVolume.finish
  simp only []
  split_ifs <;> exact ⟨rfl, rfl⟩

theorem handleVolume_DeviceHandle (GlobalConfig : REFIT_CONFIG) (fw : Firmware) (Handle : Nat) :
    (handleVolume GlobalConfig fw Handle).DeviceHandle = Handle := by
  unfold handleVolume
  rw [ScanVolume_eq, (finish_DeviceHandle GlobalConfig fw _ _).1, walked_eq,
    (sameExceptWalk_fields (walk_frame fw _ [] _ _)).2.1]
  unfold ScanVolume.scanned
  rw [(sameExceptScan_fields (ScanVolumeBootcode_frame GlobalConfig fw _)).2.1,
    (blockIo_fields fw _).2.1]

theorem dedupe_fold (c : List Nat → Prop) [DecidablePred c] (UuidList : List (List Nat)) :
    ∀ Volume : REFIT_VOLUME,
      UuidList.foldl
          (fun (V : REFIT_VOLUME) Uuid => if c Uuid then { V with IsReadable := false } else V)
          Volume =
        if ∃ Uuid ∈ UuidList, c Uuid then { Volume with IsReadable := false } else Volume := by
  induction UuidList with
  | nil => intro Volume; simp
  | cons U rest ih =>
    intro Volume
    simp only [List.foldl_cons, ih]
    by_cases hU : c U
    · have h1 : ∃ Uuid ∈ U :: rest, c Uuid := ⟨U, List.mem_cons_self _ _, hU⟩
      rw [if_pos hU, if_pos h1]
      split <;> rfl
    · rw [if_neg hU]
      by_cases h2 : ∃ Uuid ∈ rest, c Uuid
      · obtain ⟨E, hE, hcE⟩ := h2
        rw [if_pos ⟨E, hE, hcE⟩, if_pos ⟨E, List.mem_cons_of_mem _ hE, hcE⟩]
      · have h3 : ¬ ∃ Uuid ∈ U :: rest, c Uuid := by
          rintro ⟨E, hE, hcE⟩
          rcases List.mem_cons.1 hE with he | hr
          · exact hU (he ▸ hcE)
          · exact h2 ⟨E, hr, hcE⟩
        rw [if_neg h2, if_neg h3]

/-- One step of the first pass, as the sequence of its parts. -/
theorem handle_steps (GlobalConfig : REFIT_CONFIG) (fw : Firmware) (st : FirstPass)
    (Handle : Nat) :
    ScanVolumes.handle GlobalConfig fw st Handle =
      { Volumes := st.Volumes ++
          [ScanVolumes.number st.VolNumber
            (ScanVolumes.dedupe fw st.UuidList (handleVolume GlobalConfig fw Handle))],
        UuidList :=
          if fw.UuidListAllocated then
            st.UuidList ++ [(ScanVolumes.number st.VolNumber
              (ScanVolumes.dedupe fw st.UuidList (handleVolume GlobalConfig fw Handle))).VolUuid]
          else st.UuidList,
        VolNumber :=
          if (ScanVolumes.number st.VolNumber
              (ScanVolumes.dedupe fw st.UuidList (handleVolume GlobalConfig fw Handle))).IsReadable
          then st.VolNumber + 1
          else st.VolNumber,
        SelfVolume :=
          if (ScanVolumes.number st.VolNumber
              (ScanVolumes.dedupe fw st.UuidList
                (handleVolume GlobalConfig fw Handle))).DeviceHandle = fw.SelfDeviceHandle
          then some st.Volumes.length
          else st.SelfVolume } := rfl

theorem dedupe_eq (fw : Firmware) (UuidList : List (List Nat)) (Volume : REFIT_VOLUME) :
    ScanVolumes.dedupe fw UuidList Volume =
      if fw.UuidListAllocated = true ∧ duplicateUuid UuidList Volume.VolUuid then
        { Volume with IsReadable := false }
      else Volume := by
  have hfold := dedupe_fold
    (fun Uuid =>
      CompareMem (memOfList Volume.VolUuid) (memOfList Uuid) sizeof_EFI_GUID = 0 ∧
        CompareMem (memOfList Volume.VolUuid) (memOfList NullUuid) sizeof_EFI_GUID ≠ 0)
    UuidList Volume
  have hex : (∃ Uuid ∈ UuidList,
      CompareMem (memOfList Volume.VolUuid) (memOfList Uuid) sizeof_EFI_GUID = 0 ∧
        CompareMem (memOfList Volume.VolUuid) (memOfList NullUuid) sizeof_EFI_GUID ≠ 0) ↔
      duplicateUuid UuidList Volume.VolUuid := by
    unfold duplicateUuid sameUuid
    simp only [CompareMem_eq_zero_iff, ne_eq]
    constructor
    · rintro ⟨E, hE, h1, h2⟩
      exact ⟨⟨E, hE, h1⟩, h2⟩
    · rintro ⟨⟨E, hE, h1⟩, h2⟩
      exact ⟨E, hE, h1, h2⟩
  unfold ScanVolumes.dedupe
  by_cases halloc : fw.UuidListAllocated = true
  · rw [if_pos halloc, hfold]
    by_cases hdup : duplicateUuid UuidList Volume.VolUuid
    · rw [if_pos (hex.2 hdup), if_pos ⟨halloc, hdup⟩]
    · rw [if_neg (fun h => hdup (hex.1 h)), if_neg (fun h => hdup h.2)]
  · rw [if_neg halloc, if_neg (fun h => halloc h.1)]

theorem unreadable_eta (Volume : REFIT_VOLUME) (n : Nat) (h : Volume.IsReadable = false) :
    { Volume with VolNumber := n } = { Volume with IsReadable := false, VolNumber := n } := by
  cases Volume
  simp only [] at h
  subst h
  rfl

theorem number_dedupe (fw : Firmware) (UuidList : List (List Nat)) (n : Nat)
    (Volume : REFIT_VOLUME) :
    ScanVolumes.number n (ScanVolumes.dedupe fw UuidList Volume) =
      if Volume.IsReadable = true ∧
          ¬ (fw.UuidListAllocated = true ∧ duplicateUuid UuidList Volume.VolUuid) then
        { Volume with VolNumber := n }
      else { Volume with IsReadable := false, VolNumber := VOL_UNREADABLE } := by
  rw [dedupe_eq]
  by_cases hd : fw.UuidListAllocated = true ∧ duplicateUuid UuidList Volume.VolUuid
  · have hn : ¬ (Volume.IsReadable = true ∧
        ¬ (fw.UuidListAllocated = true ∧ duplicateUuid UuidList Volume.VolUuid)) :=
      fun h => h.2 hd
    rw [if_pos hd, if_neg hn]
    rfl
  · rw [if_neg hd]
    unfold ScanVolumes.number
    by_cases hr : Volume.IsReadable = true
    · have hc : Volume.IsReadable = true ∧
          ¬ (fw.UuidListAllocated = true ∧ duplicateUuid UuidList Volume.VolUuid) := ⟨hr, hd⟩
      rw [if_pos hc, if_pos hr]
    · have hc : ¬ (Volume.IsReadable = true ∧
          ¬ (fw.UuidListAllocated = true ∧ duplicateUuid UuidList Volume.VolUuid)) :=
        fun h => hr h.1
      rw [if_neg hc, if_neg hr]
      exact unreadable_eta Volume VOL_UNREADABLE (by simpa using hr)

/-- The volume a step of the first pass appends is the one described by
`numbered`. -/
theorem number_dedupe_eq (GlobalConfig : REFIT_CONFIG) (fw : Firmware) (st : FirstPass)
    (Handle : Nat) :
    ScanVolumes.number st.VolNumber
        (ScanVolumes.dedupe fw st.UuidList (handleVolume GlobalConfig fw Handle))
      = numbered GlobalConfig fw st Handle :=
  number_dedupe fw st.UuidList st.VolNumber (handleVolume GlobalConfig fw Handle)

theorem numbered_fields (GlobalConfig : REFIT_CONFIG) (fw : Firmware) (st : FirstPass)
    (Handle : Nat) :
    (numbered GlobalConfig fw st Handle).DeviceHandle = Handle ∧
    (numbered GlobalConfig fw st Handle).VolUuid = (handleVolume GlobalConfig fw Handle).VolUuid ∧
    ((numbered GlobalConfig fw st Handle).IsReadable = true ↔
      ((handleVolume GlobalConfig fw Handle).IsReadable = true ∧
        ¬ (fw.UuidListAllocated = true ∧
          duplicateUuid st.UuidList (handleVolume GlobalConfig fw Handle).VolUuid))) ∧
    (numbered GlobalConfig fw st Handle).VolNumber =
      (if (numbered GlobalConfig fw st Handle).IsReadable then st.VolNumber
       else VOL_UNREADABLE) := by
  have hdh := handleVolume_DeviceHandle GlobalConfig fw Handle
  unfold numbered
  by_cases hc : (handleVolume GlobalConfig fw Handle).IsReadable = true ∧
      ¬ (fw.UuidListAllocated = true ∧
        duplicateUuid st.UuidList (handleVolume GlobalConfig fw Handle).VolUuid)
  · rw [if_pos hc]
    refine ⟨hdh, rfl, ⟨fun _ => hc, fun _ => hc.1⟩, ?_⟩
    simp only [hc.1, if_true]
  · rw [if_neg hc]
    refine ⟨hdh, rfl, ⟨fun h => absurd h Bool.false_ne_true, fun h => absurd h hc⟩, ?_⟩
    simp only [Bool.false_eq_true, if_false]

/-- One step of the first pass, in the words of `numbered`. -/
theorem handle_eq (GlobalConfig : REFIT_CONFIG) (fw : Firmware) (st : FirstPass) (Handle : Nat) :
    ScanVolumes.handle GlobalConfig fw st Handle =
      { Volumes := st.Volumes ++ [numbered GlobalConfig fw st Handle],
        UuidList :=
          if fw.UuidListAllocated then
            st.UuidList ++ [(handleVolume GlobalConfig fw Handle).VolUuid]
          else st.UuidList,
        VolNumber :=
          if (numbered GlobalConfig fw st Handle).IsReadable then st.VolNumber + 1
          else st.VolNumber,
        SelfVolume :=
          if Handle = fw.SelfDeviceHandle then some st.Volumes.length else st.SelfVolume } := by
  have hf := numbered_fields GlobalConfig fw st Handle
  rw [handle_steps, number_dedupe_eq, hf.1, hf.2.1]

theorem firstPass_snoc (GlobalConfig : REFIT_CONFIG) (fw : Firmware) (Handles : List Nat)
    (Handle : Nat) :
    firstPass GlobalConfig fw (Handles ++ [Handle])
      = ScanVolumes.handle GlobalConfig fw (firstPass GlobalConfig fw Handles) Handle := by
  unfold firstPass
  rw [List.foldl_append]
  rfl

theorem readableCount_snoc (Volumes : List REFIT_VOLUME) (Volume : REFIT_VOLUME) :
    readableCount (Volumes ++ [Volume])
      = if Volume.IsReadable then readableCount Volumes + 1 else readableCount Volumes := by
  unfold readableCount
  rw [List.filter_append, List.length_append]
  cases hr : Volume.IsReadable <;> simp [List.filter, hr]

/-- What holds after the first pass over any list of handles. -/
theorem firstPass_inv (GlobalConfig : REFIT_CONFIG) (fw : Firmware) (Handles : List Nat) :
    (firstPass GlobalConfig fw Handles).Volumes.map (fun Volume => Volume.DeviceHandle)
      = Handles ∧
    (firstPass GlobalConfig fw Handles).Volumes.length = Handles.length ∧
    (fw.UuidListAllocated = true →
      (firstPass GlobalConfig fw Handles).UuidList
        = Handles.map (fun Handle => (handleVolume GlobalConfig fw Handle).VolUuid)) ∧
    (firstPass GlobalConfig fw Handles).VolNumber
      = readableCount (firstPass GlobalConfig fw Handles).Volumes ∧
    (∀ (i : Nat) (Volume : REFIT_VOLUME),
      (firstPass GlobalConfig fw Handles).Volumes[i]? = some Volume →
      Volume.VolNumber =
        if Volume.IsReadable then
          readableCount ((firstPass GlobalConfig fw Handles).Volumes.take i)
        else VOL_UNREADABLE) := by
  induction Handles using List.reverseRecOn with
  | nil =>
    refine ⟨rfl, rfl, fun _ => rfl, rfl, ?_⟩
    intro i Volume h
    simp [firstPass] at h
  | append_singleton Handles Handle ih =>
    obtain ⟨ih1, ih2, ih3, ih4, ih5⟩ := ih
    have hf := numbered_fields GlobalConfig fw (firstPass GlobalConfig fw Handles) Handle
    rw [firstPass_snoc, handle_eq]
    simp only []
    refine ⟨?_, ?_, ?_, ?_, ?_⟩
    · rw [List.map_append, ih1]
      simp only [List.map_cons, List.map_nil, hf.1]
    · rw [List.length_append, ih2, List.length_append]
      rfl
    · intro halloc
      rw [if_pos halloc, ih3 halloc, List.map_append]
      rfl
    · rw [readableCount_snoc, ih4]
    · intro i Volume hi
      by_cases hlt : i < (firstPass GlobalConfig fw Handles).Volumes.length
      · rw [List.getElem?_append_left hlt] at hi
        rw [List.take_append_of_le_length (Nat.le_of_lt hlt)]
        exact ih5 i Volume hi
      · have hge : (firstPass GlobalConfig fw Handles).Volumes.length ≤ i := by omega
        rw [List.getElem?_append_right hge] at hi
        have hz : i - (firstPass GlobalConfig fw Handles).Volumes.length = 0 := by
          by_contra hne
          obtain ⟨k, hk⟩ := Nat.exists_eq_succ_of_ne_zero hne
          rw [hk] at hi
          simp at hi
        rw [hz] at hi
        simp only [List.getElem?_cons_zero, Option.some.injEq] at hi
        have hi2 : i = (firstPass GlobalConfig fw Handles).Volumes.length := by omega
        rw [hi2, List.take_left, ← hi, hf.2.2.2, ih4]

theorem foldl_handle_extends (GlobalConfig : REFIT_CONFIG) (fw : Firmware)
    (Handles : List Nat) :
    ∀ st : FirstPass, ∃ Later : List REFIT_VOLUME,
      (Handles.foldl (ScanVolumes.handle GlobalConfig fw) st).Volumes = st.Volumes ++ Later := by
  induction Handles with
  | nil => intro st; exact ⟨[], by simp⟩
  | cons Handle rest ih =>
    intro st
    obtain ⟨Later, h⟩ := ih (ScanVolumes.handle GlobalConfig fw st Handle)
    refine ⟨numbered GlobalConfig fw st Handle :: Later, ?_⟩
    rw [List.foldl_cons, h, handle_eq]
    simp

/-- The volume of a handle after the first pass is the one `numbered` makes of
it in the state reached over the handles before it; the volumes before it
are those of the first pass over the handles before it. -/
theorem firstPass_at (GlobalConfig : REFIT_CONFIG) (fw : Firmware) (Pre : List Nat)
    (Handle : Nat) (Post : List Nat) :
    (firstPass GlobalConfig fw (Pre ++ Handle :: Post)).Volumes[Pre.length]?
      = some (numbered GlobalConfig fw (firstPass GlobalConfig fw Pre) Handle) ∧
    (firstPass GlobalConfig fw (Pre ++ Handle :: Post)).Volumes.take Pre.length
      = (firstPass GlobalConfig fw Pre).Volumes := by
  have hlen := (firstPass_inv GlobalConfig fw Pre).2.1
  obtain ⟨Later, h⟩ := foldl_handle_extends GlobalConfig fw Post
    (ScanVolumes.handle GlobalConfig fw (firstPass GlobalConfig fw Pre) Handle)
  have hall : (firstPass GlobalConfig fw (Pre ++ Handle :: Post)).Volumes
      = (firstPass GlobalConfig fw Pre).Volumes
        ++ numbered GlobalConfig fw (firstPass GlobalConfig fw Pre) Handle :: Later := by
    have e : firstPass GlobalConfig fw (Pre ++ Handle :: Post)
        = Post.foldl (ScanVolumes.handle GlobalConfig fw)
            (ScanVolumes.handle GlobalConfig fw (firstPass GlobalConfig fw Pre) Handle) := by
      unfold firstPass
      rw [List.foldl_append, List.foldl_cons]
    rw [e, h, handle_eq]
    simp
  rw [hall, ← hlen]
  constructor
  · rw [List.getElem?_append_right (Nat.le_refl _), Nat.sub_self]
    exact List.getElem?_cons_zero
  · exact List.take_left _ _

/-- `ScanVolumes`, when the handles could be listed, is the second pass over
the collection of the first pass. -/
theorem ScanVolumes_eq (fuel : Nat) (GlobalConfig : REFIT_CONFIG) (fw : Firmware)
    (hfound : fw.LocateHandle.1 ≠ EFI_NOT_FOUND) (hok : CheckError fw.LocateHandle.1 = false) :
    ScanVolumes fuel GlobalConfig fw =
      { Finished := (ScanVolumes.second GlobalConfig fw fuel 0
          (firstPass GlobalConfig fw fw.LocateHandle.2).Volumes).Finished,
        Volumes := (ScanVolumes.second GlobalConfig fw fuel 0
          (firstPass GlobalConfig fw fw.LocateHandle.2).Volumes).Volumes,
        SelfVolume := (firstPass GlobalConfig fw fw.LocateHandle.2).SelfVolume } := by
  unfold ScanVolumes firstPass
  simp only [hfound, hok, if_false, Bool.false_eq_true]

set_option maxRecDepth 100000 in
/-- The scan of the two handles of `numberFirmware` in legacy mode. -/
theorem numberFirmware_scan :
    (ScanVolumes 4 legacyConfig numberFirmware).Finished = true ∧
    (ScanVolumes 4 legacyConfig numberFirmware).Volumes.map
        (fun Volume => (Volume.DeviceHandle, Volume.IsMbrPartition, Volume.IsReadable,
          Volume.VolNumber))
      = [(7, false, false, 999), (8, false, true, 0), (0, true, false, 0)] := by
  decide

set_option maxRecDepth 100000 in
/-- The block I/O references, sector offsets and tables after the scan of the
two handles of `numberFirmware` in legacy mode: the whole disk, the partition
and the volume made for the logical partition. -/
theorem numberFirmware_disks :
    (ScanVolumes 4 legacyConfig numberFirmware).Volumes.map
        (fun Volume => (Volume.BlockIO, Volume.WholeDiskBlockIO, Volume.BlockIOOffset,
          Volume.MbrPartitionTable.isSome))
      = [(7, 7, 0, true), (8, 7, 0, false), (7, 7, 101, false)] := by
  decide

set_option maxRecDepth 100000 in
/-- The partition of `reconcileFirmware` matches entry 1 of the table and not
entry 0. -/
theorem reconcilePartition_qualifies :
    qualifies reconcileFirmware (memOfList reconcileTable) reconcilePartition 1 ∧
    ¬ qualifies reconcileFirmware (memOfList reconcileTable) reconcilePartition 0 ∧
    (ScanVolumes.reconcile reconcileFirmware reconcilePartition
      (some reconcileDisk)).MbrPartitionIndex = 1 := by
  decide

set_option maxRecDepth 100000 in
/-- The partition of `lastBlockFirmware`, with last block 2^64 - 1, against the
table `emptySlotTable`: no entry qualifies, and the reconciliation marks the
volume with slot 0. -/
theorem lastBlockFirmware_reconcile :
    (lastBlockFirmware.Media reconcilePartition.BlockIO).LastBlock = 2 ^ 64 - 1 ∧
    (MbrEntry (memOfList emptySlotTable) 0).Size = 0 ∧
    (∀ p, p < 4 →
      ¬ qualifies lastBlockFirmware (memOfList emptySlotTable) reconcilePartition p) ∧
    reconcilePartition.IsMbrPartition = false ∧
    ScanVolumes.wholeDiskVolume [emptySlotDisk, reconcilePartition] reconcilePartition
      = some emptySlotDisk ∧
    (ScanVolumes.reconcile lastBlockFirmware reconcilePartition
      (some emptySlotDisk)).IsMbrPartition = true ∧
    (ScanVolumes.reconcile lastBlockFirmware reconcilePartition
      (some emptySlotDisk)).MbrPartitionIndex = 0 := by
  decide

/-! ### Pathname manipulations -/

theorem charAt_append_right (A B : List Char) (k : Nat) :
    charAt (A ++ B) (A.length + k) = charAt B k := by
  unfold charAt
  rw [List.getD_eq_getElem?_getD, List.getD_eq_getElem?_getD,
    List.getElem?_append_right (Nat.le_add_right _ _), Nat.add_sub_cancel_left]

theorem charAt_cons_zero (c : Char) (B : List Char) : charAt (c :: B) 0 = c := rfl

theorem charAt_append_cons (A : List Char) (c : Char) (B : List Char) :
    charAt (A ++ c :: B) A.length = c := by
  have h := charAt_append_right A (c :: B) 0
  rw [Nat.add_zero] at h
  rw [h]
  rfl

theorem FindPath_loop_none (A : List Char) (h : '\\' ∉ A) :
    ∀ i LastBackslash, FindPath.loop A i LastBackslash = LastBackslash := by
  induction A with
  | nil => intro i L; rfl
  | cons c A ih =>
    intro i L
    have hc : c ≠ '\\' := fun e => h (e ▸ List.mem_cons_self _ _)
    simp only [FindPath.loop, if_neg hc]
    exact ih (fun hm => h (List.mem_cons_of_mem _ hm)) _ _

theorem FindPath_loop_append (A B : List Char) :
    ∀ i LastBackslash,
      FindPath.loop (A ++ B) i LastBackslash
        = FindPath.loop B (i + A.length) (FindPath.loop A i LastBackslash) := by
  induction A with
  | nil => intro i L; rfl
  | cons c A ih =>
    intro i L
    have e : i + 1 + A.length = i + (A.length + 1) := by omega
    rw [List.cons_append]
    simp only [FindPath.loop, ih, List.length_cons, e]

/-- The last backslash found by the loop of `FindPath`. -/
theorem FindPath_loop_last (Pre Post : List Char) (h : '\\' ∉ Post) :
    FindPath.loop (Pre ++ '\\' :: Post) 0 0 = Pre.length := by
  rw [FindPath_loop_append]
  simp only [FindPath.loop, if_true, Nat.zero_add]
  exact FindPath_loop_none Post h _ _

theorem scan_le (P : List Char) : ∀ i, SplitVolumeAndFilename.scan P i ≤ i + P.length := by
  induction P with
  | nil => intro i; exact Nat.le_refl _
  | cons c P ih =>
    intro i
    simp only [SplitVolumeAndFilename.scan, List.length_cons]
    split
    · have := ih (i + 1)
      omega
    · omega

theorem scan_no_colon (P : List Char) (h : ':' ∉ P) :
    ∀ i, SplitVolumeAndFilename.scan P i = i + P.length := by
  induction P with
  | nil => intro i; rfl
  | cons c P ih =>
    intro i
    have hc : c ≠ ':' := fun e => h (e ▸ List.mem_cons_self _ _)
    simp only [SplitVolumeAndFilename.scan, hc, ne_eq, not_false_eq_true, if_true,
      List.length_cons, ih (fun hm => h (List.mem_cons_of_mem _ hm))]
    omega

theorem scan_first_colon (Pre Post : List Char) (h : ':' ∉ Pre) :
    ∀ i, SplitVolumeAndFilename.scan (Pre ++ ':' :: Post) i = i + Pre.length := by
  induction Pre with
  | nil =>
    intro i
    simp [SplitVolumeAndFilename.scan]
  | cons c Pre ih =>
    intro i
    have hc : c ≠ ':' := fun e => h (e ▸ List.mem_cons_self _ _)
    have hi := ih (fun hm => h (List.mem_cons_of_mem _ hm)) (i + 1)
    rw [List.cons_append]
    simp only [SplitVolumeAndFilename.scan, hc, ne_eq, not_false_eq_true, if_true,
      List.length_cons]
    rw [hi]
    omega

/-- A string with a colon splits at its first colon. -/
theorem first_colon (P : List Char) (h : ':' ∈ P) :
    ∃ Pre Post, P = Pre ++ ':' :: Post ∧ ':' ∉ Pre := by
  induction P with
  | nil => simp at h
  | cons c P ih =>
    by_cases hc : c = ':'
    · exact ⟨[], P, by rw [hc]; rfl, by simp⟩
    · rcases List.mem_cons.1 h with e | hm
      · exact absurd e.symm hc
      · obtain ⟨Pre, Post, hP, hn⟩ := ih hm
        refine ⟨c :: Pre, Post, by rw [hP]; rfl, ?_⟩
        intro hmem
        rcases List.mem_cons.1 hmem with e | hm2
        · exact hc e.symm
        · exact hn hm2

theorem SplitVolumeAndFilename_colon (Pre Post : List Char) (VolName : Option (List Char))
    (h : ':' ∉ Pre) :
    SplitVolumeAndFilename (some (Pre ++ ':' :: Post)) VolName = (true, some Post, some Pre) := by
  have hs := scan_first_colon Pre Post h 0
  rw [Nat.zero_add] at hs
  have hlt : Pre.length < (Pre ++ ':' :: Post).length := by
    simp only [List.length_append, List.length_cons]
    omega
  simp only [SplitVolumeAndFilename, hs, hlt, if_true, List.take_left]
  have hd : List.drop (Pre.length + 1) (Pre ++ ':' :: Post) = Post := by
    rw [List.drop_append]
    rfl
  rw [hd]

theorem SplitVolumeAndFilename_none (P : List Char) (VolName : Option (List Char))
    (h : ':' ∉ P) :
    SplitVolumeAndFilename (some P) VolName = (false, some P, none) := by
  have hs := scan_no_colon P h 0
  rw [Nat.zero_add] at hs
  simp only [SplitVolumeAndFilename, hs, Nat.lt_irrefl, if_false]

theorem FindLastDirName_loop_none (A : List Char) (h : '\\' ∉ A) :
    ∀ i SE, FindLastDirName.loop A i SE = SE := by
  induction A with
  | nil => intro i SE; rfl
  | cons c A ih =>
    intro i SE
    have hc : c ≠ '\\' := fun e => h (e ▸ List.mem_cons_self _ _)
    simp only [FindLastDirName.loop, if_neg hc]
    exact ih (fun hm => h (List.mem_cons_of_mem _ hm)) _ _

theorem FindLastDirName_loop_append (A B : List Char) :
    ∀ i SE,
      FindLastDirName.loop (A ++ B) i SE
        = FindLastDirName.loop B (i + A.length) (FindLastDirName.loop A i SE) := by
  induction A with
  | nil => intro i SE; rfl
  | cons c A ih =>
    intro i SE
    have e : i + 1 + A.length = i + (A.length + 1) := by omega
    rw [List.cons_append]
    simp only [FindLastDirName.loop, ih, List.length_cons, e]

/-- The loop of `FindLastDirName` on a path that ends in `\D\F`: the last two
backslashes. -/
theorem FindLastDirName_loop_two (P D F : List Char) (hD : '\\' ∉ D) (hF : '\\' ∉ F) :
    FindLastDirName.loop (P ++ '\\' :: (D ++ '\\' :: F)) 0 (0, 0)
      = (P.length, P.length + 1 + D.length) := by
  rw [FindLastDirName_loop_append]
  simp only [FindLastDirName.loop, if_true, Nat.zero_add]
  rw [FindLastDirName_loop_append, FindLastDirName_loop_none D hD]
  simp only [FindLastDirName.loop, if_true]
  exact FindLastDirName_loop_none F hF _ _

/-- The loop of `FindLastDirName` on a path `D\F` with a single backslash. -/
theorem FindLastDirName_loop_one (D F : List Char) (hD : '\\' ∉ D) (hF : '\\' ∉ F) :
    FindLastDirName.loop (D ++ '\\' :: F) 0 (0, 0) = (0, D.length) := by
  rw [FindLastDirName_loop_append, FindLastDirName_loop_none D hD]
  simp only [FindLastDirName.loop, if_true, Nat.zero_add]
  exact FindLastDirName_loop_none F hF _ _

theorem FindLastDirName_two (P D F : List Char) (hne : D ≠ []) (hD : '\\' ∉ D)
    (hF : '\\' ∉ F) :
    FindLastDirName (some (P ++ '\\' :: (D ++ '\\' :: F))) = some D := by
  obtain ⟨d, D', hd⟩ := List.exists_cons_of_ne_nil hne
  have hdb : d ≠ '\\' := fun e => hD (by rw [hd, e]; exact List.mem_cons_self _ _)
  have hlen : (P ++ '\\' :: (D ++ '\\' :: F)).length = P.length + D.length + F.length + 2 := by
    simp only [List.length_append, List.length_cons]
    omega
  have hDlen : D.length = D'.length + 1 := by rw [hd]; rfl
  have hskip : FindLastDirName.skip (P ++ '\\' :: (D ++ '\\' :: F))
      ((P ++ '\\' :: (D ++ '\\' :: F)).length + 1) P.length = P.length + 1 := by
    have hf : (P ++ '\\' :: (D ++ '\\' :: F)).length + 1
        = (P.length + D.length + F.length + 1) + 2 := by omega
    rw [hf]
    have h0 : charAt (P ++ '\\' :: (D ++ '\\' :: F)) P.length = '\\' :=
      charAt_append_cons P '\\' _
    have h1 : charAt (P ++ '\\' :: (D ++ '\\' :: F)) (P.length + 1) = d := by
      have e : P ++ '\\' :: (D ++ '\\' :: F) = (P ++ ['\\']) ++ d :: (D' ++ '\\' :: F) := by
        rw [hd]
        simp
      have el : P.length + 1 = (P ++ ['\\']).length := by simp
      rw [e, el]
      exact charAt_append_cons _ d _
    have hlt0 : P.length < (P ++ '\\' :: (D ++ '\\' :: F)).length := by omega
    simp only [FindLastDirName.skip, hlt0, h0, h1, hdb, and_self, if_true, and_false, if_false]
  unfold FindLastDirName
  simp only [FindLastDirName_loop_two P D F hD hF, hskip]
  have hpos : P.length + 1 + D.length > 0 := by omega
  have hge : P.length + 1 + D.length - 1 ≥ P.length + 1 := by omega
  have hcopy : P.length + 1 + D.length - 1 - (P.length + 1) + 1 = D.length := by omega
  rw [if_pos hpos, if_pos hge, hcopy]
  have hdrop : List.drop (P.length + 1) (P ++ '\\' :: (D ++ '\\' :: F)) = D ++ '\\' :: F := by
    rw [List.drop_append]
    rfl
  rw [hdrop, List.take_left]

theorem FindLastDirName_one (D F : List Char) (hne : D ≠ []) (hD : '\\' ∉ D)
    (hF : '\\' ∉ F) :
    FindLastDirName (some (D ++ '\\' :: F)) = some D := by
  obtain ⟨d, D', hd⟩ := List.exists_cons_of_ne_nil hne
  have hdb : d ≠ '\\' := fun e => hD (by rw [hd, e]; exact List.mem_cons_self _ _)
  have hDlen : D.length = D'.length + 1 := by rw [hd]; rfl
  have hskip : FindLastDirName.skip (D ++ '\\' :: F) ((D ++ '\\' :: F).length + 1) 0 = 0 := by
    have h0 : charAt (D ++ '\\' :: F) 0 = d := by
      rw [hd]
      rfl
    simp only [FindLastDirName.skip, h0, hdb, and_false, if_false]
  unfold FindLastDirName
  simp only [FindLastDirName_loop_one D F hD hF, hskip]
  have hpos : D.length > 0 := by omega
  have hge : D.length - 1 ≥ 0 := by omega
  have hcopy : D.length - 1 - 0 + 1 = D.length := by omega
  rw [if_pos hpos, if_pos hge, hcopy, List.drop_zero, List.take_left]

theorem FindLastDirName_no_backslash (c : Char) (rest : List Char) (h : '\\' ∉ rest) :
    FindLastDirName (some (c :: rest)) = none := by
  have hl : FindLastDirName.loop (c :: rest) 0 (0, 0) = (0, 0) := by
    simp only [FindLastDirName.loop]
    rw [FindLastDirName_loop_none rest h]
    split <;> rfl
  unfold FindLastDirName
  simp only [hl, gt_iff_lt, Nat.lt_irrefl, if_false]

theorem cleanRev_suffix (X : List Char) : ∀ Y, cleanRev (X ++ Y) → cleanRev Y := by
  induction X with
  | nil => intro Y h; exact h
  | cons c X ih =>
    intro Y h
    rw [List.cons_append] at h
    exact ih Y h.2.2

theorem cleanRev_no_slash : ∀ R : List Char, cleanRev R → '/' ∉ R := by
  intro R
  induction R with
  | nil => intro _ h; cases h
  | cons c R ih =>
    intro h hm
    rcases List.mem_cons.1 hm with e | hm
    · exact h.1 e.symm
    · exact ih h.2.2 hm

/-- The loop of `CleanUpPathNameSlashes` keeps the new name clean. -/
theorem CleanUp_loop_clean : ∀ (s N : List Char) (f : Bool),
    cleanRev N.reverse → (f = false → N.reverse.head? ≠ some '\\') →
    cleanRev (CleanUpPathNameSlashes.loop s N f).reverse := by
  intro s
  induction s with
  | nil => intro N f h _; exact h
  | cons c s ih =>
    intro N f h hf
    unfold CleanUpPathNameSlashes.loop
    by_cases hc : c = '/' ∨ c = '\\'
    · rw [if_pos hc]
      by_cases hn : ¬ (f = true) ∧ N.length ≠ 0
      · rw [if_pos hn]
        apply ih
        · rw [List.reverse_append, List.reverse_singleton, List.singleton_append]
          refine ⟨by decide, fun _ => ?_, h⟩
          have hN : N.reverse ≠ [] := by
            intro e
            have e2 := List.reverse_eq_nil_iff.1 e
            exact hn.2 (by rw [e2]; rfl)
          obtain ⟨q, R, hq⟩ := List.exists_cons_of_ne_nil hN
          refine ⟨q, by rw [hq]; rfl, fun e => ?_⟩
          have hff : f = false := by
            cases f
            · rfl
            · exact absurd rfl hn.1
          exact hf hff (by rw [hq, e]; rfl)
        · intro e
          exact absurd e (by decide)
      · rw [if_neg hn]
        apply ih _ _ h
        intro e
        exact absurd e (by decide)
    · rw [if_neg hc]
      apply ih
      · rw [List.reverse_append, List.reverse_singleton, List.singleton_append]
        exact ⟨fun e => hc (Or.inl e), fun e => absurd (Or.inr e) hc, h⟩
      · intro _
        rw [List.reverse_append, List.reverse_singleton, List.singleton_append]
        intro e
        exact hc (Or.inr (Option.some.inj e))

/-- The loop of `CleanUpPathNameSlashes` copies a clean pathname as it is. -/
theorem CleanUp_loop_id : ∀ (B A : List Char) (f : Bool),
    cleanRev (A ++ B).reverse → (f = true ↔ A.reverse.head? = some '\\') →
    CleanUpPathNameSlashes.loop B A f = A ++ B := by
  intro B
  induction B with
  | nil => intro A f _ _; simp [CleanUpPathNameSlashes.loop]
  | cons c B ih =>
    intro A f h hf
    have e1 : (A ++ c :: B).reverse = B.reverse ++ (c :: A.reverse) := by simp
    have e2 : A ++ c :: B = (A ++ [c]) ++ B := by simp
    have hs : cleanRev (c :: A.reverse) := cleanRev_suffix _ _ (e1 ▸ h)
    have hr : (A ++ [c]).reverse.head? = some c := by simp
    unfold CleanUpPathNameSlashes.loop
    by_cases hc : c = '\\'
    · obtain ⟨q, hq, hqne⟩ := hs.2.1 hc
      have hff : ¬ (f = true) := by
        intro e
        have := hf.1 e
        rw [hq] at this
        exact hqne (Option.some.inj this)
      have hlen : A.length ≠ 0 := by
        intro e
        have hA : A = [] := List.length_eq_zero.1 e
        rw [hA] at hq
        cases hq
      rw [if_pos (Or.inr hc), if_pos ⟨hff, hlen⟩, e2, ← hc]
      apply ih
      · rw [← e2]; exact h
      · rw [hr, hc]
        simp
    · have hcs : ¬ (c = '/' ∨ c = '\\') := fun e => e.elim hs.1 hc
      rw [if_neg hcs, e2]
      apply ih
      · rw [← e2]; exact h
      · rw [hr]
        constructor
        · intro e; exact absurd e (by decide)
        · intro e; exact absurd (Option.some.inj e) hc

theorem CleanUp_loop_length : ∀ (s N : List Char) (f : Bool),
    (CleanUpPathNameSlashes.loop s N f).length ≤ N.length + s.length := by
  intro s
  induction s with
  | nil => intro N f; exact Nat.le_refl _
  | cons c s ih =>
    intro N f
    unfold CleanUpPathNameSlashes.loop
    split_ifs
    · have := ih (N ++ ['\\']) true
      simp only [List.length_append, List.length_singleton, List.length_cons, List.length_nil] at this ⊢
      omega
    · have := ih N true
      simp only [List.length_cons]
      omega
    · have := ih (N ++ [c]) false
      simp only [List.length_append, List.length_singleton, List.length_cons, List.length_nil] at this ⊢
      omega

/-- The loop of `CleanUpPathNameSlashes` keeps the characters that are not
slashes, in their order. -/
theorem CleanUp_loop_filter : ∀ (s N : List Char) (f : Bool),
    (CleanUpPathNameSlashes.loop s N f).filter (fun c => decide (c ≠ '\\'))
      = N.filter (fun c => decide (c ≠ '\\'))
        ++ s.filter (fun c => decide (c ≠ '/' ∧ c ≠ '\\')) := by
  intro s
  induction s with
  | nil => intro N f; simp [CleanUpPathNameSlashes.loop]
  | cons c s ih =>
    intro N f
    unfold CleanUpPathNameSlashes.loop
    by_cases hc : c = '/' ∨ c = '\\'
    · have hd : decide (c ≠ '/' ∧ c ≠ '\\') = false := by
        rw [decide_eq_false_iff_not]
        intro h
        exact hc.elim h.1 h.2
      rw [if_pos hc, List.filter_cons_of_neg (by rw [hd]; exact Bool.false_ne_true)]
      split_ifs
      · rw [ih, List.filter_append]
        simp
      · exact ih N true
    · have hc1 : c ≠ '/' := fun e => hc (Or.inl e)
      have hc2 : c ≠ '\\' := fun e => hc (Or.inr e)
      rw [if_neg hc, ih, List.filter_append]
      simp [List.filter_cons, hc1, hc2]

/-- The result of `CleanUpPathNameSlashes` is the root string, or a clean
pathname that is not empty and does not end in a backslash. -/
theorem CleanUp_normal (PathName : List Char) :
    CleanUpPathNameSlashes PathName = ['\\'] ∨
    (cleanRev (CleanUpPathNameSlashes PathName).reverse ∧
      CleanUpPathNameSlashes PathName ≠ [] ∧
      (CleanUpPathNameSlashes PathName).getLast? ≠ some '\\') := by
  have hN : cleanRev (CleanUpPathNameSlashes.loop PathName [] false).reverse :=
    CleanUp_loop_clean PathName [] false trivial (fun _ => by simp)
  unfold CleanUpPathNameSlashes
  generalize CleanUpPathNameSlashes.loop PathName [] false = N at hN
  simp only []
  by_cases hlast : N.length > 0 ∧ N.getLast? = some '\\'
  · rw [if_pos hlast]
    have hN2 : N.dropLast ++ ['\\'] = N := List.dropLast_append_getLast? _ hlast.2
    rw [← hN2, List.reverse_append, List.reverse_singleton, List.singleton_append] at hN
    obtain ⟨q, hq, hqne⟩ := hN.2.1 rfl
    have hne : N.dropLast ≠ [] := by
      intro e
      rw [e] at hq
      cases hq
    have hlen : ¬ (N.dropLast.length = 0) := fun e => hne (List.length_eq_zero.1 e)
    rw [if_neg hlen]
    refine Or.inr ⟨hN.2.2, hne, ?_⟩
    rw [← List.head?_reverse, hq]
    exact fun e => hqne (Option.some.inj e)
  · rw [if_neg hlast]
    by_cases h0 : N.length = 0
    · rw [if_pos h0]
      exact Or.inl rfl
    · rw [if_neg h0]
      refine Or.inr ⟨hN, fun e => h0 (by rw [e]; rfl), fun e => hlast ⟨by omega, e⟩⟩

theorem CleanUp_length_pos (PathName : List Char) :
    (CleanUpPathNameSlashes PathName).length ≠ 0 := by
  rcases CleanUp_normal PathName with h | h
  · rw [h]; decide
  · exact fun e => h.2.1 (List.length_eq_zero.1 e)

theorem CleanUp_idempotent (PathName : List Char) :
    CleanUpPathNameSlashes (CleanUpPathNameSlashes PathName)
      = CleanUpPathNameSlashes PathName := by
  rcases CleanUp_normal PathName with h | ⟨hc, hne, hl⟩
  · rw [h]; decide
  · generalize CleanUpPathNameSlashes PathName = R at hc hne hl
    have hloop : CleanUpPathNameSlashes.loop R [] false = R := by
      have := CleanUp_loop_id R [] false (by simpa using hc) (by simp)
      simpa using this
    unfold CleanUpPathNameSlashes
    simp only [hloop]
    have h1 : ¬ (R.length > 0 ∧ R.getLast? = some '\\') := fun e => hl e.2
    have h2 : ¬ (R.length = 0) := fun e => hne (List.length_eq_zero.1 e)
    rw [if_neg h1, if_neg h2]

theorem CleanUp_length_le (PathName : List Char) (h : PathName ≠ []) :
    (CleanUpPathNameSlashes PathName).length ≤ PathName.length := by
  have hN := CleanUp_loop_length PathName [] false
  have hp : PathName.length ≠ 0 := fun e => h (List.length_eq_zero.1 e)
  unfold CleanUpPathNameSlashes
  generalize CleanUpPathNameSlashes.loop PathName [] false = N at hN
  simp only [List.length_nil, Nat.zero_add] at hN ⊢
  split_ifs with h1 h2 h3
  · simp only [List.length_cons, List.length_nil]; omega
  · rw [List.length_dropLast]; omega
  · simp only [List.length_cons, List.length_nil]; omega
  · exact hN

theorem CleanUp_filter (PathName : List Char) :
    (CleanUpPathNameSlashes PathName).filter (fun c => decide (c ≠ '\\'))
      = PathName.filter (fun c => decide (c ≠ '/' ∧ c ≠ '\\')) := by
  have hN := CleanUp_loop_filter PathName [] false
  unfold CleanUpPathNameSlashes
  generalize CleanUpPathNameSlashes.loop PathName [] false = N at hN
  simp only [List.filter_nil, List.nil_append] at hN
  simp only []
  have hdrop : ∀ M : List Char, M.getLast? = some '\\' →
      M.dropLast.filter (fun c => decide (c ≠ '\\')) = M.filter (fun c => decide (c ≠ '\\')) := by
    intro M hM
    have hM2 : M.dropLast ++ ['\\'] = M := List.dropLast_append_getLast? _ hM
    conv_rhs => rw [← hM2]
    rw [List.filter_append]
    simp
  split_ifs with h1 h2 h3
  · rw [← hN, ← hdrop N h1.2, List.length_eq_zero.1 h2]
    rfl
  · rw [hdrop N h1.2, hN]
  · rw [← hN, List.length_eq_zero.1 h3]
    rfl
  · exact hN

/-- A pathname of slashes only: the loop of `CleanUpPathNameSlashes` copies
nothing. -/
theorem CleanUp_loop_root : ∀ (s : List Char) (f : Bool),
    (∀ c ∈ s, c = '/' ∨ c = '\\') → CleanUpPathNameSlashes.loop s [] f = [] := by
  intro s
  induction s with
  | nil => intro f _; rfl
  | cons c s ih =>
    intro f h
    unfold CleanUpPathNameSlashes.loop
    rw [if_pos (h c (List.mem_cons_self _ _))]
    have hn : ¬ (¬ (f = true) ∧ ([] : List Char).length ≠ 0) := fun e => e.2 rfl
    rw [if_neg hn]
    exact ih true (fun x hx => h x (List.mem_cons_of_mem _ hx))

theorem CleanUp_head (R : List Char) (h : cleanRev R.reverse) : R.head? ≠ some '\\' := by
  cases R with
  | nil => simp
  | cons c R =>
    intro e
    have hc : c = '\\' := Option.some.inj e
    rw [List.reverse_cons] at h
    have h2 := cleanRev_suffix _ _ h
    obtain ⟨q, hq, _⟩ := h2.2.1 hc
    cases hq

theorem CleanUp_no_double (R : List Char) (h : cleanRev R.reverse) (A B : List Char) :
    R ≠ A ++ '\\' :: '\\' :: B := by
  intro e
  have e1 : R.reverse = B.reverse ++ ('\\' :: '\\' :: A.reverse) := by
    rw [e]; simp
  rw [e1] at h
  have h2 := cleanRev_suffix _ _ h
  obtain ⟨q, hq, hqne⟩ := h2.2.1 rfl
  exact hqne (Option.some.inj hq).symm

theorem SplitVolumeAndFilename_path (P : List Char) (VolName : Option (List Char)) :
    ∃ T, (SplitVolumeAndFilename (some P) VolName).2.1 = some T := by
  by_cases h : ':' ∈ P
  · obtain ⟨Pre, Post, hP, hn⟩ := first_colon P h
    exact ⟨Post, by rw [hP, SplitVolumeAndFilename_colon Pre Post VolName hn]⟩
  · exact ⟨P, by rw [SplitVolumeAndFilename_none P VolName h]⟩

theorem SplitPathName_Filename (InPath : List Char) :
    (SplitPathName InPath).Filename ≠ none := by
  obtain ⟨T, hT⟩ := SplitVolumeAndFilename_path InPath none
  unfold SplitPathName
  simp only [hT, Option.map_some', FindPath]
  rw [if_neg (CleanUp_length_pos _)]
  exact fun e => Option.noConfusion e

set_option maxRecDepth 100000 in
theorem SplitPathName_example :
    SplitPathName "BIGVOL:\\EFI\\ubuntu\\grubx64.efi".toList
      = { VolName := some "BIGVOL".toList, Path := some "EFI\\ubuntu".toList,
          Filename := some "grubx64.efi".toList } := by
  decide

set_option maxRecDepth 100000 in
theorem SplitPathName_volume_only :
    SplitPathName "BIGVOL:".toList
      = { VolName := some "BIGVOL".toList, Path := none, Filename := some ['\\'] } := by
  decide

theorem charAt_mem_or_nul (s : List Char) (k : Nat) :
    charAt s k ∈ s ∨ charAt s k = Char.ofNat 0 := by
  unfold charAt
  by_cases h : k < s.length
  · left
    rw [List.getD_eq_getElem _ _ h]
    exact List.getElem_mem h
  · right
    exact List.getD_eq_default _ _ (by omega)

/-- One round of the loop of `FindExtension` at a character that is neither a
dot nor a slash. -/
theorem FindExtension_loop_step (Path : List Char) (fuel : Nat) (n : Nat)
    (h : charAt Path (n + 1) ≠ '.' ∧ charAt Path (n + 1) ≠ '/' ∧ charAt Path (n + 1) ≠ '\\') :
    FindExtension.loop Path (fuel + 1) false false ((n + 1 : Nat) : Int)
      = FindExtension.loop Path fuel false false ((n : Nat) : Int) := by
  have hi : (((n + 1 : Nat) : Int)) ≥ 0 := Int.ofNat_nonneg _
  have hnat : (((n + 1 : Nat) : Int)).toNat = n + 1 := Int.toNat_ofNat _
  have hpred : (((n + 1 : Nat) : Int)) - 1 = ((n : Nat) : Int) := by
    push_cast
    omega
  simp only [FindExtension.loop, Bool.false_eq_true, not_false_eq_true, hi, and_self, if_true,
    hnat, h.1, h.2.1, h.2.2, or_self, if_false, hpred]

/-- The loop of `FindExtension` steps back over characters that are neither a
dot nor a slash, the terminating NUL among them. -/
theorem FindExtension_loop_down (Pre Post : List Char) (c : Char)
    (hPost : ∀ x ∈ Post, x ≠ '.' ∧ x ≠ '/' ∧ x ≠ '\\') :
    ∀ k fuel, k ≤ Post.length + 1 →
      FindExtension.loop (Pre ++ c :: Post) (fuel + k) false false ((Pre.length + k : Nat) : Int)
        = FindExtension.loop (Pre ++ c :: Post) fuel false false ((Pre.length : Nat) : Int) := by
  intro k
  induction k with
  | zero => intro fuel _; rfl
  | succ k ih =>
    intro fuel hk
    have hch : charAt (Pre ++ c :: Post) (Pre.length + k + 1) = charAt Post k := by
      rw [Nat.add_assoc, charAt_append_right]
      rfl
    have hx : charAt Post k ≠ '.' ∧ charAt Post k ≠ '/' ∧ charAt Post k ≠ '\\' := by
      rcases charAt_mem_or_nul Post k with h | h
      · exact hPost _ h
      · rw [h]; decide
    have hfuel : fuel + (k + 1) = (fuel + k) + 1 := by omega
    have hidx : Pre.length + (k + 1) = (Pre.length + k) + 1 := by omega
    rw [hfuel, hidx, FindExtension_loop_step _ _ _ (by rw [hch]; exact hx)]
    exact ih fuel (by omega)

theorem FindExtension_dot (Pre Post : List Char)
    (hPost : ∀ x ∈ Post, x ≠ '.' ∧ x ≠ '/' ∧ x ≠ '\\') :
    FindExtension (some (Pre ++ '.' :: Post)) = some (('.' :: Post).map Char.toLower) := by
  have hfuel : (Pre ++ '.' :: Post).length + 2 = (Pre.length + 2) + (Post.length + 1) := by
    simp only [List.length_append, List.length_cons]
    omega
  have hlen : (((Pre ++ '.' :: Post).length : Nat) : Int)
      = ((Pre.length + (Post.length + 1) : Nat) : Int) := by
    simp only [List.length_append, List.length_cons]
  have hloop : FindExtension.loop (Pre ++ '.' :: Post) ((Pre ++ '.' :: Post).length + 2) false
      false (((Pre ++ '.' :: Post).length : Nat) : Int) = (true, ((Pre.length : Nat) : Int)) := by
    rw [hfuel, hlen, FindExtension_loop_down Pre Post '.' hPost _ _ (Nat.le_refl _)]
    have hi : (((Pre.length : Nat) : Int)) ≥ 0 := Int.ofNat_nonneg _
    have hch : charAt (Pre ++ '.' :: Post) Pre.length = '.' := charAt_append_cons _ _ _
    simp only [FindExtension.loop, Bool.false_eq_true, not_false_eq_true, hi, and_self, if_true,
      Int.toNat_ofNat, hch, not_true_eq_false, false_and, if_false]
  unfold FindExtension
  simp only [hloop, if_true, Int.toNat_ofNat]
  have hdrop : List.drop Pre.length (Pre ++ '.' :: Post) = '.' :: Post := by
    simp
  rw [hdrop]
  simp [MergeStrings, ToLower]

theorem FindExtension_slash (Pre Post : List Char) (c : Char) (hc : c = '/' ∨ c = '\\')
    (hPost : ∀ x ∈ Post, x ≠ '.' ∧ x ≠ '/' ∧ x ≠ '\\') :
    FindExtension (some (Pre ++ c :: Post)) = some [] := by
  have hfuel : (Pre ++ c :: Post).length + 2 = (Pre.length + 2) + (Post.length + 1) := by
    simp only [List.length_append, List.length_cons]
    omega
  have hlen : (((Pre ++ c :: Post).length : Nat) : Int)
      = ((Pre.length + (Post.length + 1) : Nat) : Int) := by
    simp only [List.length_append, List.length_cons]
  have hdot : c ≠ '.' := by
    rcases hc with h | h <;> rw [h] <;> decide
  have hloop : (FindExtension.loop (Pre ++ c :: Post) ((Pre ++ c :: Post).length + 2) false
      false (((Pre ++ c :: Post).length : Nat) : Int)).1 = false := by
    rw [hfuel, hlen, FindExtension_loop_down Pre Post c hPost _ _ (Nat.le_refl _)]
    have hi : (((Pre.length : Nat) : Int)) ≥ 0 := Int.ofNat_nonneg _
    have hch : charAt (Pre ++ c :: Post) Pre.length = c := charAt_append_cons _ _ _
    simp only [FindExtension.loop, Bool.false_eq_true, not_false_eq_true, hi, and_self, if_true,
      Int.toNat_ofNat, hch, hdot, hc, not_true_eq_false, and_false, false_and, if_false]
  unfold FindExtension
  simp only [hloop, Bool.false_eq_true, if_false]

/-- Without a dot in the path the loop of `FindExtension` finds none. -/
theorem FindExtension_loop_no_dot (Path : List Char) (h : '.' ∉ Path) :
    ∀ fuel FoundSlash i, (FindExtension.loop Path fuel false FoundSlash i).1 = false := by
  intro fuel
  induction fuel with
  | zero => intro _ _; rfl
  | succ fuel ih =>
    intro FoundSlash i
    have hch : charAt Path i.toNat ≠ '.' := by
      rcases charAt_mem_or_nul Path i.toNat with hm | hm
      · exact fun e => h (e ▸ hm)
      · rw [hm]; decide
    by_cases hcond : ¬ (false = true) ∧ ¬ (FoundSlash = true) ∧ i ≥ 0
    · simp only [FindExtension.loop, hcond, hch, if_false, Bool.false_eq_true, not_false_eq_true,
        if_true, and_self]
      exact ih _ _
    · simp only [FindExtension.loop, hcond, if_false]

theorem FindExtension_no_dot (Path : List Char) (h : '.' ∉ Path) :
    FindExtension (some Path) = some [] := by
  unfold FindExtension
  simp only [FindExtension_loop_no_dot Path h, Bool.false_eq_true, if_false]

/-! ### Search windows, sizes and the whole-disk lookup -/

/-- The first hit of a search over the numbers below `n`. -/
theorem find_range_min (p : Nat → Bool) :
    ∀ n o, (List.range n).find? p = some o → o < n ∧ p o = true ∧ ∀ j, j < o → p j = false := by
  intro n
  induction n with
  | zero => intro o h; simp at h
  | succ n ih =>
    intro o h
    rw [List.range_succ, List.find?_append] at h
    cases hf : (List.range n).find? p with
    | some x =>
      rw [hf] at h
      have hx : x = o := by simpa using h
      subst hx
      obtain ⟨h1, h2, h3⟩ := ih x hf
      exact ⟨by omega, h2, h3⟩
    | none =>
      rw [hf] at h
      have hn : ∀ j, j < n → p j = false := by
        intro j hj
        have := List.find?_eq_none.1 hf j (List.mem_range.2 hj)
        simpa using this
      by_cases hp : p n = true
      · have ho : n = o := by simpa [List.find?_cons, hp] using h
        subst ho
        exact ⟨by omega, hp, hn⟩
      · have : False := by simp [List.find?_cons, hp] at h
        exact this.elim

/-- The result of `FindMem`: -1 when the search bytes are at no offset below
`L - m`, else the first such offset. -/
theorem FindMem_spec (Buffer : Mem) (L : Nat) (S : Mem) (m : Nat) (hm : m ≤ L)
    (hL : L < 2 ^ 63) :
    (FindMem Buffer L S m = -1 ∧ ∀ o, o < L - m → bytes Buffer o m ≠ bytes S 0 m) ∨
    (∃ x : Nat, FindMem Buffer L S m = (x : Int) ∧ x < L - m ∧
      bytes Buffer x m = bytes S 0 m ∧ ∀ j, j < x → bytes Buffer j m ≠ bytes S 0 m) := by
  have hp : ∀ j, decide (CompareMem (ptrAdd Buffer j) S m = 0) = true
      ↔ bytes Buffer j m = bytes S 0 m := by
    intro j
    rw [decide_eq_true_iff, CompareMem_eq_zero_iff, bytes_ptrAdd, Nat.add_zero]
  unfold FindMem
  have hlen : (L + 2 ^ 64 - m % 2 ^ 64) % 2 ^ 64 = L - m := by omega
  simp only [hlen]
  cases hf : (List.range (L - m)).find? (fun Offset =>
      decide (CompareMem (ptrAdd Buffer Offset) S m = 0)) with
  | some x =>
    obtain ⟨h1, h2, h3⟩ := find_range_min _ _ _ hf
    right
    refine ⟨x, toINTN_of_lt x (by omega), h1, (hp x).1 h2, fun j hj e => ?_⟩
    have := h3 j hj
    rw [(hp j).2 e] at this
    exact Bool.noConfusion this
  | none =>
    left
    refine ⟨rfl, fun o ho e => ?_⟩
    have := List.find?_eq_none.1 hf o (List.mem_range.2 ho)
    exact this ((hp o).2 e)

/-- The loop of `SizeInIEEEUnits` divides by 1024 until the value is at most
1024, when the prefixes and the fuel suffice for that. -/
theorem SizeInIEEEUnits_loop_spec :
    ∀ n fuel s i, s / 1024 ^ n ≤ 1024 → n + 1 ≤ fuel → i + n ≤ 6 →
      ∃ k, k ≤ n ∧ s / 1024 ^ k ≤ 1024 ∧ (∀ j, j < k → s / 1024 ^ j > 1024) ∧
        SizeInIEEEUnits.loop 8 fuel s i = (s / 1024 ^ k, i + k) := by
  intro n
  induction n with
  | zero =>
    intro fuel s i hs hf _
    obtain ⟨f, rfl⟩ : ∃ f, fuel = f + 1 := ⟨fuel - 1, by omega⟩
    have hs2 : ¬ (s > 1024 ∧ i < 8 - 1) := by
      simp only [pow_zero, Nat.div_one] at hs
      omega
    refine ⟨0, Nat.le_refl _, hs, fun j hj => absurd hj (Nat.not_lt_zero _), ?_⟩
    simp only [SizeInIEEEUnits.loop, hs2, if_false, pow_zero, Nat.div_one, Nat.add_zero]
  | succ n ih =>
    intro fuel s i hs hf hi
    obtain ⟨f, rfl⟩ : ∃ f, fuel = f + 1 := ⟨fuel - 1, by omega⟩
    by_cases hbig : s > 1024
    · have hcond : s > 1024 ∧ i < 8 - 1 := ⟨hbig, by omega⟩
      have hs2 : s / 1024 / 1024 ^ n ≤ 1024 := by
        rw [Nat.div_div_eq_div_mul, ← pow_succ']
        exact hs
      obtain ⟨k, hk, hk1, hk2, hk3⟩ := ih f (s / 1024) (i + 1) hs2 (by omega) (by omega)
      refine ⟨k + 1, by omega, ?_, ?_, ?_⟩
      · rw [pow_succ', ← Nat.div_div_eq_div_mul]
        exact hk1
      · intro j hj
        cases j with
        | zero => simpa using hbig
        | succ j =>
          rw [pow_succ', ← Nat.div_div_eq_div_mul]
          exact hk2 j (by omega)
      · simp only [SizeInIEEEUnits.loop, hcond, and_self, if_true, hk3]
        rw [pow_succ', ← Nat.div_div_eq_div_mul]
        congr 1
        omega
    · have hs2 : ¬ (s > 1024 ∧ i < 8 - 1) := fun e => hbig e.1
      refine ⟨0, Nat.zero_le _, by simp only [pow_zero, Nat.div_one]; omega,
        fun j hj => absurd hj (Nat.not_lt_zero _), ?_⟩
      simp only [SizeInIEEEUnits.loop, hs2, if_false, pow_zero, Nat.div_one, Nat.add_zero]

theorem SizeInIEEEUnits_1024 : SizeInIEEEUnits 1024 = "1024-byte" := by
  decide

/-- A volume that does not pass the whole-disk test leaves the lookup as it
is. -/
theorem wholeDiskVolume_fold_none (Volume : REFIT_VOLUME) :
    ∀ (Post : List REFIT_VOLUME) (acc : Option REFIT_VOLUME),
      (∀ V ∈ Post, ¬ wholeDiskOf Volume V) →
      Post.foldl
        (fun (WholeDiskVolume : Option REFIT_VOLUME) (Volume2 : REFIT_VOLUME) =>
          if Volume2.BlockIO = Volume.WholeDiskBlockIO ∧ Volume2.BlockIOOffset = 0 then
            some Volume2
          else WholeDiskVolume)
        acc = acc := by
  intro Post
  induction Post with
  | nil => intro acc _; rfl
  | cons V Post ih =>
    intro acc h
    have hV : ¬ (V.BlockIO = Volume.WholeDiskBlockIO ∧ V.BlockIOOffset = 0) :=
      h V (List.mem_cons_self _ _)
    rw [List.foldl_cons, if_neg hV]
    exact ih acc (fun W hW => h W (List.mem_cons_of_mem _ hW))

/-! ### The components of a cleaned pathname -/

theorem components_go_congr (X Y : List Char)
    (h : ∀ cur, components.go X cur = components.go Y cur) :
    ∀ (A cur : List Char), components.go (A ++ X) cur = components.go (A ++ Y) cur := by
  intro A
  induction A with
  | nil => intro cur; exact h cur
  | cons a A ih =>
    intro cur
    rw [List.cons_append, List.cons_append]
    simp only [components.go, ih]

theorem components_go_slash (c : Char) (hc : c = '/' ∨ c = '\\') (B cur : List Char) :
    components.go (c :: B) cur = components.go ('\\' :: B) cur := by
  simp only [components.go, hc, or_true, if_true]

theorem components_go_collapse (c : Char) (hc : c = '/' ∨ c = '\\') (B cur : List Char) :
    components.go ('\\' :: c :: B) cur = components.go ('\\' :: B) cur := by
  simp only [components.go, hc, or_true, if_true]

theorem components_go_trailing (cur : List Char) :
    components.go ['\\'] cur = components.go [] cur := by
  simp only [components.go, or_true, if_true]

theorem components_go_leading (c : Char) (hc : c = '/' ∨ c = '\\') (B : List Char) :
    components.go (c :: B) [] = components.go B [] := by
  simp only [components.go, hc, if_true]

/-- The loop of `CleanUpPathNameSlashes` keeps the components of the name
built so far followed by the rest of the input. -/
theorem CleanUp_loop_components : ∀ (s N : List Char) (f : Bool),
    (N = [] ∨ (f = true ↔ N.getLast? = some '\\')) →
    components (CleanUpPathNameSlashes.loop s N f) = components (N ++ s) := by
  intro s
  induction s with
  | nil => intro N f _; simp [CleanUpPathNameSlashes.loop]
  | cons c s ih =>
    intro N f hinv
    unfold CleanUpPathNameSlashes.loop
    by_cases hc : c = '/' ∨ c = '\\'
    · rw [if_pos hc]
      by_cases hn : ¬ (f = true) ∧ N.length ≠ 0
      · rw [if_pos hn, ih (N ++ ['\\']) true (Or.inr (by simp))]
        unfold components
        rw [List.append_assoc, List.singleton_append]
        exact (components_go_congr _ _ (components_go_slash c hc s) N []).symm
      · rw [if_neg hn]
        by_cases hN : N = []
        · rw [ih N true (Or.inl hN), hN]
          unfold components
          rw [List.nil_append, List.nil_append]
          exact (components_go_leading c hc s).symm
        · have hf : f = true := by
            by_contra hf
            exact hn ⟨hf, fun e => hN (List.length_eq_zero.1 e)⟩
          have hlast : N.getLast? = some '\\' := by
            rcases hinv with h | h
            · exact absurd h hN
            · exact h.1 hf
          rw [ih N true (Or.inr ⟨fun _ => hlast, fun _ => rfl⟩)]
          have hN2 : N.dropLast ++ ['\\'] = N := List.dropLast_append_getLast? _ hlast
          unfold components
          rw [← hN2, List.append_assoc, List.append_assoc, List.singleton_append,
            List.singleton_append]
          exact (components_go_congr _ _ (components_go_collapse c hc s) N.dropLast []).symm
    · rw [if_neg hc]
      have hinv2 : N ++ [c] = [] ∨ (false = true ↔ (N ++ [c]).getLast? = some '\\') := by
        right
        rw [List.getLast?_concat]
        constructor
        · intro e; exact absurd e (by decide)
        · intro e; exact absurd (Option.some.inj e) (fun e2 => hc (Or.inr e2))
      rw [ih (N ++ [c]) false hinv2, List.append_assoc, List.singleton_append]

/-- The result of `CleanUpPathNameSlashes` has the components of the input. -/
theorem CleanUp_components (PathName : List Char) :
    components (CleanUpPathNameSlashes PathName) = components PathName := by
  have hN := CleanUp_loop_components PathName [] false (Or.inl rfl)
  rw [List.nil_append] at hN
  unfold CleanUpPathNameSlashes
  generalize CleanUpPathNameSlashes.loop PathName [] false = N at hN
  simp only []
  have hdrop : ∀ M : List Char, M.getLast? = some '\\' →
      components M.dropLast = components M := by
    intro M hM
    have hM2 : M.dropLast ++ ['\\'] = M := List.dropLast_append_getLast? _ hM
    conv_rhs => rw [← hM2]
    unfold components
    have := components_go_congr _ _ components_go_trailing M.dropLast []
    rw [List.append_nil] at this
    exact this.symm
  split_ifs with h1 h2 h3
  · rw [← hN, ← hdrop N h1.2, List.length_eq_zero.1 h2]
    rfl
  · rw [hdrop N h1.2, hN]
  · rw [← hN, List.length_eq_zero.1 h3]
    rfl
  · exact hN

theorem components_go_eq_nil : ∀ (s cur : List Char),
    components.go s cur = [] ↔ (cur = [] ∧ ∀ c ∈ s, c = '/' ∨ c = '\\') := by
  intro s
  induction s with
  | nil =>
    intro cur
    simp only [components.go, List.not_mem_nil, false_imp_iff, implies_true, and_true]
    split <;> simp_all
  | cons c s ih =>
    intro cur
    by_cases hc : c = '/' ∨ c = '\\'
    · by_cases hcur : cur = []
      · simp only [components.go, hc, if_true, hcur, ih, true_and, List.mem_cons,
          forall_eq_or_imp]
      · simp only [components.go, hc, if_true, hcur, if_false, false_and]
        simp
    · simp only [components.go, hc, if_false, ih, List.mem_cons, forall_eq_or_imp, false_and,
        and_false]
      simp

theorem components_eq_nil (s : List Char) :
    components s = [] ↔ ∀ c ∈ s, c = '/' ∨ c = '\\' := by
  unfold components
  rw [components_go_eq_nil]
  simp

/-- A pathname in normal form is its components joined by single
backslashes. -/
theorem components_join : ∀ (R cur : List Char),
    '/' ∉ R → (∀ A B : List Char, R ≠ A ++ '\\' :: '\\' :: B) →
    R.getLast? ≠ some '\\' → (cur = [] → R.head? ≠ some '\\' ∧ R ≠ []) →
    List.intercalate ['\\'] (components.go R cur) = cur ++ R := by
  intro R
  induction R with
  | nil =>
    intro cur _ _ _ hcur
    have hne : cur ≠ [] := fun e => (hcur e).2 rfl
    simp [components.go, hne, List.intercalate]
  | cons c R ih =>
    intro cur hs hd hl hcur
    have hc1 : c ≠ '/' := fun e => hs (e ▸ List.mem_cons_self _ _)
    have hs2 : '/' ∉ R := fun hm => hs (List.mem_cons_of_mem _ hm)
    have hd2 : ∀ A B : List Char, R ≠ A ++ '\\' :: '\\' :: B := by
      intro A B e
      exact hd (c :: A) B (by rw [e]; rfl)
    by_cases hc : c = '\\'
    · have hne : cur ≠ [] := by
        intro e
        exact (hcur e).1 (by rw [hc]; rfl)
      have hR : R ≠ [] := by
        intro e
        apply hl
        rw [e, hc]
        rfl
      have hl2 : R.getLast? ≠ some '\\' := by
        intro e
        apply hl
        obtain ⟨r, R2, hr⟩ := List.exists_cons_of_ne_nil hR
        rw [hr] at e ⊢
        rw [List.getLast?_cons_cons]
        exact e
      have hh : R.head? ≠ some '\\' := by
        intro e
        obtain ⟨r, R2, hr⟩ := List.exists_cons_of_ne_nil hR
        rw [hr] at e
        have hr2 : r = '\\' := Option.some.inj e
        exact hd [] R2 (by rw [hr, hr2, hc]; rfl)
      have hrest := ih [] hs2 hd2 hl2 (fun _ => ⟨hh, hR⟩)
      rw [List.nil_append] at hrest
      have hgo : components.go R [] ≠ [] := by
        intro e
        rw [e] at hrest
        exact hR hrest.symm
      obtain ⟨x, xs, hx⟩ := List.exists_cons_of_ne_nil hgo
      simp only [components.go, hc, or_true, if_true, hne, if_false]
      rw [hx] at hrest ⊢
      rw [← hrest]
      simp [List.intercalate, List.intersperse]
    · have hcs : ¬ (c = '/' ∨ c = '\\') := fun e => e.elim hc1 hc
      have hl2 : R.getLast? ≠ some '\\' := by
        intro e
        apply hl
        cases R with
        | nil => simp at e
        | cons r R2 =>
          rw [List.getLast?_cons_cons]
          exact e
      have hrest := ih (cur ++ [c]) hs2 hd2 hl2 (fun e => absurd e (by simp))
      simp only [components.go, hcs, if_false]
      rw [hrest, List.append_assoc, List.singleton_append]

/-- The result of `CleanUpPathNameSlashes`, in one formula: the root string
when the input has no component, else the components of the input joined by
single backslashes. -/
theorem CleanUp_eq_join (PathName : List Char) :
    CleanUpPathNameSlashes PathName
      = if components PathName = [] then ['\\']
        else List.intercalate ['\\'] (components PathName) := by
  have hcomp := CleanUp_components PathName
  rcases CleanUp_normal PathName with h | ⟨hc, hne, hl⟩
  · have hnil : components PathName = [] := by
      rw [← hcomp, h]
      rfl
    rw [if_pos hnil, h]
  · have hj := components_join (CleanUpPathNameSlashes PathName) []
      (fun hm => cleanRev_no_slash _ hc (List.mem_reverse.2 hm))
      (CleanUp_no_double _ hc) hl (fun _ => ⟨CleanUp_head _ hc, hne⟩)
    rw [List.nil_append] at hj
    have hgo : components (CleanUpPathNameSlashes PathName) ≠ [] := by
      intro e
      unfold components at e
      rw [e] at hj
      exact hne hj.symm
    rw [hcomp] at hgo
    rw [if_neg hgo, ← hcomp]
    exact hj.symm

/-! ### The sniffer over a bounds-checked view -/

theorem sample_length (Buffer : Mem) (N : Nat) : (sample Buffer N).length = N :=
  bytes_length Buffer 0 N

theorem viewAt_sample (Buffer : Mem) (N off len : Nat) (h : off + len ≤ N) :
    viewAt (sample Buffer N) off len = some (bytes Buffer off len) := by
  unfold viewAt
  rw [sample_length, if_pos h]
  congr 1
  apply List.ext_getElem
  · simp only [List.length_take, List.length_drop, sample_length, bytes_length]
    omega
  · intro i h1 h2
    simp [sample, bytes]

theorem leValue_bytes2 (Buffer : Mem) (o : Nat) : leValue (bytes Buffer o 2) = rd16 Buffer o := by
  simp [bytes, List.range_succ, leValue, rd16]

theorem leValue_bytes4 (Buffer : Mem) (o : Nat) : leValue (bytes Buffer o 4) = rd32 Buffer o := by
  simp [bytes, List.range_succ, leValue, rd32]
  omega

theorem sniffExt_sample (Buffer : Mem) (N : Nat) (Volume : REFIT_VOLUME)
    (hext : extMatch Buffer N → 1144 ≤ N) :
    sniffExt (sample Buffer N) Volume =
      if extMatch Buffer N then
        some { Volume with
          FSType :=
            if rd32 Buffer 1120 &&& 0x0040 ≠ 0 ∨ rd32 Buffer 1120 &&& 0x0200 ≠ 0 then
              FS_TYPE_EXT4
            else if rd32 Buffer 1116 &&& 0x0004 ≠ 0 then FS_TYPE_EXT3
            else FS_TYPE_EXT2,
          VolUuid := bytes Buffer 1128 16 }
      else none := by
  unfold sniffExt
  rw [sample_length]
  by_cases hN : N ≥ 1124
  · rw [if_pos hN]
    by_cases hm : rd16 Buffer 1080 = 0xEF53
    · have hN2 : 1144 ≤ N := hext ⟨hN, hm⟩
      rw [viewAt_sample _ _ _ _ (by omega), viewAt_sample _ _ _ _ (by omega),
        viewAt_sample _ _ _ _ (by omega), viewAt_sample _ _ _ _ (by omega)]
      simp only [leValue_bytes2, leValue_bytes4, hm, if_true, extMatch, hN, and_self]
    · have hnm : ¬ extMatch Buffer N := fun h => hm h.2
      rw [if_neg hnm, viewAt_sample _ _ _ _ (by omega), viewAt_sample _ _ _ _ (by omega),
        viewAt_sample _ _ _ _ (by omega)]
      cases viewAt (sample Buffer N) 1128 16 with
      | none => rfl
      | some Uuid => simp only [leValue_bytes2, hm, if_false]
  · have hnm : ¬ extMatch Buffer N := fun h => hN h.1
    rw [if_neg hN, if_neg hnm]

theorem sniffReiser_sample (Buffer : Mem) (N : Nat) (Volume : REFIT_VOLUME) :
    sniffReiser (sample Buffer N) Volume =
      if reiserMatch Buffer N then
        some { Volume with FSType := FS_TYPE_REISERFS, VolUuid := bytes Buffer 65620 16 }
      else none := by
  unfold sniffReiser
  rw [sample_length]
  by_cases hN : N ≥ 65636
  · rw [if_pos hN, viewAt_sample _ _ _ _ (by omega), viewAt_sample _ _ _ _ (by omega),
      viewAt_sample _ _ _ _ (by omega)]
    simp only [reiserMatch, hN, true_and]
  · have hnm : ¬ reiserMatch Buffer N := fun h => hN h.1
    rw [if_neg hN, if_neg hnm]

theorem sniffBtrfs_sample (Buffer : Mem) (N : Nat) (Volume : REFIT_VOLUME) :
    sniffBtrfs (sample Buffer N) Volume =
      if btrfsMatch Buffer N then some { Volume with FSType := FS_TYPE_BTRFS } else none := by
  unfold sniffBtrfs
  rw [sample_length]
  by_cases hN : N ≥ 65608
  · rw [if_pos hN, viewAt_sample _ _ _ _ (by omega)]
    simp only [btrfsMatch, hN, true_and]
  · have hnm : ¬ btrfsMatch Buffer N := fun h => hN h.1
    rw [if_neg hN, if_neg hnm]

theorem sniffXfs_sample (Buffer : Mem) (N : Nat) (Volume : REFIT_VOLUME) :
    sniffXfs (sample Buffer N) Volume =
      if xfsMatch Buffer N then some { Volume with FSType := FS_TYPE_XFS } else none := by
  unfold sniffXfs
  rw [sample_length]
  by_cases hN : N ≥ 512
  · rw [if_pos hN, viewAt_sample _ _ _ _ (by omega)]
    simp only [xfsMatch, hN, true_and]
  · have hnm : ¬ xfsMatch Buffer N := fun h => hN h.1
    rw [if_neg hN, if_neg hnm]

theorem sniffHfs_sample (Buffer : Mem) (N : Nat) (Volume : REFIT_VOLUME) :
    sniffHfs (sample Buffer N) Volume =
      if hfsMatch Buffer N then some { Volume with FSType := FS_TYPE_HFSPLUS } else none := by
  unfold sniffHfs
  rw [sample_length]
  by_cases hN : N ≥ 1026
  · rw [if_pos hN, viewAt_sample _ _ _ _ (by omega)]
    simp only [hfsMatch, hN, true_and, leValue_bytes2]
  · have hnm : ¬ hfsMatch Buffer N := fun h => hN h.1
    rw [if_neg hN, if_neg hnm]

theorem sniffBootSig_sample (fw : Firmware) (Buffer : Mem) (N : Nat) (Volume : REFIT_VOLUME) :
    sniffBootSig fw (sample Buffer N) Volume =
      if bootSigMatch Buffer N then
        some (if bytes Buffer 3 8 = strBytes "NTFS    " then
          { Volume with
            FSType := FS_TYPE_NTFS, VolUuid := bytes Buffer 0x48 8 ++ List.replicate 8 0 }
        else if fw.LibOpenRoot Volume.DeviceHandle ≠ NULL then
          { Volume with FSType := FS_TYPE_FAT }
        else if (fw.Media Volume.BlockIO).LogicalPartition = false then
          { Volume with FSType := FS_TYPE_WHOLEDISK }
        else Volume)
      else none := by
  unfold sniffBootSig
  rw [sample_length]
  by_cases hN : N ≥ 512
  · rw [if_pos hN, viewAt_sample _ _ _ _ (by omega), viewAt_sample _ _ _ _ (by omega),
      viewAt_sample _ _ _ _ (by omega)]
    simp only [bootSigMatch, hN, true_and, leValue_bytes2]
    split_ifs <;> rfl
  · have hnm : ¬ bootSigMatch Buffer N := fun h => hN h.1
    rw [if_neg hN, if_neg hnm]

theorem SetFilesystemData_ext_eq (fw : Firmware) (Buffer : Mem) (N : Nat)
    (Volume : REFIT_VOLUME) (h1 : extMatch Buffer N) :
    SetFilesystemData fw (some Buffer) N Volume =
      { resetVolume Volume with
        FSType :=
          if rd32 Buffer 1120 &&& 0x0040 ≠ 0 ∨ rd32 Buffer 1120 &&& 0x0200 ≠ 0 then
            FS_TYPE_EXT4
          else if rd32 Buffer 1116 &&& 0x0004 ≠ 0 then FS_TYPE_EXT3
          else FS_TYPE_EXT2,
        VolUuid := bytes Buffer 1128 16 } := by
  simp only [SetFilesystemData, extCond_iff, h1, if_true]
  split_ifs <;> simp_all [resetVolume, CopyMem, SetMem, sizeof_EFI_GUID, bytes_ptrAdd]

/-- The code is the sniffer of the spec over the bounds-checked view of the
sample, when the ext2/3/4 check, if it matches, has its UUID inside the
sample. -/
theorem SetFilesystemData_eq_sniffSample (fw : Firmware) (Buffer : Mem) (N : Nat)
    (Volume : REFIT_VOLUME) (hext : extMatch Buffer N → 1144 ≤ N) :
    SetFilesystemData fw (some Buffer) N Volume = sniffSample fw (sample Buffer N) Volume := by
  unfold sniffSample
  simp only [sniffExt_sample Buffer N _ hext, sniffReiser_sample, sniffBtrfs_sample,
    sniffXfs_sample, sniffHfs_sample, sniffBootSig_sample]
  by_cases h1 : extMatch Buffer N
  · rw [SetFilesystemData_ext_eq fw Buffer N Volume h1]
    simp only [h1, if_true]
  by_cases h2 : reiserMatch Buffer N
  · rw [SetFilesystemData_of_reiser fw Buffer N Volume h1 h2]
    simp only [h1, h2, if_true, if_false]
  by_cases h3 : btrfsMatch Buffer N
  · rw [SetFilesystemData_of_btrfs fw Buffer N Volume h1 h2 h3]
    simp only [h1, h2, h3, if_true, if_false]
  by_cases h4 : xfsMatch Buffer N
  · rw [SetFilesystemData_of_xfs fw Buffer N Volume h1 h2 h3 h4]
    simp only [h1, h2, h3, h4, if_true, if_false]
  by_cases h5 : hfsMatch Buffer N
  · rw [SetFilesystemData_of_hfs fw Buffer N Volume h1 h2 h3 h4 h5]
    simp only [h1, h2, h3, h4, h5, if_true, if_false]
  by_cases h6 : bootSigMatch Buffer N
  · rw [SetFilesystemData_of_bootSig fw Buffer N Volume h1 h2 h3 h4 h5 h6]
    simp only [h1, h2, h3, h4, h5, h6, if_true, if_false]
    rfl
  · rw [SetFilesystemData_of_none fw Buffer N Volume h1 h2 h3 h4 h5 h6]
    simp only [h1, h2, h3, h4, h5, h6, if_false]
    rfl

theorem extMatch_of_sample (Buffer Buffer2 : Mem) (N : Nat)
    (h : sample Buffer N = sample Buffer2 N) : extMatch Buffer N ↔ extMatch Buffer2 N := by
  unfold sample at h
  rw [bytes_eq_iff] at h
  unfold extMatch
  constructor
  · rintro ⟨hN, hm⟩
    refine ⟨hN, ?_⟩
    have h0 := h 1080 (by omega)
    have h1 := h 1081 (by omega)
    simp only [Nat.zero_add] at h0 h1
    unfold rd16 at hm ⊢
    rw [← h0, ← h1]
    exact hm
  · rintro ⟨hN, hm⟩
    refine ⟨hN, ?_⟩
    have h0 := h 1080 (by omega)
    have h1 := h 1081 (by omega)
    simp only [Nat.zero_add] at h0 h1
    unfold rd16 at hm ⊢
    rw [h0, h1]
    exact hm

/-- Where the type and the UUID of the result come from: each type is set by
its check alone, and the UUID by the ext2/3/4, ReiserFS and boot-signature
checks alone. -/
theorem SetFilesystemData_origin (fw : Firmware) (Buffer : Mem) (N : Nat)
    (Volume : REFIT_VOLUME) :
    (¬ extMatch Buffer N →
      (SetFilesystemData fw (some Buffer) N Volume).FSType ≠ FS_TYPE_EXT2 ∧
      (SetFilesystemData fw (some Buffer) N Volume).FSType ≠ FS_TYPE_EXT3 ∧
      (SetFilesystemData fw (some Buffer) N Volume).FSType ≠ FS_TYPE_EXT4) ∧
    (¬ reiserMatch Buffer N →
      (SetFilesystemData fw (some Buffer) N Volume).FSType ≠ FS_TYPE_REISERFS) ∧
    (¬ btrfsMatch Buffer N →
      (SetFilesystemData fw (some Buffer) N Volume).FSType ≠ FS_TYPE_BTRFS) ∧
    (¬ xfsMatch Buffer N →
      (SetFilesystemData fw (some Buffer) N Volume).FSType ≠ FS_TYPE_XFS) ∧
    (¬ hfsMatch Buffer N →
      (SetFilesystemData fw (some Buffer) N Volume).FSType ≠ FS_TYPE_HFSPLUS) ∧
    (¬ bootSigMatch Buffer N →
      (SetFilesystemData fw (some Buffer) N Volume).FSType ≠ FS_TYPE_NTFS ∧
      (SetFilesystemData fw (some Buffer) N Volume).FSType ≠ FS_TYPE_FAT ∧
      (SetFilesystemData fw (some Buffer) N Volume).FSType ≠ FS_TYPE_WHOLEDISK) ∧
    (¬ extMatch Buffer N → ¬ reiserMatch Buffer N → ¬ bootSigMatch Buffer N →
      (SetFilesystemData fw (some Buffer) N Volume).VolUuid = List.replicate 16 0) := by
  by_cases h1 : extMatch Buffer N
  · rcases (SetFilesystemData_of_ext fw Buffer N Volume h1).1 with h | h | h <;>
      simp [h, h1]
  by_cases h2 : reiserMatch Buffer N
  · rw [SetFilesystemData_of_reiser fw Buffer N Volume h1 h2]
    simp [h1, h2]
  by_cases h3 : btrfsMatch Buffer N
  · rw [SetFilesystemData_of_btrfs fw Buffer N Volume h1 h2 h3]
    simp [h1, h2, h3, resetVolume]
  by_cases h4 : xfsMatch Buffer N
  · rw [SetFilesystemData_of_xfs fw Buffer N Volume h1 h2 h3 h4]
    simp [h1, h2, h3, h4, resetVolume]
  by_cases h5 : hfsMatch Buffer N
  · rw [SetFilesystemData_of_hfs fw Buffer N Volume h1 h2 h3 h4 h5]
    simp [h1, h2, h3, h4, h5, resetVolume]
  by_cases h6 : bootSigMatch Buffer N
  · rw [SetFilesystemData_of_bootSig fw Buffer N Volume h1 h2 h3 h4 h5 h6]
    split_ifs <;> simp [h1, h2, h3, h4, h5, h6, resetVolume]
  · rw [SetFilesystemData_of_none fw Buffer N Volume h1 h2 h3 h4 h5 h6]
    split_ifs <;> simp [h1, h2, h3, h4, h5, h6, resetVolume]

/-! ### The volumes of logical partitions and their whole disks -/

theorem volume_onDiskOf (GlobalConfig : REFIT_CONFIG) (fw : Firmware)
    (WholeDiskVolume : REFIT_VOLUME) (LogicalPartitionIndex Offset : Nat) :
    onDiskOf WholeDiskVolume
      (ScanExtendedPartition.volume GlobalConfig fw WholeDiskVolume LogicalPartitionIndex
        Offset) := by
  have hf := sameExceptScan_fields (ScanVolumeBootcode_frame GlobalConfig fw
    (ScanExtendedPartition.fresh WholeDiskVolume LogicalPartitionIndex Offset))
  rw [volume_eq]
  split
  · exact ⟨hf.2.2.2.2.1, hf.2.2.2.2.2.2.1⟩
  · exact ⟨hf.2.2.2.2.1, hf.2.2.2.2.2.2.1⟩

theorem entries_onDiskOf (GlobalConfig : REFIT_CONFIG) (fw : Firmware)
    (WholeDiskVolume : REFIT_VOLUME) (ExtBase ExtCurrent : Nat) (EMbrTable : Mem)
    (Indices : List Nat) :
    ∀ (LogicalPartitionIndex : Nat) (Volumes : List REFIT_VOLUME),
      ∃ New,
        (ScanExtendedPartition.entries GlobalConfig fw WholeDiskVolume ExtBase ExtCurrent
          EMbrTable Indices LogicalPartitionIndex Volumes).2.2 = Volumes ++ New ∧
        ∀ V ∈ New, onDiskOf WholeDiskVolume V := by
  induction Indices with
  | nil =>
    intro LogicalPartitionIndex Volumes
    exact ⟨[], by simp [ScanExtendedPartition.entries], fun V hV => by cases hV⟩
  | cons i rest ih =>
    intro LogicalPartitionIndex Volumes
    simp only [ScanExtendedPartition.entries]
    split
    · exact ⟨[], by simp, fun V hV => by cases hV⟩
    · split
      · exact ⟨[], by simp, fun V hV => by cases hV⟩
      · obtain ⟨New, h1, h2⟩ := ih (LogicalPartitionIndex + 1)
          (Volumes ++ [ScanExtendedPartition.volume GlobalConfig fw WholeDiskVolume
            LogicalPartitionIndex ((ExtCurrent + (MbrEntry EMbrTable i).StartLBA) % 2 ^ 32)])
        refine ⟨ScanExtendedPartition.volume GlobalConfig fw WholeDiskVolume
            LogicalPartitionIndex ((ExtCurrent + (MbrEntry EMbrTable i).StartLBA) % 2 ^ 32)
          :: New, ?_, ?_⟩
        · rw [h1]
          simp
        · intro V hV
          rcases List.mem_cons.1 hV with e | hm
          · rw [e]
            exact volume_onDiskOf GlobalConfig fw WholeDiskVolume LogicalPartitionIndex _
          · exact h2 V hm

theorem chain_onDiskOf (GlobalConfig : REFIT_CONFIG) (fw : Firmware)
    (WholeDiskVolume : REFIT_VOLUME) (ExtBase : Nat) (fuel : Nat) :
    ∀ (ExtCurrent LogicalPartitionIndex : Nat) (Volumes : List REFIT_VOLUME),
      ∃ New,
        (ScanExtendedPartition.chain GlobalConfig fw WholeDiskVolume ExtBase fuel ExtCurrent
          LogicalPartitionIndex Volumes).Volumes = Volumes ++ New ∧
        ∀ V ∈ New, onDiskOf WholeDiskVolume V := by
  induction fuel with
  | zero =>
    intro ExtCurrent LogicalPartitionIndex Volumes
    exact ⟨[], by simp [ScanExtendedPartition.chain], fun V hV => by cases hV⟩
  | succ fuel ih =>
    intro ExtCurrent LogicalPartitionIndex Volumes
    simp only [ScanExtendedPartition.chain]
    split
    · exact ⟨[], by simp, fun V hV => by cases hV⟩
    · split
      · exact ⟨[], by simp, fun V hV => by cases hV⟩
      · split
        · exact ⟨[], by simp, fun V hV => by cases hV⟩
        · obtain ⟨New1, h1, h2⟩ := entries_onDiskOf GlobalConfig fw WholeDiskVolume ExtBase
            ExtCurrent (ptrAdd (fw.ReadBlocks WholeDiskVolume.BlockIO
              (fw.Media WholeDiskVolume.BlockIO).MediaId ExtCurrent 512).2 446) [0, 1, 2, 3]
            LogicalPartitionIndex Volumes
          obtain ⟨New2, h4, h5⟩ := ih
            (ScanExtendedPartition.entries GlobalConfig fw WholeDiskVolume ExtBase
              ExtCurrent (ptrAdd (fw.ReadBlocks WholeDiskVolume.BlockIO
                (fw.Media WholeDiskVolume.BlockIO).MediaId ExtCurrent 512).2 446) [0, 1, 2, 3]
              LogicalPartitionIndex Volumes).1
            (ScanExtendedPartition.entries GlobalConfig fw WholeDiskVolume ExtBase
              ExtCurrent (ptrAdd (fw.ReadBlocks WholeDiskVolume.BlockIO
                (fw.Media WholeDiskVolume.BlockIO).MediaId ExtCurrent 512).2 446) [0, 1, 2, 3]
              LogicalPartitionIndex Volumes).2.1
            (ScanExtendedPartition.entries GlobalConfig fw WholeDiskVolume ExtBase
              ExtCurrent (ptrAdd (fw.ReadBlocks WholeDiskVolume.BlockIO
                (fw.Media WholeDiskVolume.BlockIO).MediaId ExtCurrent 512).2 446) [0, 1, 2, 3]
              LogicalPartitionIndex Volumes).2.2
          refine ⟨New1 ++ New2, ?_, ?_⟩
          · rw [h4, h1, List.append_assoc]
          · intro V hV
            rcases List.mem_append.1 hV with hm | hm
            · exact h2 V hm
            · exact h5 V hm

theorem extendedEntries_onDiskOf (fuel : Nat) (GlobalConfig : REFIT_CONFIG) (fw : Firmware)
    (Volume : REFIT_VOLUME) (MbrTable : Mem) (Indices : List Nat) :
    ∀ Volumes : List REFIT_VOLUME,
      ∃ New,
        (ScanVolumes.extendedEntries fuel GlobalConfig fw Volume MbrTable Indices
          Volumes).Volumes = Volumes ++ New ∧
        ∀ V ∈ New, onDiskOf Volume V := by
  induction Indices with
  | nil =>
    intro Volumes
    exact ⟨[], by simp [ScanVolumes.extendedEntries], fun V hV => by cases hV⟩
  | cons p rest ih =>
    intro Volumes
    simp only [ScanVolumes.extendedEntries]
    split
    · obtain ⟨New1, h1, h2⟩ := chain_onDiskOf GlobalConfig fw Volume
        (MbrEntry MbrTable p).StartLBA fuel (MbrEntry MbrTable p).StartLBA 4 Volumes
      have hs : (ScanExtendedPartition fuel GlobalConfig fw Volumes Volume
          (MbrEntry MbrTable p)).Volumes = Volumes ++ New1 := h1
      split
      · obtain ⟨New2, h3, h4⟩ := ih (ScanExtendedPartition fuel GlobalConfig fw Volumes Volume
          (MbrEntry MbrTable p)).Volumes
        refine ⟨New1 ++ New2, ?_, ?_⟩
        · rw [h3, hs, List.append_assoc]
        · intro V hV
          rcases List.mem_append.1 hV with hm | hm
          · exact h2 V hm
          · exact h4 V hm
      · exact ⟨New1, hs, h2⟩
    · exact ih Volumes

/-- The check for extended partitions appends volumes to the collection: none
unless the volume is a whole-disk volume with a retained table, and each on
the disk of the volume. -/
theorem extended_onDiskOf (fuel : Nat) (GlobalConfig : REFIT_CONFIG) (fw : Firmware)
    (Volumes : List REFIT_VOLUME) (Volume : REFIT_VOLUME) :
    ∃ New,
      (ScanVolumes.extended fuel GlobalConfig fw Volumes Volume).Volumes = Volumes ++ New ∧
      (∀ V ∈ New, onDiskOf Volume V) ∧
      (New ≠ [] → isWholeDisk Volume ∧ Volume.MbrPartitionTable ≠ none) := by
  unfold ScanVolumes.extended
  cases hT : Volume.MbrPartitionTable with
  | none => exact ⟨[], by simp, (fun V hV => by cases hV), fun h => absurd rfl h⟩
  | some MbrTable =>
    simp only []
    by_cases hg : Volume.BlockIO ≠ NULL ∧ Volume.WholeDiskBlockIO ≠ NULL ∧
        Volume.BlockIO = Volume.WholeDiskBlockIO ∧ Volume.BlockIOOffset = 0
    · rw [if_pos hg]
      obtain ⟨New, h1, h2⟩ := extendedEntries_onDiskOf fuel GlobalConfig fw Volume
        (memOfList MbrTable) [0, 1, 2, 3] Volumes
      exact ⟨New, h1, h2, fun _ => ⟨hg, fun e => Option.noConfusion e⟩⟩
    · rw [if_neg hg]
      exact ⟨[], by simp, (fun V hV => by cases hV), fun h => absurd rfl h⟩

/-- A volume that is not a whole-disk volume with a retained table: the check
for extended partitions ends at once and leaves the collection as it is. -/
theorem extended_skip (fuel : Nat) (GlobalConfig : REFIT_CONFIG) (fw : Firmware)
    (Volumes : List REFIT_VOLUME) (Volume : REFIT_VOLUME)
    (h : ¬ (isWholeDisk Volume ∧ Volume.MbrPartitionTable ≠ none)) :
    ScanVolumes.extended fuel GlobalConfig fw Volumes Volume
      = { Finished := true, Volumes := Volumes } := by
  unfold ScanVolumes.extended
  cases hT : Volume.MbrPartitionTable with
  | none => rfl
  | some MbrTable =>
    simp only []
    have hg : ¬ ( Volume.BlockIO ≠ NULL ∧ Volume.WholeDiskBlockIO ≠ NULL ∧
        Volume.BlockIO = Volume.WholeDiskBlockIO ∧ Volume.BlockIOOffset = 0) :=
      fun hg => h ⟨hg, by rw [hT]; exact fun e => Option.noConfusion e⟩
    rw [if_neg hg]

theorem reconcileEntries_sameDevice (fw : Firmware) (MbrTable : Mem) (Volume : REFIT_VOLUME)
    (Entries : List Nat) :
    sameDevice Volume (ScanVolumes.reconcileEntries fw MbrTable Volume Entries) := by
  induction Entries with
  | nil => exact ⟨rfl, rfl, rfl, rfl, rfl⟩
  | cons p rest ih =>
    simp only [ScanVolumes.reconcileEntries]
    split_ifs
    · exact ih
    · exact ⟨rfl, rfl, rfl, rfl, rfl⟩
    · exact ⟨rfl, rfl, rfl, rfl, rfl⟩
    · exact ih
    · exact ih
    · exact ⟨rfl, rfl, rfl, rfl, rfl⟩

theorem reconcile_sameDevice (fw : Firmware) (Volume : REFIT_VOLUME)
    (WholeDiskVolume : Option REFIT_VOLUME) :
    sameDevice Volume (ScanVolumes.reconcile fw Volume WholeDiskVolume) := by
  unfold ScanVolumes.reconcile
  cases WholeDiskVolume with
  | none => exact ⟨rfl, rfl, rfl, rfl, rfl⟩
  | some W =>
    simp only []
    cases W.MbrPartitionTable with
    | none => exact ⟨rfl, rfl, rfl, rfl, rfl⟩
    | some MbrTable => exact reconcileEntries_sameDevice fw (memOfList MbrTable) Volume _

theorem fromWholeDisks_append (n : Nat) (Volumes New : List REFIT_VOLUME)
    (Volume : REFIT_VOLUME) (hn : n ≤ Volumes.length) (hinv : fromWholeDisks n Volumes)
    (hmem : Volume ∈ Volumes) (hnew : ∀ V ∈ New, onDiskOf Volume V)
    (hwd : New ≠ [] → isWholeDisk Volume ∧ Volume.MbrPartitionTable ≠ none) :
    fromWholeDisks n (Volumes ++ New) := by
  intro i V hi hV
  by_cases hlt : i < Volumes.length
  · rw [List.getElem?_append_left hlt] at hV
    obtain ⟨W, hW, h1, h2, h3⟩ := hinv i V hi hV
    exact ⟨W, List.mem_append_left _ hW, h1, h2, h3⟩
  · rw [List.getElem?_append_right (by omega)] at hV
    have hVm : V ∈ New := List.getElem?_mem hV
    have hne : New ≠ [] := fun e => by rw [e] at hVm; cases hVm
    exact ⟨Volume, List.mem_append_left _ hmem, (hwd hne).1, (hwd hne).2, hnew V hVm⟩

theorem fromWholeDisks_set (n : Nat) (Volumes : List REFIT_VOLUME) (k : Nat)
    (Volume Volume2 : REFIT_VOLUME) (hinv : fromWholeDisks n Volumes)
    (hk : Volumes[k]? = some Volume) (hsame : sameDevice Volume Volume2) :
    fromWholeDisks n (Volumes.set k Volume2) := by
  have hklt : k < Volumes.length := by
    by_contra h
    rw [List.getElem?_eq_none (by omega)] at hk
    cases hk
  -- every volume of the old collection has a counterpart in the new one
  have hcounter : ∀ W ∈ Volumes, ∃ W2 ∈ Volumes.set k Volume2, sameDevice W W2 := by
    intro W hW
    obtain ⟨j, hj⟩ := List.getElem?_of_mem hW
    by_cases hjk : j = k
    · rw [hjk, hk] at hj
      have hWV : Volume = W := Option.some.inj hj
      rw [← hWV]
      refine ⟨Volume2, ?_, hsame⟩
      apply List.getElem?_mem (n := k)
      rw [List.getElem?_set_self hklt]
    · refine ⟨W, ?_, ⟨rfl, rfl, rfl, rfl, rfl⟩⟩
      apply List.getElem?_mem (n := j)
      rw [List.getElem?_set_ne (fun e => hjk e.symm)]
      exact hj
  intro i V hi hV
  -- the volume at index i of the old collection
  have hold : ∃ V0, Volumes[i]? = some V0 ∧ sameDevice V0 V := by
    by_cases hik : i = k
    · rw [hik, List.getElem?_set_self hklt] at hV
      have hVV : Volume2 = V := Option.some.inj hV
      rw [hik, ← hVV]
      exact ⟨Volume, hk, hsame⟩
    · rw [List.getElem?_set_ne (fun e => hik e.symm)] at hV
      exact ⟨V, hV, ⟨rfl, rfl, rfl, rfl, rfl⟩⟩
  obtain ⟨V0, hV0, hs0⟩ := hold
  obtain ⟨W, hW, hwd, htab, hon⟩ := hinv i V0 hi hV0
  obtain ⟨W2, hW2, hs2⟩ := hcounter W hW
  refine ⟨W2, hW2, ?_, ?_, ?_⟩
  · unfold isWholeDisk at hwd ⊢
    rw [hs2.2.1, hs2.2.2.1, hs2.2.2.2.1]
    exact hwd
  · rw [hs2.2.2.2.2]
    exact htab
  · unfold onDiskOf at hon ⊢
    rw [hs0.2.1, hs0.2.2.1, hs2.2.1]
    exact hon

/-- The second pass keeps the device handles of the first `n` volumes and the
property that the later ones lie on whole disks with a retained table. -/
theorem second_fromWholeDisks (GlobalConfig : REFIT_CONFIG) (fw : Firmware) (n : Nat) :
    ∀ (fuel VolumeIndex : Nat) (Volumes : List REFIT_VOLUME),
      n ≤ Volumes.length → fromWholeDisks n Volumes →
      fromWholeDisks n (ScanVolumes.second GlobalConfig fw fuel VolumeIndex Volumes).Volumes ∧
      ((ScanVolumes.second GlobalConfig fw fuel VolumeIndex Volumes).Volumes.take n).map
          (fun V => V.DeviceHandle)
        = (Volumes.take n).map (fun V => V.DeviceHandle) := by
  intro fuel
  induction fuel with
  | zero =>
    intro VolumeIndex Volumes _ hinv
    exact ⟨hinv, rfl⟩
  | succ fuel ih =>
    intro VolumeIndex Volumes hn hinv
    simp only [ScanVolumes.second]
    cases hk : Volumes[VolumeIndex]? with
    | none => exact ⟨hinv, rfl⟩
    | some Volume =>
      simp only []
      obtain ⟨New, h1, h2, h3⟩ := extended_onDiskOf (fuel + 1) GlobalConfig fw Volumes Volume
      have hmem : Volume ∈ Volumes := List.getElem?_mem hk
      have hklt : VolumeIndex < Volumes.length := by
        by_contra h
        rw [List.getElem?_eq_none (by omega)] at hk
        cases hk
      have happ := fromWholeDisks_append n Volumes New Volume hn hinv hmem h2 h3
      have htake : (Volumes ++ New).take n = Volumes.take n :=
        List.take_append_of_le_length hn
      split
      · rw [h1]
        have hk2 : (Volumes ++ New)[VolumeIndex]? = some Volume := by
          rw [List.getElem?_append_left hklt]
          exact hk
        have hs := reconcile_sameDevice fw Volume
          (ScanVolumes.wholeDiskVolume (Volumes ++ New) Volume)
        have hset := fromWholeDisks_set n (Volumes ++ New) VolumeIndex Volume _ happ hk2 hs
        have hlen : n ≤ ((Volumes ++ New).set VolumeIndex
            (ScanVolumes.reconcile fw Volume
              (ScanVolumes.wholeDiskVolume (Volumes ++ New) Volume))).length := by
          rw [List.length_set, List.length_append]
          omega
        obtain ⟨i1, i2⟩ := ih (VolumeIndex + 1) _ hlen hset
        refine ⟨i1, ?_⟩
        rw [i2, ← htake]
        apply List.ext_getElem?
        intro j
        simp only [List.getElem?_map, List.getElem?_take]
        by_cases hj : j < n
        · simp only [hj, if_true]
          by_cases hjk : j = VolumeIndex
          · rw [hjk, List.getElem?_set_self (by rw [List.length_append]; omega), hk2]
            simp only [Option.map_some']
            rw [hs.1]
          · rw [List.getElem?_set_ne (fun e => hjk e.symm)]
        · simp only [hj, if_false]
      · rw [h1]
        exact ⟨happ, by rw [htake]⟩

/-- After a scan, whatever its fuel: the first volumes of the collection are
those of the handles, and every later one lies on a whole-disk volume of the
collection that has a retained table. -/
theorem ScanVolumes_fromWholeDisks (fuel : Nat) (GlobalConfig : REFIT_CONFIG) (fw : Firmware) :
    fromWholeDisks fw.LocateHandle.2.length (ScanVolumes fuel GlobalConfig fw).Volumes ∧
    (fw.LocateHandle.1 ≠ EFI_NOT_FOUND → CheckError fw.LocateHandle.1 = false →
      ((ScanVolumes fuel GlobalConfig fw).Volumes.take fw.LocateHandle.2.length).map
        (fun V => V.DeviceHandle) = fw.LocateHandle.2) := by
  by_cases hfound : fw.LocateHandle.1 ≠ EFI_NOT_FOUND
  · cases hok : CheckError fw.LocateHandle.1 with
    | false =>
      rw [ScanVolumes_eq fuel GlobalConfig fw hfound hok]
      simp only []
      obtain ⟨f1, f2, _⟩ := firstPass_inv GlobalConfig fw fw.LocateHandle.2
      have hvac : fromWholeDisks fw.LocateHandle.2.length
          (firstPass GlobalConfig fw fw.LocateHandle.2).Volumes := by
        intro i V hi hV
        rw [List.getElem?_eq_none (by omega)] at hV
        cases hV
      obtain ⟨s1, s2⟩ := second_fromWholeDisks GlobalConfig fw fw.LocateHandle.2.length fuel 0
        (firstPass GlobalConfig fw fw.LocateHandle.2).Volumes (by omega) hvac
      refine ⟨s1, fun _ _ => ?_⟩
      rw [s2, ← f2, List.take_length]
      exact f1
    | true =>
      have hempty : (ScanVolumes fuel GlobalConfig fw).Volumes = [] := by
        unfold ScanVolumes
        simp only [hok, if_true]
        split_ifs <;> rfl
      rw [hempty]
      refine ⟨fun i V _ hV => by simp at hV, fun _ h => absurd h (by decide)⟩
  · have hempty : (ScanVolumes fuel GlobalConfig fw).Volumes = [] := by
      unfold ScanVolumes
      rw [if_pos (not_not.1 hfound)]
    rw [hempty]
    exact ⟨fun i V _ hV => by simp at hV, fun h => absurd h hfound⟩

/-! ## Claims -/

/-- C1. Precedence of ext2/3/4 over Btrfs: a sample of at least 65608 bytes
that has both the magic 0xEF53 at offset 1080 and the Btrfs signature at
offset 65600 is classified ext2, ext3 or ext4, and not Btrfs. -/
theorem ext_wins_over_btrfs (fw : Firmware) (Buffer : Mem) (N : Nat) (Volume : REFIT_VOLUME)
    (hN : N ≥ 65608) (hext : rd16 Buffer 1080 = 0xEF53)
    (_hbtrfs : bytes Buffer 65600 8 = strBytes "_BHRfS_M") :
    ((SetFilesystemData fw (some Buffer) N Volume).FSType = FS_TYPE_EXT2 ∨
      (SetFilesystemData fw (some Buffer) N Volume).FSType = FS_TYPE_EXT3 ∨
      (SetFilesystemData fw (some Buffer) N Volume).FSType = FS_TYPE_EXT4) ∧
    (SetFilesystemData fw (some Buffer) N Volume).FSType ≠ FS_TYPE_BTRFS := by
  have hm : extMatch Buffer N := ⟨by omega, hext⟩
  simp only [SetFilesystemData, extCond_iff, hm, if_true]
  split_ifs <;> simp

theorem ext_wins_over_btrfs_witness :
    ((SetFilesystemData plainFirmware (some extBtrfsSample) 69632 zeroVolume).FSType = FS_TYPE_EXT2 ∨
      (SetFilesystemData plainFirmware (some extBtrfsSample) 69632 zeroVolume).FSType = FS_TYPE_EXT3 ∨
      (SetFilesystemData plainFirmware (some extBtrfsSample) 69632 zeroVolume).FSType = FS_TYPE_EXT4) ∧
    (SetFilesystemData plainFirmware (some extBtrfsSample) 69632 zeroVolume).FSType ≠ FS_TYPE_BTRFS :=
  ext_wins_over_btrfs plainFirmware extBtrfsSample 69632 zeroVolume (by decide) (by decide)
    (by decide)

/-- C3. A sample of at least 1124 bytes with the magic 0xEF53 at offset 1080
and bit 0x0040 of the incompatible-features field at offset 1120 is
classified ext4, and the UUID is the 16 bytes at offsets 1128..1143 of the
buffer; these are sample bytes when the sample has at least 1144 bytes, as
the sample of `SAMPLE_SIZE` bytes that `ScanVolumeBootcode` passes has. -/
theorem ext4_detection (fw : Firmware) (Buffer : Mem) (N : Nat) (Volume : REFIT_VOLUME)
    (hN : N ≥ 1124) (hext : rd16 Buffer 1080 = 0xEF53)
    (hbit : rd32 Buffer 1120 &&& 0x0040 ≠ 0) :
    (SetFilesystemData fw (some Buffer) N Volume).FSType = FS_TYPE_EXT4 ∧
    (SetFilesystemData fw (some Buffer) N Volume).VolUuid = bytes Buffer 1128 16 ∧
    (N ≥ 1144 → sampleBytes Buffer N 1128 16
        = some (SetFilesystemData fw (some Buffer) N Volume).VolUuid) := by
  have hm : extMatch Buffer N := ⟨hN, hext⟩
  have hu := (SetFilesystemData_of_ext fw Buffer N Volume hm).2
  have hb : rd32 Buffer (1024 + 96) &&& 0x0040 ≠ 0 := hbit
  refine ⟨?_, hu, ?_⟩
  · simp only [SetFilesystemData, extCond_iff, hm, if_true, hb, ne_eq, not_false_eq_true,
      true_or]
  · intro hN2
    have : 1128 + 16 ≤ N := by omega
    rw [hu]
    simp [sampleBytes, this]

theorem ext4_detection_witness :
    (SetFilesystemData plainFirmware (some ext4Sample) SAMPLE_SIZE diskVolume).FSType
      = FS_TYPE_EXT4 ∧
    (SetFilesystemData plainFirmware (some ext4Sample) SAMPLE_SIZE diskVolume).VolUuid
      = bytes ext4Sample 1128 16 ∧
    (SAMPLE_SIZE ≥ 1144 → sampleBytes ext4Sample SAMPLE_SIZE 1128 16
        = some (SetFilesystemData plainFirmware (some ext4Sample) SAMPLE_SIZE diskVolume).VolUuid) :=
  ext4_detection plainFirmware ext4Sample SAMPLE_SIZE diskVolume (by decide) (by decide)
    (by decide)

/-- C4. With the magic 0xEF53 at offset 1080 in a sample of at least 1124
bytes and the incompatible-feature bits 0x0040 and 0x0200 clear, the type is
ext3 when bit 0x0004 of the compatible-features field at offset 1116 is set
and ext2 when it is clear; and any two such samples, of whatever length and
on whatever volume, that agree on the two feature fields get the same type. -/
theorem ext2_ext3_discrimination (fw : Firmware) (Buffer : Mem) (N : Nat)
    (Volume : REFIT_VOLUME) (hN : N ≥ 1124) (hext : rd16 Buffer 1080 = 0xEF53) :
    (rd32 Buffer 1120 &&& 0x0040 = 0 → rd32 Buffer 1120 &&& 0x0200 = 0 →
      (rd32 Buffer 1116 &&& 0x0004 ≠ 0 →
        (SetFilesystemData fw (some Buffer) N Volume).FSType = FS_TYPE_EXT3) ∧
      (rd32 Buffer 1116 &&& 0x0004 = 0 →
        (SetFilesystemData fw (some Buffer) N Volume).FSType = FS_TYPE_EXT2)) ∧
    (∀ (fw2 : Firmware) (Buffer2 : Mem) (N2 : Nat) (Volume2 : REFIT_VOLUME),
      N2 ≥ 1124 → rd16 Buffer2 1080 = 0xEF53 →
      rd32 Buffer2 1116 = rd32 Buffer 1116 → rd32 Buffer2 1120 = rd32 Buffer 1120 →
      (SetFilesystemData fw2 (some Buffer2) N2 Volume2).FSType
        = (SetFilesystemData fw (some Buffer) N Volume).FSType) := by
  have hm : extMatch Buffer N := ⟨hN, hext⟩
  constructor
  · intro h40 h200
    have h40b : rd32 Buffer (1024 + 96) &&& 0x0040 = 0 := h40
    have h200b : rd32 Buffer (1024 + 96) &&& 0x0200 = 0 := h200
    constructor
    · intro h4
      have h4b : rd32 Buffer (1024 + 92) &&& 0x0004 ≠ 0 := h4
      simp [SetFilesystemData, extCond_iff, hm, h40b, h200b, h4b]
    · intro h4
      have h4b : rd32 Buffer (1024 + 92) &&& 0x0004 = 0 := h4
      simp [SetFilesystemData, extCond_iff, hm, h40b, h200b, h4b]
  · intro fw2 Buffer2 N2 Volume2 hN2 hext2 hc hi
    have hm2 : extMatch Buffer2 N2 := ⟨hN2, hext2⟩
    have hc2 : rd32 Buffer2 (1024 + 92) = rd32 Buffer (1024 + 92) := hc
    have hi2 : rd32 Buffer2 (1024 + 96) = rd32 Buffer (1024 + 96) := hi
    simp only [SetFilesystemData, extCond_iff, hm, hm2, if_true, hc2, hi2]
    split_ifs <;> rfl

theorem ext2_ext3_discrimination_witness :
    (SetFilesystemData plainFirmware (some ext3Sample) 69632 zeroVolume).FSType = FS_TYPE_EXT3 ∧
    (SetFilesystemData plainFirmware (some shortExtSample) 1124 zeroVolume).FSType = FS_TYPE_EXT2 :=
  ⟨((ext2_ext3_discrimination plainFirmware ext3Sample 69632 zeroVolume (by decide)
      (by decide)).1 (by decide) (by decide)).1 (by decide),
   ((ext2_ext3_discrimination plainFirmware shortExtSample 1124 zeroVolume (by decide)
      (by decide)).1 (by decide) (by decide)).2 (by decide)⟩

/-- C5. For a sample of at least 512 bytes that none of the checks for
ext2/3/4, ReiserFS, Btrfs, XFS and HFS+ matches and that has 0xAA55 at offset
510: with "NTFS    " at offset 3 the type is NTFS, the first 8 bytes of the
UUID are the sample bytes 0x48..0x4F, the other 8 are zero, and the result is
the same whatever the firmware answers; without that string and with a root
directory that opens, the type is FAT and the UUID is all zero. -/
theorem ntfs_vs_fat (fw : Firmware) (Buffer : Mem) (N : Nat) (Volume : REFIT_VOLUME)
    (hN : N ≥ 512) (h1 : ¬ extMatch Buffer N) (h2 : ¬ reiserMatch Buffer N)
    (h3 : ¬ btrfsMatch Buffer N) (h4 : ¬ xfsMatch Buffer N) (h5 : ¬ hfsMatch Buffer N)
    (hsig : rd16 Buffer 510 = 0xAA55) :
    (bytes Buffer 3 8 = strBytes "NTFS    " →
      (SetFilesystemData fw (some Buffer) N Volume).FSType = FS_TYPE_NTFS ∧
      sampleBytes Buffer N 0x48 8
        = some ((SetFilesystemData fw (some Buffer) N Volume).VolUuid.take 8) ∧
      (SetFilesystemData fw (some Buffer) N Volume).VolUuid.drop 8 = List.replicate 8 0 ∧
      ∀ fw2 : Firmware,
        SetFilesystemData fw2 (some Buffer) N Volume = SetFilesystemData fw (some Buffer) N Volume) ∧
    (bytes Buffer 3 8 ≠ strBytes "NTFS    " → fw.LibOpenRoot Volume.DeviceHandle ≠ NULL →
      (SetFilesystemData fw (some Buffer) N Volume).FSType = FS_TYPE_FAT ∧
      (SetFilesystemData fw (some Buffer) N Volume).VolUuid = List.replicate 16 0) := by
  have h6 : bootSigMatch Buffer N := ⟨hN, hsig⟩
  constructor
  · intro hntfs
    have hin : 0x48 + 8 ≤ N := by omega
    simp only [SetFilesystemData, extCond_iff, reiserCond_iff, btrfsCond_iff, xfsCond_iff,
      hfsCond_iff, bootSigCond_iff, ntfsCond_iff, h1, h2, h3, h4, h5, h6, hntfs, if_true,
      if_false]
    simp [sampleBytes, hin, CopyMem, SetMem, sizeof_EFI_GUID, sizeof_UINT64, bytes_ptrAdd,
      bytes_length]
  · intro hntfs hroot
    simp only [SetFilesystemData, extCond_iff, reiserCond_iff, btrfsCond_iff, xfsCond_iff,
      hfsCond_iff, bootSigCond_iff, ntfsCond_iff, h1, h2, h3, h4, h5, h6, hntfs, if_true,
      if_false]
    simp [hroot, SetMem, sizeof_EFI_GUID]

theorem ntfs_vs_fat_witness :
    ((SetFilesystemData plainFirmware (some ntfsSample) 69632 zeroVolume).FSType = FS_TYPE_NTFS ∧
      sampleBytes ntfsSample 69632 0x48 8
        = some ((SetFilesystemData plainFirmware (some ntfsSample) 69632 zeroVolume).VolUuid.take 8) ∧
      (SetFilesystemData plainFirmware (some ntfsSample) 69632 zeroVolume).VolUuid.drop 8
        = List.replicate 8 0 ∧
      ∀ fw2 : Firmware,
        SetFilesystemData fw2 (some ntfsSample) 69632 zeroVolume
          = SetFilesystemData plainFirmware (some ntfsSample) 69632 zeroVolume) ∧
    ((SetFilesystemData fatFirmware (some bootSigSample) 69632 zeroVolume).FSType = FS_TYPE_FAT ∧
      (SetFilesystemData fatFirmware (some bootSigSample) 69632 zeroVolume).VolUuid
        = List.replicate 16 0) :=
  ⟨(ntfs_vs_fat plainFirmware ntfsSample 69632 zeroVolume (by decide) (by decide) (by decide)
      (by decide) (by decide) (by decide) (by decide)).1 (by decide),
   (ntfs_vs_fat fatFirmware bootSigSample 69632 zeroVolume (by decide) (by decide) (by decide)
      (by decide) (by decide) (by decide) (by decide)).2 (by decide) (by decide)⟩

/-- C6. A sample of at least 65636 bytes without the ext2/3/4 magic at offset
1080 whose bytes at offset 65588 start with "ReIsErFs", "ReIsEr2Fs" or
"ReIsEr3Fs" is classified ReiserFS with the 16 sample bytes at offsets
65620..65635 as UUID, whatever other signatures the sample carries. -/
theorem reiserfs_detection (fw : Firmware) (Buffer : Mem) (N : Nat) (Volume : REFIT_VOLUME)
    (hN : N ≥ 65636) (hnoext : rd16 Buffer 1080 ≠ 0xEF53)
    (hmagic : bytes Buffer 65588 8 = strBytes "ReIsErFs" ∨
      bytes Buffer 65588 9 = strBytes "ReIsEr2Fs" ∨ bytes Buffer 65588 9 = strBytes "ReIsEr3Fs") :
    (SetFilesystemData fw (some Buffer) N Volume).FSType = FS_TYPE_REISERFS ∧
    sampleBytes Buffer N 65620 16
      = some (SetFilesystemData fw (some Buffer) N Volume).VolUuid := by
  have h1 : ¬ extMatch Buffer N := fun h => hnoext h.2
  have h2 : reiserMatch Buffer N := ⟨hN, hmagic⟩
  have hin : 65620 + 16 ≤ N := by omega
  simp only [SetFilesystemData, extCond_iff, reiserCond_iff, h1, h2, if_true, if_false]
  simp [sampleBytes, hin, CopyMem, SetMem, sizeof_EFI_GUID, bytes_ptrAdd]

theorem reiserfs_detection_witness :
    (SetFilesystemData plainFirmware (some reiserSample) 69632 zeroVolume).FSType
      = FS_TYPE_REISERFS ∧
    sampleBytes reiserSample 69632 65620 16
      = some (SetFilesystemData plainFirmware (some reiserSample) 69632 zeroVolume).VolUuid :=
  reiserfs_detection plainFirmware reiserSample 69632 zeroVolume (by decide) (by decide)
    (by decide)

/-- C7. On a volume with a block I/O reference, a sample that none of the six
signature checks matches, on a device whose block size is not 2048, leaves
the type Unknown and the UUID all zero, whatever the volume held before; and
whenever the resulting type is not ext2, ext3, ext4, ReiserFS or NTFS the
UUID is all zero. -/
theorem unrecognized_filesystem (fw : Firmware) (Buffer : Mem) (N : Nat)
    (Volume : REFIT_VOLUME) (_hbio : Volume.BlockIO ≠ NULL) :
    (¬ extMatch Buffer N → ¬ reiserMatch Buffer N → ¬ btrfsMatch Buffer N →
      ¬ xfsMatch Buffer N → ¬ hfsMatch Buffer N → ¬ bootSigMatch Buffer N →
      (fw.Media Volume.BlockIO).BlockSize ≠ 2048 →
      (SetFilesystemData fw (some Buffer) N Volume).FSType = FS_TYPE_UNKNOWN ∧
      (SetFilesystemData fw (some Buffer) N Volume).VolUuid = List.replicate 16 0) ∧
    ((SetFilesystemData fw (some Buffer) N Volume).FSType ≠ FS_TYPE_EXT2 →
      (SetFilesystemData fw (some Buffer) N Volume).FSType ≠ FS_TYPE_EXT3 →
      (SetFilesystemData fw (some Buffer) N Volume).FSType ≠ FS_TYPE_EXT4 →
      (SetFilesystemData fw (some Buffer) N Volume).FSType ≠ FS_TYPE_REISERFS →
      (SetFilesystemData fw (some Buffer) N Volume).FSType ≠ FS_TYPE_NTFS →
      (SetFilesystemData fw (some Buffer) N Volume).VolUuid = List.replicate 16 0) := by
  constructor
  · intro h1 h2 h3 h4 h5 h6 hbs
    rw [SetFilesystemData_of_none fw Buffer N Volume h1 h2 h3 h4 h5 h6]
    simp [hbs, resetVolume]
  · by_cases h1 : extMatch Buffer N
    · intro a b c _ _
      rcases (SetFilesystemData_of_ext fw Buffer N Volume h1).1 with h | h | h
      · exact absurd h a
      · exact absurd h b
      · exact absurd h c
    by_cases h2 : reiserMatch Buffer N
    · rw [SetFilesystemData_of_reiser fw Buffer N Volume h1 h2]
      simp
    by_cases h3 : btrfsMatch Buffer N
    · rw [SetFilesystemData_of_btrfs fw Buffer N Volume h1 h2 h3]
      simp [resetVolume]
    by_cases h4 : xfsMatch Buffer N
    · rw [SetFilesystemData_of_xfs fw Buffer N Volume h1 h2 h3 h4]
      simp [resetVolume]
    by_cases h5 : hfsMatch Buffer N
    · rw [SetFilesystemData_of_hfs fw Buffer N Volume h1 h2 h3 h4 h5]
      simp [resetVolume]
    by_cases h6 : bootSigMatch Buffer N
    · rw [SetFilesystemData_of_bootSig fw Buffer N Volume h1 h2 h3 h4 h5 h6]
      split_ifs <;> simp [resetVolume]
    · rw [SetFilesystemData_of_none fw Buffer N Volume h1 h2 h3 h4 h5 h6]
      split_ifs <;> simp [resetVolume]

theorem unrecognized_filesystem_witness :
    staleDiskVolume.BlockIO ≠ NULL ∧
    (plainFirmware.Media staleDiskVolume.BlockIO).BlockSize = 512 ∧
    ((SetFilesystemData plainFirmware (some zeroMem) SAMPLE_SIZE staleDiskVolume).FSType
        = FS_TYPE_UNKNOWN ∧
      (SetFilesystemData plainFirmware (some zeroMem) SAMPLE_SIZE staleDiskVolume).VolUuid
        = List.replicate 16 0) ∧
    (SetFilesystemData fatFirmware (some bootSigSample) SAMPLE_SIZE staleDiskVolume).VolUuid
      = List.replicate 16 0 :=
  ⟨by decide, by decide,
   (unrecognized_filesystem plainFirmware zeroMem SAMPLE_SIZE staleDiskVolume (by decide)).1
      (by decide) (by decide) (by decide) (by decide) (by decide) (by decide) (by decide),
   (unrecognized_filesystem fatFirmware bootSigSample SAMPLE_SIZE staleDiskVolume
      (by decide)).2 (by decide) (by decide) (by decide) (by decide) (by decide)⟩

/-- C8. The type is ISO9660 exactly when the device block size is 2048 and none
of the checks 1 to 6 matched, a check matching when the sample is long enough
for it and carries its signature. -/
theorem iso9660_iff (fw : Firmware) (Buffer : Mem) (N : Nat) (Volume : REFIT_VOLUME) :
    (SetFilesystemData fw (some Buffer) N Volume).FSType = FS_TYPE_ISO9660 ↔
      ((fw.Media Volume.BlockIO).BlockSize = 2048 ∧ ¬ extMatch Buffer N ∧
        ¬ reiserMatch Buffer N ∧ ¬ btrfsMatch Buffer N ∧ ¬ xfsMatch Buffer N ∧
        ¬ hfsMatch Buffer N ∧ (N < 512 ∨ rd16 Buffer 510 ≠ 0xAA55)) := by
  have hb : (N < 512 ∨ rd16 Buffer 510 ≠ 0xAA55) ↔ ¬ bootSigMatch Buffer N := by
    unfold bootSigMatch
    constructor
    · rintro (h | h) ⟨h1, h2⟩
      · omega
      · exact h h2
    · intro h
      by_cases hN : N < 512
      · exact Or.inl hN
      · exact Or.inr (fun h2 => h ⟨by omega, h2⟩)
  rw [hb]
  by_cases h1 : extMatch Buffer N
  · rcases (SetFilesystemData_of_ext fw Buffer N Volume h1).1 with h | h | h <;> simp [h, h1]
  by_cases h2 : reiserMatch Buffer N
  · rw [SetFilesystemData_of_reiser fw Buffer N Volume h1 h2]
    simp [h2]
  by_cases h3 : btrfsMatch Buffer N
  · rw [SetFilesystemData_of_btrfs fw Buffer N Volume h1 h2 h3]
    simp [h3]
  by_cases h4 : xfsMatch Buffer N
  · rw [SetFilesystemData_of_xfs fw Buffer N Volume h1 h2 h3 h4]
    simp [h4]
  by_cases h5 : hfsMatch Buffer N
  · rw [SetFilesystemData_of_hfs fw Buffer N Volume h1 h2 h3 h4 h5]
    simp [h5]
  by_cases h6 : bootSigMatch Buffer N
  · rw [SetFilesystemData_of_bootSig fw Buffer N Volume h1 h2 h3 h4 h5 h6]
    split_ifs <;> simp [resetVolume, h6]
  · rw [SetFilesystemData_of_none fw Buffer N Volume h1 h2 h3 h4 h5 h6]
    split_ifs <;> simp_all [resetVolume]

/-- C9. On a volume with a block I/O reference, in a sample of at least 512
bytes with 0xAA55 at offset 510 the type is never ISO9660; and when checks 1
to 5 did not match, the NTFS string is absent and the root directory does
not open, the type is WholeDisk if the media is not a logical partition and
Unknown if it is. -/
theorem boot_signature_subcases (fw : Firmware) (Buffer : Mem) (N : Nat)
    (Volume : REFIT_VOLUME) (_hbio : Volume.BlockIO ≠ NULL) (hN : N ≥ 512)
    (hsig : rd16 Buffer 510 = 0xAA55) :
    (¬ extMatch Buffer N → ¬ reiserMatch Buffer N → ¬ btrfsMatch Buffer N →
      ¬ xfsMatch Buffer N → ¬ hfsMatch Buffer N →
      bytes Buffer 3 8 ≠ strBytes "NTFS    " → fw.LibOpenRoot Volume.DeviceHandle = NULL →
      ((fw.Media Volume.BlockIO).LogicalPartition = false →
        (SetFilesystemData fw (some Buffer) N Volume).FSType = FS_TYPE_WHOLEDISK) ∧
      ((fw.Media Volume.BlockIO).LogicalPartition = true →
        (SetFilesystemData fw (some Buffer) N Volume).FSType = FS_TYPE_UNKNOWN)) ∧
    (SetFilesystemData fw (some Buffer) N Volume).FSType ≠ FS_TYPE_ISO9660 := by
  have h6 : bootSigMatch Buffer N := ⟨hN, hsig⟩
  constructor
  · intro h1 h2 h3 h4 h5 hntfs hroot
    rw [SetFilesystemData_of_bootSig fw Buffer N Volume h1 h2 h3 h4 h5 h6]
    constructor
    · intro hl
      simp [hntfs, hroot, hl]
    · intro hl
      simp [hntfs, hroot, hl, resetVolume]
  · by_cases h1 : extMatch Buffer N
    · rcases (SetFilesystemData_of_ext fw Buffer N Volume h1).1 with h | h | h <;> simp [h]
    by_cases h2 : reiserMatch Buffer N
    · rw [SetFilesystemData_of_reiser fw Buffer N Volume h1 h2]
      simp
    by_cases h3 : btrfsMatch Buffer N
    · rw [SetFilesystemData_of_btrfs fw Buffer N Volume h1 h2 h3]
      simp
    by_cases h4 : xfsMatch Buffer N
    · rw [SetFilesystemData_of_xfs fw Buffer N Volume h1 h2 h3 h4]
      simp
    by_cases h5 : hfsMatch Buffer N
    · rw [SetFilesystemData_of_hfs fw Buffer N Volume h1 h2 h3 h4 h5]
      simp
    · rw [SetFilesystemData_of_bootSig fw Buffer N Volume h1 h2 h3 h4 h5 h6]
      split_ifs <;> simp [resetVolume]

theorem boot_signature_subcases_witness :
    diskVolume.BlockIO ≠ NULL ∧
    (plainFirmware.Media diskVolume.BlockIO).LogicalPartition = false ∧
    (opticalPartitionFirmware.Media diskVolume.BlockIO).LogicalPartition = true ∧
    (SetFilesystemData plainFirmware (some bootSigSample) SAMPLE_SIZE diskVolume).FSType
      = FS_TYPE_WHOLEDISK ∧
    (SetFilesystemData opticalPartitionFirmware (some bootSigSample) SAMPLE_SIZE
      diskVolume).FSType = FS_TYPE_UNKNOWN ∧
    (SetFilesystemData opticalPartitionFirmware (some bootSigSample) SAMPLE_SIZE
      diskVolume).FSType ≠ FS_TYPE_ISO9660 :=
  ⟨by decide, by decide, by decide,
   ((boot_signature_subcases plainFirmware bootSigSample SAMPLE_SIZE diskVolume (by decide)
      (by decide) (by decide)).1 (by decide) (by decide) (by decide) (by decide) (by decide)
      (by decide) (by decide)).1 (by decide),
   ((boot_signature_subcases opticalPartitionFirmware bootSigSample SAMPLE_SIZE diskVolume
      (by decide) (by decide) (by decide)).1 (by decide) (by decide) (by decide) (by decide)
      (by decide) (by decide) (by decide)).2 (by decide),
   (boot_signature_subcases opticalPartitionFirmware bootSigSample SAMPLE_SIZE diskVolume
      (by decide) (by decide) (by decide)).2⟩

/-- C10, as stated, fails on a sector without the 0xAA55 signature: legacy
mode is on, the read succeeds, every flag byte is 0x00, entry 0 has start LBA
1 and size 1, and no table is retained. -/
theorem mbr_table_without_signature_counterexample :
    legacyConfig.LegacyType = LEGACY_TYPE_MAC ∧
    ((readFirmware mbrNoSigSample).ReadBlocks diskVolume.BlockIO
      ((readFirmware mbrNoSigSample).Media diskVolume.BlockIO).MediaId
      diskVolume.BlockIOOffset SAMPLE_SIZE).1 = EFI_SUCCESS ∧
    mbrFlagsValid mbrNoSigSample ∧
    rd32 mbrNoSigSample 454 ≠ 0 ∧ rd32 mbrNoSigSample 458 ≠ 0 ∧
    (ScanVolumeBootcode legacyConfig (readFirmware mbrNoSigSample) diskVolume).1.MbrPartitionTable
      = none ∧
    (ScanVolumeBootcode legacyConfig (readFirmware mbrNoSigSample) diskVolume).1.MbrPartitionTable
      ≠ some (bytes mbrNoSigSample 446 64) := by
  rw [ScanVolumeBootcode_MbrPartitionTable]
  decide

/-- C10, amended. In legacy mode, after a successful read of a sample whose
bytes 510-511 are 0xAA55, whose four flag bytes are each 0x00 or 0x80 and
whose entry 0 has a non-zero start LBA and a non-zero size, the volume keeps
a copy of the 64 sample bytes at offsets 446..509 as its MBR table. -/
theorem mbr_table_retained (GlobalConfig : REFIT_CONFIG) (fw : Firmware)
    (Volume : REFIT_VOLUME) (Buffer : Mem)
    (hbio : Volume.BlockIO ≠ NULL)
    (hbs : (fw.Media Volume.BlockIO).BlockSize ≤ SAMPLE_SIZE)
    (hread : fw.ReadBlocks Volume.BlockIO (fw.Media Volume.BlockIO).MediaId
      Volume.BlockIOOffset SAMPLE_SIZE = (EFI_SUCCESS, Buffer))
    (hlegacy : GlobalConfig.LegacyType = LEGACY_TYPE_MAC)
    (hsig : rd16 Buffer 510 = 0xAA55)
    (hflags : ∀ i, i < 4 → rd8 Buffer (446 + 16 * i) = 0x00 ∨ rd8 Buffer (446 + 16 * i) = 0x80)
    (hstart : rd32 Buffer 454 ≠ 0) (hsize : rd32 Buffer 458 ≠ 0) :
    (ScanVolumeBootcode GlobalConfig fw Volume).1.MbrPartitionTable
      = some (bytes Buffer 446 64) ∧
    sampleBytes Buffer SAMPLE_SIZE 446 64
      = (ScanVolumeBootcode GlobalConfig fw Volume).1.MbrPartitionTable := by
  have hP : mbrHasPartition Buffer := ⟨0, by omega, hstart, hsize⟩
  have hF : mbrFlagsValid Buffer := hflags
  have hT : (ScanVolumeBootcode GlobalConfig fw Volume).1.MbrPartitionTable
      = some (bytes Buffer 446 64) := by
    rw [ScanVolumeBootcode_MbrPartitionTable, hread]
    exact if_pos ⟨hbio, hbs, rfl, hlegacy, hsig, hP, hF⟩
  refine ⟨hT, ?_⟩
  rw [hT]
  have : 446 + 64 ≤ SAMPLE_SIZE := by decide
  simp [sampleBytes, this]

theorem mbr_table_retained_witness :
    (ScanVolumeBootcode legacyConfig (readFirmware mbrSample) diskVolume).1.MbrPartitionTable
      = some (bytes mbrSample 446 64) ∧
    sampleBytes mbrSample SAMPLE_SIZE 446 64
      = (ScanVolumeBootcode legacyConfig (readFirmware mbrSample) diskVolume).1.MbrPartitionTable :=
  mbr_table_retained legacyConfig (readFirmware mbrSample) diskVolume mbrSample (by decide)
    (by decide) rfl rfl (by decide) (by decide) (by decide) (by decide)

/-- C11. MBR table rejection: when one of the four flag bytes of the sample
(offsets 446, 462, 478, 494) is neither 0x00 nor 0x80, or no entry has both a
non-zero start LBA and a non-zero size, `ScanVolumeBootcode` leaves
`MbrPartitionTable` as it was, so an unset table stays unset, whatever the
configuration, the firmware and the rest of the sample are. The function has
no error result; its outputs are the volume and the bootable flag. -/
theorem mbr_table_rejected (GlobalConfig : REFIT_CONFIG) (fw : Firmware)
    (Volume : REFIT_VOLUME)
    (hbad : ¬ mbrFlagsValid (sampleOf fw Volume) ∨ ¬ mbrHasPartition (sampleOf fw Volume)) :
    (ScanVolumeBootcode GlobalConfig fw Volume).1.MbrPartitionTable = Volume.MbrPartitionTable ∧
    (Volume.MbrPartitionTable = none →
      (ScanVolumeBootcode GlobalConfig fw Volume).1.MbrPartitionTable = none) := by
  have h : (ScanVolumeBootcode GlobalConfig fw Volume).1.MbrPartitionTable
      = Volume.MbrPartitionTable := by
    rw [ScanVolumeBootcode_MbrPartitionTable]
    apply if_neg
    rintro ⟨_, _, _, _, _, hP, hF⟩
    rcases hbad with hb | hb
    · exact hb hF
    · exact hb hP
  exact ⟨h, fun hn => by rw [h, hn]⟩

theorem mbr_table_rejected_witness :
    (ScanVolumeBootcode legacyConfig (readFirmware badFlagSample) diskVolume).1.MbrPartitionTable
      = diskVolume.MbrPartitionTable ∧
    (diskVolume.MbrPartitionTable = none →
      (ScanVolumeBootcode legacyConfig (readFirmware badFlagSample)
        diskVolume).1.MbrPartitionTable = none) :=
  mbr_table_rejected legacyConfig (readFirmware badFlagSample) diskVolume
    (Or.inl (by decide))

/-- C13. Baseline bootable flag: in legacy mode, after a successful read of the
sample, the Bootable output of `ScanVolumeBootcode` is true if and only if
bytes 510-511 are 0xAA55, byte 0 is non-zero and "EXFAT" occurs nowhere in
the first 512 bytes; otherwise it is false. -/
theorem baseline_bootable (GlobalConfig : REFIT_CONFIG) (fw : Firmware)
    (Volume : REFIT_VOLUME) (Buffer : Mem)
    (hbio : Volume.BlockIO ≠ NULL)
    (hbs : (fw.Media Volume.BlockIO).BlockSize ≤ SAMPLE_SIZE)
    (hread : fw.ReadBlocks Volume.BlockIO (fw.Media Volume.BlockIO).MediaId
      Volume.BlockIOOffset SAMPLE_SIZE = (EFI_SUCCESS, Buffer))
    (hlegacy : GlobalConfig.LegacyType = LEGACY_TYPE_MAC) :
    ((ScanVolumeBootcode GlobalConfig fw Volume).2 = true ↔
      (rd16 Buffer 510 = 0xAA55 ∧ rd8 Buffer 0 ≠ 0 ∧ ¬ occursIn Buffer 512 "EXFAT")) ∧
    (¬ (rd16 Buffer 510 = 0xAA55 ∧ rd8 Buffer 0 ≠ 0 ∧ ¬ occursIn Buffer 512 "EXFAT") →
      (ScanVolumeBootcode GlobalConfig fw Volume).2 = false) := by
  have hiff : (ScanVolumeBootcode GlobalConfig fw Volume).2 = true ↔
      (rd16 Buffer 510 = 0xAA55 ∧ rd8 Buffer 0 ≠ 0 ∧ ¬ occursIn Buffer 512 "EXFAT") := by
    rw [ScanVolumeBootcode_legacy GlobalConfig fw Volume Buffer hbio hbs hread hlegacy,
      signature_eq]
    by_cases hc : rd16 Buffer 510 = 0xAA55 ∧ rd8 Buffer 0 ≠ 0 ∧ ¬ foundBefore Buffer 512 "EXFAT"
    · rw [if_pos hc]
      exact ⟨fun _ => ⟨hc.1, hc.2.1, fun ho => hc.2.2 ((exfat_window Buffer hc.1).1 ho)⟩,
        fun _ => rfl⟩
    · rw [if_neg hc]
      constructor
      · intro hf
        exact absurd hf Bool.false_ne_true
      · rintro ⟨h1, h2, h3⟩
        exact absurd ⟨h1, h2, fun hf => h3 ((exfat_window Buffer h1).2 hf)⟩ hc
  refine ⟨hiff, fun hn => ?_⟩
  cases hb : (ScanVolumeBootcode GlobalConfig fw Volume).2
  · rfl
  · exact absurd (hiff.1 hb) hn

theorem baseline_bootable_witness :
    ((ScanVolumeBootcode legacyConfig (readFirmware jumpSample) diskVolume).2 = true ↔
      (rd16 jumpSample 510 = 0xAA55 ∧ rd8 jumpSample 0 ≠ 0 ∧
        ¬ occursIn jumpSample 512 "EXFAT")) ∧
    (¬ (rd16 jumpSample 510 = 0xAA55 ∧ rd8 jumpSample 0 ≠ 0 ∧
        ¬ occursIn jumpSample 512 "EXFAT") →
      (ScanVolumeBootcode legacyConfig (readFirmware jumpSample) diskVolume).2 = false) :=
  baseline_bootable legacyConfig (readFirmware jumpSample) diskVolume jumpSample (by decide)
    (by decide) rfl rfl

/-- C14. The boot-code pattern table is first-match-wins: in legacy mode, after
a successful read of the sample, the OS name and the icon tag of the volume
are those of the first rule of `bootRules` whose pattern matches the sample,
and are unset when no rule matches. The table sets the boot-code flag when a
rule matches, and the flag is still set when `ScanVolumeBootcode` returns
unless the check for dummy boot sectors found one of its strings. A sample
with "LILO" at offset 2 is labelled "Linux (Legacy)" with icon "linux",
whatever else it contains. -/
theorem pattern_table_first_match (GlobalConfig : REFIT_CONFIG) (fw : Firmware)
    (Volume : REFIT_VOLUME) (Buffer : Mem)
    (hbio : Volume.BlockIO ≠ NULL)
    (hbs : (fw.Media Volume.BlockIO).BlockSize ≤ SAMPLE_SIZE)
    (hread : fw.ReadBlocks Volume.BlockIO (fw.Media Volume.BlockIO).MediaId
      Volume.BlockIOOffset SAMPLE_SIZE = (EFI_SUCCESS, Buffer))
    (hlegacy : GlobalConfig.LegacyType = LEGACY_TYPE_MAC) :
    (ScanVolumeBootcode GlobalConfig fw Volume).1.OSName
      = (firstRule Buffer).map (fun Rule => Rule.OSName) ∧
    (ScanVolumeBootcode GlobalConfig fw Volume).1.OSIconName
      = (firstRule Buffer).map (fun Rule => Rule.OSIconName) ∧
    (∀ V : REFIT_VOLUME, (firstRule Buffer).isSome = true →
      (ScanVolumeBootcode.bootcodes Buffer V).HasBootCode = true) ∧
    ((firstRule Buffer).isSome = true → ¬ dummyFound Buffer →
      (ScanVolumeBootcode GlobalConfig fw Volume).1.HasBootCode = true) ∧
    (atOffset Buffer 2 "LILO" →
      (ScanVolumeBootcode GlobalConfig fw Volume).1.OSName = some "Linux (Legacy)" ∧
      (ScanVolumeBootcode GlobalConfig fw Volume).1.OSIconName = some "linux") := by
  have hp := legacy_phases Buffer (fsStage fw Volume) false
  have hn := signature_names Buffer (fsStage fw Volume) false
  have hb := fsStage_boot fw Volume
  rw [hb.2.1] at hn
  rw [hb.2.2.1] at hn
  have hname : (ScanVolumeBootcode GlobalConfig fw Volume).1.OSName
      = (firstRule Buffer).map (fun Rule => Rule.OSName) := by
    rw [ScanVolumeBootcode_legacy GlobalConfig fw Volume Buffer hbio hbs hread hlegacy]
    rw [hp.2.2.2.1]
    cases firstRule Buffer with
    | none => exact hn.1
    | some Rule => rfl
  have hicon : (ScanVolumeBootcode GlobalConfig fw Volume).1.OSIconName
      = (firstRule Buffer).map (fun Rule => Rule.OSIconName) := by
    rw [ScanVolumeBootcode_legacy GlobalConfig fw Volume Buffer hbio hbs hread hlegacy]
    rw [hp.2.2.2.2.1]
    cases firstRule Buffer with
    | none => exact hn.2
    | some Rule => rfl
  refine ⟨hname, hicon, ?_, ?_, ?_⟩
  · intro V hsome
    rw [bootcodes_eq]
    cases hr : firstRule Buffer with
    | none => rw [hr] at hsome; exact absurd hsome (by decide)
    | some Rule => rfl
  · intro hsome hdummy
    rw [ScanVolumeBootcode_legacy GlobalConfig fw Volume Buffer hbio hbs hread hlegacy]
    rw [hp.2.2.2.2.2, if_neg hdummy]
    cases hr : firstRule Buffer with
    | none => rw [hr] at hsome; exact absurd hsome (by decide)
    | some Rule => rfl
  · intro hlilo
    rw [hname, hicon, firstRule_of_lilo Buffer hlilo]
    exact ⟨rfl, rfl⟩

theorem pattern_table_first_match_witness :
    (ScanVolumeBootcode legacyConfig (readFirmware liloNtldrSample) diskVolume).1.OSName
      = (firstRule liloNtldrSample).map (fun Rule => Rule.OSName) ∧
    (ScanVolumeBootcode legacyConfig (readFirmware liloNtldrSample) diskVolume).1.OSIconName
      = (firstRule liloNtldrSample).map (fun Rule => Rule.OSIconName) ∧
    (∀ V : REFIT_VOLUME, (firstRule liloNtldrSample).isSome = true →
      (ScanVolumeBootcode.bootcodes liloNtldrSample V).HasBootCode = true) ∧
    ((firstRule liloNtldrSample).isSome = true → ¬ dummyFound liloNtldrSample →
      (ScanVolumeBootcode legacyConfig (readFirmware liloNtldrSample)
        diskVolume).1.HasBootCode = true) ∧
    (atOffset liloNtldrSample 2 "LILO" →
      (ScanVolumeBootcode legacyConfig (readFirmware liloNtldrSample) diskVolume).1.OSName
        = some "Linux (Legacy)" ∧
      (ScanVolumeBootcode legacyConfig (readFirmware liloNtldrSample) diskVolume).1.OSIconName
        = some "linux") :=
  pattern_table_first_match legacyConfig (readFirmware liloNtldrSample) diskVolume
    liloNtldrSample (by decide) (by decide) rfl rfl

/-- C15 fails on a sector whose last fifteen bytes are "Non-system disk": in
legacy mode, with the sample read, the string lies within the first 512
bytes (offsets 497..511), the sample has "LILO" at offset 2, and the
boot-code flag is true when `ScanVolumeBootcode` returns. -/
theorem dummy_string_at_end_missed :
    legacyConfig.LegacyType = LEGACY_TYPE_MAC ∧
    (readFirmware lateDummySample).ReadBlocks diskVolume.BlockIO
      ((readFirmware lateDummySample).Media diskVolume.BlockIO).MediaId
      diskVolume.BlockIOOffset SAMPLE_SIZE = (EFI_SUCCESS, lateDummySample) ∧
    occursIn lateDummySample 512 "Non-system disk" ∧
    (ScanVolumeBootcode legacyConfig (readFirmware lateDummySample)
      diskVolume).1.HasBootCode = true := by
  refine ⟨rfl, rfl, ⟨497, by decide, by decide, by decide⟩, ?_⟩
  rw [ScanVolumeBootcode_legacy legacyConfig (readFirmware lateDummySample) diskVolume
    lateDummySample (by decide) (by decide) rfl rfl]
  have hp := legacy_phases lateDummySample (fsStage (readFirmware lateDummySample) diskVolume)
    false
  rw [hp.2.2.2.2.2, if_neg lateDummySample_not_found, firstRule_of_lilo lateDummySample (by decide)]
  rfl

/-- C16. Legacy-mode gating: when `GlobalConfig.LegacyType` is not the Mac
legacy type, `ScanVolumeBootcode` leaves `HasBootCode` false, the OS name and
the icon tag unset, its Bootable output false and the MBR table as it was
(unset on a fresh volume), while the filesystem type and the UUID are those
of the part of the function that does not depend on the mode, hence the same
as under any other configuration, legacy mode included. -/
theorem legacy_gating (GlobalConfig : REFIT_CONFIG) (fw : Firmware) (Volume : REFIT_VOLUME)
    (hoff : GlobalConfig.LegacyType ≠ LEGACY_TYPE_MAC) :
    (ScanVolumeBootcode GlobalConfig fw Volume).1.HasBootCode = false ∧
    (ScanVolumeBootcode GlobalConfig fw Volume).1.OSName = none ∧
    (ScanVolumeBootcode GlobalConfig fw Volume).1.OSIconName = none ∧
    (ScanVolumeBootcode GlobalConfig fw Volume).2 = false ∧
    (ScanVolumeBootcode GlobalConfig fw Volume).1.MbrPartitionTable
      = Volume.MbrPartitionTable ∧
    (ScanVolumeBootcode GlobalConfig fw Volume).1.FSType = (fsStage fw Volume).FSType ∧
    (ScanVolumeBootcode GlobalConfig fw Volume).1.VolUuid = (fsStage fw Volume).VolUuid ∧
    (∀ LegacyConfig : REFIT_CONFIG,
      (ScanVolumeBootcode LegacyConfig fw Volume).1.FSType
        = (ScanVolumeBootcode GlobalConfig fw Volume).1.FSType ∧
      (ScanVolumeBootcode LegacyConfig fw Volume).1.VolUuid
        = (ScanVolumeBootcode GlobalConfig fw Volume).1.VolUuid) := by
  have hin : ¬ classifierActive GlobalConfig fw Volume := fun h => hoff h.2.2.2
  have hfs := ScanVolumeBootcode_fs GlobalConfig fw Volume
  have hb := fsStage_boot fw Volume
  refine ⟨?_, ?_, ?_, ?_, ?_, hfs.1, hfs.2, ?_⟩
  · rw [ScanVolumeBootcode_of_inactive GlobalConfig fw Volume hin]
    exact hb.1
  · rw [ScanVolumeBootcode_of_inactive GlobalConfig fw Volume hin]
    exact hb.2.1
  · rw [ScanVolumeBootcode_of_inactive GlobalConfig fw Volume hin]
    exact hb.2.2.1
  · rw [ScanVolumeBootcode_of_inactive GlobalConfig fw Volume hin]
  · rw [ScanVolumeBootcode_of_inactive GlobalConfig fw Volume hin]
    exact hb.2.2.2
  · intro LegacyConfig
    have hl := ScanVolumeBootcode_fs LegacyConfig fw Volume
    exact ⟨by rw [hl.1, hfs.1], by rw [hl.2, hfs.2]⟩

theorem legacy_gating_witness :
    (ScanVolumeBootcode plainConfig (readFirmware ntfsSample) diskVolume).1.HasBootCode = false ∧
    (ScanVolumeBootcode plainConfig (readFirmware ntfsSample) diskVolume).1.OSName = none ∧
    (ScanVolumeBootcode plainConfig (readFirmware ntfsSample) diskVolume).1.OSIconName = none ∧
    (ScanVolumeBootcode plainConfig (readFirmware ntfsSample) diskVolume).2 = false ∧
    (ScanVolumeBootcode plainConfig (readFirmware ntfsSample) diskVolume).1.MbrPartitionTable
      = diskVolume.MbrPartitionTable ∧
    (ScanVolumeBootcode plainConfig (readFirmware ntfsSample) diskVolume).1.FSType
      = (fsStage (readFirmware ntfsSample) diskVolume).FSType ∧
    (ScanVolumeBootcode plainConfig (readFirmware ntfsSample) diskVolume).1.VolUuid
      = (fsStage (readFirmware ntfsSample) diskVolume).VolUuid ∧
    (∀ LegacyConfig : REFIT_CONFIG,
      (ScanVolumeBootcode LegacyConfig (readFirmware ntfsSample) diskVolume).1.FSType
        = (ScanVolumeBootcode plainConfig (readFirmware ntfsSample) diskVolume).1.FSType ∧
      (ScanVolumeBootcode LegacyConfig (readFirmware ntfsSample) diskVolume).1.VolUuid
        = (ScanVolumeBootcode plainConfig (readFirmware ntfsSample) diskVolume).1.VolUuid) :=
  legacy_gating plainConfig (readFirmware ntfsSample) diskVolume (by decide)

/-- C17. An unbootable path discards boot code: when the baseline bootable
flag is false and the device-path loop of `ScanVolume` visits no CD-ROM Media
node, or the loop visits a vendor-subtype Media node that no CD-ROM Media node
follows, the bootable flag is false at the end of the loop and `HasBootCode`
is false afterwards. A vendor-subtype Media node on the path sets the
Apple-legacy flag. Whatever the volume looks like at the end of the loop,
a false bootable flag there leaves `HasBootCode` false. -/
theorem unbootable_discards_bootcode (GlobalConfig : REFIT_CONFIG) (fw : Firmware)
    (Volume : REFIT_VOLUME)
    (hpath :
      ((ScanVolume.scanned GlobalConfig fw Volume).2 = false ∧
        ∀ Node ∈ visitedNodes (fw.DevicePathFromHandle Volume.DeviceHandle),
          ¬ isCdromNode Node) ∨
      (∃ Pre Vendor Post,
        visitedNodes (fw.DevicePathFromHandle Volume.DeviceHandle) = Pre ++ Vendor :: Post ∧
        isVendorNode Vendor ∧ ∀ Node ∈ Post, ¬ isCdromNode Node)) :
    (ScanVolume.walked GlobalConfig fw Volume).2 = false ∧
    (ScanVolume GlobalConfig fw Volume).HasBootCode = false ∧
    ((∃ Vendor ∈ visitedNodes (fw.DevicePathFromHandle Volume.DeviceHandle),
        isVendorNode Vendor) →
      (ScanVolume GlobalConfig fw Volume).IsAppleLegacy = true) ∧
    (∀ Walked : REFIT_VOLUME,
      (ScanVolume.finish GlobalConfig fw Walked false).HasBootCode = false) := by
  have hwalk : (ScanVolume.walked GlobalConfig fw Volume).2 = false := by
    rw [walked_eq]
    rcases hpath with ⟨hbase, hcd⟩ | ⟨Pre, Vendor, Post, hnodes, hv, hcd⟩
    · rw [hbase]
      exact walk_bootable_false fw _ _ _ hcd
    · rw [hnodes]
      refine (walk_vendor fw Pre [] Vendor Post _ _ (fun n hn => ?_) hv).1 hcd
      apply visitedNodes_not_end (fw.DevicePathFromHandle Volume.DeviceHandle)
      rw [hnodes]
      rcases List.mem_append.1 hn with h1 | h1
      · exact List.mem_append_left _ h1
      · rw [List.mem_singleton.1 h1]
        exact List.mem_append_right _ (List.mem_cons_self _ _)
  refine ⟨hwalk, ?_, ?_, fun Walked => finish_unbootable GlobalConfig fw Walked⟩
  · rw [ScanVolume_eq, hwalk]
    exact finish_unbootable GlobalConfig fw _
  · rintro ⟨Vendor, hmem, hv⟩
    obtain ⟨Pre, Post, hnodes⟩ := List.append_of_mem hmem
    rw [ScanVolume_eq, (finish_fields GlobalConfig fw _ _).2.1, walked_eq, hnodes]
    refine (walk_vendor fw Pre [] Vendor Post _ _ (fun n hn => ?_) hv).2
    apply visitedNodes_not_end (fw.DevicePathFromHandle Volume.DeviceHandle)
    rw [hnodes]
    rcases List.mem_append.1 hn with h1 | h1
    · exact List.mem_append_left _ h1
    · rw [List.mem_singleton.1 h1]
      exact List.mem_append_right _ (List.mem_cons_self _ _)

theorem unbootable_discards_bootcode_witness :
    (ScanVolume.walked legacyConfig vendorFirmware zeroVolume).2 = false ∧
    (ScanVolume legacyConfig vendorFirmware zeroVolume).HasBootCode = false ∧
    ((∃ Vendor ∈ visitedNodes (vendorFirmware.DevicePathFromHandle zeroVolume.DeviceHandle),
        isVendorNode Vendor) →
      (ScanVolume legacyConfig vendorFirmware zeroVolume).IsAppleLegacy = true) ∧
    (∀ Walked : REFIT_VOLUME,
      (ScanVolume.finish legacyConfig vendorFirmware Walked false).HasBootCode = false) :=
  unbootable_discards_bootcode legacyConfig vendorFirmware zeroVolume
    (Or.inr ⟨[], vendorNode, [], rfl, by decide, by decide⟩)

/-- C18. Disk-kind classification by `ScanVolume`: when the block size of the
volume is not 2048, no whole disk resolved at a Messaging node of the path
has block size 2048, and the device-path loop visits no CD-ROM Media node,
the final disk kind is External if the loop visits a Messaging node of subtype
USB, USB-class, IEEE-1394 or Fibre-Channel, and Internal otherwise. At a
CD-ROM Media node the loop body sets the disk kind to Optical and the
bootable flag to true. -/
theorem disk_kind_classification (GlobalConfig : REFIT_CONFIG) (fw : Firmware)
    (Volume : REFIT_VOLUME)
    (hown : ¬ EFI_ERROR (fw.BlockIoOfHandle Volume.DeviceHandle).1 →
      (fw.Media (fw.BlockIoOfHandle Volume.DeviceHandle).2).BlockSize ≠ 2048)
    (hwhole : ∀ A Node B,
      visitedNodes (fw.DevicePathFromHandle Volume.DeviceHandle) = A ++ Node :: B →
      DevicePathType Node = MESSAGING_DEVICE_PATH →
      wholeDiskNot2048 fw (A ++ [Node] ++ [EndDevicePath]))
    (hcd : ∀ Node ∈ visitedNodes (fw.DevicePathFromHandle Volume.DeviceHandle),
      ¬ isCdromNode Node) :
    (ScanVolume GlobalConfig fw Volume).DiskKind =
      (if ∃ Node ∈ visitedNodes (fw.DevicePathFromHandle Volume.DeviceHandle),
          isExternalNode Node then DISK_KIND_EXTERNAL else DISK_KIND_INTERNAL) ∧
    (∀ (Upto : List EFI_DEVICE_PATH) (Node : EFI_DEVICE_PATH) (Current : REFIT_VOLUME)
      (Bootable : Bool), isCdromNode Node →
      (ScanVolume.node fw Upto Node Current Bootable).1.DiskKind = DISK_KIND_OPTICAL ∧
      (ScanVolume.node fw Upto Node Current Bootable).2 = true) := by
  refine ⟨?_, fun Upto Node Current Bootable h => node_cdrom fw Upto Node Current Bootable h⟩
  rw [ScanVolume_eq, (finish_fields GlobalConfig fw _ _).1, walked_eq,
    walk_DiskKind fw _ [] _ _
      (fun n hn => visitedNodes_not_end (fw.DevicePathFromHandle Volume.DeviceHandle) n hn)
      hcd
      (fun A n B hR hm => by
        have := hwhole A n B hR hm
        simpa using this),
    (scanned_fields GlobalConfig fw Volume).2 hown]

theorem disk_kind_classification_witness :
    (ScanVolume legacyConfig usbFirmware zeroVolume).DiskKind =
      (if ∃ Node ∈ visitedNodes (usbFirmware.DevicePathFromHandle zeroVolume.DeviceHandle),
          isExternalNode Node then DISK_KIND_EXTERNAL else DISK_KIND_INTERNAL) ∧
    (∀ (Upto : List EFI_DEVICE_PATH) (Node : EFI_DEVICE_PATH) (Current : REFIT_VOLUME)
      (Bootable : Bool), isCdromNode Node →
      (ScanVolume.node usbFirmware Upto Node Current Bootable).1.DiskKind = DISK_KIND_OPTICAL ∧
      (ScanVolume.node usbFirmware Upto Node Current Bootable).2 = true) :=
  disk_kind_classification legacyConfig usbFirmware zeroVolume (fun _ => by decide)
    (fun _ _ _ _ _ _ _ => (by decide : (512 : Nat) ≠ 2048)) (by decide)

/-- C19. The chain of an extended partition ends on a bad sector: when the read
of the sector at the current chain position fails, or its bytes 510-511 are
not 0xAA55, the loop of `ScanExtendedPartition` ends there, with whatever
fuel is left, and the collection is the one it had on arriving at this
position. -/
theorem extended_chain_bad_signature (GlobalConfig : REFIT_CONFIG) (fw : Firmware)
    (WholeDiskVolume : REFIT_VOLUME) (ExtBase fuel ExtCurrent LogicalPartitionIndex : Nat)
    (Volumes : List REFIT_VOLUME)
    (hbad : EFI_ERROR (fw.ReadBlocks WholeDiskVolume.BlockIO
        (fw.Media WholeDiskVolume.BlockIO).MediaId ExtCurrent 512).1 = true ∨
      rd16 (fw.ReadBlocks WholeDiskVolume.BlockIO
        (fw.Media WholeDiskVolume.BlockIO).MediaId ExtCurrent 512).2 510 ≠ 0xaa55) :
    ScanExtendedPartition.chain GlobalConfig fw WholeDiskVolume ExtBase (fuel + 1) ExtCurrent
      LogicalPartitionIndex Volumes = { Finished := true, Volumes := Volumes } := by
  simp only [ScanExtendedPartition.chain]
  split
  · rfl
  · split
    · rfl
    · rename_i herr
      split
      · rfl
      · rename_i hsig
        rcases hbad with h | h
        · exact absurd h herr
        · exact absurd h hsig

theorem extended_chain_bad_signature_witness :
    ScanExtendedPartition.chain legacyConfig (readFirmware zeroMem) diskVolume 63 (0 + 1) 80 5
      [diskVolume, zeroVolume] = { Finished := true, Volumes := [diskVolume, zeroVolume] } :=
  extended_chain_bad_signature legacyConfig (readFirmware zeroMem) diskVolume 63 0 80 5
    [diskVolume, zeroVolume] (Or.inr (by decide))

/-- C20, as stated, fails for a whole-disk volume whose table has two entries
of an extended type: the two logical volumes appended for it both get slot
index 4 and the name "Partition 5". -/
theorem logical_slot_reused_counterexample :
    isWholeDisk twoChainDisk ∧
    (ScanVolumes.extended 2 plainConfig twoChainFirmware [twoChainDisk] twoChainDisk).Finished
      = true ∧
    (ScanVolumes.extended 2 plainConfig twoChainFirmware [twoChainDisk] twoChainDisk).Volumes.map
        (fun Volume => (Volume.IsMbrPartition, Volume.MbrPartitionIndex, Volume.VolName,
          Volume.BlockIOOffset))
      = [(false, 0, none, 0), (true, 4, some "Partition 5", 101),
         (true, 4, some "Partition 5", 201)] := by
  decide

/-- C20, amended. The logical volumes synthesized by one call of
`ScanExtendedPartition`, that is for one extended-type entry of the table of
a whole-disk volume, are appended to the end of the collection with
`IsMbrPartition` true and the slot indices 4, 5, 6, .. in discovery order,
and the volume with slot index s is named "Partition s+1". This holds
whenever the loop over the chain has ended and at every point before. -/
theorem logical_partition_slots (fuel : Nat) (GlobalConfig : REFIT_CONFIG) (fw : Firmware)
    (Volumes : List REFIT_VOLUME) (WholeDiskVolume : REFIT_VOLUME)
    (MbrEntry : MBR_PARTITION_INFO) :
    ∃ New : List REFIT_VOLUME,
      (ScanExtendedPartition fuel GlobalConfig fw Volumes WholeDiskVolume MbrEntry).Volumes
        = Volumes ++ New ∧
      ∀ (k : Nat) (Volume : REFIT_VOLUME), New[k]? = some Volume →
        Volume.IsMbrPartition = true ∧ Volume.MbrPartitionIndex = 4 + k ∧
        Volume.MbrPartitionIndex ≥ 4 ∧
        Volume.VolName = some ("Partition " ++ toString (Volume.MbrPartitionIndex + 1)) := by
  obtain ⟨New, h1, h2⟩ := chain_spec GlobalConfig fw WholeDiskVolume MbrEntry.StartLBA fuel
    MbrEntry.StartLBA 4 Volumes
  refine ⟨New, h1, fun k Volume hk => ?_⟩
  have h := slotsFrom_get New 4 k Volume h2 hk
  refine ⟨h.1, h.2.1, by rw [h.2.1]; omega, ?_⟩
  rw [h.2.1]
  exact h.2.2

theorem logical_partition_slots_witness :
    (ScanExtendedPartition 2 plainConfig twoChainFirmware [twoChainDisk] twoChainDisk
      (MbrEntry (memOfList twoChainTable) 0)).Finished = true ∧
    ∃ New : List REFIT_VOLUME,
      (ScanExtendedPartition 2 plainConfig twoChainFirmware [twoChainDisk] twoChainDisk
        (MbrEntry (memOfList twoChainTable) 0)).Volumes = [twoChainDisk] ++ New ∧
      ∀ (k : Nat) (Volume : REFIT_VOLUME), New[k]? = some Volume →
        Volume.IsMbrPartition = true ∧ Volume.MbrPartitionIndex = 4 + k ∧
        Volume.MbrPartitionIndex ≥ 4 ∧
        Volume.VolName = some ("Partition " ++ toString (Volume.MbrPartitionIndex + 1)) :=
  ⟨by decide, logical_partition_slots 2 plainConfig twoChainFirmware [twoChainDisk] twoChainDisk
    (MbrEntry (memOfList twoChainTable) 0)⟩

/-- C21 fails when the sum of the chain sector number and the start LBA does
not fit in 32 bits: for the chain sector 4294967233 and an entry with start
LBA 63 the sector offset of the synthesized volume is 0, not 4294967296. The
volume has the block I/O reference of the whole disk, 1, as its block I/O and
whole-disk block I/O reference. -/
theorem logical_offset_wraps :
    (ScanExtendedPartition 2 plainConfig wrapFirmware [] plainDisk wrapEntry).Finished = true ∧
    (MbrEntry (ptrAdd wrapEmbrSample 446) 0).StartLBA = 63 ∧
    (ScanExtendedPartition 2 plainConfig wrapFirmware [] plainDisk wrapEntry).Volumes.map
        (fun Volume => (Volume.BlockIOOffset, Volume.BlockIO, Volume.WholeDiskBlockIO))
      = [(0, 1, 1)] ∧
    4294967233 + 63 ≠ 0 := by
  decide

/-- C22, as stated, fails for a chain sector whose entry 0 is empty: entry 1 is
a partition of type 0x83 with non-zero start LBA and size, no entry is of an
extended type, and yet the scan of the sector synthesizes no volume. -/
theorem entry_after_empty_entry_counterexample :
    rd16 gapEmbrSample 510 = 0xaa55 ∧
    (∀ i, i < 4 → IS_EXTENDED_PART_TYPE (MbrEntry (ptrAdd gapEmbrSample 446) i).Type_ = false) ∧
    (MbrEntry (ptrAdd gapEmbrSample 446) 1).StartLBA ≠ 0 ∧
    (MbrEntry (ptrAdd gapEmbrSample 446) 1).Size ≠ 0 ∧
    ScanExtendedPartition.entries plainConfig plainFirmware plainDisk 100 100
      (ptrAdd gapEmbrSample 446) [0, 1, 2, 3] 4 [] = (0, 4, []) := by
  decide

/-- C22, amended. In a chain sector the four entries are examined in order up
to the first entry that is unusable (flag byte neither 0x00 nor 0x80, start
LBA zero or size zero) or of an extended type. Every entry before that one
yields exactly one synthesized volume, at the sector offset current sector
plus start LBA in 32 bits. When that entry is usable, hence of an extended
type, the next chain sector is the extended base plus its start LBA in 32
bits; otherwise, and when all four entries are logical partitions, there is
no next sector and the chain ends after this one. -/
theorem chain_sector_entry_scan (GlobalConfig : REFIT_CONFIG) (fw : Firmware)
    (WholeDiskVolume : REFIT_VOLUME) (ExtBase ExtCurrent LogicalPartitionIndex fuel : Nat)
    (Volumes : List REFIT_VOLUME) (Sector : Mem)
    (hcur : ExtCurrent ≠ 0)
    (hread : fw.ReadBlocks WholeDiskVolume.BlockIO (fw.Media WholeDiskVolume.BlockIO).MediaId
      ExtCurrent 512 = (EFI_SUCCESS, Sector))
    (hsig : rd16 Sector 510 = 0xaa55) :
    ScanExtendedPartition.entries GlobalConfig fw WholeDiskVolume ExtBase ExtCurrent
        (ptrAdd Sector 446) [0, 1, 2, 3] LogicalPartitionIndex Volumes =
      (nextChainSector ExtBase (ptrAdd Sector 446) [0, 1, 2, 3],
       LogicalPartitionIndex + (logicalEntries (ptrAdd Sector 446) [0, 1, 2, 3]).length,
       Volumes ++ logicalVolumes GlobalConfig fw WholeDiskVolume ExtCurrent (ptrAdd Sector 446)
         LogicalPartitionIndex (logicalEntries (ptrAdd Sector 446) [0, 1, 2, 3])) ∧
    (logicalVolumes GlobalConfig fw WholeDiskVolume ExtCurrent (ptrAdd Sector 446)
        LogicalPartitionIndex (logicalEntries (ptrAdd Sector 446) [0, 1, 2, 3])).length
      = (logicalEntries (ptrAdd Sector 446) [0, 1, 2, 3]).length ∧
    ScanExtendedPartition.chain GlobalConfig fw WholeDiskVolume ExtBase (fuel + 1) ExtCurrent
        LogicalPartitionIndex Volumes =
      ScanExtendedPartition.chain GlobalConfig fw WholeDiskVolume ExtBase fuel
        (nextChainSector ExtBase (ptrAdd Sector 446) [0, 1, 2, 3])
        (LogicalPartitionIndex + (logicalEntries (ptrAdd Sector 446) [0, 1, 2, 3]).length)
        (Volumes ++ logicalVolumes GlobalConfig fw WholeDiskVolume ExtCurrent
          (ptrAdd Sector 446) LogicalPartitionIndex
          (logicalEntries (ptrAdd Sector 446) [0, 1, 2, 3])) ∧
    (nextChainSector ExtBase (ptrAdd Sector 446) [0, 1, 2, 3] = 0 →
      ScanExtendedPartition.chain GlobalConfig fw WholeDiskVolume ExtBase (fuel + 2) ExtCurrent
          LogicalPartitionIndex Volumes =
        { Finished := true,
          Volumes := Volumes ++ logicalVolumes GlobalConfig fw WholeDiskVolume ExtCurrent
            (ptrAdd Sector 446) LogicalPartitionIndex
            (logicalEntries (ptrAdd Sector 446) [0, 1, 2, 3]) }) := by
  refine ⟨entries_eq _ _ _ _ _ _ _ _ _, logicalVolumes_length _ _ _ _ _ _ _,
    chain_step GlobalConfig fw WholeDiskVolume ExtBase fuel ExtCurrent LogicalPartitionIndex
      Volumes Sector hcur hread hsig, fun hnext => ?_⟩
  rw [chain_step GlobalConfig fw WholeDiskVolume ExtBase (fuel + 1) ExtCurrent
    LogicalPartitionIndex Volumes Sector hcur hread hsig, hnext, chain_zero]

theorem chain_sector_entry_scan_witness :
    ScanExtendedPartition.entries plainConfig loopFirmware plainDisk 100 100
        (ptrAdd loopSample 446) [0, 1, 2, 3] 4 [] =
      (nextChainSector 100 (ptrAdd loopSample 446) [0, 1, 2, 3],
       4 + (logicalEntries (ptrAdd loopSample 446) [0, 1, 2, 3]).length,
       [] ++ logicalVolumes plainConfig loopFirmware plainDisk 100 (ptrAdd loopSample 446)
         4 (logicalEntries (ptrAdd loopSample 446) [0, 1, 2, 3])) ∧
    (logicalVolumes plainConfig loopFirmware plainDisk 100 (ptrAdd loopSample 446)
        4 (logicalEntries (ptrAdd loopSample 446) [0, 1, 2, 3])).length
      = (logicalEntries (ptrAdd loopSample 446) [0, 1, 2, 3]).length ∧
    ScanExtendedPartition.chain plainConfig loopFirmware plainDisk 100 (0 + 1) 100 4 [] =
      ScanExtendedPartition.chain plainConfig loopFirmware plainDisk 100 0
        (nextChainSector 100 (ptrAdd loopSample 446) [0, 1, 2, 3])
        (4 + (logicalEntries (ptrAdd loopSample 446) [0, 1, 2, 3]).length)
        ([] ++ logicalVolumes plainConfig loopFirmware plainDisk 100
          (ptrAdd loopSample 446) 4 (logicalEntries (ptrAdd loopSample 446) [0, 1, 2, 3])) ∧
    (nextChainSector 100 (ptrAdd loopSample 446) [0, 1, 2, 3] = 0 →
      ScanExtendedPartition.chain plainConfig loopFirmware plainDisk 100 (0 + 2) 100 4 [] =
        { Finished := true,
          Volumes := [] ++ logicalVolumes plainConfig loopFirmware plainDisk 100
            (ptrAdd loopSample 446) 4 (logicalEntries (ptrAdd loopSample 446) [0, 1, 2, 3]) }) :=
  chain_sector_entry_scan plainConfig loopFirmware plainDisk 100 100 4 0 [] loopSample
    (by decide) rfl (by decide)

/-- C23 fails on a chain with a cycle: the extended partition starts at
sector 100, and the chain sectors 100 and 150 both link to the extended base
plus 50, that is to sector 150. For every amount of fuel the loop of
`ScanExtendedPartition` has not ended, and it has synthesized as many volumes
as it has visited sectors. -/
theorem extended_chain_cycle_never_ends (fuel : Nat) :
    IS_EXTENDED_PART_TYPE loopEntry.Type_ = true ∧
    (ScanExtendedPartition fuel plainConfig loopFirmware [] plainDisk loopEntry).Finished
      = false ∧
    (ScanExtendedPartition fuel plainConfig loopFirmware [] plainDisk
      loopEntry).Volumes.length = fuel := by
  refine ⟨by decide, ?_⟩
  cases fuel with
  | zero => exact ⟨rfl, rfl⟩
  | succ fuel =>
    have hnext : nextChainSector 100 (ptrAdd loopSample 446) [0, 1, 2, 3] = 150 := by decide
    have hlog : logicalEntries (ptrAdd loopSample 446) [0, 1, 2, 3] = [0] := by decide
    have hstep := chain_step plainConfig loopFirmware plainDisk 100 fuel 100 4 [] loopSample
      (by decide) rfl (by decide)
    rw [hnext, hlog] at hstep
    unfold ScanExtendedPartition
    simp only []
    have he : loopEntry.StartLBA = 100 := rfl
    rw [he, hstep]
    refine ⟨(loop_chain fuel _ _).1, ?_⟩
    rw [(loop_chain fuel _ _).2]
    simp only [logicalVolumes, List.nil_append, List.length_cons, List.length_nil]
    omega

/-- C24 fails for a volume whose medium reports the last block 2^64 - 1: its
block count 2^64 is the size of no entry of the table, so that no entry
qualifies, and the volume was not marked before; yet the reconciliation marks
it as the MBR partition of slot 0, whose entry is empty (size 0), because the
64-bit sum `LastBlock + 1` wraps to 0. -/
theorem reconciliation_block_count_wraps :
    (lastBlockFirmware.Media reconcilePartition.BlockIO).LastBlock = 2 ^ 64 - 1 ∧
    (MbrEntry (memOfList emptySlotTable) 0).Size = 0 ∧
    (∀ p, p < 4 →
      ¬ qualifies lastBlockFirmware (memOfList emptySlotTable) reconcilePartition p) ∧
    reconcilePartition.IsMbrPartition = false ∧
    ScanVolumes.wholeDiskVolume [emptySlotDisk, reconcilePartition] reconcilePartition
      = some emptySlotDisk ∧
    (ScanVolumes.reconcile lastBlockFirmware reconcilePartition
      (some emptySlotDisk)).IsMbrPartition = true ∧
    (ScanVolumes.reconcile lastBlockFirmware reconcilePartition
      (some emptySlotDisk)).MbrPartitionIndex = 0 :=
  lastBlockFirmware_reconcile

/-- The acceptance rule of the reconciliation for a block count that fits in
64 bits: for a volume whose whole-disk volume carries a retained MBR table,
with all sector reads succeeding, the reconciliation marks the volume as an
MBR partition with slot index p when p is the smallest index in 0..3 whose
entry qualifies: its size is the block count of the volume, the first sector
of the volume equals the sector at its start LBA on the whole disk, and the
bytes of that sector sum up to at least 1000. When no entry qualifies, in
particular when the first sector of the volume is all zeros, the volume is
left as it is. For a volume that was not marked before, being marked with
slot index p is equivalent to p being the smallest qualifying index. -/
theorem reconciliation_acceptance (fw : Firmware) (Volume WholeDiskVolume : REFIT_VOLUME)
    (Table : List Nat)
    (htable : WholeDiskVolume.MbrPartitionTable = some Table)
    (hlast : (fw.Media Volume.BlockIO).LastBlock + 1 < 2 ^ 64)
    (hown : ¬ EFI_ERROR (ownSector fw Volume).1)
    (hdisk : ∀ p, p < 4 → ¬ EFI_ERROR (diskSector fw (memOfList Table) Volume p).1) :
    (∀ p, p < 4 → qualifies fw (memOfList Table) Volume p →
      (∀ q, q < p → ¬ qualifies fw (memOfList Table) Volume q) →
      ScanVolumes.reconcile fw Volume (some WholeDiskVolume) = associate Volume p ∧
      (ScanVolumes.reconcile fw Volume (some WholeDiskVolume)).IsMbrPartition = true ∧
      (ScanVolumes.reconcile fw Volume (some WholeDiskVolume)).MbrPartitionIndex = p) ∧
    ((∀ p, p < 4 → ¬ qualifies fw (memOfList Table) Volume p) →
      ScanVolumes.reconcile fw Volume (some WholeDiskVolume) = Volume) ∧
    ((∀ i, i < 512 → rd8 (ownSector fw Volume).2 i = 0) →
      ScanVolumes.reconcile fw Volume (some WholeDiskVolume) = Volume) ∧
    (Volume.IsMbrPartition = false → ∀ p, p < 4 →
      (((ScanVolumes.reconcile fw Volume (some WholeDiskVolume)).IsMbrPartition = true ∧
        (ScanVolumes.reconcile fw Volume (some WholeDiskVolume)).MbrPartitionIndex = p) ↔
       (qualifies fw (memOfList Table) Volume p ∧
        ∀ q, q < p → ¬ qualifies fw (memOfList Table) Volume q))) := by
  have hrec : ScanVolumes.reconcile fw Volume (some WholeDiskVolume) =
      match [0, 1, 2, 3].find? (fun p => decide (qualifies fw (memOfList Table) Volume p)) with
      | some p => associate Volume p
      | none => Volume := by
    unfold ScanVolumes.reconcile
    simp only [htable]
    exact reconcileEntries_eq fw (memOfList Table) Volume hlast hown [0, 1, 2, 3]
      (fun p hp => hdisk p (by
        simp only [List.mem_cons, List.mem_singleton, List.not_mem_nil, or_false] at hp
        omega))
  obtain ⟨hfirst, hnone, hsome⟩ := find_first_of_four (qualifies fw (memOfList Table) Volume)
  have hno : (∀ p, p < 4 → ¬ qualifies fw (memOfList Table) Volume p) →
      ScanVolumes.reconcile fw Volume (some WholeDiskVolume) = Volume := by
    intro h
    rw [hrec, hnone h]
  refine ⟨?_, hno, ?_, ?_⟩
  · intro p hp hq hmin
    rw [hrec, hfirst p hp hq hmin]
    exact ⟨rfl, rfl, rfl⟩
  · intro hzero
    apply hno
    rintro p _ ⟨_, _, hsum⟩
    rw [sectorSum_zero _ hzero] at hsum
    omega
  · intro hunmarked p hp
    constructor
    · rintro ⟨hm, hi⟩
      cases hf : [0, 1, 2, 3].find? (fun p => decide (qualifies fw (memOfList Table) Volume p)) with
      | none =>
        rw [hrec, hf] at hm
        simp only [] at hm
        rw [hunmarked] at hm
        exact absurd hm (by decide)
      | some p2 =>
        rw [hrec, hf] at hi
        have hp2 : p2 = p := hi
        rw [hp2] at hf
        exact (hsome p hf).2
    · rintro ⟨hq, hmin⟩
      rw [hrec, hfirst p hp hq hmin]
      exact ⟨rfl, rfl⟩

theorem reconciliation_acceptance_witness :
    (qualifies reconcileFirmware (memOfList reconcileTable) reconcilePartition 1 ∧
      ¬ qualifies reconcileFirmware (memOfList reconcileTable) reconcilePartition 0 ∧
      (ScanVolumes.reconcile reconcileFirmware reconcilePartition
        (some reconcileDisk)).MbrPartitionIndex = 1) ∧
    ((∀ p, p < 4 → qualifies reconcileFirmware (memOfList reconcileTable) reconcilePartition p →
      (∀ q, q < p → ¬ qualifies reconcileFirmware (memOfList reconcileTable) reconcilePartition q) →
      ScanVolumes.reconcile reconcileFirmware reconcilePartition (some reconcileDisk)
        = associate reconcilePartition p ∧
      (ScanVolumes.reconcile reconcileFirmware reconcilePartition
        (some reconcileDisk)).IsMbrPartition = true ∧
      (ScanVolumes.reconcile reconcileFirmware reconcilePartition
        (some reconcileDisk)).MbrPartitionIndex = p) ∧
    ((∀ p, p < 4 → ¬ qualifies reconcileFirmware (memOfList reconcileTable) reconcilePartition p) →
      ScanVolumes.reconcile reconcileFirmware reconcilePartition (some reconcileDisk)
        = reconcilePartition) ∧
    ((∀ i, i < 512 → rd8 (ownSector reconcileFirmware reconcilePartition).2 i = 0) →
      ScanVolumes.reconcile reconcileFirmware reconcilePartition (some reconcileDisk)
        = reconcilePartition) ∧
    (reconcilePartition.IsMbrPartition = false → ∀ p, p < 4 →
      (((ScanVolumes.reconcile reconcileFirmware reconcilePartition
          (some reconcileDisk)).IsMbrPartition = true ∧
        (ScanVolumes.reconcile reconcileFirmware reconcilePartition
          (some reconcileDisk)).MbrPartitionIndex = p) ↔
       (qualifies reconcileFirmware (memOfList reconcileTable) reconcilePartition p ∧
        ∀ q, q < p →
          ¬ qualifies reconcileFirmware (memOfList reconcileTable) reconcilePartition q)))) :=
  ⟨reconcilePartition_qualifies,
    reconciliation_acceptance reconcileFirmware reconcilePartition reconcileDisk reconcileTable
      rfl (by decide) (by decide) (by decide)⟩

/-- C25. Reconciliation determinism: the outcome of the reconciliation of a
volume against a collection, and with it the MBR-slot association, is a
function of the collection and of the sectors and media read. Two firmwares
that deliver the same sectors and media descriptions give the same outcome
for every volume of every collection, whatever else they answer. -/
theorem reconciliation_deterministic (fw1 fw2 : Firmware)
    (hread : ∀ b m l, fw1.ReadBlocks b m l 512 = fw2.ReadBlocks b m l 512)
    (hmedia : ∀ b, fw1.Media b = fw2.Media b) :
    (∀ (Volumes : List REFIT_VOLUME) (Volume : REFIT_VOLUME),
      ScanVolumes.reconcile fw1 Volume (ScanVolumes.wholeDiskVolume Volumes Volume)
        = ScanVolumes.reconcile fw2 Volume (ScanVolumes.wholeDiskVolume Volumes Volume)) ∧
    (∀ Volumes : List REFIT_VOLUME,
      Volumes.map (fun Volume =>
          ((ScanVolumes.reconcile fw1 Volume
              (ScanVolumes.wholeDiskVolume Volumes Volume)).IsMbrPartition,
           (ScanVolumes.reconcile fw1 Volume
              (ScanVolumes.wholeDiskVolume Volumes Volume)).MbrPartitionIndex))
        = Volumes.map (fun Volume =>
          ((ScanVolumes.reconcile fw2 Volume
              (ScanVolumes.wholeDiskVolume Volumes Volume)).IsMbrPartition,
           (ScanVolumes.reconcile fw2 Volume
              (ScanVolumes.wholeDiskVolume Volumes Volume)).MbrPartitionIndex))) := by
  have h : ∀ (Volumes : List REFIT_VOLUME) (Volume : REFIT_VOLUME),
      ScanVolumes.reconcile fw1 Volume (ScanVolumes.wholeDiskVolume Volumes Volume)
        = ScanVolumes.reconcile fw2 Volume (ScanVolumes.wholeDiskVolume Volumes Volume) :=
    fun Volumes Volume => reconcile_congr fw1 fw2 Volume _ hread hmedia
  refine ⟨h, fun Volumes => ?_⟩
  apply List.map_congr_left
  intro Volume _
  rw [h]

theorem reconciliation_deterministic_witness :
    (∀ (Volumes : List REFIT_VOLUME) (Volume : REFIT_VOLUME),
      ScanVolumes.reconcile reconcileFirmware Volume (ScanVolumes.wholeDiskVolume Volumes Volume)
        = ScanVolumes.reconcile otherFirmware Volume
            (ScanVolumes.wholeDiskVolume Volumes Volume)) ∧
    (∀ Volumes : List REFIT_VOLUME,
      Volumes.map (fun Volume =>
          ((ScanVolumes.reconcile reconcileFirmware Volume
              (ScanVolumes.wholeDiskVolume Volumes Volume)).IsMbrPartition,
           (ScanVolumes.reconcile reconcileFirmware Volume
              (ScanVolumes.wholeDiskVolume Volumes Volume)).MbrPartitionIndex))
        = Volumes.map (fun Volume =>
          ((ScanVolumes.reconcile otherFirmware Volume
              (ScanVolumes.wholeDiskVolume Volumes Volume)).IsMbrPartition,
           (ScanVolumes.reconcile otherFirmware Volume
              (ScanVolumes.wholeDiskVolume Volumes Volume)).MbrPartitionIndex))) :=
  reconciliation_deterministic reconcileFirmware otherFirmware (fun _ _ _ => rfl) (fun _ => rfl)

/-- C27 fails for the volume synthesized for a logical partition: after a scan
in legacy mode of a whole disk (handle 7) with an extended partition and of a
readable partition (handle 8), the synthesized volume has the number 0, which
is not the sentinel, like the readable partition, and it is not readable. -/
theorem synthesized_volume_number_zero :
    (ScanVolumes 4 legacyConfig numberFirmware).Finished = true ∧
    (ScanVolumes 4 legacyConfig numberFirmware).Volumes.map
        (fun Volume => (Volume.DeviceHandle, Volume.IsMbrPartition, Volume.IsReadable,
          Volume.VolNumber))
      = [(7, false, false, 999), (8, false, true, 0), (0, true, false, 0)] ∧
    VOL_UNREADABLE = 999 :=
  ⟨numberFirmware_scan.1, numberFirmware_scan.2, rfl⟩

/-- C28. Numbering order: after the first pass of `ScanVolumes` the collection
holds one volume per enumerated handle, in handle order; a volume that ends
the pass readable has for its number the count of readable volumes before
it, so the readable volumes carry 0, 1, 2, .. in this order; every other
volume carries the sentinel. `ScanVolumes` runs the second pass over this
collection. -/
theorem numbering_order (GlobalConfig : REFIT_CONFIG) (fw : Firmware) :
    (firstPass GlobalConfig fw fw.LocateHandle.2).Volumes.map
        (fun Volume => Volume.DeviceHandle) = fw.LocateHandle.2 ∧
    (∀ (i : Nat) (Volume : REFIT_VOLUME),
      (firstPass GlobalConfig fw fw.LocateHandle.2).Volumes[i]? = some Volume →
      Volume.VolNumber =
        if Volume.IsReadable then
          readableCount ((firstPass GlobalConfig fw fw.LocateHandle.2).Volumes.take i)
        else VOL_UNREADABLE) ∧
    (fw.LocateHandle.1 ≠ EFI_NOT_FOUND → CheckError fw.LocateHandle.1 = false →
      ∀ fuel, (ScanVolumes fuel GlobalConfig fw).Volumes =
        (ScanVolumes.second GlobalConfig fw fuel 0
          (firstPass GlobalConfig fw fw.LocateHandle.2).Volumes).Volumes) := by
  have h := firstPass_inv GlobalConfig fw fw.LocateHandle.2
  refine ⟨h.1, h.2.2.2.2, fun hfound hok fuel => ?_⟩
  rw [ScanVolumes_eq fuel GlobalConfig fw hfound hok]

theorem numbering_order_witness :
    (firstPass plainConfig dupFirmware dupFirmware.LocateHandle.2).Volumes.map
        (fun Volume => (Volume.IsReadable, Volume.VolNumber))
      = [(true, 0), (false, VOL_UNREADABLE)] ∧
    ((firstPass plainConfig dupFirmware dupFirmware.LocateHandle.2).Volumes.map
        (fun Volume => Volume.DeviceHandle) = dupFirmware.LocateHandle.2 ∧
    (∀ (i : Nat) (Volume : REFIT_VOLUME),
      (firstPass plainConfig dupFirmware dupFirmware.LocateHandle.2).Volumes[i]? = some Volume →
      Volume.VolNumber =
        if Volume.IsReadable then
          readableCount ((firstPass plainConfig dupFirmware dupFirmware.LocateHandle.2).Volumes.take i)
        else VOL_UNREADABLE) ∧
    (dupFirmware.LocateHandle.1 ≠ EFI_NOT_FOUND → CheckError dupFirmware.LocateHandle.1 = false →
      ∀ fuel, (ScanVolumes fuel plainConfig dupFirmware).Volumes =
        (ScanVolumes.second plainConfig dupFirmware fuel 0
          (firstPass plainConfig dupFirmware dupFirmware.LocateHandle.2).Volumes).Volumes)) :=
  ⟨by decide, numbering_order plainConfig dupFirmware⟩

/-- C29, as stated, fails: for an ext4 volume with an open root directory, an
empty label, a volume size of 209715200 bytes and no partition name,
`GetVolumeName` returns "200 MiB ext4 volume", with a blank between the
number and the unit, and not "200MiB ext4 volume". -/
theorem size_name_without_blank_counterexample :
    ext4RootVolume.RootDir ≠ NULL ∧
    sizeFirmware.LibFileSystemInfo ext4RootVolume.RootDir
      = some { VolumeSize := 209715200, VolumeLabel := "" } ∧
    usablePartName sizeFirmware ext4RootVolume = none ∧
    ext4RootVolume.FSType = FS_TYPE_EXT4 ∧
    GetVolumeName sizeFirmware ext4RootVolume ≠ "200MiB ext4 volume" := by
  decide

/-- C29, amended. For a volume with an open root directory whose filesystem
information has an empty label and a volume size of 209715200 bytes, with no
usable partition name and filesystem type ext4, `GetVolumeName` returns
"200 MiB ext4 volume". -/
theorem size_type_name (fw : Firmware) (Volume : REFIT_VOLUME) (Info : EFI_FILE_SYSTEM_INFO)
    (hroot : Volume.RootDir ≠ NULL)
    (hinfo : fw.LibFileSystemInfo Volume.RootDir = some Info)
    (hlabel : Info.VolumeLabel = "")
    (hsize : Info.VolumeSize = 209715200)
    (hpart : usablePartName fw Volume = none)
    (hfs : Volume.FSType = FS_TYPE_EXT4) :
    GetVolumeName fw Volume = "200 MiB ext4 volume" := by
  have hi : fileSystemInfo fw Volume = some Info := by
    unfold fileSystemInfo
    rw [if_pos hroot, hinfo]
  have hl : volumeLabel fw Volume = none := by
    unfold volumeLabel
    rw [hi]
    simp only [hlabel]
    decide
  rw [GetVolumeName_eq]
  unfold nameChain
  rw [hl, hpart, hi]
  simp only [hsize, hfs]
  decide

theorem size_type_name_witness :
    GetVolumeName sizeFirmware ext4RootVolume = "200 MiB ext4 volume" :=
  size_type_name sizeFirmware ext4RootVolume { VolumeSize := 209715200, VolumeLabel := "" }
    (by decide) rfl rfl rfl (by decide) rfl

/-- C30, as stated, fails for a volume of a known filesystem type: an ext4
volume without label, without partition name and without filesystem
information is named " ext4 volume", not "unknown volume". -/
theorem type_name_fallback_counterexample :
    volumeLabel plainFirmware ext4BareVolume = none ∧
    usablePartName plainFirmware ext4BareVolume = none ∧
    fileSystemInfo plainFirmware ext4BareVolume = none ∧
    GetVolumeName plainFirmware ext4BareVolume = " ext4 volume" ∧
    GetVolumeName plainFirmware ext4BareVolume ≠ "unknown volume" := by
  decide

/-- C30, amended. The fallback chain of `GetVolumeName`: the result is the
filesystem label when filesystem information is available and the label is
not empty; otherwise the partition name when it is not empty and not in the
ignore list; otherwise the size and type string when filesystem information
is available; otherwise the name of the filesystem type followed by
" volume" when the type is known, and "unknown volume" when it is not. -/
theorem naming_fallback_chain (fw : Firmware) (Volume : REFIT_VOLUME) :
    GetVolumeName fw Volume = nameChain fw Volume ∧
    (∀ Label, volumeLabel fw Volume = some Label → GetVolumeName fw Volume = Label) ∧
    (∀ PartName, volumeLabel fw Volume = none → usablePartName fw Volume = some PartName →
      GetVolumeName fw Volume = PartName) ∧
    (∀ Info, volumeLabel fw Volume = none → usablePartName fw Volume = none →
      fileSystemInfo fw Volume = some Info →
      GetVolumeName fw Volume
        = SizeInIEEEUnits Info.VolumeSize ++ FSTypeName Volume.FSType ++ " volume") ∧
    (volumeLabel fw Volume = none → usablePartName fw Volume = none →
      fileSystemInfo fw Volume = none →
      GetVolumeName fw Volume
        = if Volume.FSType = FS_TYPE_UNKNOWN then "unknown volume"
          else FSTypeName Volume.FSType ++ " volume") := by
  refine ⟨GetVolumeName_eq fw Volume, ?_, ?_, ?_, ?_⟩
  · intro Label h
    rw [GetVolumeName_eq]
    unfold nameChain
    rw [h]
  · intro PartName h1 h2
    rw [GetVolumeName_eq]
    unfold nameChain
    rw [h1, h2]
  · intro Info h1 h2 h3
    rw [GetVolumeName_eq]
    unfold nameChain
    rw [h1, h2, h3]
  · intro h1 h2 h3
    rw [GetVolumeName_eq]
    unfold nameChain
    rw [h1, h2, h3]

theorem naming_fallback_chain_witness :
    GetVolumeName plainFirmware ext4BareVolume = " ext4 volume" ∧
    GetVolumeName sizeFirmware ext4RootVolume = nameChain sizeFirmware ext4RootVolume :=
  ⟨by decide, (naming_fallback_chain sizeFirmware ext4RootVolume).1⟩

/-- C32. `FindPath` returns the directory portion of a pathname: for a path
with a backslash the result is the part of the path before its last
backslash, for a path without backslash it is the empty string, and for
`NULL` it is `NULL`. The result is a new string; the function has no other
effect. -/
theorem find_path_directory (FullPath : List Char) :
    (∀ Pre Post : List Char, FullPath = Pre ++ '\\' :: Post → '\\' ∉ Post →
      FindPath (some FullPath) = some Pre) ∧
    ('\\' ∉ FullPath → FindPath (some FullPath) = some []) ∧
    FindPath none = none ∧
    FindPath (some "EFI\\foo\\bar.efi".toList) = some "EFI\\foo".toList := by
  refine ⟨?_, ?_, rfl, by decide⟩
  · intro Pre Post hP hPost
    rw [hP]
    unfold FindPath
    simp only [FindPath_loop_last Pre Post hPost, List.take_left]
  · intro hno
    unfold FindPath
    simp only [FindPath_loop_none FullPath hno, List.take_zero]

theorem find_path_directory_witness :
    FindPath (some ("EFI\\foo".toList ++ '\\' :: "bar.efi".toList)) = some "EFI\\foo".toList ∧
    FindPath (some "bar.efi".toList) = some [] :=
  ⟨(find_path_directory ("EFI\\foo".toList ++ '\\' :: "bar.efi".toList)).1
      "EFI\\foo".toList "bar.efi".toList rfl (by decide),
    (find_path_directory "bar.efi".toList).2.1 (by decide)⟩

/-- C33. `FindLastDirName` returns the final directory component: for a path
`P\D\F` or `D\F`, where D is not empty and neither D nor F has a backslash,
the result is D; for `NULL` and for a path with no backslash after position 0
the result is `NULL`. -/
theorem find_last_dir_name (P D F : List Char) (hne : D ≠ []) (hD : '\\' ∉ D)
    (hF : '\\' ∉ F) :
    FindLastDirName (some (P ++ '\\' :: (D ++ '\\' :: F))) = some D ∧
    FindLastDirName (some (D ++ '\\' :: F)) = some D ∧
    FindLastDirName none = none ∧
    FindLastDirName (some []) = none ∧
    (∀ (c : Char) (rest : List Char), '\\' ∉ rest →
      FindLastDirName (some (c :: rest)) = none) :=
  ⟨FindLastDirName_two P D F hne hD hF, FindLastDirName_one D F hne hD hF, rfl, rfl,
    fun c rest h => FindLastDirName_no_backslash c rest h⟩

theorem find_last_dir_name_witness :
    FindLastDirName (some "EFI\\foo\\bar.efi".toList) = some "foo".toList ∧
    (FindLastDirName (some ("EFI".toList ++ '\\' :: ("foo".toList ++ '\\' :: "bar.efi".toList)))
      = some "foo".toList ∧
    FindLastDirName (some ("foo".toList ++ '\\' :: "bar.efi".toList)) = some "foo".toList ∧
    FindLastDirName none = none ∧
    FindLastDirName (some []) = none ∧
    (∀ (c : Char) (rest : List Char), '\\' ∉ rest →
      FindLastDirName (some (c :: rest)) = none)) :=
  ⟨by decide,
    find_last_dir_name "EFI".toList "foo".toList "bar.efi".toList (by decide) (by decide)
      (by decide)⟩

/-- C36. `SplitVolumeAndFilename` on a string that is not `NULL` returns TRUE
if and only if the string has a colon. On TRUE the volume name is the text
before the first colon and the path the text after it, so that the volume
name, a colon and the path make up the string; on FALSE the path is
unchanged and the volume name is `NULL`. For `NULL` it returns FALSE. -/
theorem split_volume_and_filename (Path : List Char) (VolName : Option (List Char)) :
    ((SplitVolumeAndFilename (some Path) VolName).1 = true ↔ ':' ∈ Path) ∧
    (∀ Pre Post : List Char, Path = Pre ++ ':' :: Post → ':' ∉ Pre →
      SplitVolumeAndFilename (some Path) VolName = (true, some Post, some Pre)) ∧
    ((SplitVolumeAndFilename (some Path) VolName).1 = true →
      ∃ Vol Rest : List Char,
        SplitVolumeAndFilename (some Path) VolName = (true, some Rest, some Vol) ∧
        Vol ++ ':' :: Rest = Path ∧ ':' ∉ Vol) ∧
    ((SplitVolumeAndFilename (some Path) VolName).1 = false →
      SplitVolumeAndFilename (some Path) VolName = (false, some Path, none)) ∧
    (SplitVolumeAndFilename none VolName).1 = false ∧
    SplitVolumeAndFilename (some "fs0:\\EFI\\BOOT".toList) VolName
      = (true, some "\\EFI\\BOOT".toList, some "fs0".toList) := by
  have hiff : (SplitVolumeAndFilename (some Path) VolName).1 = true ↔ ':' ∈ Path := by
    constructor
    · intro h
      by_contra hno
      rw [SplitVolumeAndFilename_none Path VolName hno] at h
      exact Bool.false_ne_true h
    · intro h
      obtain ⟨Pre, Post, hP, hn⟩ := first_colon Path h
      rw [hP, SplitVolumeAndFilename_colon Pre Post VolName hn]
  refine ⟨hiff, ?_, ?_, ?_, rfl, ?_⟩
  · intro Pre Post hP hn
    rw [hP]
    exact SplitVolumeAndFilename_colon Pre Post VolName hn
  · intro h
    obtain ⟨Pre, Post, hP, hn⟩ := first_colon Path (hiff.1 h)
    refine ⟨Pre, Post, ?_, hP.symm, hn⟩
    rw [hP]
    exact SplitVolumeAndFilename_colon Pre Post VolName hn
  · intro h
    have hno : ':' ∉ Path := by
      intro hm
      rw [hiff.2 hm] at h
      exact Bool.false_ne_true h.symm
    exact SplitVolumeAndFilename_none Path VolName hno
  · exact SplitVolumeAndFilename_colon "fs0".toList "\\EFI\\BOOT".toList VolName (by decide)

theorem split_volume_and_filename_witness :
    SplitVolumeAndFilename (some ("fs0".toList ++ ':' :: "\\EFI\\BOOT".toList)) none
      = (true, some "\\EFI\\BOOT".toList, some "fs0".toList) ∧
    SplitVolumeAndFilename (some "EFI\\BOOT".toList) (some "fs0".toList)
      = (false, some "EFI\\BOOT".toList, none) :=
  ⟨(split_volume_and_filename ("fs0".toList ++ ':' :: "\\EFI\\BOOT".toList) none).2.1
      "fs0".toList "\\EFI\\BOOT".toList rfl (by decide),
    (split_volume_and_filename "EFI\\BOOT".toList (some "fs0".toList)).2.2.2.1 (by decide)⟩

/-- C31, as stated, fails on a pathname that refers to root: for the empty
string, and for a string of slashes, the result is the one-character string
`\`, not `/`. -/
theorem clean_up_root_counterexample :
    CleanUpPathNameSlashes [] = ['\\'] ∧ CleanUpPathNameSlashes [] ≠ ['/'] ∧
    CleanUpPathNameSlashes ['/', '\\', '/'] = ['\\'] ∧
    CleanUpPathNameSlashes ['/', '\\', '/'] ≠ ['/'] := by
  decide

/-- C31, amended. The normal form of `CleanUpPathNameSlashes`: the result has
no forward slash and no two consecutive backslashes; it is the one-character
root string `\` exactly when the input refers to root, being empty or made of
slashes only, and otherwise it neither starts nor ends with a backslash. The
characters of the input that are not slashes are kept in their order, the
components they form are those of the result, and the result is these
components joined by single backslashes. -/
theorem clean_up_normal_form (PathName : List Char) :
    '/' ∉ CleanUpPathNameSlashes PathName ∧
    (∀ A B : List Char, CleanUpPathNameSlashes PathName ≠ A ++ '\\' :: '\\' :: B) ∧
    (CleanUpPathNameSlashes PathName = ['\\'] ↔ ∀ c ∈ PathName, c = '/' ∨ c = '\\') ∧
    (¬ (∀ c ∈ PathName, c = '/' ∨ c = '\\') →
      (CleanUpPathNameSlashes PathName).head? ≠ some '\\' ∧
      (CleanUpPathNameSlashes PathName).getLast? ≠ some '\\') ∧
    (CleanUpPathNameSlashes PathName).filter (fun c => decide (c ≠ '\\'))
      = PathName.filter (fun c => decide (c ≠ '/' ∧ c ≠ '\\')) ∧
    components (CleanUpPathNameSlashes PathName) = components PathName ∧
    CleanUpPathNameSlashes PathName
      = (if components PathName = [] then ['\\']
        else List.intercalate ['\\'] (components PathName)) := by
  have hroot : CleanUpPathNameSlashes PathName = ['\\'] ↔
      ∀ c ∈ PathName, c = '/' ∨ c = '\\' := by
    constructor
    · intro h
      rw [← components_eq_nil, ← CleanUp_components, h]
      rfl
    · intro h
      rw [CleanUp_eq_join, if_pos ((components_eq_nil PathName).2 h)]
  refine ⟨?_, ?_, hroot, ?_, CleanUp_filter PathName, CleanUp_components PathName,
    CleanUp_eq_join PathName⟩
  · rcases CleanUp_normal PathName with h | h
    · rw [h]; decide
    · intro hm
      exact cleanRev_no_slash _ h.1 (List.mem_reverse.2 hm)
  · intro A B
    rcases CleanUp_normal PathName with h | h
    · rw [h]
      intro e
      have := congrArg List.length e
      simp only [List.length_append, List.length_cons, List.length_nil] at this
      omega
    · exact CleanUp_no_double _ h.1 A B
  · intro hnot
    rcases CleanUp_normal PathName with h | h
    · exact absurd (hroot.1 h) hnot
    · exact ⟨CleanUp_head _ h.1, h.2.2⟩

theorem clean_up_normal_form_witness :
    CleanUpPathNameSlashes "//EFI/\\foo\\\\bar/".toList = "EFI\\foo\\bar".toList ∧
    components "//EFI/\\foo\\\\bar/".toList = ["EFI".toList, "foo".toList, "bar".toList] ∧
    CleanUpPathNameSlashes "//EFI/\\foo\\\\bar/".toList
      = (if components "//EFI/\\foo\\\\bar/".toList = [] then ['\\']
        else List.intercalate ['\\'] (components "//EFI/\\foo\\\\bar/".toList)) :=
  ⟨by decide, by decide, (clean_up_normal_form "//EFI/\\foo\\\\bar/".toList).2.2.2.2.2.2⟩

/-- C35. `SplitPathName` on `BIGVOL:\EFI\ubuntu\grubx64.efi` gives the volume
name `BIGVOL`, the path `EFI\ubuntu` and the file name `grubx64.efi`. On
`BIGVOL:`, which has no file name, the file name it returns is not `NULL` but
the root string `\`; no input makes the returned file name `NULL`. -/
theorem split_path_name_file_never_null (InPath : List Char) :
    SplitPathName "BIGVOL:\\EFI\\ubuntu\\grubx64.efi".toList
      = { VolName := some "BIGVOL".toList, Path := some "EFI\\ubuntu".toList,
          Filename := some "grubx64.efi".toList } ∧
    SplitPathName "BIGVOL:".toList
      = { VolName := some "BIGVOL".toList, Path := none, Filename := some ['\\'] } ∧
    (SplitPathName InPath).Filename ≠ none :=
  ⟨SplitPathName_example, SplitPathName_volume_only, SplitPathName_Filename InPath⟩

/-- C39. `CleanUpPathNameSlashes` returns, for an input that is not empty, a
string no longer than the input; for the empty input it returns the root
string, of one character; and applied to its own result it returns that
result unchanged. -/
theorem clean_up_length_idempotent (PathName : List Char) :
    (PathName ≠ [] → (CleanUpPathNameSlashes PathName).length ≤ PathName.length) ∧
    CleanUpPathNameSlashes [] = ['\\'] ∧
    (CleanUpPathNameSlashes []).length = 1 ∧
    CleanUpPathNameSlashes (CleanUpPathNameSlashes PathName)
      = CleanUpPathNameSlashes PathName :=
  ⟨CleanUp_length_le PathName, rfl, rfl, CleanUp_idempotent PathName⟩

theorem clean_up_length_idempotent_witness :
    CleanUpPathNameSlashes "//EFI/\\foo\\\\bar/".toList = "EFI\\foo\\bar".toList ∧
    (CleanUpPathNameSlashes "//EFI/\\foo\\\\bar/".toList).length
      ≤ "//EFI/\\foo\\\\bar/".toList.length ∧
    CleanUpPathNameSlashes (CleanUpPathNameSlashes "//EFI/\\foo\\\\bar/".toList)
      = CleanUpPathNameSlashes "//EFI/\\foo\\\\bar/".toList :=
  ⟨by decide, (clean_up_length_idempotent "//EFI/\\foo\\\\bar/".toList).1 (by decide),
    (clean_up_length_idempotent "//EFI/\\foo\\\\bar/".toList).2.2.2⟩

/-- C34. `FindExtension` on a path whose part after the last slash has a dot
returns the suffix of the path that starts at its last dot, in lowercase; on
a path whose part after the last slash has no dot, on a path with neither
slash nor dot, and on `NULL`, it returns the empty string, never `NULL`. -/
theorem find_extension (Pre Post : List Char)
    (hPost : ∀ x ∈ Post, x ≠ '.' ∧ x ≠ '/' ∧ x ≠ '\\') :
    FindExtension (some (Pre ++ '.' :: Post)) = some (('.' :: Post).map Char.toLower) ∧
    FindExtension (some (Pre ++ '/' :: Post)) = some [] ∧
    FindExtension (some (Pre ++ '\\' :: Post)) = some [] ∧
    FindExtension (some Post) = some [] ∧
    FindExtension none = some [] :=
  ⟨FindExtension_dot Pre Post hPost,
    FindExtension_slash Pre Post '/' (Or.inl rfl) hPost,
    FindExtension_slash Pre Post '\\' (Or.inr rfl) hPost,
    FindExtension_no_dot Post (fun hm => (hPost _ hm).1 rfl), rfl⟩

theorem find_extension_witness :
    FindExtension (some "EFI\\foo.d\\bar.EFI".toList) = some ".efi".toList ∧
    (FindExtension (some ("EFI\\foo.d\\bar".toList ++ '.' :: "EFI".toList))
      = some (('.' :: "EFI".toList).map Char.toLower) ∧
    FindExtension (some ("EFI\\foo.d\\bar".toList ++ '/' :: "EFI".toList)) = some [] ∧
    FindExtension (some ("EFI\\foo.d\\bar".toList ++ '\\' :: "EFI".toList)) = some [] ∧
    FindExtension (some "EFI".toList) = some [] ∧
    FindExtension none = some []) :=
  ⟨by decide, find_extension "EFI\\foo.d\\bar".toList "EFI".toList (by decide)⟩

/-- C37. `FindMem` on a buffer of length L, with a search string of length
m ≤ L, returns the smallest offset o < L - m at which the m search bytes are
in the buffer, and -1 when there is no such offset; a result that is not -1
is an offset o with o + m < L, and the result is never the offset L - m.
Lengths are below 2^63, as those of buffers in memory are. -/
theorem find_mem_window (Buffer S : Mem) (L m : Nat) (hm : m ≤ L) (hL : L < 2 ^ 63) :
    (∀ o : Nat, FindMem Buffer L S m = (o : Int) ↔
      (o < L - m ∧ bytes Buffer o m = bytes S 0 m ∧
        ∀ j, j < o → bytes Buffer j m ≠ bytes S 0 m)) ∧
    (FindMem Buffer L S m = -1 ↔ ∀ o, o < L - m → bytes Buffer o m ≠ bytes S 0 m) ∧
    (FindMem Buffer L S m = -1 ∨
      ∃ o : Nat, FindMem Buffer L S m = (o : Int) ∧ o + m < L) ∧
    FindMem Buffer L S m ≠ ((L - m : Nat) : Int) := by
  rcases FindMem_spec Buffer L S m hm hL with ⟨h1, h2⟩ | ⟨x, h1, h2, h3, h4⟩
  · refine ⟨fun o => ⟨fun e => ?_, fun e => ?_⟩, ⟨fun _ => h2, fun _ => h1⟩, Or.inl h1, ?_⟩
    · rw [h1] at e
      omega
    · exact absurd e.2.1 (h2 o e.1)
    · rw [h1]
      omega
  · refine ⟨fun o => ⟨fun e => ?_, fun e => ?_⟩, ⟨fun e => ?_, fun e => ?_⟩,
      Or.inr ⟨x, h1, by omega⟩, ?_⟩
    · rw [h1] at e
      have hxo : x = o := by omega
      rw [← hxo]
      exact ⟨h2, h3, h4⟩
    · rw [h1]
      have hxo : x = o := by
        rcases Nat.lt_trichotomy x o with hlt | heq | hgt
        · exact absurd h3 (e.2.2 x hlt)
        · exact heq
        · exact absurd e.2.1 (h4 o hgt)
      rw [hxo]
    · rw [h1] at e
      omega
    · exact absurd h3 (e x h2)
    · rw [h1]
      omega

theorem find_mem_window_witness :
    FindMem (memOfList [1, 2, 3, 2, 3, 9]) 6 (memOfList [2, 3]) 2 = 1 ∧
    FindMem (memOfList [1, 2, 3, 2, 3, 9]) 6 (memOfList [2, 3]) 2 ≠ ((6 - 2 : Nat) : Int) :=
  ⟨by decide,
    (find_mem_window (memOfList [1, 2, 3, 2, 3, 9]) (memOfList [2, 3]) 6 2 (by decide)
      (by decide)).2.2.2⟩

/-- C38. `SizeInIEEEUnits` on a 64-bit size prints the number
floor(SizeInBytes / 1024^k), where k is the smallest index at which that
number is at most 1024; k is at most 6, so that the prefix letter is one of
" KMGTPE"; the unit is "-byte" when k = 0 and a space, the prefix letter and
"iB" otherwise. A size of 1024 bytes is printed with k = 0. -/
theorem size_in_ieee_units (SizeInBytes : Nat) (h : SizeInBytes < 2 ^ 64) :
    (∃ k, k ≤ 6 ∧ SizeInBytes / 1024 ^ k ≤ 1024 ∧
      (∀ j, j < k → SizeInBytes / 1024 ^ j > 1024) ∧
      SizeInIEEEUnits SizeInBytes
        = toString (SizeInBytes / 1024 ^ k) ++
          (if k = 0 then "-byte" else String.mk [' ', " KMGTPE".toList.getD k ' ', 'i', 'B'])) ∧
    SizeInIEEEUnits 1024 = "1024-byte" := by
  refine ⟨?_, SizeInIEEEUnits_1024⟩
  have h6 : SizeInBytes / 1024 ^ 6 ≤ 1024 := by
    have e : (1024 : Nat) ^ 6 = 1152921504606846976 := by norm_num
    rw [e]
    omega
  obtain ⟨k, hk, hk1, hk2, hk3⟩ :=
    SizeInIEEEUnits_loop_spec 6 8 SizeInBytes 0 h6 (by omega) (by omega)
  refine ⟨k, hk, hk1, hk2, ?_⟩
  have hlen : Prefixes.length = 8 := by decide
  unfold SizeInIEEEUnits
  simp only [hlen, hk3, Nat.zero_add]
  congr 1
  interval_cases k <;> decide

theorem size_in_ieee_units_witness :
    SizeInIEEEUnits 209715200 = "200 MiB" ∧
    ((∃ k, k ≤ 6 ∧ 209715200 / 1024 ^ k ≤ 1024 ∧
      (∀ j, j < k → 209715200 / 1024 ^ j > 1024) ∧
      SizeInIEEEUnits 209715200
        = toString (209715200 / 1024 ^ k) ++
          (if k = 0 then "-byte" else String.mk [' ', " KMGTPE".toList.getD k ' ', 'i', 'B'])) ∧
    SizeInIEEEUnits 1024 = "1024-byte") :=
  ⟨by decide, size_in_ieee_units 209715200 (by decide)⟩

/-- C40. The whole-disk lookup of the second pass. For a volume whose block
I/O reference is not null and differs from its whole-disk block I/O
reference, itself not null, the whole-disk volume is the last volume of the
collection that has that whole-disk reference as its block I/O reference and
sector offset zero, and there is none when no volume of the collection is
such. For a volume whose two references are equal, or one of them null, there
is no whole-disk volume and the reconciliation leaves the volume as it is. -/
theorem whole_disk_lookup (fw : Firmware) (Volumes : List REFIT_VOLUME)
    (Volume : REFIT_VOLUME) :
    (( Volume.BlockIO ≠ NULL ∧ Volume.WholeDiskBlockIO ≠ NULL ∧
        Volume.BlockIO ≠ Volume.WholeDiskBlockIO) →
      (∀ (Pre : List REFIT_VOLUME) (W : REFIT_VOLUME) (Post : List REFIT_VOLUME),
        Volumes = Pre ++ W :: Post → wholeDiskOf Volume W →
        (∀ V ∈ Post, ¬ wholeDiskOf Volume V) →
        ScanVolumes.wholeDiskVolume Volumes Volume = some W) ∧
      ((∀ V ∈ Volumes, ¬ wholeDiskOf Volume V) →
        ScanVolumes.wholeDiskVolume Volumes Volume = none)) ∧
    (( Volume.BlockIO = NULL ∨ Volume.WholeDiskBlockIO = NULL ∨
        Volume.BlockIO = Volume.WholeDiskBlockIO) →
      ScanVolumes.wholeDiskVolume Volumes Volume = none ∧
      ScanVolumes.reconcile fw Volume (ScanVolumes.wholeDiskVolume Volumes Volume) = Volume) := by
  constructor
  · intro hg
    constructor
    · intro Pre W Post hV hW hPost
      unfold ScanVolumes.wholeDiskVolume
      rw [if_pos hg, hV, List.foldl_append, List.foldl_cons]
      have hW2 : W.BlockIO = Volume.WholeDiskBlockIO ∧ W.BlockIOOffset = 0 := hW
      rw [if_pos hW2]
      exact wholeDiskVolume_fold_none Volume Post _ hPost
    · intro hnone
      unfold ScanVolumes.wholeDiskVolume
      rw [if_pos hg]
      exact wholeDiskVolume_fold_none Volume Volumes _ hnone
  · intro hg
    have hn : ¬ ( Volume.BlockIO ≠ NULL ∧ Volume.WholeDiskBlockIO ≠ NULL ∧
        Volume.BlockIO ≠ Volume.WholeDiskBlockIO) := by
      intro h
      rcases hg with e | e | e
      · exact h.1 e
      · exact h.2.1 e
      · exact h.2.2 e
    have hw : ScanVolumes.wholeDiskVolume Volumes Volume = none := by
      unfold ScanVolumes.wholeDiskVolume
      rw [if_neg hn]
    rw [hw]
    exact ⟨rfl, rfl⟩

theorem whole_disk_lookup_witness :
    ScanVolumes.wholeDiskVolume [zeroVolume, reconcileDisk, reconcilePartition] reconcilePartition
      = some reconcileDisk ∧
    ScanVolumes.reconcile reconcileFirmware reconcileDisk
        (ScanVolumes.wholeDiskVolume [zeroVolume, reconcileDisk, reconcilePartition] reconcileDisk)
      = reconcileDisk :=
  ⟨((whole_disk_lookup reconcileFirmware [zeroVolume, reconcileDisk, reconcilePartition]
      reconcilePartition).1 (by decide)).1 [zeroVolume] reconcileDisk [reconcilePartition] rfl
      (by decide) (fun V hV => by rw [List.mem_singleton.1 hV]; decide),
    ((whole_disk_lookup reconcileFirmware [zeroVolume, reconcileDisk, reconcilePartition]
      reconcileDisk).2 (by decide)).2⟩

end Refind
